import Mathlib

/-!
# Avatar mixer: throttling controller, session display names, frame clock, control plane
and replication

A shallow embedding of parts of `assignment-client/src/avatars/AvatarMixer.cpp`.

Modelling conventions.

* A C++ `float` is the rational number it stands for, and a `float` operation is the exact
  operation followed by the rounding of IEEE 754 binary32 (`F32.round`).  The controller
  `throttle` is embedded twice: `F32.throttle` computes as the code does and carries the
  statements on branches and step counts; `throttle` is its real-number reading, in which
  nothing is rounded, and carries the statements that are about the formulas only.  In the
  settings and the sorting coefficients, which are only stored and compared, a `float` or
  `double` is an arbitrary rational number.
* A C++ `int` is 32 bits wide.  A conversion from `float` truncates toward zero and yields
  `INT_MIN` when the value is out of range (`F32.toInt`); the increment of a high-water mark
  wraps around (`wrapInt`).  Both are what the compiled code does where C++ leaves the
  behaviour undefined.  Counters that are bounded by the number of nodes, or that no statement
  depends on, are counted in `ℤ`.
* A `QString` is a list of characters (code points).  The two `QRegularExpression` patterns
  are written in a small regular-expression syntax tree and run by a backtracking matcher with
  the priority order of PCRE (leftmost match, greedy quantifiers).
* The node list is a list of node records; an operation on a node rewrites its record in place.
* The per-peer tables of a client data (`lastBroadcastTimes`, `sentTraitVersions`) are finite
  maps keyed by the local id of the peer.
* Time points are integers counted in ticks of the clock, whose period is a parameter.
* A `QByteArray` is a list of bytes; a node id is a natural number, the 128-bit number whose
  big-endian bytes are its RFC 4122 form, and the null id is `0`.  A message being read is the list
  of the bytes left to read.
-/

namespace AvatarMixer

/-! ## Machine arithmetic: `int` and `float` -/

/-- Largest value of a C++ `int` (32 bits on the platforms the mixer is built for). -/
def INT_MAX : Int := 2147483647

/-- Smallest value of a C++ `int`. -/
def INT_MIN : Int := -2147483648

/-- The value an `int` holds after an arithmetic result `x`: within the range of `int` it is `x`;
beyond it the operation is undefined in C++, and the model takes what the compiled code leaves,
the two's complement wrap-around modulo `2 ^ 32`. -/
def wrapInt (x : Int) : Int := (x - INT_MIN) % 4294967296 + INT_MIN

/-- Truncation toward zero of a rational number. -/
def toInt (q : ℚ) : Int := Int.tdiv q.num (q.den : Int)

namespace F32

/-- Rounding to the nearest integer, a tie going to the even one. -/
def roundHalfEven (x : ℚ) : Int :=
  if x - ⌊x⌋ < 1 / 2 then ⌊x⌋
  else if 1 / 2 < x - ⌊x⌋ then ⌊x⌋ + 1
  else if ⌊x⌋ % 2 = 0 then ⌊x⌋ else ⌊x⌋ + 1

/-- Exponent of the unit in the last place of the binary32 format at `x`: the significand has 24
bits, so the unit is `2 ^ (e - 23)` for `2 ^ e ≤ |x| < 2 ^ (e + 1)`; the exponent `e` is not taken
below `-126`, where the subnormal numbers share the unit `2 ^ (-149)`. -/
def ulpExponent (x : ℚ) : Int := max (Int.log 2 |x|) (-126) - 23

/-- The `float` nearest to a real number: IEEE 754 binary32 with rounding to nearest, ties to
even.  A `float` is represented by the rational number it stands for.  The format has no upper
exponent limit in this model: numbers beyond the largest finite binary32 value (about
`3.4e38`) would be infinite, and `throttle` meets none unless its proportional term is already
outside the range of `int`. -/
def round (x : ℚ) : ℚ := (roundHalfEven (x / 2 ^ ulpExponent x) : ℚ) * 2 ^ ulpExponent x

/-- Single-precision addition: the exact sum, rounded. -/
def add (a b : ℚ) : ℚ := round (a + b)

/-- Single-precision subtraction. -/
def sub (a b : ℚ) : ℚ := round (a - b)

/-- Single-precision multiplication. -/
def mul (a b : ℚ) : ℚ := round (a * b)

/-- Single-precision division. -/
def div (a b : ℚ) : ℚ := round (a / b)

/-- Conversion of an integer (an `int`, or the 64-bit count of a duration) to `float`. -/
def ofInt (n : Int) : ℚ := round (n : ℚ)

/-- Conversion of a `float` to `int`: truncation toward zero.  When the truncated value is
outside the range of `int` the conversion is undefined in C++; the model takes what the
conversion instruction of x86-64 (`cvttss2si`) delivers then, the value `INT_MIN`. -/
def toInt (x : ℚ) : Int :=
  if INT_MIN ≤ AvatarMixer.toInt x ∧ AvatarMixer.toInt x ≤ INT_MAX then AvatarMixer.toInt x
  else INT_MIN

end F32

/-! ## Throttling controller (`AvatarMixer::throttle`), real-number reading -/

/-- Modelled from the spec: the constant `USECS_PER_SECOND`, declared in a shared header that is
not among the sources; durations are in microseconds, of which a second has one million. -/
def USECS_PER_SECOND : Int := 1000000

/-- Constant `AVATAR_MIXER_BROADCAST_FRAMES_PER_SECOND`. -/
def AVATAR_MIXER_BROADCAST_FRAMES_PER_SECOND : Int := 45

/-- Local `FRAME_TIME` of `throttle`: an integer division converted to float. -/
def FRAME_TIME : ℚ := ((Int.tdiv USECS_PER_SECOND AVATAR_MIXER_BROADCAST_FRAMES_PER_SECOND : Int) : ℚ)

/-- Local `TARGET` of `throttle`. -/
def TARGET : ℚ := 9 / 10

/-- Local `BACKOFF_TARGET` of `throttle`. -/
def BACKOFF_TARGET : ℚ := 44 / 100

/-- Local `STRUGGLES_AT` of `throttle`. -/
def STRUGGLES_AT : ℚ := 150

/-- Local `THROTTLE_RATE` of `throttle`. -/
def THROTTLE_RATE : ℚ := 2 / STRUGGLES_AT

/-- Local `BACKOFF_RATE` of `throttle`. -/
def BACKOFF_RATE : ℚ := THROTTLE_RATE / 4

/-- Local `RECOVERY_TIME` of `throttle`. -/
def RECOVERY_TIME : Int := 180

/-- Local `TRAILING_FRAMES` of `throttle`: `(int)(100 * RECOVERY_TIME * BACKOFF_RATE)`. -/
def TRAILING_FRAMES : Int := toInt (((100 * RECOVERY_TIME : Int) : ℚ) * BACKOFF_RATE)

/-- Local `CURRENT_FRAME_RATIO` of `throttle`. -/
def CURRENT_FRAME_RATIO : ℚ := 1 / (TRAILING_FRAMES : ℚ)

/-- Local `PREVIOUS_FRAMES_RATIO` of `throttle`. -/
def PREVIOUS_FRAMES_RATIO : ℚ := 1 - CURRENT_FRAME_RATIO

/-- The two member variables read and written by `throttle`. -/
structure ThrottleState where
  trailingMixRatio : ℚ
  throttlingRatio : ℚ
deriving DecidableEq

/-- Modelled from the spec: the initial values of `_trailingMixRatio` and `_throttlingRatio`
(member initialisers of the class declaration, which is not among the sources): both ratios
start at zero. -/
def ThrottleState.initial : ThrottleState := ⟨0, 0⟩

/-- The new `_trailingMixRatio` computed at the top of `throttle`. -/
def updatedTrailingMixRatio (duration : Int) (s : ThrottleState) : ℚ :=
  PREVIOUS_FRAMES_RATIO * s.trailingMixRatio + CURRENT_FRAME_RATIO * ((duration : ℚ) / FRAME_TIME)

/-- The real-number reading of `AvatarMixer::throttle(duration, frame)`: every `float`
operation is taken exactly, and the conversions to `int` truncate without a range.  It is used
for the length of the trailing window and the update formula of the trailing mix ratio; the
branches and step counts of the controller are stated on `F32.throttle`, which rounds as the
code does.  `duration` is in microseconds. -/
def throttle (duration : Int) (frame : Int) (s : ThrottleState) : ThrottleState :=
  let mixRatio : ℚ := (duration : ℚ) / FRAME_TIME
  let trailingMixRatio : ℚ := PREVIOUS_FRAMES_RATIO * s.trailingMixRatio + CURRENT_FRAME_RATIO * mixRatio
  if Int.tmod frame TRAILING_FRAMES = 0 then
    if trailingMixRatio > TARGET then
      let proportionalTerm : Int := toInt (1 + (trailingMixRatio - TARGET) / (1 / 10))
      { trailingMixRatio := trailingMixRatio
        throttlingRatio := min (s.throttlingRatio + THROTTLE_RATE * (proportionalTerm : ℚ)) 1 }
    else if s.throttlingRatio > 0 ∧ trailingMixRatio ≤ BACKOFF_TARGET then
      let proportionalTerm : Int := toInt (1 + (TARGET - trailingMixRatio) / (2 / 10))
      { trailingMixRatio := trailingMixRatio
        throttlingRatio := max (s.throttlingRatio - BACKOFF_RATE * (proportionalTerm : ℚ)) 0 }
    else
      { trailingMixRatio := trailingMixRatio, throttlingRatio := s.throttlingRatio }
  else
    { trailingMixRatio := trailingMixRatio, throttlingRatio := s.throttlingRatio }

/-! ## Throttling controller (`AvatarMixer::throttle`), single precision -/

namespace F32

/-- Local `FRAME_TIME` of `throttle`: an integer division converted to `float`. -/
def FRAME_TIME : ℚ := ofInt (Int.tdiv USECS_PER_SECOND AVATAR_MIXER_BROADCAST_FRAMES_PER_SECOND)

/-- Local `TARGET` of `throttle`, the literal `0.9f`. -/
def TARGET : ℚ := round (9 / 10)

/-- Local `BACKOFF_TARGET` of `throttle`, the literal `0.44f`. -/
def BACKOFF_TARGET : ℚ := round (44 / 100)

/-- Local `STRUGGLES_AT` of `throttle`, the literal `150.0f`. -/
def STRUGGLES_AT : ℚ := round 150

/-- Local `THROTTLE_RATE` of `throttle`: `2 / STRUGGLES_AT`. -/
def THROTTLE_RATE : ℚ := div (ofInt 2) STRUGGLES_AT

/-- Local `BACKOFF_RATE` of `throttle`: `THROTTLE_RATE / 4`. -/
def BACKOFF_RATE : ℚ := div THROTTLE_RATE (ofInt 4)

/-- Local `TRAILING_FRAMES` of `throttle`: `(int)(100 * RECOVERY_TIME * BACKOFF_RATE)`, the
product of the two `int`s converted to `float` and multiplied by the rate. -/
def TRAILING_FRAMES : Int := toInt (mul (ofInt (100 * RECOVERY_TIME)) BACKOFF_RATE)

/-- Local `CURRENT_FRAME_RATIO` of `throttle`: `1.0f / TRAILING_FRAMES`. -/
def CURRENT_FRAME_RATIO : ℚ := div 1 (ofInt TRAILING_FRAMES)

/-- Local `PREVIOUS_FRAMES_RATIO` of `throttle`: `1.0f - CURRENT_FRAME_RATIO`. -/
def PREVIOUS_FRAMES_RATIO : ℚ := sub 1 CURRENT_FRAME_RATIO

/-- The new `_trailingMixRatio` computed at the top of `throttle`. -/
def updatedTrailingMixRatio (duration : Int) (s : ThrottleState) : ℚ :=
  add (mul PREVIOUS_FRAMES_RATIO s.trailingMixRatio)
    (mul CURRENT_FRAME_RATIO (div (ofInt duration) FRAME_TIME))

/-- Embedding of `AvatarMixer::throttle(duration, frame)` with the arithmetic of the code: every
`float` operation rounds its exact result to binary32 (one rounding per operation, as the SSE
arithmetic of x86-64 does; no fused multiply-add), an `int` operand of a `float` operation is
converted first, and the proportional term is converted to `int` by `F32.toInt`.  The literals
`1`, `1.0f` and `0.0f` are binary32 values.  `duration` is the count of microseconds. -/
def throttle (duration : Int) (frame : Int) (s : ThrottleState) : ThrottleState :=
  let mixRatio : ℚ := div (ofInt duration) FRAME_TIME
  let trailingMixRatio : ℚ :=
    add (mul PREVIOUS_FRAMES_RATIO s.trailingMixRatio) (mul CURRENT_FRAME_RATIO mixRatio)
  if Int.tmod frame TRAILING_FRAMES = 0 then
    if trailingMixRatio > TARGET then
      let proportionalTerm : Int :=
        toInt (add 1 (div (sub trailingMixRatio TARGET) (round (1 / 10))))
      { trailingMixRatio := trailingMixRatio
        throttlingRatio :=
          min (add s.throttlingRatio (mul THROTTLE_RATE (ofInt proportionalTerm))) 1 }
    else if s.throttlingRatio > 0 ∧ trailingMixRatio ≤ BACKOFF_TARGET then
      let proportionalTerm : Int :=
        toInt (add 1 (div (sub TARGET trailingMixRatio) (round (2 / 10))))
      { trailingMixRatio := trailingMixRatio
        throttlingRatio :=
          max (sub s.throttlingRatio (mul BACKOFF_RATE (ofInt proportionalTerm))) 0 }
    else
      { trailingMixRatio := trailingMixRatio, throttlingRatio := s.throttlingRatio }
  else
    { trailingMixRatio := trailingMixRatio, throttlingRatio := s.throttlingRatio }

/-- A sequence of `throttle` calls, each given as `(duration, frame)`. -/
def throttleRun (s : ThrottleState) : List (Int × Int) → ThrottleState
  | [] => s
  | c :: cs => throttleRun (throttle c.1 c.2 s) cs

/-- Number of evaluation frames (frame number a multiple of `TRAILING_FRAMES`) in a run. -/
def evaluations (calls : List (Int × Int)) : Nat :=
  calls.countP (fun c => decide (Int.tmod c.2 TRAILING_FRAMES = 0))

/-- Every evaluation frame of the run, started in `s`, sees an updated trailing mix ratio above
`TARGET` and at most `bound`. -/
def Overloaded (bound : ℚ) : ThrottleState → List (Int × Int) → Prop
  | _, [] => True
  | s, c :: cs =>
    (Int.tmod c.2 TRAILING_FRAMES = 0 →
        TARGET < (throttle c.1 c.2 s).trailingMixRatio
          ∧ (throttle c.1 c.2 s).trailingMixRatio ≤ bound)
      ∧ Overloaded bound (throttle c.1 c.2 s) cs

/-- The values of `_throttlingRatio` observed before the run and after each of its calls. -/
def throttleTrace (s : ThrottleState) : List (Int × Int) → List ℚ
  | [] => [s.throttlingRatio]
  | c :: cs => s.throttlingRatio :: throttleTrace (throttle c.1 c.2 s) cs

end F32

/-! ## Qt string primitives used by `manageIdentityData` -/

/-- A `QString`, as its sequence of characters. -/
abbrev QString := List Char

/-- Model of `QChar::isSpace`: the ASCII white space, NEL, NBSP and the Unicode separators. -/
def QChar.isSpace (c : Char) : Bool :=
  let n := c.toNat
  n == 0x20 || (0x09 ≤ n && n ≤ 0x0D) || n == 0x85 || n == 0xA0 || n == 0x1680
    || (0x2000 ≤ n && n ≤ 0x200A) || n == 0x2028 || n == 0x2029 || n == 0x202F
    || n == 0x205F || n == 0x3000

/-- Model of `QString::trimmed`: white space removed from both ends. -/
def QString.trimmed (s : QString) : QString :=
  ((s.dropWhile QChar.isSpace).reverse.dropWhile QChar.isSpace).reverse

/-- Model of `QString::number(int)`: the decimal representation. -/
def QString.number (n : Int) : QString :=
  if n < 0 then '-' :: Nat.toDigits 10 n.natAbs else Nat.toDigits 10 n.toNat

/-- The fragment of regular-expression syntax used by the two patterns of `manageIdentityData`. -/
inductive Regex where
  /-- One character satisfying a predicate (a literal or a character class). -/
  | cls (p : Char → Bool)
  /-- Concatenation. -/
  | seq (a b : Regex)
  /-- Alternation `a|b`, the left branch tried first. -/
  | alt (a b : Regex)
  /-- Greedy optional group `(a)?`. -/
  | opt (a : Regex)
  /-- Greedy repetition `c*` of a character class. -/
  | star (p : Char → Bool)
  /-- Greedy repetition `c+` of a character class. -/
  | plus (p : Char → Bool)
  /-- The assertion `$`: end of subject, or just before a final newline. -/
  | dollar

/-- Greedy `c*` with backtracking: the longest run first, then shorter ones. -/
def Regex.starRun (p : Char → Bool) : QString → (QString → Option QString) → Option QString
  | [], k => k []
  | c :: t, k =>
    if p c then
      match Regex.starRun p t k with
      | some r => some r
      | none => k (c :: t)
    else k (c :: t)

/-- Backtracking matcher anchored at the start of `s`: the continuation `k` receives the rest of
the subject after the part matched so far; the first success in priority order wins. -/
def Regex.run : Regex → QString → (QString → Option QString) → Option QString
  | .cls p, s, k =>
    match s with
    | c :: t => if p c then k t else none
    | [] => none
  | .seq a b, s, k => a.run s (fun s' => b.run s' k)
  | .alt a b, s, k =>
    match a.run s k with
    | some r => some r
    | none => b.run s k
  | .opt a, s, k =>
    match a.run s k with
    | some r => some r
    | none => k s
  | .star p, s, k => Regex.starRun p s k
  | .plus p, s, k =>
    match s with
    | c :: t => if p c then Regex.starRun p t k else none
    | [] => none
  | .dollar, s, k => if s = [] ∨ s = ['\n'] then k s else none

/-- A literal character. -/
def Regex.chr (c : Char) : Regex := .cls (fun x => x == c)

/-- A literal word of at least one character. -/
def Regex.lit : QString → Regex
  | [] => .star (fun _ => false)
  | [c] => Regex.chr c
  | c :: t => .seq (Regex.chr c) (Regex.lit t)

/-- The class `\s` (ASCII white space: TAB, LF, VT, FF, CR, space). -/
def Regex.space (c : Char) : Bool := c.toNat == 0x20 || (0x09 ≤ c.toNat && c.toNat ≤ 0x0D)

/-- The class `\d` (ASCII digits). -/
def Regex.digit (c : Char) : Bool := 0x30 ≤ c.toNat && c.toNat ≤ 0x39

/-- Global matching loop of `QString::replace(const QRegularExpression&, const QString&)`:
every match, found left to right, is replaced by `after`; after an empty match a non-empty match
is tried at the same offset before the search advances by one character. -/
def QString.replaceLoop (re : Regex) (after : QString) : Nat → QString → QString
  | 0, s => s
  | n + 1, s =>
    match re.run s some with
    | none =>
      match s with
      | [] => []
      | c :: t => c :: QString.replaceLoop re after n t
    | some rest =>
      if rest.length < s.length then after ++ QString.replaceLoop re after n rest
      else
        match re.run s (fun r => if r.length < s.length then some r else none) with
        | some rest₂ => after ++ (after ++ QString.replaceLoop re after n rest₂)
        | none =>
          match s with
          | [] => after
          | c :: t => after ++ c :: QString.replaceLoop re after n t

/-- Model of `QString::replace(re, after)` for a replacement text without back-references. -/
def QString.replace (s : QString) (re : Regex) (after : QString) : QString :=
  QString.replaceLoop re after (s.length + 1) s

/-- Model of `QString::remove(re)`. -/
def QString.remove (s : QString) (re : Regex) : QString := QString.replace s re []

/-- The pattern `curses`: `fuck|shit|damn|cock|cunt`. -/
def curses : Regex :=
  .alt (Regex.lit ['f', 'u', 'c', 'k']) (.alt (Regex.lit ['s', 'h', 'i', 't'])
    (.alt (Regex.lit ['d', 'a', 'm', 'n']) (.alt (Regex.lit ['c', 'o', 'c', 'k'])
      (Regex.lit ['c', 'u', 'n', 't']))))

/-- The pattern `trailingDigits`: `\s*(_\d+\s*)?(\s*\n[^$]*)?$`. -/
def trailingDigits : Regex :=
  .seq (.star Regex.space)
    (.seq (.opt (.seq (Regex.chr '_') (.seq (.plus Regex.digit) (.star Regex.space))))
      (.seq (.opt (.seq (.star Regex.space) (.seq (Regex.chr '\n') (.star (fun c => c != '$')))))
        .dollar))

/-- The base name computed in `manageIdentityData` from the avatar's display name
(source lines 322-329). -/
def baseNameOf (displayName : QString) : QString :=
  let baseName := displayName.trimmed
  let baseName := baseName.replace curses ['*']
  let baseName := baseName.remove trailingDigits
  if baseName.isEmpty then ['a', 'n', 'o', 'n', 'y', 'm', 'o', 'u', 's'] else baseName

/-! ## Nodes, client data and the display-name registry -/

/-- The node types the avatar mixer is interested in. -/
inductive NodeType where
  | Agent
  | EntityScriptServer
  | UpstreamAvatarMixer
  | DownstreamAvatarMixer
deriving DecidableEq

/-- The reason byte of a kill packet (the enumeration is declared outside `AvatarMixer.cpp`;
only `AvatarDisconnected` is written by the functions embedded here). -/
inductive KillAvatarReason where
  | NoReason
  | AvatarDisconnected
  | AvatarIgnored
  | TheirAvatarEnteredYourBubble
  | YourAvatarEnteredTheirBubble
deriving DecidableEq

/-- A per-peer table of client data, keyed by the local id of the peer. -/
abbrev PeerMap (α : Type) := List (Nat × α)

/-- The value stored for a peer, if the peer is a key of the table. -/
def PeerMap.valueAt {α : Type} (t : PeerMap α) (peer : Nat) : Option α :=
  (List.find? (fun e => e.1 == peer) t).map (fun e => e.2)

/-- The table with the value of a peer inserted or overwritten. -/
def PeerMap.assign {α : Type} (t : PeerMap α) (peer : Nat) (v : α) : PeerMap α :=
  (peer, v) :: List.filter (fun e => !(e.1 == peer)) t

/-- The table with a peer erased. -/
def PeerMap.discard {α : Type} (t : PeerMap α) (peer : Nat) : PeerMap α :=
  List.filter (fun e => !(e.1 == peer)) t

/-- The record of trait versions already sent to one peer, one version per trait; the record
after `reset()` is empty. -/
abbrev TraitVersions := List Int

/-- A `QByteArray`, as its sequence of bytes. -/
abbrev QByteArray := List (Fin 256)

/-- Modelled from the spec: the constant `NUM_BYTES_RFC4122_UUID`, declared in a shared header
that is not among the sources; a node id takes 16 bytes on the wire. -/
def NUM_BYTES_RFC4122_UUID : Nat := 16

/-- The number whose base-256 digits, most significant first, are the bytes. -/
def QByteArray.toNat (bytes : QByteArray) : Nat :=
  bytes.foldl (fun acc b => acc * 256 + b.val) 0

/-- Model of `QUuid::fromRfc4122`: a node id is the 128-bit number whose big-endian bytes are
its RFC 4122 representation; an array that is not exactly 16 bytes long gives the null id. -/
def QUuid.fromRfc4122 (bytes : QByteArray) : Nat :=
  if bytes.length = 16 then bytes.toNat else 0

/-- Model of `QUuid::isNull`: the null id is the id whose 128 bits are zero. -/
def QUuid.isNull (uuid : Nat) : Bool := uuid == 0

/-- The packet types named in `AvatarMixer.cpp` (the enumeration is declared outside the
sources); `Unknown` is its default-constructed value. -/
inductive PacketType where
  | Unknown
  | AvatarData
  | AdjustAvatarSorting
  | AvatarQuery
  | AvatarIdentity
  | KillAvatar
  | NodeIgnoreRequest
  | RadiusIgnoreRequest
  | RequestsDomainListData
  | AvatarIdentityRequest
  | SetAvatarTraits
  | BulkAvatarTraitsAck
  | BulkAvatarData
  | ReplicatedAvatarIdentity
  | ReplicatedKillAvatar
  | ReplicatedBulkAvatarData
deriving DecidableEq

/-- A `ReceivedMessage`: its packet type and its payload (`getMessage()`). -/
structure ReceivedMessage where
  type : PacketType
  message : QByteArray
deriving DecidableEq

/-- The part of `AvatarData` used by the identity manager (the class is declared outside
`AvatarMixer.cpp`; the fields are those read and written through its accessors here).
`sessionUUID` is the id that `identityByteArray()` serialises in the first 16 bytes. -/
structure AvatarData where
  displayName : QString := []
  sessionDisplayName : QString := []
  hasProcessedFirstIdentity : Bool := false
  identitySequenceNumber : Nat := 0
  sessionUUID : Nat := 0
deriving DecidableEq

/-- The part of `AvatarMixerClientData` used by the identity manager and the kill handler (the
class is declared outside `AvatarMixer.cpp`).  Fresh client data has an empty base display name
and the must-change flag set, the state that the early return of `manageIdentityData` guards
against.  `identityChangeFlags` counts the calls of `flagIdentityChange` (the time stamp is
abstracted); `cleanups` records the queued `cleanupKilledNode(uuid, localID)` invocations.
The per-peer tables `lastBroadcastTimes` and `sentTraitVersions` are keyed by local id;
`radiusIgnoredOthers` holds the ids answered by `isRadiusIgnoring`; `packetQueue` is the inbound
packet queue, oldest message first. -/
structure AvatarMixerClientData where
  nodeID : Nat
  avatar : AvatarData := {}
  baseDisplayName : QString := []
  avatarSessionDisplayNameMustChange : Bool := true
  identityChangeFlags : Nat := 0
  cleanups : List (Nat × Nat) := []
  lastBroadcastTimes : PeerMap Nat := []
  sentTraitVersions : PeerMap TraitVersions := []
  requestsDomainListData : Bool := false
  radiusIgnoredOthers : List Nat := []
  packetQueue : List ReceivedMessage := []
deriving DecidableEq

/-- A node of the node list, with the linked client data if any. -/
structure Node where
  uuid : Nat
  localID : Nat := 0
  type : NodeType := NodeType.Agent
  isUpstream : Bool := false
  isReplicated : Bool := false
  hasActiveSocket : Bool := true
  linkedData : Option AvatarMixerClientData := none
  canKick : Bool := false
  ignoredNodeIDs : List Nat := []
deriving DecidableEq

/-- The packets emitted by the functions embedded here. -/
inductive Packet where
  /-- A reliable `AvatarIdentity` packet list: identity bytes of `avatar` stamped with `nodeID`. -/
  | avatarIdentity (destination : Nat) (nodeID : Nat) (avatar : AvatarData)
  /-- A reliable `KillAvatar` packet: the id of the killed node followed by the reason. -/
  | killAvatar (destination : Nat) (killed : Nat) (reason : KillAvatarReason)
  /-- An unreliable `ReplicatedKillAvatar` packet to a downstream mixer. -/
  | replicatedKillAvatar (destination : Nat) (killed : Nat) (reason : KillAvatarReason)
  /-- An `AvatarData` packet created with `NLPacket::create(PacketType::AvatarData, size)`. -/
  | avatarData (destination : Nat) (payload : QByteArray)
  /-- A copy of a received message, sent under the given type with `sendUnreliablePacket` by
  `optionallyReplicatePacket`. -/
  | replicated (destination : Nat) (type : PacketType) (payload : QByteArray)
deriving DecidableEq

/-- The node a packet is addressed to. -/
def Packet.destination : Packet → Nat
  | .avatarIdentity destination _ _ => destination
  | .killAvatar destination _ _ => destination
  | .replicatedKillAvatar destination _ _ => destination
  | .avatarData destination _ => destination
  | .replicated destination _ _ => destination

/-- Whether a packet was created reliable: identity packet lists and `KillAvatar` packets are,
`ReplicatedKillAvatar` packets are sent with `sendUnreliablePacket`. -/
def Packet.isReliable : Packet → Bool
  | .avatarIdentity _ _ _ => true
  | .killAvatar _ _ _ => true
  | .replicatedKillAvatar _ _ _ => false
  | .avatarData _ _ => false
  | .replicated _ _ _ => false

/-- The member `_sessionDisplayNames`: a `QHash` from base name to `(highWater, refCount)`,
as an association list without repeated keys. -/
abbrev DisplayNameRegistry := List (QString × (Int × Int))

/-- Model of `QHash::find`: the entry of a key, if any. -/
def DisplayNameRegistry.entry (names : DisplayNameRegistry) (key : QString) : Option (Int × Int) :=
  (names.find? (fun e => e.1 == key)).map (fun e => e.2)

/-- The value read through `operator[]`: a default-constructed `(0, 0)` for an absent key. -/
def DisplayNameRegistry.value (names : DisplayNameRegistry) (key : QString) : Int × Int :=
  (names.entry key).getD (0, 0)

/-- Model of `QHash::remove`. -/
def DisplayNameRegistry.remove (names : DisplayNameRegistry) (key : QString) : DisplayNameRegistry :=
  names.filter (fun e => !(e.1 == key))

/-- Assignment through `operator[]`: the key is inserted or its value overwritten. -/
def DisplayNameRegistry.set (names : DisplayNameRegistry) (key : QString) (v : Int × Int) :
    DisplayNameRegistry :=
  (key, v) :: names.remove key

/-- The statement `if (--_sessionDisplayNames[name].second <= 0) _sessionDisplayNames.remove(name);`
shared by `manageIdentityData` and `handleAvatarKilled`. -/
def DisplayNameRegistry.release (names : DisplayNameRegistry) (name : QString) : DisplayNameRegistry :=
  let soFar := names.value name
  let names := names.set name (soFar.1, soFar.2 - 1)
  if soFar.2 - 1 ≤ 0 then names.remove name else names

/-- The state of the mixer touched by the embedded functions.  `shouldReplicateTo` is the
replication policy declared in the header. -/
structure Mixer where
  sessionDisplayNames : DisplayNameRegistry := []
  nodes : List Node := []
  sent : List Packet := []
  sumIdentityPackets : Nat := 0
  shouldReplicateTo : Node → Node → Bool

/-- The mixer at start-up: no display name registered, no node, nothing sent. -/
def Mixer.initial (shouldReplicateTo : Node → Node → Bool) : Mixer :=
  { shouldReplicateTo := shouldReplicateTo }

/-- Model of `NodeList::nodeWithUUID`. -/
def nodeWithUUID (nodes : List Node) (uuid : Nat) : Option Node :=
  nodes.find? (fun n => n.uuid == uuid)

/-- Write a node record back to its place in the node list. -/
def storeNode (node : Node) : List Node → List Node
  | [] => []
  | n :: ns => if n.uuid == node.uuid then node :: ns else n :: storeNode node ns

/-- Embedding of `AvatarMixer::sendIdentityPacket`: the packets sent (none or one). -/
def sendIdentityPacket (nodeData : AvatarMixerClientData) (destinationNode : Node) : List Packet :=
  if destinationNode.type = NodeType.Agent ∧ destinationNode.isUpstream = false then
    [Packet.avatarIdentity destinationNode.uuid nodeData.nodeID nodeData.avatar]
  else []

/-- Result of `manageIdentityData`: the registry, the node and the identity packets sent. -/
structure ManageResult where
  names : DisplayNameRegistry
  node : Node
  packets : List Packet
deriving DecidableEq

/-- Embedding of `AvatarMixer::manageIdentityData(node)`.  The high-water mark is an `int` that
grows with every rename for as long as the entry lives, so `highWater++` is taken with the
wrap-around of `wrapInt`; the reference count is the number of live holders of the name
(`RegistryInv`), bounded by the number of nodes, and is counted in `ℤ`. -/
def manageIdentityData (names : DisplayNameRegistry) (node : Node) : ManageResult :=
  match node.linkedData with
  | none => ⟨names, node, []⟩
  | some nodeData =>
    if nodeData.avatar.hasProcessedFirstIdentity = false then ⟨names, node, []⟩
    else if nodeData.avatarSessionDisplayNameMustChange = true then
      let existingBaseDisplayName := nodeData.baseDisplayName
      let names := names.release existingBaseDisplayName
      let baseName := baseNameOf nodeData.avatar.displayName
      let soFar := names.value baseName
      let highWater := soFar.1
      let sessionDisplayName :=
        if highWater > 0 then baseName ++ ['_'] ++ QString.number highWater else baseName
      let names := names.set baseName (wrapInt (highWater + 1), soFar.2 + 1)
      let nodeData : AvatarMixerClientData :=
        { nodeData with
          baseDisplayName := baseName
          avatar := { nodeData.avatar with sessionDisplayName := sessionDisplayName }
          identityChangeFlags := nodeData.identityChangeFlags + 1
          avatarSessionDisplayNameMustChange := false }
      if node.isUpstream = false then
        let first := sendIdentityPacket nodeData node
        let nodeData : AvatarMixerClientData :=
          { nodeData with
            avatar := { nodeData.avatar with
              identitySequenceNumber := nodeData.avatar.identitySequenceNumber + 1 } }
        let second := sendIdentityPacket nodeData node
        ⟨names, { node with linkedData := some nodeData }, first ++ second⟩
      else ⟨names, { node with linkedData := some nodeData }, []⟩
    else ⟨names, node, []⟩

/-- The predicate of the first `eachMatchingNode` of `handleAvatarKilled`. -/
def receivesKill (m : Mixer) (avatarNode node : Node) : Bool :=
  node.hasActiveSocket &&
    ((node.type == NodeType.Agent && !node.isUpstream)
      || (avatarNode.isReplicated && m.shouldReplicateTo avatarNode node))

/-- The packet sent to a node selected by `receivesKill`. -/
def killPacketFor (avatarNode node : Node) : Packet :=
  if node.type = NodeType.Agent then
    Packet.killAvatar node.uuid avatarNode.uuid KillAvatarReason.AvatarDisconnected
  else Packet.replicatedKillAvatar node.uuid avatarNode.uuid KillAvatarReason.AvatarDisconnected

/-- The second `eachMatchingNode` of `handleAvatarKilled`: queue `cleanupKilledNode` on every
other node that has linked data. -/
def queueCleanup (avatarNode : Node) (node : Node) : Node :=
  match node.linkedData with
  | none => node
  | some data =>
    if node.uuid = avatarNode.uuid then node
    else { node with
      linkedData := some { data with cleanups := data.cleanups ++ [(avatarNode.uuid, avatarNode.localID)] } }

/-- Embedding of `AvatarMixer::handleAvatarKilled(avatarNode)`. -/
def handleAvatarKilled (m : Mixer) (avatarNode : Node) : Mixer :=
  match avatarNode.linkedData with
  | none => m
  | some nodeData =>
    if avatarNode.type = NodeType.Agent then
      { m with
        sessionDisplayNames := m.sessionDisplayNames.release nodeData.baseDisplayName
        sent := m.sent ++ ((m.nodes.filter (receivesKill m avatarNode)).map (killPacketFor avatarNode))
        nodes := m.nodes.map (queueCleanup avatarNode) }
    else m

/-- Model of `getOrCreateClientData`: fresh client data is attached to a node that has none
(the domain height limits copied into the avatar are not part of this model). -/
def getOrCreateClientData (node : Node) : Node :=
  match node.linkedData with
  | some _ => node
  | none => { node with linkedData := some { nodeID := node.uuid } }

/-- Embedding of `AvatarMixer::handleAvatarIdentityPacket`.  The decoder
`AvatarData::processAvatarIdentity` is declared outside this file: its outcome is passed in as
the decoded display name and the two change flags it reports, and it records that a first
identity has been processed. -/
def handleAvatarIdentityPacket (senderNode : Node) (displayName : QString)
    (identityChanged displayNameChanged : Bool) : Node :=
  let senderNode := getOrCreateClientData senderNode
  match senderNode.linkedData with
  | none => senderNode
  | some nodeData =>
    let avatar : AvatarData :=
      { nodeData.avatar with displayName := displayName, hasProcessedFirstIdentity := true }
    let nodeData : AvatarMixerClientData := { nodeData with avatar := avatar }
    let nodeData : AvatarMixerClientData :=
      if identityChanged then
        { nodeData with
          identityChangeFlags := nodeData.identityChangeFlags + 1
          avatarSessionDisplayNameMustChange :=
            if displayNameChanged then true else nodeData.avatarSessionDisplayNameMustChange }
      else nodeData
    { senderNode with linkedData := some nodeData }

/-- The events that drive the display-name registry. -/
inductive Action where
  /-- The node list adds a node (ignored if the id is already present). -/
  | connect (node : Node)
  /-- An identity packet from a node is handled by `handleAvatarIdentityPacket`. -/
  | identity (uuid : Nat) (displayName : QString) (identityChanged displayNameChanged : Bool)
  /-- The display-name sweep of `start` reaches a node: `manageIdentityData` for an agent. -/
  | manage (uuid : Nat)
  /-- A node is killed: `handleAvatarKilled`, then its linked data is released. -/
  | kill (uuid : Nat)

/-- One event applied to the mixer. -/
def Mixer.step (m : Mixer) : Action → Mixer
  | .connect node =>
    match nodeWithUUID m.nodes node.uuid with
    | some _ => m
    | none => { m with nodes := m.nodes ++ [{ node with linkedData := none }] }
  | .identity uuid displayName identityChanged displayNameChanged =>
    match nodeWithUUID m.nodes uuid with
    | none => m
    | some node =>
      { m with nodes :=
          storeNode (handleAvatarIdentityPacket node displayName identityChanged displayNameChanged) m.nodes }
  | .manage uuid =>
    match nodeWithUUID m.nodes uuid with
    | none => m
    | some node =>
      if node.type = NodeType.Agent then
        let r := manageIdentityData m.sessionDisplayNames node
        { m with
          sessionDisplayNames := r.names
          nodes := storeNode r.node m.nodes
          sent := m.sent ++ r.packets
          sumIdentityPackets := m.sumIdentityPackets + r.packets.length }
      else m
  | .kill uuid =>
    match nodeWithUUID m.nodes uuid with
    | none => m
    | some node =>
      let m := handleAvatarKilled m node
      { m with nodes := storeNode { node with linkedData := none } m.nodes }

/-- A sequence of events applied from left to right. -/
def Mixer.run (m : Mixer) : List Action → Mixer
  | [] => m
  | a :: as => (m.step a).run as

/-- The live client data: the linked data of the nodes that have some. -/
def Mixer.clients (m : Mixer) : List AvatarMixerClientData :=
  m.nodes.filterMap (fun n => n.linkedData)

/-- Whether a node has client data whose base display name is `b` (as 0 or 1). -/
def Node.holds (n : Node) (b : QString) : Nat :=
  match n.linkedData with
  | some d => if d.baseDisplayName = b then 1 else 0
  | none => 0

/-- Number of nodes of a list whose client data has base display name `b`. -/
def holdersIn (nodes : List Node) (b : QString) : Nat :=
  (nodes.map (fun n => n.holds b)).sum

/-- Number of live client data whose base display name is `b`. -/
def Mixer.holders (m : Mixer) (b : QString) : Nat := holdersIn m.nodes b

/-- Whether a node has client data with an assigned (non-empty) base display name (as 0 or 1). -/
def Node.named (n : Node) : Nat :=
  match n.linkedData with
  | some d => if d.baseDisplayName = [] then 0 else 1
  | none => 0

/-- Number of live client data that have been assigned a base display name. -/
def Mixer.named (m : Mixer) : Nat :=
  m.clients.countP (fun d => !d.baseDisplayName.isEmpty)

/-- The registry agrees with a holder count `H`: a name has an entry exactly when it is
non-empty and held, and the entry's reference count is the number of holders. -/
def RefsAgree (names : DisplayNameRegistry) (H : QString → Nat) : Prop :=
  ∀ b, (names.entry b).map Prod.snd = if b ≠ [] ∧ 0 < H b then some (H b : Int) else none

/-- The invariant linking the registry to the client data of the node list. -/
structure RegistryInv (m : Mixer) : Prop where
  nodup : (m.sessionDisplayNames.map Prod.fst).Nodup
  refs : RefsAgree m.sessionDisplayNames m.holders
  agents : ∀ n ∈ m.nodes, n.type ≠ NodeType.Agent → ∀ d, n.linkedData = some d → d.baseDisplayName = []

/-- Sum of the reference counts of all registry entries. -/
def DisplayNameRegistry.refCountSum (names : DisplayNameRegistry) : Int :=
  (names.map (fun e => e.2.2)).sum

/-- The session display names of the live nodes that have been given one, with the node ids. -/
def Mixer.sessionNames (m : Mixer) : List (Nat × QString) :=
  m.nodes.filterMap (fun n =>
    match n.linkedData with
    | some d => if d.avatar.sessionDisplayName = [] then none else some (n.uuid, d.avatar.sessionDisplayName)
    | none => none)

/-! ## Frame clock (`AvatarMixer::timeFrame`) -/

/-- What `timeFrame` produces: the new frame timestamp (written through the reference
parameter), the interval passed to `sleep_for`, and the returned duration in microseconds. -/
structure TimeFrameResult where
  timestamp : Int
  sleepTime : Int
  duration : Int
deriving DecidableEq

/-- The number of microseconds added to the frame timestamp:
`(int)((float)USECS_PER_SECOND / (float)AVATAR_MIXER_BROADCAST_FRAMES_PER_SECOND)`. -/
def FRAME_PERIOD_USECS : Int :=
  toInt ((USECS_PER_SECOND : ℚ) / (AVATAR_MIXER_BROADCAST_FRAMES_PER_SECOND : ℚ))

/-- Embedding of `AvatarMixer::timeFrame(timestamp)`.  Time points are counted in ticks of
`p_high_resolution_clock`, whose period is declared outside the sources: `ticksPerMicrosecond`
is the number of ticks in a microsecond.  `now` is the value read from the clock. -/
def timeFrame (ticksPerMicrosecond : Int) (timestamp now : Int) : TimeFrameResult :=
  let nextTimestamp := timestamp + FRAME_PERIOD_USECS * ticksPerMicrosecond
  let duration := Int.tdiv (now - timestamp) ticksPerMicrosecond
  let timestamp := max now nextTimestamp
  { timestamp := timestamp, sleepTime := timestamp - now, duration := duration }

/-! ## Per-peer bookkeeping and the control-plane handlers -/

/-- Modelled from the spec: `AvatarMixerClientData::setLastBroadcastTime` (the class is not among
the sources) stores the time under the peer's local id. -/
def AvatarMixerClientData.setLastBroadcastTime (d : AvatarMixerClientData) (localID time : Nat) :
    AvatarMixerClientData :=
  { d with lastBroadcastTimes := d.lastBroadcastTimes.assign localID time }

/-- Modelled from the spec: `AvatarMixerClientData::resetSentTraitData` (the class is not among
the sources) resets the sent trait versions recorded for the peer. -/
def AvatarMixerClientData.resetSentTraitData (d : AvatarMixerClientData) (localID : Nat) :
    AvatarMixerClientData :=
  { d with sentTraitVersions := d.sentTraitVersions.assign localID [] }

/-- Modelled from the spec: `AvatarMixerClientData::cleanupKilledNode` (the class is not among the
sources) erases `lastBroadcastTime[K]` and `sentTraitVersions[K]` for the killed node `K`. -/
def AvatarMixerClientData.cleanupKilledNode (d : AvatarMixerClientData) (_uuid localID : Nat) :
    AvatarMixerClientData :=
  { d with
    lastBroadcastTimes := d.lastBroadcastTimes.discard localID
    sentTraitVersions := d.sentTraitVersions.discard localID }

/-- The queued `cleanupKilledNode` invocations of a client data are run, oldest first, and
leave the queue. -/
def AvatarMixerClientData.runCleanups (d : AvatarMixerClientData) : AvatarMixerClientData :=
  { d.cleanups.foldl (fun acc op => acc.cleanupKilledNode op.1 op.2) d with cleanups := [] }

/-- Modelled from the spec: `AvatarMixerClientData::isRadiusIgnoring` (the class is not among the
sources) tells whether the id is in the set of radius-ignored others. -/
def AvatarMixerClientData.isRadiusIgnoring (d : AvatarMixerClientData) (uuid : Nat) : Bool :=
  d.radiusIgnoredOthers.contains uuid

/-- Modelled from the spec: `Node::addIgnoredNode` (the class is not among the sources) puts the
id into the ignored set of the node. -/
def Node.addIgnoredNode (otherNodeID : Nat) (n : Node) : Node :=
  { n with ignoredNodeIDs := otherNodeID :: n.ignoredNodeIDs.filter (fun x => !(x == otherNodeID)) }

/-- Modelled from the spec: `Node::removeIgnoredNode` (the class is not among the sources) takes
the id out of the ignored set of the node. -/
def Node.removeIgnoredNode (otherNodeID : Nat) (n : Node) : Node :=
  { n with ignoredNodeIDs := n.ignoredNodeIDs.filter (fun x => !(x == otherNodeID)) }

/-- Modelled from the spec: `Node::isIgnoringNodeWithID` (the class is not among the sources)
tells whether the id is in the ignored set of the node. -/
def Node.isIgnoringNodeWithID (n : Node) (nodeID : Nat) : Bool :=
  n.ignoredNodeIDs.contains nodeID

/-- A mutation through a node pointer: `f` is applied to the record of the node with the given
id, in place. -/
def modifyNode (uuid : Nat) (f : Node → Node) : List Node → List Node
  | [] => []
  | n :: ns => if n.uuid == uuid then f n :: ns else n :: modifyNode uuid f ns

/-- The two statements `setLastBroadcastTime(localID, 0); resetSentTraitData(localID);` applied
to the linked data of a node, if it has any. -/
def resetPeer (localID : Nat) (n : Node) : Node :=
  { n with
    linkedData := n.linkedData.map
      (fun d => (d.setLastBroadcastTime localID 0).resetSentTraitData localID) }

/-- One iteration of the loop of `handleNodeIgnoreRequestPacket`, for one id read from the
message. -/
def ignoreRequestStep (senderNode : Node) (addToIgnore : Bool) (m : Mixer) (ignoredUUID : Nat) :
    Mixer :=
  let ignoredNode := nodeWithUUID m.nodes ignoredUUID
  let nodes :=
    match ignoredNode with
    | some ignored =>
      modifyNode ignored.uuid (resetPeer senderNode.localID)
        (modifyNode senderNode.uuid (resetPeer ignored.localID) m.nodes)
    | none => m.nodes
  if addToIgnore then
    { m with
      nodes := modifyNode senderNode.uuid (Node.addIgnoredNode ignoredUUID) nodes
      sent :=
        match ignoredNode with
        | some ignored =>
          m.sent ++ [Packet.killAvatar ignored.uuid senderNode.uuid KillAvatarReason.AvatarDisconnected]
        | none => m.sent }
  else
    { m with nodes := modifyNode senderNode.uuid (Node.removeIgnoredNode ignoredUUID) nodes }

/-- Embedding of `AvatarMixer::handleNodeIgnoreRequestPacket`: the message carries the flag
`addToIgnore` and a sequence of node ids; `senderNode` supplies the id and local id of the
sender, whose record is updated in the node list. -/
def handleNodeIgnoreRequestPacket (m : Mixer) (senderNode : Node) (addToIgnore : Bool)
    (ids : List Nat) : Mixer :=
  ids.foldl (ignoreRequestStep senderNode addToIgnore) m

/-- The predicate of the `eachMatchingNode` of `handleRequestsDomainListDataPacket`. -/
def palResetApplies (senderNode : Node) (nodeData : AvatarMixerClientData) (node : Node) : Bool :=
  node.uuid != senderNode.uuid
    && (nodeData.isRadiusIgnoring node.uuid || senderNode.isIgnoringNodeWithID node.uuid)

/-- Embedding of `AvatarMixer::handleRequestsDomainListDataPacket`: `senderNode` is the record of
the sender, `isRequesting` the flag read from the message. -/
def handleRequestsDomainListDataPacket (m : Mixer) (senderNode : Node) (isRequesting : Bool) :
    Mixer :=
  let senderNode := getOrCreateClientData senderNode
  match senderNode.linkedData with
  | none => m
  | some nodeData =>
    let nodeData : AvatarMixerClientData := { nodeData with requestsDomainListData := isRequesting }
    let nodeData : AvatarMixerClientData :=
      if isRequesting then
        (m.nodes.filter (palResetApplies senderNode nodeData)).foldl
          (fun d node => (d.setLastBroadcastTime node.localID 0).resetSentTraitData node.localID)
          nodeData
      else nodeData
    { m with nodes := storeNode { senderNode with linkedData := some nodeData } m.nodes }

/-- The three process-wide sort weights `AvatarData::_avatarSortCoefficientSize`, `...Center`
and `...Age`. -/
structure SortCoefficients where
  size : ℚ
  center : ℚ
  age : ℚ
deriving DecidableEq

/-- Model of `ReceivedMessage::readPrimitive` for a float: the next value of the message is
stored; an exhausted message leaves the destination as it was. -/
def readPrimitive (message : List ℚ) (destination : ℚ) : ℚ × List ℚ :=
  match message with
  | v :: rest => (v, rest)
  | [] => (destination, [])

/-- Embedding of `AvatarMixer::handleAdjustAvatarSorting`: the mixer state (nothing is sent) and
the sort weights after the packet. -/
def handleAdjustAvatarSorting (m : Mixer) (coefficients : SortCoefficients) (senderNode : Node)
    (message : List ℚ) : Mixer × SortCoefficients :=
  if senderNode.canKick then
    let r₁ := readPrimitive message coefficients.size
    let r₂ := readPrimitive r₁.2 coefficients.center
    let r₃ := readPrimitive r₂.2 coefficients.age
    (m, { size := r₁.1, center := r₂.1, age := r₃.1 })
  else (m, coefficients)

/-- The record `n'` is the record `n` after control-plane updates: the same node, client data
kept if there was any, and every per-peer entry that was zero (or reset) still so. -/
structure Touched (n n' : Node) : Prop where
  uuid : n'.uuid = n.uuid
  localID : n'.localID = n.localID
  data : ∀ d, n.linkedData = some d → ∃ d', n'.linkedData = some d'
    ∧ (∀ k, d.lastBroadcastTimes.valueAt k = some 0 → d'.lastBroadcastTimes.valueAt k = some 0)
    ∧ (∀ k, d.sentTraitVersions.valueAt k = some [] → d'.sentTraitVersions.valueAt k = some [])

/-! ## Identity requests, version mismatch and domain settings -/

/-- The statement `senderData->resetSentTraitData(localID)` applied to the linked data of a
node, if it has any. -/
def resetSentTraits (localID : Nat) (n : Node) : Node :=
  { n with linkedData := n.linkedData.map (fun d => d.resetSentTraitData localID) }

/-- Embedding of `AvatarMixer::handleAvatarIdentityRequestPacket`: `message` is the payload of
the request, `senderNode` supplies the id of the sender, whose record is updated in the node
list.  The identity bytes are those of `identityByteArray()`, sent as they are. -/
def handleAvatarIdentityRequestPacket (m : Mixer) (message : QByteArray) (senderNode : Node) :
    Mixer :=
  if message.length < NUM_BYTES_RFC4122_UUID then m
  else
    let avatarID := QUuid.fromRfc4122 message
    if !QUuid.isNull avatarID then
      match nodeWithUUID m.nodes avatarID with
      | some requestedNode =>
        let m : Mixer :=
          match requestedNode.linkedData with
          | some avatarClientData =>
            { m with
              sent := m.sent ++ [Packet.avatarIdentity senderNode.uuid
                avatarClientData.avatar.sessionUUID avatarClientData.avatar]
              sumIdentityPackets := m.sumIdentityPackets + 1 }
          | none => m
        { m with
          nodes := modifyNode senderNode.uuid (resetSentTraits requestedNode.localID) m.nodes }
      | none => m
    else m

/-- Embedding of `AvatarMixer::handlePacketVersionMismatch` (the socket address of the sender is
not used by the function). -/
def handlePacketVersionMismatch (m : Mixer) (type : PacketType) (senderUUID : Nat) : Mixer :=
  if (type = PacketType.AvatarIdentity ∨ type = PacketType.AvatarData)
      ∧ QUuid.isNull senderUUID = false then
    match nodeWithUUID m.nodes senderUUID with
    | some node => { m with sent := m.sent ++ [Packet.avatarData node.uuid []] }
    | none => m
  else m

/-- The two members `_domainMinimumHeight` and `_domainMaximumHeight`. -/
structure DomainHeights where
  domainMinimumHeight : ℚ
  domainMaximumHeight : ℚ
deriving DecidableEq

/-- Model of `glm::clamp(x, minVal, maxVal)`: `min(max(x, minVal), maxVal)`. -/
def glm.clamp (x minVal maxVal : ℚ) : ℚ := min (max x minVal) maxVal

/-- Model of `QJsonValue::toDouble(defaultValue)`: the number, or the default when the value is
absent or is not a number (`none`). -/
def QJsonValue.toDouble (value : Option ℚ) (defaultValue : ℚ) : ℚ := value.getD defaultValue

/-- Embedding of the part of `AvatarMixer::parseDomainServerSettings` that sets the domain height
limits (source lines 938-951).  The constants `MIN_AVATAR_HEIGHT` and `MAX_AVATAR_HEIGHT` are
declared outside the sources and are parameters; the two settings are the values found under
`avatars.min_avatar_height` and `avatars.max_avatar_height`. -/
def parseDomainServerSettings (MIN_AVATAR_HEIGHT MAX_AVATAR_HEIGHT : ℚ)
    (min_avatar_height max_avatar_height : Option ℚ) : DomainHeights :=
  let settingMinHeight := QJsonValue.toDouble min_avatar_height MIN_AVATAR_HEIGHT
  let domainMinimumHeight := glm.clamp settingMinHeight MIN_AVATAR_HEIGHT MAX_AVATAR_HEIGHT
  let settingMaxHeight := QJsonValue.toDouble max_avatar_height MAX_AVATAR_HEIGHT
  let domainMaximumHeight := glm.clamp settingMaxHeight MIN_AVATAR_HEIGHT MAX_AVATAR_HEIGHT
  if domainMinimumHeight > domainMaximumHeight then
    { domainMinimumHeight := domainMaximumHeight, domainMaximumHeight := domainMinimumHeight }
  else
    { domainMinimumHeight := domainMinimumHeight, domainMaximumHeight := domainMaximumHeight }

/-! ## Replicated packets -/

/-- Modelled from the spec: the constant `Node::NULL_LOCAL_ID` (the class is not among the
sources), the local id of a node that has not been given one. -/
def NULL_LOCAL_ID : Nat := 0

/-- Modelled from the spec: `LimitedNodeList::addOrUpdateNode` (the node list is not among the
sources).  A node with the id is materialised with the given kind and flags if the registry has
none, and is refreshed otherwise; the refresh concerns the sockets of the node, which are not
part of this model, and leaves its kind, its replicated flag and its client data as they are.
The result is the node list and the record of the node. -/
def addOrUpdateNode (nodes : List Node) (uuid : Nat) (nodeType : NodeType) (localID : Nat)
    (isReplicated isUpstream : Bool) : List Node × Node :=
  match nodeWithUUID nodes uuid with
  | some node => (nodes, node)
  | none =>
    (nodes ++ [{ uuid := uuid, type := nodeType, localID := localID, isReplicated := isReplicated,
                 isUpstream := isUpstream }],
     { uuid := uuid, type := nodeType, localID := localID, isReplicated := isReplicated,
       isUpstream := isUpstream })

/-- Embedding of `addOrUpdateReplicatedNode` (the time stamp of the last packet heard is not part
of this model). -/
def addOrUpdateReplicatedNode (nodes : List Node) (nodeID : Nat) : List Node × Node :=
  addOrUpdateNode nodes nodeID NodeType.Agent NULL_LOCAL_ID true true

/-- Modelled from the spec: `AvatarMixerClientData::queuePacket` (the class is not among the
sources) puts the message at the back of the inbound packet queue of the client data. -/
def AvatarMixerClientData.queuePacket (d : AvatarMixerClientData) (message : ReceivedMessage) :
    AvatarMixerClientData :=
  { d with packetQueue := d.packetQueue ++ [message] }

/-- Embedding of `AvatarMixer::queueIncomingPacket`, the statement
`getOrCreateClientData(node)->queuePacket(message, node)`. -/
def queueIncomingPacket (message : ReceivedMessage) (node : Node) : Node :=
  { getOrCreateClientData node with
    linkedData := (getOrCreateClientData node).linkedData.map (fun d => d.queuePacket message) }

/-- Model of `ReceivedMessage::readPrimitive` for a `quint16`: the value of the next two bytes
in host byte order (least significant byte first) and the bytes left to read. -/
def readPrimitiveQuint16 (message : QByteArray) : Nat × QByteArray :=
  match message with
  | low :: high :: rest => (low.val + 256 * high.val, rest)
  | [low] => (low.val, [])
  | [] => (0, [])

/-- What the loop of `handleReplicatedBulkAvatarPacket` leaves: the mixer, the number of
iterations it made and the number of bytes left to read. -/
structure BulkAvatarResult where
  mixer : Mixer
  iterations : Nat
  bytesLeftToRead : Nat

/-- The loop `while (message->getBytesLeftToRead())` of `handleReplicatedBulkAvatarPacket`;
`message` holds the bytes left to read, and a read past the end yields the bytes that are left.
Every iteration on a non-empty message reads at least one byte, so the length of the message
bounds the number of iterations. -/
def replicatedBulkAvatarLoop : Nat → QByteArray → Mixer → BulkAvatarResult
  | 0, message, m => { mixer := m, iterations := 0, bytesLeftToRead := message.length }
  | fuel + 1, message, m =>
    if message.length = 0 then { mixer := m, iterations := 0, bytesLeftToRead := 0 }
    else
      let nodeID := QUuid.fromRfc4122 (message.take NUM_BYTES_RFC4122_UUID)
      let message := message.drop NUM_BYTES_RFC4122_UUID
      let replicatedNode := addOrUpdateReplicatedNode m.nodes nodeID
      let avatarByteArraySize := readPrimitiveQuint16 message
      let message := avatarByteArraySize.2
      let avatarByteArray := message.take avatarByteArraySize.1
      let message := message.drop avatarByteArraySize.1
      let replicatedMessage : ReceivedMessage :=
        { type := PacketType.AvatarData, message := avatarByteArray }
      let m : Mixer :=
        { m with
          nodes := storeNode (queueIncomingPacket replicatedMessage replicatedNode.2)
            replicatedNode.1 }
      let rest := replicatedBulkAvatarLoop fuel message m
      { mixer := rest.mixer, iterations := rest.iterations + 1,
        bytesLeftToRead := rest.bytesLeftToRead }

/-- The table `REPLICATED_PACKET_MAPPING`, declared outside the sources: pairs of a packet type
and its replicated version. -/
abbrev ReplicatedPacketMapping := List (PacketType × PacketType)

/-- Model of `QHash::value`: the replicated version of a type, `Unknown` if the type is not a
key. -/
def ReplicatedPacketMapping.value (mapping : ReplicatedPacketMapping) (type : PacketType) :
    PacketType :=
  ((mapping.find? (fun e => e.1 == type)).map (fun e => e.2)).getD PacketType.Unknown

/-- Model of `QHash::key`: a type whose replicated version is the given one, `Unknown` if there
is none. -/
def ReplicatedPacketMapping.key (mapping : ReplicatedPacketMapping) (type : PacketType) :
    PacketType :=
  ((mapping.find? (fun e => e.2 == type)).map (fun e => e.1)).getD PacketType.Unknown

/-- The `eachMatchingNode` of `optionallyReplicatePacket`: a copy of the message under the
replicated type goes to every node the policy selects. -/
def replicateTo (m : Mixer) (replicatedType : PacketType) (message : ReceivedMessage)
    (node : Node) : Mixer :=
  { m with
    sent := m.sent ++ (m.nodes.filter (fun downstreamNode => m.shouldReplicateTo node downstreamNode)).map
      (fun downstreamNode => Packet.replicated downstreamNode.uuid replicatedType message.message) }

/-- Embedding of `AvatarMixer::optionallyReplicatePacket`. -/
def optionallyReplicatePacket (mapping : ReplicatedPacketMapping) (m : Mixer)
    (message : ReceivedMessage) (node : Node) : Mixer :=
  if node.isReplicated then
    let replicatedType := mapping.value message.type
    if replicatedType = PacketType.Unknown then
      if mapping.key message.type ≠ PacketType.Unknown then
        replicateTo m message.type message node
      else m
    else replicateTo m replicatedType message node
  else m

/-- Embedding of `AvatarMixer::handleKillAvatarPacket`: `handleAvatarKilled`, then the linked
data of the node is released, then the packet is replicated if the node is a replicated one. -/
def handleKillAvatarPacket (mapping : ReplicatedPacketMapping) (m : Mixer)
    (message : ReceivedMessage) (node : Node) : Mixer :=
  let m := handleAvatarKilled m node
  let m : Mixer := { m with nodes := storeNode { node with linkedData := none } m.nodes }
  optionallyReplicatePacket mapping m message { node with linkedData := none }

/-- The session display name that `manageIdentityData` builds from a base name and the high-water
mark found in the registry (source line 334). -/
def sessionNameOf (baseName : QString) (highWater : Int) : QString :=
  if highWater > 0 then baseName ++ ['_'] ++ QString.number highWater else baseName

/-- The value of a decimal digit. -/
def digitValue (c : Char) : Nat := c.toNat - 48

/-- The number written by a string of decimal digits. -/
def decimalValue (s : QString) : Nat := s.foldl (fun acc c => acc * 10 + digitValue c) 0

/-- The invariant on the session display names: node ids are not repeated; high-water marks are
not negative; every holder of a base name has the session display name built from a number below
the high-water mark of the base name; and two nodes with the same base name have different
session display names. -/
structure NameInv (m : Mixer) : Prop where
  ids : (m.nodes.map Node.uuid).Nodup
  highWater : ∀ b, 0 ≤ (m.sessionDisplayNames.value b).1
  numbered : ∀ n ∈ m.nodes, ∀ d, n.linkedData = some d → d.baseDisplayName ≠ [] →
    ∃ k : Int, 0 ≤ k ∧ k < (m.sessionDisplayNames.value d.baseDisplayName).1
      ∧ d.avatar.sessionDisplayName = sessionNameOf d.baseDisplayName k
  distinct : ∀ n₁ ∈ m.nodes, ∀ n₂ ∈ m.nodes, n₁.uuid ≠ n₂.uuid →
    ∀ d₁ d₂, n₁.linkedData = some d₁ → n₂.linkedData = some d₂ → d₁.baseDisplayName ≠ [] →
      d₁.baseDisplayName = d₂.baseDisplayName →
      d₁.avatar.sessionDisplayName ≠ d₂.avatar.sessionDisplayName

end AvatarMixer

/-! # Theorems -/

namespace AvatarMixer

/-! ## Throttling controller: the real-number reading -/

theorem toInt_eq_floor (q : ℚ) (h : 0 ≤ q) : toInt q = ⌊q⌋ := by
  unfold toInt
  rw [Rat.floor_def]
  exact Int.tdiv_eq_ediv (Rat.num_nonneg.mpr h) (Int.ofNat_nonneg _)

theorem TRAILING_FRAMES_eq : TRAILING_FRAMES = 60 := by
  simp [TRAILING_FRAMES, toInt, BACKOFF_RATE, THROTTLE_RATE, STRUGGLES_AT, RECOVERY_TIME]
  norm_num

theorem FRAME_TIME_eq : FRAME_TIME = 22222 := by
  have h : Int.tdiv 1000000 45 = 22222 := by decide
  simp [FRAME_TIME, USECS_PER_SECOND, AVATAR_MIXER_BROADCAST_FRAMES_PER_SECOND, h]

theorem throttle_trailingMixRatio (d f : Int) (s : ThrottleState) :
    (throttle d f s).trailingMixRatio = updatedTrailingMixRatio d s := by
  unfold throttle updatedTrailingMixRatio
  dsimp only
  split_ifs <;> rfl

theorem throttle_skip (d f : Int) (s : ThrottleState) (hf : Int.tmod f TRAILING_FRAMES ≠ 0) :
    (throttle d f s).throttlingRatio = s.throttlingRatio := by
  unfold throttle
  dsimp only
  rw [if_neg hf]

theorem tmod_TRAILING_FRAMES_eq_zero_iff (f : Int) : Int.tmod f TRAILING_FRAMES = 0 ↔ f % 60 = 0 := by
  rw [TRAILING_FRAMES_eq]
  constructor
  · intro h
    exact Int.emod_eq_zero_of_dvd (Int.dvd_of_tmod_eq_zero h)
  · intro h
    exact Int.tmod_eq_zero_of_dvd (Int.dvd_of_emod_eq_zero h)

theorem updated_at_initial (d : Int) (t : ℚ) :
    updatedTrailingMixRatio d ⟨0, t⟩ = (d : ℚ) / 1333320 := by
  simp only [updatedTrailingMixRatio, PREVIOUS_FRAMES_RATIO, CURRENT_FRAME_RATIO, TRAILING_FRAMES_eq,
    FRAME_TIME_eq]
  push_cast
  ring

/-! ## Rounding to binary32 -/

namespace F32

theorem floor_le_roundHalfEven (x : ℚ) : ⌊x⌋ ≤ roundHalfEven x := by
  unfold roundHalfEven
  split_ifs <;> omega

theorem roundHalfEven_le_floor_add_one (x : ℚ) : roundHalfEven x ≤ ⌊x⌋ + 1 := by
  unfold roundHalfEven
  split_ifs <;> omega

theorem roundHalfEven_mono {x y : ℚ} (h : x ≤ y) : roundHalfEven x ≤ roundHalfEven y := by
  have hf : ⌊x⌋ ≤ ⌊y⌋ := Int.floor_le_floor h
  rcases hf.lt_or_eq with hlt | heq
  · calc roundHalfEven x ≤ ⌊x⌋ + 1 := roundHalfEven_le_floor_add_one x
      _ ≤ ⌊y⌋ := hlt
      _ ≤ roundHalfEven y := floor_le_roundHalfEven y
  · have hq : (⌊x⌋ : ℚ) = ⌊y⌋ := by exact_mod_cast heq
    unfold roundHalfEven
    split_ifs <;> first | omega | (exfalso; linarith)

theorem roundHalfEven_eq_of_abs_lt (x : ℚ) (n : Int) (h : |x - n| < 1 / 2) :
    roundHalfEven x = n := by
  rw [abs_lt] at h
  obtain ⟨h1, h2⟩ := h
  by_cases hx : (n : ℚ) ≤ x
  · have hfl : ⌊x⌋ = n := by
      rw [Int.floor_eq_iff]
      constructor <;> linarith
    unfold roundHalfEven
    rw [hfl, if_pos (by linarith)]
  · have hfl : ⌊x⌋ = n - 1 := by
      rw [Int.floor_eq_iff]
      push_cast
      constructor <;> linarith
    unfold roundHalfEven
    rw [hfl]
    push_cast
    rw [if_neg (by linarith), if_pos (by linarith)]
    omega

theorem roundHalfEven_intCast (n : Int) : roundHalfEven (n : ℚ) = n :=
  roundHalfEven_eq_of_abs_lt _ n (by simp)

theorem roundHalfEven_sub_le (x : ℚ) : |(roundHalfEven x : ℚ) - x| ≤ 1 / 2 := by
  have h1 := Int.floor_le x
  have h2 := Int.lt_floor_add_one x
  rw [abs_le]
  unfold roundHalfEven
  split_ifs with ha hb hc
  · constructor <;> linarith
  · push_cast
    constructor <;> linarith
  · constructor <;> linarith
  · push_cast
    constructor <;> linarith

theorem roundHalfEven_neg (x : ℚ) : roundHalfEven (-x) = -roundHalfEven x := by
  have h1 := Int.floor_le x
  have h2 := Int.lt_floor_add_one x
  by_cases hd : x = ⌊x⌋
  · have hx : -x = ((-⌊x⌋ : Int) : ℚ) := by
      push_cast
      linarith
    rw [hx, roundHalfEven_intCast]
    have hx2 : roundHalfEven x = ⌊x⌋ := by
      conv_lhs => rw [hd]
      exact roundHalfEven_intCast _
    rw [hx2]
  · have hlt : (⌊x⌋ : ℚ) < x := lt_of_le_of_ne h1 (fun e => hd e.symm)
    have hfl : ⌊-x⌋ = -⌊x⌋ - 1 := by
      rw [Int.floor_eq_iff]
      push_cast
      constructor <;> linarith
    unfold roundHalfEven
    rw [hfl]
    push_cast
    split_ifs <;> first | omega | (exfalso; linarith)

theorem two_zpow_pos (e : Int) : (0 : ℚ) < 2 ^ e := zpow_pos (by norm_num) e

theorem ulpExponent_neg (x : ℚ) : ulpExponent (-x) = ulpExponent x := by
  unfold ulpExponent
  rw [abs_neg]

theorem round_neg (x : ℚ) : round (-x) = -round x := by
  unfold round
  rw [ulpExponent_neg, neg_div, roundHalfEven_neg]
  push_cast
  ring

theorem round_zero : round 0 = 0 := by
  unfold round
  rw [zero_div]
  have h : roundHalfEven 0 = 0 := by
    have := roundHalfEven_intCast 0
    simpa using this
  rw [h]
  simp

theorem round_nonneg {x : ℚ} (h : 0 ≤ x) : 0 ≤ round x := by
  unfold round
  have hp := two_zpow_pos (ulpExponent x)
  have h0 : roundHalfEven 0 = 0 := by
    have := roundHalfEven_intCast 0
    simpa using this
  have hr : 0 ≤ roundHalfEven (x / 2 ^ ulpExponent x) := by
    rw [← h0]
    exact roundHalfEven_mono (div_nonneg h hp.le)
  exact mul_nonneg (by exact_mod_cast hr) hp.le

theorem round_nonpos {x : ℚ} (h : x ≤ 0) : round x ≤ 0 := by
  have := round_nonneg (neg_nonneg.mpr h)
  rw [round_neg] at this
  linarith

theorem log_eq (x : ℚ) (k : Int) (h1 : (2 : ℚ) ^ k ≤ x) (h2 : x < 2 ^ (k + 1)) :
    Int.log 2 x = k := by
  have hpos : 0 < x := lt_of_lt_of_le (two_zpow_pos _) h1
  have hl1 : k ≤ Int.log 2 x := (Int.zpow_le_iff_le_log (by norm_num) hpos).mp (by exact_mod_cast h1)
  have hl2 : Int.log 2 x < k + 1 := (Int.lt_zpow_iff_log_lt (by norm_num) hpos).mp (by exact_mod_cast h2)
  omega

theorem ulpExponent_eq (x : ℚ) (e : Int) (he : -149 ≤ e) (h1 : (2 : ℚ) ^ (e + 23) ≤ |x|)
    (h2 : |x| < 2 ^ (e + 24)) : ulpExponent x = e := by
  have h := log_eq |x| (e + 23) h1 (by rw [show e + 23 + 1 = e + 24 by ring]; exact h2)
  unfold ulpExponent
  rw [h]
  omega

theorem ulpExponent_subnormal (x : ℚ) (h0 : 0 < |x|) (h : |x| ≤ 2 ^ (-126 : Int)) :
    ulpExponent x = -149 := by
  have h1 : Int.log 2 |x| ≤ Int.log 2 ((2 : ℚ) ^ (-126 : Int)) := Int.log_mono_right h0 h
  have h2 : Int.log 2 ((2 : ℚ) ^ (-126 : Int)) = -126 := by
    have := Int.log_zpow (R := ℚ) (b := 2) (by norm_num) (-126)
    exact_mod_cast this
  unfold ulpExponent
  rw [h2] at h1
  omega

/-- The value of `round` at an argument whose binade and nearest multiple of the unit in the last
place are known. -/
theorem round_eq (x : ℚ) (n e : Int) (he : -149 ≤ e) (h1 : (2 : ℚ) ^ (e + 23) ≤ |x|)
    (h2 : |x| < 2 ^ (e + 24)) (h3 : |x / 2 ^ e - n| < 1 / 2) : round x = n * 2 ^ e := by
  unfold round
  rw [ulpExponent_eq x e he h1 h2, roundHalfEven_eq_of_abs_lt _ n h3]

theorem round_le_zpow (x : ℚ) (hx : 0 < x) : round x ≤ 2 ^ (ulpExponent x + 24) := by
  have hlt : x < 2 ^ (Int.log 2 x + 1) := by
    have := Int.lt_zpow_succ_log_self (R := ℚ) (b := 2) (by norm_num) x
    exact_mod_cast this
  have hle : (2 : ℚ) ^ (Int.log 2 x + 1) ≤ 2 ^ (ulpExponent x + 24) := by
    apply zpow_le_zpow_right₀ (by norm_num)
    unfold ulpExponent
    rw [abs_of_pos hx]
    omega
  have hp := two_zpow_pos (ulpExponent x)
  have hdiv : x / 2 ^ ulpExponent x ≤ ((16777216 : Int) : ℚ) := by
    rw [div_le_iff₀ hp]
    have e : ((16777216 : Int) : ℚ) * 2 ^ ulpExponent x = 2 ^ (ulpExponent x + 24) := by
      rw [zpow_add₀ (by norm_num)]
      norm_num
      ring
    rw [e]
    linarith
  have hr := roundHalfEven_mono hdiv
  rw [roundHalfEven_intCast] at hr
  unfold round
  have e : (2 : ℚ) ^ (ulpExponent x + 24) = 16777216 * 2 ^ ulpExponent x := by
    rw [zpow_add₀ (by norm_num)]
    norm_num
    ring
  rw [e]
  have : (roundHalfEven (x / 2 ^ ulpExponent x) : ℚ) ≤ 16777216 := by exact_mod_cast hr
  exact mul_le_mul_of_nonneg_right this hp.le

theorem zpow_le_round (x : ℚ) (hx : 0 < x) (hn : -149 < ulpExponent x) :
    (2 : ℚ) ^ (ulpExponent x + 23) ≤ round x := by
  have hlog : ulpExponent x + 23 = Int.log 2 x := by
    unfold ulpExponent at hn ⊢
    rw [abs_of_pos hx] at hn ⊢
    omega
  have hle : (2 : ℚ) ^ (ulpExponent x + 23) ≤ x := by
    rw [hlog]
    have := Int.zpow_log_le_self (R := ℚ) (b := 2) (by norm_num) hx
    exact_mod_cast this
  have hp := two_zpow_pos (ulpExponent x)
  have e : (2 : ℚ) ^ (ulpExponent x + 23) = 8388608 * 2 ^ ulpExponent x := by
    rw [zpow_add₀ (by norm_num)]
    norm_num
    ring
  have hdiv : ((8388608 : Int) : ℚ) ≤ x / 2 ^ ulpExponent x := by
    rw [le_div_iff₀ hp]
    push_cast
    linarith
  have hr := roundHalfEven_mono hdiv
  rw [roundHalfEven_intCast] at hr
  unfold round
  rw [e]
  have : (8388608 : ℚ) ≤ (roundHalfEven (x / 2 ^ ulpExponent x) : ℚ) := by exact_mod_cast hr
  exact mul_le_mul_of_nonneg_right this hp.le

theorem ulpExponent_mono {x y : ℚ} (hx : 0 < x) (h : x ≤ y) : ulpExponent x ≤ ulpExponent y := by
  unfold ulpExponent
  rw [abs_of_pos hx, abs_of_pos (lt_of_lt_of_le hx h)]
  have := Int.log_mono_right (b := 2) hx h
  omega

theorem round_mono_pos {x y : ℚ} (hx : 0 < x) (h : x ≤ y) : round x ≤ round y := by
  have hy : 0 < y := lt_of_lt_of_le hx h
  rcases (ulpExponent_mono hx h).lt_or_eq with hlt | heq
  · have h1 := round_le_zpow x hx
    have hx149 : -149 ≤ ulpExponent x := by
      unfold ulpExponent
      omega
    have h2 := zpow_le_round y hy (by omega)
    have h3 : (2 : ℚ) ^ (ulpExponent x + 24) ≤ 2 ^ (ulpExponent y + 23) :=
      zpow_le_zpow_right₀ (by norm_num) (by omega)
    linarith
  · unfold round
    rw [heq]
    have hp := two_zpow_pos (ulpExponent y)
    have hdiv : x / 2 ^ ulpExponent y ≤ y / 2 ^ ulpExponent y :=
      div_le_div_of_nonneg_right h hp.le
    have hr := roundHalfEven_mono hdiv
    have : (roundHalfEven (x / 2 ^ ulpExponent y) : ℚ) ≤ roundHalfEven (y / 2 ^ ulpExponent y) := by
      exact_mod_cast hr
    exact mul_le_mul_of_nonneg_right this hp.le

/-- Rounding to binary32 is monotone. -/
theorem round_mono {x y : ℚ} (h : x ≤ y) : round x ≤ round y := by
  rcases lt_trichotomy x 0 with hx | hx | hx
  · rcases lt_or_le y 0 with hy | hy
    · have := round_mono_pos (neg_pos.mpr hy) (neg_le_neg h)
      rw [round_neg, round_neg] at this
      linarith
    · exact le_trans (round_nonpos hx.le) (round_nonneg hy)
  · rw [hx] at h ⊢
    rw [round_zero]
    exact round_nonneg h
  · exact round_mono_pos hx h

theorem round_sub_le (x : ℚ) : |round x - x| ≤ 2 ^ ulpExponent x / 2 := by
  have hp := two_zpow_pos (ulpExponent x)
  have h := roundHalfEven_sub_le (x / 2 ^ ulpExponent x)
  unfold round
  have e : (roundHalfEven (x / 2 ^ ulpExponent x) : ℚ) * 2 ^ ulpExponent x - x
      = ((roundHalfEven (x / 2 ^ ulpExponent x) : ℚ) - x / 2 ^ ulpExponent x) * 2 ^ ulpExponent x := by
    field_simp
  rw [e, abs_mul, abs_of_pos hp]
  have := mul_le_mul_of_nonneg_right h hp.le
  linarith

theorem roundHalfEven_scaled_le (x : ℚ) (hx : 0 < x) :
    roundHalfEven (x / 2 ^ ulpExponent x) ≤ 16777216 := by
  have h := round_le_zpow x hx
  have hp := two_zpow_pos (ulpExponent x)
  have e : (2 : ℚ) ^ (ulpExponent x + 24) = 16777216 * 2 ^ ulpExponent x := by
    rw [zpow_add₀ (by norm_num)]
    norm_num
    ring
  unfold round at h
  rw [e] at h
  have := le_of_mul_le_mul_right h hp
  exact_mod_cast this

theorem le_roundHalfEven_scaled (x : ℚ) (hx : 0 < x) (hn : -149 < ulpExponent x) :
    8388608 ≤ roundHalfEven (x / 2 ^ ulpExponent x) := by
  have h := zpow_le_round x hx hn
  have hp := two_zpow_pos (ulpExponent x)
  have e : (2 : ℚ) ^ (ulpExponent x + 23) = 8388608 * 2 ^ ulpExponent x := by
    rw [zpow_add₀ (by norm_num)]
    norm_num
    ring
  unfold round at h
  rw [e] at h
  have := le_of_mul_le_mul_right h hp
  exact_mod_cast this

/-- A number with a 24-bit significand and an exponent of the normal range is a binary32 value. -/
theorem round_scaled (n e : Int) (he : -149 ≤ e) (h1 : 8388608 ≤ n) (h2 : n < 16777216) :
    round ((n : ℚ) * 2 ^ e) = n * 2 ^ e := by
  have hp := two_zpow_pos e
  have hn : (0 : ℚ) < n := by
    have : (0 : Int) < n := by omega
    exact_mod_cast this
  have habs : |(n : ℚ) * 2 ^ e| = n * 2 ^ e := abs_of_pos (mul_pos hn hp)
  have e23 : (2 : ℚ) ^ (e + 23) = 8388608 * 2 ^ e := by
    rw [zpow_add₀ (by norm_num)]
    norm_num
    ring
  have e24 : (2 : ℚ) ^ (e + 24) = 16777216 * 2 ^ e := by
    rw [zpow_add₀ (by norm_num)]
    norm_num
    ring
  have h1q : (8388608 : ℚ) ≤ n := by exact_mod_cast h1
  have h2q : (n : ℚ) < 16777216 := by exact_mod_cast h2
  refine round_eq _ n e he ?_ ?_ ?_
  · rw [habs, e23]
    exact mul_le_mul_of_nonneg_right h1q hp.le
  · rw [habs, e24]
    exact mul_lt_mul_of_pos_right h2q hp
  · rw [mul_div_assoc, div_self hp.ne', mul_one, sub_self, abs_zero]
    norm_num

/-- A multiple of `2 ^ (-149)` below `2 ^ (-126)` is a (subnormal) binary32 value. -/
theorem round_subnormal (n : Int) (h1 : 0 < n) (h2 : n ≤ 8388608) :
    round ((n : ℚ) * 2 ^ (-149 : Int)) = n * 2 ^ (-149 : Int) := by
  have hp := two_zpow_pos (-149)
  have hn : (0 : ℚ) < n := by exact_mod_cast h1
  have hpos : (0 : ℚ) < n * 2 ^ (-149 : Int) := mul_pos hn hp
  have hle : |(n : ℚ) * 2 ^ (-149 : Int)| ≤ 2 ^ (-126 : Int) := by
    rw [abs_of_pos hpos]
    have e : (2 : ℚ) ^ (-126 : Int) = 8388608 * 2 ^ (-149 : Int) := by
      rw [show (-126 : Int) = -149 + 23 by norm_num, zpow_add₀ (by norm_num)]
      norm_num
    rw [e]
    have : (n : ℚ) ≤ 8388608 := by exact_mod_cast h2
    exact mul_le_mul_of_nonneg_right this hp.le
  have hu := ulpExponent_subnormal _ (by rw [abs_of_pos hpos]; exact hpos) hle
  unfold round
  rw [hu, mul_div_assoc, div_self hp.ne', mul_one, roundHalfEven_intCast]

theorem round_idem_pos (x : ℚ) (hx : 0 < x) : round (round x) = round x := by
  have hup := roundHalfEven_scaled_le x hx
  have hp := two_zpow_pos (ulpExponent x)
  have h0 : roundHalfEven 0 = 0 := by
    have := roundHalfEven_intCast 0
    simpa using this
  have hnn : 0 ≤ roundHalfEven (x / 2 ^ ulpExponent x) := by
    rw [← h0]
    exact roundHalfEven_mono (div_nonneg hx.le hp.le)
  have hx149 : -149 ≤ ulpExponent x := by
    unfold ulpExponent
    omega
  have hr : round x = (roundHalfEven (x / 2 ^ ulpExponent x) : ℚ) * 2 ^ ulpExponent x := rfl
  rcases Int.lt_or_le 0 (roundHalfEven (x / 2 ^ ulpExponent x)) with hpos | hzero
  swap
  · have hz : roundHalfEven (x / 2 ^ ulpExponent x) = 0 := by omega
    rw [hr, hz]
    simp [round_zero]
  rcases Int.lt_or_le (roundHalfEven (x / 2 ^ ulpExponent x)) 8388608 with hsmall | hbig
  · have he : ulpExponent x = -149 := by
      by_contra hne
      have := le_roundHalfEven_scaled x hx (by omega)
      omega
    rw [hr]
    rw [he] at hpos hsmall ⊢
    exact round_subnormal _ hpos (by omega)
  · rcases Int.lt_or_le (roundHalfEven (x / 2 ^ ulpExponent x)) 16777216 with hlt | hge
    · rw [hr]
      exact round_scaled _ _ hx149 hbig hlt
    · have htop : roundHalfEven (x / 2 ^ ulpExponent x) = 16777216 := by omega
      rw [hr, htop]
      have e : ((16777216 : Int) : ℚ) * 2 ^ ulpExponent x
          = ((8388608 : Int) : ℚ) * 2 ^ (ulpExponent x + 1) := by
        rw [zpow_add₀ (by norm_num)]
        norm_num
        ring
      rw [e]
      exact round_scaled _ _ (by omega) (by norm_num) (by norm_num)

/-- A value of `round` is a binary32 value: rounding it again changes nothing. -/
theorem round_idem (x : ℚ) : round (round x) = round x := by
  rcases lt_trichotomy x 0 with hx | hx | hx
  · have := round_idem_pos (-x) (neg_pos.mpr hx)
    rw [round_neg, round_neg] at this
    linarith
  · rw [hx, round_zero, round_zero]
  · exact round_idem_pos x hx

/-- A binary32 value that is at most `c` is at most the binary32 value nearest to `c`. -/
theorem le_round_of_le {x c : ℚ} (hx : round x = x) (h : x ≤ c) : x ≤ round c := by
  rw [← hx]
  exact round_mono h

theorem round_le_of_le {x c : ℚ} (hx : round x = x) (h : c ≤ x) : round c ≤ x := by
  rw [← hx]
  exact round_mono h

theorem round_sub_le_of_lt_two (x : ℚ) (h : |x| < 2) : |round x - x| ≤ 1 / 16777216 := by
  have hb := round_sub_le x
  have hu : ulpExponent x ≤ -23 := by
    rcases eq_or_lt_of_le (abs_nonneg x) with h0 | hpos
    · unfold ulpExponent
      rw [← h0]
      simp
    · have hlog : Int.log 2 |x| < 1 :=
        (Int.lt_zpow_iff_log_lt (R := ℚ) (b := 2) (by norm_num) hpos).mp (by
          norm_num
          exact h)
      unfold ulpExponent
      omega
  have hz : (2 : ℚ) ^ ulpExponent x ≤ 2 ^ (-23 : Int) := zpow_le_zpow_right₀ (by norm_num) hu
  have e : (2 : ℚ) ^ (-23 : Int) = 1 / 8388608 := by norm_num
  rw [e] at hz
  linarith

/-- The value of `round` at a positive argument, from the unit in the last place `u = 2 ^ e` and
the nearest multiple `n * u`. -/
theorem round_eq_pos (x u v : ℚ) (n e : Int) (he : -149 ≤ e) (hu : (2 : ℚ) ^ e = u)
    (hv : (n : ℚ) * u = v) (h1 : 8388608 * u ≤ x) (h2 : x < 16777216 * u)
    (h3 : (2 * (n : ℚ) - 1) * u < 2 * x) (h4 : 2 * x < (2 * (n : ℚ) + 1) * u) : round x = v := by
  have hp : (0 : ℚ) < u := by
    rw [← hu]
    exact two_zpow_pos e
  have hx : 0 < x := lt_of_lt_of_le (mul_pos (by norm_num) hp) h1
  have e23 : (2 : ℚ) ^ (e + 23) = 8388608 * u := by
    rw [zpow_add₀ (by norm_num), hu]
    norm_num
    ring
  have e24 : (2 : ℚ) ^ (e + 24) = 16777216 * u := by
    rw [zpow_add₀ (by norm_num), hu]
    norm_num
    ring
  rw [← hv, ← hu]
  refine round_eq x n e he ?_ ?_ ?_
  · rw [abs_of_pos hx, e23]
    exact h1
  · rw [abs_of_pos hx, e24]
    exact h2
  · rw [hu, abs_lt]
    constructor
    · have : (n : ℚ) - 1 / 2 < x / u := by
        rw [lt_div_iff₀ hp]
        linarith
      linarith
    · have : x / u < (n : ℚ) + 1 / 2 := by
        rw [div_lt_iff₀ hp]
        linarith
      linarith

/-- The value of `round` at a negative argument. -/
theorem round_eq_neg (x u v : ℚ) (n e : Int) (he : -149 ≤ e) (hu : (2 : ℚ) ^ e = u)
    (hv : (n : ℚ) * u = v) (h1 : 8388608 * u ≤ -x) (h2 : -x < 16777216 * u)
    (h3 : (2 * (n : ℚ) - 1) * u < 2 * -x) (h4 : 2 * -x < (2 * (n : ℚ) + 1) * u) :
    round x = -v := by
  have h := round_eq_pos (-x) u v n e he hu hv h1 h2 h3 h4
  rw [round_neg] at h
  linarith

theorem roundHalfEven_tie (x : ℚ) (n : Int) (h : x = (n : ℚ) - 1 / 2 ∨ x = (n : ℚ) + 1 / 2)
    (heven : n % 2 = 0) : roundHalfEven x = n := by
  rcases h with h | h
  · have hfl : ⌊x⌋ = n - 1 := by
      rw [Int.floor_eq_iff]
      push_cast
      constructor <;> linarith
    unfold roundHalfEven
    rw [hfl]
    push_cast
    rw [if_neg (by linarith), if_neg (by linarith), if_neg (by omega)]
    omega
  · have hfl : ⌊x⌋ = n := by
      rw [Int.floor_eq_iff]
      constructor <;> linarith
    unfold roundHalfEven
    rw [hfl, if_neg (by linarith), if_neg (by linarith), if_pos heven]

/-- The value of `round` at a positive argument half-way between two neighbouring multiples of
the unit in the last place: the even multiple. -/
theorem round_eq_pos_tie (x u v : ℚ) (n e : Int) (he : -149 ≤ e) (hu : (2 : ℚ) ^ e = u)
    (hv : (n : ℚ) * u = v) (h1 : 8388608 * u ≤ x) (h2 : x < 16777216 * u)
    (h3 : 2 * x = (2 * (n : ℚ) - 1) * u ∨ 2 * x = (2 * (n : ℚ) + 1) * u)
    (heven : n % 2 = 0) : round x = v := by
  have hp : (0 : ℚ) < u := by
    rw [← hu]
    exact two_zpow_pos e
  have hx : 0 < x := lt_of_lt_of_le (mul_pos (by norm_num) hp) h1
  have e23 : (2 : ℚ) ^ (e + 23) = 8388608 * u := by
    rw [zpow_add₀ (by norm_num), hu]
    norm_num
    ring
  have e24 : (2 : ℚ) ^ (e + 24) = 16777216 * u := by
    rw [zpow_add₀ (by norm_num), hu]
    norm_num
    ring
  have hue : ulpExponent x = e :=
    ulpExponent_eq x e he (by rw [abs_of_pos hx, e23]; exact h1)
      (by rw [abs_of_pos hx, e24]; exact h2)
  unfold round
  rw [hue, hu, ← hv]
  congr 2
  refine roundHalfEven_tie _ n ?_ heven
  rcases h3 with h | h
  · left
    rw [div_eq_iff hp.ne']
    linarith
  · right
    rw [div_eq_iff hp.ne']
    linarith

theorem toInt_eq (x : ℚ) (k : Int) (h0 : 0 ≤ x) (h1 : (k : ℚ) ≤ x) (h2 : x < (k : ℚ) + 1)
    (h3 : k ≤ INT_MAX) : toInt x = k := by
  have hk : AvatarMixer.toInt x = k := by
    rw [toInt_eq_floor x h0, Int.floor_eq_iff]
    exact ⟨h1, h2⟩
  have hk0 : 0 ≤ k := by
    rw [← hk, toInt_eq_floor x h0]
    exact Int.floor_nonneg.mpr h0
  unfold toInt
  rw [hk, if_pos ⟨by unfold INT_MIN; omega, h3⟩]

theorem toInt_eq_floor_of_lt (x : ℚ) (h0 : 0 ≤ x) (h1 : x < 2147483648) : toInt x = ⌊x⌋ := by
  refine toInt_eq x ⌊x⌋ h0 (Int.floor_le x) (Int.lt_floor_add_one x) ?_
  have : ⌊x⌋ < 2147483648 := by
    rw [Int.floor_lt]
    exact_mod_cast h1
  unfold INT_MAX
  omega

theorem toInt_out_of_range (x : ℚ) (h : 2147483648 ≤ x) : toInt x = INT_MIN := by
  have h0 : 0 ≤ x := by linarith
  have hk : (2147483648 : Int) ≤ AvatarMixer.toInt x := by
    rw [toInt_eq_floor x h0, Int.le_floor]
    exact_mod_cast h
  unfold toInt
  rw [if_neg]
  rintro ⟨-, h2⟩
  unfold INT_MAX at h2
  omega

/-- The value of `round` at a positive argument `x`: `n * u`, when `u = 2 ^ e` is the unit in the
last place of the binade of `x` and `n * u` is the multiple of `u` nearest to `x`. -/
theorem round_pos (x u v : ℚ) (n e : Int)
    (h : -149 ≤ e ∧ (2 : ℚ) ^ e = u ∧ (n : ℚ) * u = v ∧ 8388608 * u ≤ x ∧ x < 16777216 * u
      ∧ (2 * (n : ℚ) - 1) * u < 2 * x ∧ 2 * x < (2 * (n : ℚ) + 1) * u) : round x = v :=
  round_eq_pos x u v n e h.1 h.2.1 h.2.2.1 h.2.2.2.1 h.2.2.2.2.1 h.2.2.2.2.2.1 h.2.2.2.2.2.2

/-- The value of `round` at a negative argument. -/
theorem round_negative (x u v : ℚ) (n e : Int)
    (h : -149 ≤ e ∧ (2 : ℚ) ^ e = u ∧ (n : ℚ) * u = v ∧ 8388608 * u ≤ -x ∧ -x < 16777216 * u
      ∧ (2 * (n : ℚ) - 1) * u < 2 * -x ∧ 2 * -x < (2 * (n : ℚ) + 1) * u) : round x = -v :=
  round_eq_neg x u v n e h.1 h.2.1 h.2.2.1 h.2.2.2.1 h.2.2.2.2.1 h.2.2.2.2.2.1 h.2.2.2.2.2.2

/-- The value of `round` at a positive argument half-way between two multiples of the unit in
the last place. -/
theorem round_tie (x u v : ℚ) (n e : Int)
    (h : -149 ≤ e ∧ (2 : ℚ) ^ e = u ∧ (n : ℚ) * u = v ∧ 8388608 * u ≤ x ∧ x < 16777216 * u
      ∧ (2 * x = (2 * (n : ℚ) - 1) * u ∨ 2 * x = (2 * (n : ℚ) + 1) * u) ∧ n % 2 = 0) :
    round x = v :=
  round_eq_pos_tie x u v n e h.1 h.2.1 h.2.2.1 h.2.2.2.1 h.2.2.2.2.1 h.2.2.2.2.2.1 h.2.2.2.2.2.2

theorem toInt_at (x : ℚ) (k : Int)
    (h : 0 ≤ x ∧ (k : ℚ) ≤ x ∧ x < (k : ℚ) + 1 ∧ k ≤ 2147483647) : toInt x = k :=
  toInt_eq x k h.1 h.2.1 h.2.2.1 h.2.2.2

end F32

/-! ## The constants of `throttle` in single precision -/

namespace F32

theorem round_one : round 1 = 1 :=
  round_pos _ (1 / 8388608) _ 8388608 (-23) (by norm_num)

theorem FRAME_TIME_val : FRAME_TIME = 22222 := by
  have h : Int.tdiv USECS_PER_SECOND AVATAR_MIXER_BROADCAST_FRAMES_PER_SECOND = 22222 := by decide
  unfold FRAME_TIME ofInt
  rw [h]
  exact round_pos _ (1 / 512) _ 11377664 (-9) (by norm_num)

theorem TARGET_val : TARGET = 7549747 / 8388608 :=
  round_pos _ (1 / 16777216) _ 15099494 (-24) (by norm_num)

theorem BACKOFF_TARGET_val : BACKOFF_TARGET = 7381975 / 16777216 :=
  round_pos _ (1 / 33554432) _ 14763950 (-25) (by norm_num)

theorem STRUGGLES_AT_val : STRUGGLES_AT = 150 :=
  round_pos _ (1 / 65536) _ 9830400 (-16) (by norm_num)

theorem ofInt_one : ofInt 1 = 1 :=
  round_pos _ (1 / 8388608) _ 8388608 (-23) (by norm_num)

theorem ofInt_two : ofInt 2 = 2 :=
  round_pos _ (1 / 4194304) _ 8388608 (-22) (by norm_num)

theorem ofInt_four : ofInt 4 = 4 :=
  round_pos _ (1 / 2097152) _ 8388608 (-21) (by norm_num)

theorem THROTTLE_RATE_val : THROTTLE_RATE = 7158279 / 536870912 := by
  unfold THROTTLE_RATE div
  rw [ofInt_two, STRUGGLES_AT_val]
  exact round_pos _ (1 / 1073741824) _ 14316558 (-30) (by norm_num)

theorem BACKOFF_RATE_val : BACKOFF_RATE = 7158279 / 2147483648 := by
  unfold BACKOFF_RATE div
  rw [ofInt_four, THROTTLE_RATE_val]
  exact round_pos _ (1 / 4294967296) _ 14316558 (-32) (by norm_num)

theorem TRAILING_FRAMES_val : TRAILING_FRAMES = 60 := by
  have h1 : ofInt (100 * RECOVERY_TIME) = 18000 := by
    have h0 : (100 * RECOVERY_TIME : Int) = 18000 := by decide
    rw [h0]
    exact round_pos _ (1 / 512) _ 9216000 (-9) (by norm_num)
  have h2 : mul 18000 (7158279 / 2147483648) = 60 :=
    round_pos _ (1 / 262144) _ 15728640 (-18) (by norm_num)
  unfold TRAILING_FRAMES
  rw [h1, BACKOFF_RATE_val, h2]
  exact toInt_at _ 60 (by norm_num)

theorem CURRENT_FRAME_RATIO_val : CURRENT_FRAME_RATIO = 8947849 / 536870912 := by
  have h1 : ofInt 60 = 60 :=
    round_pos _ (1 / 262144) _ 15728640 (-18) (by norm_num)
  unfold CURRENT_FRAME_RATIO div
  rw [TRAILING_FRAMES_val, h1]
  exact round_pos _ (1 / 536870912) _ 8947849 (-29) (by norm_num)

theorem PREVIOUS_FRAMES_RATIO_val : PREVIOUS_FRAMES_RATIO = 4124399 / 4194304 := by
  unfold PREVIOUS_FRAMES_RATIO sub
  rw [CURRENT_FRAME_RATIO_val]
  exact round_pos _ (1 / 16777216) _ 16497596 (-24) (by norm_num)

theorem round_tenth : round (1 / 10) = 13421773 / 134217728 :=
  round_pos _ (1 / 134217728) _ 13421773 (-27) (by norm_num)

theorem round_fifth : round (2 / 10) = 13421773 / 67108864 :=
  round_pos _ (1 / 67108864) _ 13421773 (-26) (by norm_num)

end F32

/-! ## The controller in single precision -/

theorem f32_tmod_iff (f : Int) : Int.tmod f F32.TRAILING_FRAMES = 0 ↔ f % 60 = 0 := by
  rw [F32.TRAILING_FRAMES_val]
  constructor
  · intro h
    exact Int.emod_eq_zero_of_dvd (Int.dvd_of_tmod_eq_zero h)
  · intro h
    exact Int.tmod_eq_zero_of_dvd (Int.dvd_of_emod_eq_zero h)

theorem f32_throttle_trailing (d f : Int) (s : ThrottleState) :
    (F32.throttle d f s).trailingMixRatio = F32.updatedTrailingMixRatio d s := by
  unfold F32.throttle F32.updatedTrailingMixRatio
  dsimp only
  split_ifs <;> rfl

theorem f32_throttle_off_frame (d f : Int) (s : ThrottleState)
    (hf : Int.tmod f F32.TRAILING_FRAMES ≠ 0) :
    (F32.throttle d f s).throttlingRatio = s.throttlingRatio := by
  unfold F32.throttle
  dsimp only
  rw [if_neg hf]

theorem f32_throttle_above (d f : Int) (s : ThrottleState)
    (hf : Int.tmod f F32.TRAILING_FRAMES = 0)
    (hr : F32.TARGET < F32.updatedTrailingMixRatio d s) :
    (F32.throttle d f s).throttlingRatio
      = min (F32.add s.throttlingRatio
          (F32.mul F32.THROTTLE_RATE
            (F32.ofInt (F32.toInt
              (F32.add 1 (F32.div (F32.sub (F32.updatedTrailingMixRatio d s) F32.TARGET)
                (F32.round (1 / 10)))))))) 1 := by
  unfold F32.throttle
  unfold F32.updatedTrailingMixRatio at hr ⊢
  dsimp only
  rw [if_pos hf, if_pos hr]

theorem f32_throttle_below (d f : Int) (s : ThrottleState)
    (hf : Int.tmod f F32.TRAILING_FRAMES = 0)
    (hr : F32.updatedTrailingMixRatio d s ≤ F32.BACKOFF_TARGET) (hpos : 0 < s.throttlingRatio) :
    (F32.throttle d f s).throttlingRatio
      = max (F32.sub s.throttlingRatio
          (F32.mul F32.BACKOFF_RATE
            (F32.ofInt (F32.toInt
              (F32.add 1 (F32.div (F32.sub F32.TARGET (F32.updatedTrailingMixRatio d s))
                (F32.round (2 / 10)))))))) 0 := by
  have hnot : ¬ F32.TARGET < F32.updatedTrailingMixRatio d s := by
    have : F32.BACKOFF_TARGET < F32.TARGET := by
      rw [F32.BACKOFF_TARGET_val, F32.TARGET_val]
      norm_num
    linarith
  unfold F32.throttle
  unfold F32.updatedTrailingMixRatio at hr hnot ⊢
  dsimp only
  rw [if_pos hf, if_neg hnot, if_pos ⟨hpos, hr⟩]

theorem f32_throttle_between (d f : Int) (s : ThrottleState)
    (hr : F32.updatedTrailingMixRatio d s ≤ F32.TARGET)
    (h : F32.BACKOFF_TARGET < F32.updatedTrailingMixRatio d s ∨ s.throttlingRatio ≤ 0) :
    (F32.throttle d f s).throttlingRatio = s.throttlingRatio := by
  have hnot : ¬ F32.TARGET < F32.updatedTrailingMixRatio d s := not_lt.mpr hr
  have hnot2 : ¬ (s.throttlingRatio > 0 ∧ F32.updatedTrailingMixRatio d s ≤ F32.BACKOFF_TARGET) := by
    rintro ⟨h1, h2⟩
    rcases h with h | h <;> linarith
  unfold F32.throttle
  unfold F32.updatedTrailingMixRatio at hnot hnot2
  dsimp only
  rw [if_neg hnot, if_neg hnot2]
  split_ifs <;> rfl

/-- The trailing mix ratio that `throttle` computes is a `float`. -/
theorem f32_updated_isFloat (d : Int) (s : ThrottleState) :
    F32.round (F32.updatedTrailingMixRatio d s) = F32.updatedTrailingMixRatio d s :=
  F32.round_idem _

theorem f32_updated_nonneg (d : Int) (s : ThrottleState) (hd : 0 ≤ d)
    (hs : 0 ≤ s.trailingMixRatio) : 0 ≤ F32.updatedTrailingMixRatio d s := by
  unfold F32.updatedTrailingMixRatio F32.add F32.mul F32.div F32.ofInt
  rw [F32.PREVIOUS_FRAMES_RATIO_val, F32.CURRENT_FRAME_RATIO_val, F32.FRAME_TIME_val]
  have hdq : (0 : ℚ) ≤ (d : ℚ) := by exact_mod_cast hd
  have h1 : 0 ≤ F32.round ((d : ℚ)) := F32.round_nonneg hdq
  have h2 : 0 ≤ F32.round (F32.round (d : ℚ) / 22222) :=
    F32.round_nonneg (div_nonneg h1 (by norm_num))
  have h3 : 0 ≤ F32.round (8947849 / 536870912 * F32.round (F32.round (d : ℚ) / 22222)) :=
    F32.round_nonneg (mul_nonneg (by norm_num) h2)
  have h4 : 0 ≤ F32.round (4124399 / 4194304 * s.trailingMixRatio) :=
    F32.round_nonneg (mul_nonneg (by norm_num) hs)
  exact F32.round_nonneg (add_nonneg h4 h3)

/-- No `float` lies above `0.9f` and at most at `0.9`: for a `float`, the comparison with the
real number `0.9` and the comparison with the constant `TARGET` of the code agree. -/
theorem f32_le_TARGET_iff (x : ℚ) (hx : F32.round x = x) : x ≤ 9 / 10 ↔ x ≤ F32.TARGET := by
  constructor
  · intro h
    have := F32.round_mono h
    rw [hx] at this
    exact this
  · intro h
    have : F32.TARGET < 9 / 10 := by
      rw [F32.TARGET_val]
      norm_num
    linarith

/-- For a `float`, the comparison with the real number `0.44` and the comparison with the constant
`BACKOFF_TARGET` of the code agree. -/
theorem f32_le_BACKOFF_TARGET_iff (x : ℚ) (hx : F32.round x = x) :
    x ≤ 44 / 100 ↔ x ≤ F32.BACKOFF_TARGET := by
  constructor
  · intro h
    have := F32.round_mono h
    rw [hx] at this
    exact this
  · intro h
    have : F32.BACKOFF_TARGET < 44 / 100 := by
      rw [F32.BACKOFF_TARGET_val]
      norm_num
    linarith

/-- The proportional term of the throttling branch, before its conversion to `int`, is at least
`1`. -/
theorem f32_up_term_ge (r : ℚ) (hr : F32.TARGET < r) :
    1 ≤ F32.add 1 (F32.div (F32.sub r F32.TARGET) (F32.round (1 / 10))) := by
  have h1 : 0 ≤ F32.sub r F32.TARGET := F32.round_nonneg (by linarith)
  have h2 : 0 ≤ F32.div (F32.sub r F32.TARGET) (F32.round (1 / 10)) := by
    rw [F32.round_tenth]
    exact F32.round_nonneg (div_nonneg h1 (by norm_num))
  have h3 := F32.round_mono (show (1 : ℚ) ≤ 1 + F32.div (F32.sub r F32.TARGET) (F32.round (1 / 10)) by
    linarith)
  rw [F32.round_one] at h3
  exact h3

/-- For a trailing mix ratio of at most `2e8` the proportional term of the throttling branch is
at most `2e9`, within the range of `int`. -/
theorem f32_up_term_le (r : ℚ) (hmax : r ≤ 200000000) :
    F32.add 1 (F32.div (F32.sub r F32.TARGET) (F32.round (1 / 10))) ≤ 2000000000 := by
  have hT : (0 : ℚ) ≤ F32.TARGET := by
    rw [F32.TARGET_val]
    norm_num
  have e1 : F32.round 200000000 = 200000000 :=
    F32.round_pos _ (16) _ 12500000 (4) (by norm_num)
  have e2 : F32.round (200000000 / (13421773 / 134217728)) = 2000000000 :=
    F32.round_pos _ (128) _ 15625000 (7) (by norm_num)
  have e3 : F32.round (1 + 2000000000) = 2000000000 :=
    F32.round_pos _ (128) _ 15625000 (7) (by norm_num)
  have h1 : F32.sub r F32.TARGET ≤ 200000000 := by
    have := F32.round_mono (show r - F32.TARGET ≤ 200000000 by linarith)
    rw [e1] at this
    exact this
  have h2 : F32.div (F32.sub r F32.TARGET) (F32.round (1 / 10)) ≤ 2000000000 := by
    rw [F32.round_tenth]
    have := F32.round_mono (show F32.sub r F32.TARGET / (13421773 / 134217728)
        ≤ 200000000 / (13421773 / 134217728) from
      div_le_div_of_nonneg_right h1 (by norm_num))
    rw [e2] at this
    exact this
  have h3 := F32.round_mono (show 1 + F32.div (F32.sub r F32.TARGET) (F32.round (1 / 10))
      ≤ 1 + 2000000000 by linarith)
  rw [e3] at h3
  exact h3

/-- In the throttling branch, for a trailing mix ratio of at most `2e8`, the proportional term
is the integer part of its single-precision value, and at least `1`. -/
theorem f32_up_term_toInt (r : ℚ) (hr : F32.TARGET < r) (hmax : r ≤ 200000000) :
    F32.toInt (F32.add 1 (F32.div (F32.sub r F32.TARGET) (F32.round (1 / 10))))
        = ⌊F32.add 1 (F32.div (F32.sub r F32.TARGET) (F32.round (1 / 10)))⌋
      ∧ 1 ≤ ⌊F32.add 1 (F32.div (F32.sub r F32.TARGET) (F32.round (1 / 10)))⌋ := by
  have h1 := f32_up_term_ge r hr
  have h2 := f32_up_term_le r hmax
  refine ⟨F32.toInt_eq_floor_of_lt _ (by linarith) (by linarith), ?_⟩
  rw [Int.le_floor]
  exact_mod_cast h1

/-- The proportional term of the back-off branch, before its conversion to `int`, lies between
`3` and `5.5` when the trailing mix ratio lies between `0` and `0.44f`. -/
theorem f32_down_term_bounds (r : ℚ) (h0 : 0 ≤ r) (hr : r ≤ F32.BACKOFF_TARGET) :
    3 ≤ F32.add 1 (F32.div (F32.sub F32.TARGET r) (F32.round (2 / 10)))
      ∧ F32.add 1 (F32.div (F32.sub F32.TARGET r) (F32.round (2 / 10))) ≤ 11 / 2 := by
  have e3 : F32.round (7549747 / 8388608 - 7381975 / 16777216) = 7717519 / 16777216 :=
    F32.round_pos _ (1 / 33554432) _ 15435038 (-25) (by norm_num)
  have e4 : F32.round (7717519 / 16777216 / (13421773 / 67108864)) = 9646899 / 4194304 :=
    F32.round_pos _ (1 / 4194304) _ 9646899 (-22) (by norm_num)
  have e5 : F32.round (1 + 9646899 / 4194304) = 13841203 / 4194304 :=
    F32.round_pos _ (1 / 4194304) _ 13841203 (-22) (by norm_num)
  have e6 : F32.round (7549747 / 8388608) = 7549747 / 8388608 :=
    F32.round_pos _ (1 / 16777216) _ 15099494 (-24) (by norm_num)
  have e7 : F32.round (7549747 / 8388608 / (13421773 / 67108864)) = 9 / 2 :=
    F32.round_pos _ (1 / 2097152) _ 9437184 (-21) (by norm_num)
  have e8 : F32.round (1 + 9 / 2) = 11 / 2 :=
    F32.round_pos _ (1 / 2097152) _ 11534336 (-21) (by norm_num)
  rw [F32.BACKOFF_TARGET_val] at hr
  rw [F32.round_fifth, F32.TARGET_val]
  have l1 : 7717519 / 16777216 ≤ F32.sub (7549747 / 8388608) r := by
    have := F32.round_mono (show 7549747 / 8388608 - 7381975 / 16777216 ≤ 7549747 / 8388608 - r by linarith)
    rw [e3] at this
    exact this
  have u1 : F32.sub (7549747 / 8388608) r ≤ 7549747 / 8388608 := by
    have := F32.round_mono (show 7549747 / 8388608 - r ≤ 7549747 / 8388608 by linarith)
    rw [e6] at this
    exact this
  have l2 : 9646899 / 4194304 ≤ F32.div (F32.sub (7549747 / 8388608) r) (13421773 / 67108864) := by
    have := F32.round_mono (show 7717519 / 16777216 / (13421773 / 67108864)
        ≤ F32.sub (7549747 / 8388608) r / (13421773 / 67108864) from
      div_le_div_of_nonneg_right l1 (by norm_num))
    rw [e4] at this
    exact this
  have u2 : F32.div (F32.sub (7549747 / 8388608) r) (13421773 / 67108864) ≤ 9 / 2 := by
    have := F32.round_mono (show F32.sub (7549747 / 8388608) r / (13421773 / 67108864)
        ≤ 7549747 / 8388608 / (13421773 / 67108864) from
      div_le_div_of_nonneg_right u1 (by norm_num))
    rw [e7] at this
    exact this
  constructor
  · have := F32.round_mono (show 1 + 9646899 / 4194304
        ≤ 1 + F32.div (F32.sub (7549747 / 8388608) r) (13421773 / 67108864) by linarith)
    rw [e5] at this
    have h3 : (3 : ℚ) ≤ 13841203 / 4194304 := by norm_num
    exact le_trans h3 this
  · have := F32.round_mono (show 1 + F32.div (F32.sub (7549747 / 8388608) r) (13421773 / 67108864)
        ≤ 1 + 9 / 2 by linarith)
    rw [e8] at this
    exact this

/-- In the back-off branch, for a trailing mix ratio between `0` and `0.44f`, the proportional
term is the integer part of its single-precision value: `3`, `4` or `5`. -/
theorem f32_down_term_toInt (r : ℚ) (h0 : 0 ≤ r) (hr : r ≤ F32.BACKOFF_TARGET) :
    F32.toInt (F32.add 1 (F32.div (F32.sub F32.TARGET r) (F32.round (2 / 10))))
        = ⌊F32.add 1 (F32.div (F32.sub F32.TARGET r) (F32.round (2 / 10)))⌋
      ∧ 3 ≤ ⌊F32.add 1 (F32.div (F32.sub F32.TARGET r) (F32.round (2 / 10)))⌋
      ∧ ⌊F32.add 1 (F32.div (F32.sub F32.TARGET r) (F32.round (2 / 10)))⌋ ≤ 5 := by
  obtain ⟨h1, h2⟩ := f32_down_term_bounds r h0 hr
  refine ⟨F32.toInt_eq_floor_of_lt _ (by linarith) (by linarith), ?_, ?_⟩
  · rw [Int.le_floor]
    exact_mod_cast h1
  · have : ⌊F32.add 1 (F32.div (F32.sub F32.TARGET r) (F32.round (2 / 10)))⌋ < 6 := by
      rw [Int.floor_lt]
      push_cast
      linarith
    omega

/-! ## The branches of the controller in single precision -/

/-- A step count that is not negative gives an increment that is not negative. -/
theorem f32_step_nonneg (c : ℚ) (k : Int) (hc : 0 ≤ c) (hk : 0 ≤ k) :
    0 ≤ F32.mul c (F32.ofInt k) := by
  have hkq : (0 : ℚ) ≤ (k : ℚ) := by exact_mod_cast hk
  exact F32.round_nonneg (mul_nonneg hc (F32.round_nonneg hkq))

/-- A step count of at least one gives an increment of at least the rate, when the rate is a
`float`. -/
theorem f32_step_ge (c : ℚ) (k : Int) (hc : F32.round c = c) (hc0 : 0 ≤ c) (hk : 1 ≤ k) :
    c ≤ F32.mul c (F32.ofInt k) := by
  have hkq : (1 : ℚ) ≤ (k : ℚ) := by exact_mod_cast hk
  have h1 : (1 : ℚ) ≤ F32.ofInt k := by
    have := F32.round_mono hkq
    rw [F32.round_one] at this
    exact this
  have h2 : c ≤ c * F32.ofInt k := by nlinarith
  have h3 := F32.round_mono h2
  rw [hc] at h3
  exact h3

theorem f32_THROTTLE_RATE_isFloat : F32.round F32.THROTTLE_RATE = F32.THROTTLE_RATE :=
  F32.round_idem _

theorem f32_BACKOFF_RATE_isFloat : F32.round F32.BACKOFF_RATE = F32.BACKOFF_RATE :=
  F32.round_idem _

/-- The throttling ratio that `throttle` leaves is a `float` when the old one is. -/
theorem f32_throttle_ratio_isFloat (d f : Int) (s : ThrottleState)
    (hfl : F32.round s.throttlingRatio = s.throttlingRatio) :
    F32.round (F32.throttle d f s).throttlingRatio = (F32.throttle d f s).throttlingRatio := by
  have hmin : ∀ x : ℚ, F32.round (min (F32.round x) 1) = min (F32.round x) 1 := by
    intro x
    rcases le_total (F32.round x) 1 with h | h
    · rw [min_eq_left h]
      exact F32.round_idem x
    · rw [min_eq_right h]
      exact F32.round_one
  have hmax : ∀ x : ℚ, F32.round (max (F32.round x) 0) = max (F32.round x) 0 := by
    intro x
    rcases le_total (F32.round x) 0 with h | h
    · rw [max_eq_right h]
      exact F32.round_zero
    · rw [max_eq_left h]
      exact F32.round_idem x
  unfold F32.throttle
  dsimp only
  split_ifs
  · exact hmin _
  · exact hmax _
  · exact hfl
  · exact hfl

/-- In the range of `int` of the proportional term, `throttle` keeps the throttling ratio in
`[0, 1]`: for a duration and a trailing mix ratio that are not negative, and an updated trailing
mix ratio of at most `2e8`. -/
theorem f32_throttle_ratio_bounds (duration frame : Int) (s : ThrottleState)
    (hd : 0 ≤ duration) (hs : 0 ≤ s.trailingMixRatio)
    (h0 : 0 ≤ s.throttlingRatio) (h1 : s.throttlingRatio ≤ 1)
    (hmax : F32.updatedTrailingMixRatio duration s ≤ 200000000) :
    0 ≤ (F32.throttle duration frame s).throttlingRatio
      ∧ (F32.throttle duration frame s).throttlingRatio ≤ 1 := by
  have hT : (0 : ℚ) ≤ F32.THROTTLE_RATE := by
    rw [F32.THROTTLE_RATE_val]
    norm_num
  have hB : (0 : ℚ) ≤ F32.BACKOFF_RATE := by
    rw [F32.BACKOFF_RATE_val]
    norm_num
  by_cases hf : Int.tmod frame F32.TRAILING_FRAMES = 0
  · by_cases hr : F32.TARGET < F32.updatedTrailingMixRatio duration s
    · rw [f32_throttle_above duration frame s hf hr]
      obtain ⟨e1, e2⟩ := f32_up_term_toInt _ hr hmax
      rw [e1]
      have hinc := f32_step_nonneg F32.THROTTLE_RATE _ hT (le_trans (by norm_num) e2)
      exact ⟨le_min (F32.round_nonneg (add_nonneg h0 hinc)) (by norm_num), min_le_right _ _⟩
    · by_cases hb : 0 < s.throttlingRatio ∧ F32.updatedTrailingMixRatio duration s ≤ F32.BACKOFF_TARGET
      · rw [f32_throttle_below duration frame s hf hb.2 hb.1]
        obtain ⟨e1, e2, -⟩ := f32_down_term_toInt _ (f32_updated_nonneg duration s hd hs) hb.2
        rw [e1]
        have hdec := f32_step_nonneg F32.BACKOFF_RATE _ hB (le_trans (by norm_num) e2)
        refine ⟨le_max_right _ _, max_le ?_ (by norm_num)⟩
        have := F32.round_mono (show s.throttlingRatio
            - F32.mul F32.BACKOFF_RATE (F32.ofInt ⌊F32.add 1 (F32.div (F32.sub F32.TARGET (F32.updatedTrailingMixRatio duration s)) (F32.round (2 / 10)))⌋) ≤ 1 by linarith)
        rw [F32.round_one] at this
        exact this
      · rw [f32_throttle_between duration frame s (not_lt.mp hr) (by
          by_cases hc : F32.updatedTrailingMixRatio duration s ≤ F32.BACKOFF_TARGET
          · right
            by_contra hcon
            exact hb ⟨not_le.mp hcon, hc⟩
          · left
            exact not_le.mp hc)]
        exact ⟨h0, h1⟩
  · rw [f32_throttle_off_frame duration frame s hf]
    exact ⟨h0, h1⟩

/-- A frame of at most `10 ^ 12` microseconds keeps a trailing mix ratio of at most `2 ^ 26`
below this bound. -/
theorem f32_updated_le (duration : Int) (s : ThrottleState)
    (hd : duration ≤ 1000000000000) (hs : s.trailingMixRatio ≤ 67108864) :
    F32.updatedTrailingMixRatio duration s ≤ 67108864 := by
  have ea : F32.round 1000000000000 = 999999995904 :=
    F32.round_pos _ (65536) _ 15258789 (16) (by norm_num)
  have eb : F32.round (999999995904 / 22222) = 45000448 :=
    F32.round_pos _ (4) _ 11250112 (2) (by norm_num)
  have ec : F32.round (8947849 / 536870912 * 45000448) = 1500015 / 2 :=
    F32.round_pos _ (1 / 16) _ 12000120 (-4) (by norm_num)
  have ed : F32.round (4124399 / 4194304 * 67108864) = 65990384 :=
    F32.round_pos _ (4) _ 16497596 (2) (by norm_num)
  have ee : F32.round (65990384 + 1500015 / 2) = 66740392 :=
    F32.round_pos _ (4) _ 16685098 (2) (by norm_num)
  unfold F32.updatedTrailingMixRatio F32.add F32.mul F32.div F32.ofInt
  rw [F32.PREVIOUS_FRAMES_RATIO_val, F32.CURRENT_FRAME_RATIO_val, F32.FRAME_TIME_val]
  have hdq : (duration : ℚ) ≤ 1000000000000 := by exact_mod_cast hd
  have h1 : F32.round (duration : ℚ) ≤ 999999995904 := by
    have := F32.round_mono hdq
    rw [ea] at this
    exact this
  have h2 : F32.round (F32.round (duration : ℚ) / 22222) ≤ 45000448 := by
    have := F32.round_mono (show F32.round (duration : ℚ) / 22222 ≤ 999999995904 / 22222 from
      div_le_div_of_nonneg_right h1 (by norm_num))
    rw [eb] at this
    exact this
  have h3 : F32.round (8947849 / 536870912 * F32.round (F32.round (duration : ℚ) / 22222))
      ≤ 1500015 / 2 := by
    have := F32.round_mono (show 8947849 / 536870912 * F32.round (F32.round (duration : ℚ) / 22222)
        ≤ 8947849 / 536870912 * 45000448 from
      mul_le_mul_of_nonneg_left h2 (by norm_num))
    rw [ec] at this
    exact this
  have h4 : F32.round (4124399 / 4194304 * s.trailingMixRatio) ≤ 65990384 := by
    have := F32.round_mono (show 4124399 / 4194304 * s.trailingMixRatio
        ≤ 4124399 / 4194304 * 67108864 from
      mul_le_mul_of_nonneg_left hs (by norm_num))
    rw [ed] at this
    exact this
  have h5 := F32.round_mono (show F32.round (4124399 / 4194304 * s.trailingMixRatio)
        + F32.round (8947849 / 536870912 * F32.round (F32.round (duration : ℚ) / 22222))
      ≤ 65990384 + 1500015 / 2 by linarith)
  rw [ee] at h5
  have h6 : (66740392 : ℚ) ≤ 67108864 := by norm_num
  exact le_trans h5 h6

/-- Along every run of `throttle` calls whose durations lie between `0` and `10 ^ 12`
microseconds, started with ratios in range, the trailing mix ratio stays in `[0, 2 ^ 26]` and the
throttling ratio in `[0, 1]`. -/
theorem f32_throttleRun_bounds (calls : List (Int × Int)) (s : ThrottleState)
    (hcalls : ∀ c ∈ calls, 0 ≤ c.1 ∧ c.1 ≤ 1000000000000)
    (hs0 : 0 ≤ s.trailingMixRatio) (hs : s.trailingMixRatio ≤ 67108864)
    (h0 : 0 ≤ s.throttlingRatio) (h1 : s.throttlingRatio ≤ 1) :
    (0 ≤ (F32.throttleRun s calls).trailingMixRatio
        ∧ (F32.throttleRun s calls).trailingMixRatio ≤ 67108864)
      ∧ 0 ≤ (F32.throttleRun s calls).throttlingRatio
      ∧ (F32.throttleRun s calls).throttlingRatio ≤ 1 := by
  induction calls generalizing s with
  | nil => exact ⟨⟨hs0, hs⟩, h0, h1⟩
  | cons c cs ih =>
    have hc := hcalls c (List.mem_cons_self _ _)
    have hup := f32_updated_le c.1 s hc.2 hs
    have hnn := f32_updated_nonneg c.1 s hc.1 hs0
    have hb := f32_throttle_ratio_bounds c.1 c.2 s hc.1 hs0 h0 h1 (le_trans hup (by norm_num))
    have ht := f32_throttle_trailing c.1 c.2 s
    rw [← ht] at hup hnn
    exact ih (F32.throttle c.1 c.2 s) (fun x hx => hcalls x (List.mem_cons_of_mem _ hx))
      hnn hup hb.1 hb.2

/-- On an evaluation frame whose updated trailing mix ratio is above `TARGET` and at most `2e8`,
the throttling ratio rises by at least `THROTTLE_RATE - 2 ^ (-24)`, or reaches `1`. -/
theorem f32_up_step (d f : Int) (s : ThrottleState) (hf : Int.tmod f F32.TRAILING_FRAMES = 0)
    (hr : F32.TARGET < F32.updatedTrailingMixRatio d s)
    (hmax : F32.updatedTrailingMixRatio d s ≤ 200000000) (h0 : 0 ≤ s.throttlingRatio) :
    min (s.throttlingRatio + 7158247 / 536870912) 1 ≤ (F32.throttle d f s).throttlingRatio := by
  have hT : (0 : ℚ) ≤ F32.THROTTLE_RATE := by
    rw [F32.THROTTLE_RATE_val]
    norm_num
  rw [f32_throttle_above d f s hf hr]
  obtain ⟨e1, e2⟩ := f32_up_term_toInt _ hr hmax
  rw [e1]
  have hinc := f32_step_ge F32.THROTTLE_RATE _ f32_THROTTLE_RATE_isFloat hT e2
  generalize F32.mul F32.THROTTLE_RATE
      (F32.ofInt ⌊F32.add 1 (F32.div (F32.sub (F32.updatedTrailingMixRatio d s) F32.TARGET) (F32.round (1 / 10)))⌋) = inc at hinc ⊢
  rw [F32.THROTTLE_RATE_val] at hinc
  rcases le_or_lt 1 (s.throttlingRatio + inc) with hge | hlt
  · have h : 1 ≤ F32.add s.throttlingRatio inc := by
      have h := F32.round_mono hge
      rw [F32.round_one] at h
      exact h
    rw [min_eq_right h]
    exact min_le_right _ _
  · have hb : |F32.add s.throttlingRatio inc - (s.throttlingRatio + inc)| ≤ 1 / 16777216 :=
      F32.round_sub_le_of_lt_two _ (by
        rw [abs_lt]
        constructor <;> linarith)
    rw [abs_le] at hb
    refine min_le_min ?_ le_rfl
    linarith [hb.1]

/-- On an evaluation frame of the back-off branch the throttling ratio does not rise. -/
theorem f32_down_step (d f : Int) (s : ThrottleState) (hf : Int.tmod f F32.TRAILING_FRAMES = 0)
    (hr : F32.updatedTrailingMixRatio d s ≤ F32.BACKOFF_TARGET)
    (h0 : 0 ≤ F32.updatedTrailingMixRatio d s)
    (hpos : 0 < s.throttlingRatio) (h1 : s.throttlingRatio ≤ 1) :
    (F32.throttle d f s).throttlingRatio ≤ s.throttlingRatio := by
  have hB : (0 : ℚ) ≤ F32.BACKOFF_RATE := by
    rw [F32.BACKOFF_RATE_val]
    norm_num
  have e5 : F32.round 5 = 5 :=
    F32.round_pos _ (1 / 2097152) _ 10485760 (-21) (by norm_num)
  have e6 : F32.round (7158279 / 2147483648 * 5) = 8947849 / 536870912 :=
    F32.round_pos _ (1 / 536870912) _ 8947849 (-29) (by norm_num)
  rw [f32_throttle_below d f s hf hr hpos]
  obtain ⟨e1, e2, e3⟩ := f32_down_term_toInt _ h0 hr
  rw [e1]
  have hdec := f32_step_ge F32.BACKOFF_RATE _ f32_BACKOFF_RATE_isFloat hB (le_trans (by norm_num) e2)
  have hk5 : F32.ofInt ⌊F32.add 1 (F32.div (F32.sub F32.TARGET (F32.updatedTrailingMixRatio d s)) (F32.round (2 / 10)))⌋ ≤ 5 := by
    have hq : ((⌊F32.add 1 (F32.div (F32.sub F32.TARGET (F32.updatedTrailingMixRatio d s)) (F32.round (2 / 10)))⌋ : Int) : ℚ) ≤ 5 := by
      exact_mod_cast e3
    have := F32.round_mono hq
    rw [e5] at this
    exact this
  have hup : F32.mul F32.BACKOFF_RATE
      (F32.ofInt ⌊F32.add 1 (F32.div (F32.sub F32.TARGET (F32.updatedTrailingMixRatio d s)) (F32.round (2 / 10)))⌋) ≤ 8947849 / 536870912 := by
    rw [F32.BACKOFF_RATE_val]
    have := F32.round_mono (show 7158279 / 2147483648
        * F32.ofInt ⌊F32.add 1 (F32.div (F32.sub F32.TARGET (F32.updatedTrailingMixRatio d s)) (F32.round (2 / 10)))⌋
        ≤ 7158279 / 2147483648 * 5 from mul_le_mul_of_nonneg_left hk5 (by norm_num))
    rw [e6] at this
    exact this
  generalize F32.mul F32.BACKOFF_RATE
      (F32.ofInt ⌊F32.add 1 (F32.div (F32.sub F32.TARGET (F32.updatedTrailingMixRatio d s)) (F32.round (2 / 10)))⌋) = dec at hdec hup ⊢
  rw [F32.BACKOFF_RATE_val] at hdec
  have hb : |F32.sub s.throttlingRatio dec - (s.throttlingRatio - dec)| ≤ 1 / 16777216 :=
    F32.round_sub_le_of_lt_two _ (by
      rw [abs_lt]
      constructor <;> linarith)
  rw [abs_le] at hb
  refine max_le ?_ hpos.le
  linarith [hb.2]

theorem f32_throttleTrace_head (s : ThrottleState) (calls : List (Int × Int)) :
    (F32.throttleTrace s calls).head? = some s.throttlingRatio := by
  cases calls <;> rfl

theorem f32_overloaded_step_le (c : Int × Int) (s : ThrottleState)
    (h0 : 0 ≤ s.throttlingRatio) (h1 : s.throttlingRatio ≤ 1)
    (hov : Int.tmod c.2 F32.TRAILING_FRAMES = 0 →
      F32.TARGET < (F32.throttle c.1 c.2 s).trailingMixRatio
        ∧ (F32.throttle c.1 c.2 s).trailingMixRatio ≤ 200000000) :
    s.throttlingRatio ≤ (F32.throttle c.1 c.2 s).throttlingRatio := by
  by_cases hf : Int.tmod c.2 F32.TRAILING_FRAMES = 0
  · have hr := hov hf
    rw [f32_throttle_trailing] at hr
    have h := f32_up_step c.1 c.2 s hf hr.1 hr.2 h0
    have : s.throttlingRatio ≤ min (s.throttlingRatio + 7158247 / 536870912) 1 :=
      le_min (by linarith) h1
    linarith
  · rw [f32_throttle_off_frame _ _ _ hf]

/-- An overloaded call keeps the throttling ratio in `[0, 1]`. -/
theorem f32_overloaded_step_bounds (c : Int × Int) (s : ThrottleState)
    (h0 : 0 ≤ s.throttlingRatio) (h1 : s.throttlingRatio ≤ 1)
    (hov : Int.tmod c.2 F32.TRAILING_FRAMES = 0 →
      F32.TARGET < (F32.throttle c.1 c.2 s).trailingMixRatio
        ∧ (F32.throttle c.1 c.2 s).trailingMixRatio ≤ 200000000) :
    0 ≤ (F32.throttle c.1 c.2 s).throttlingRatio
      ∧ (F32.throttle c.1 c.2 s).throttlingRatio ≤ 1 := by
  refine ⟨le_trans h0 (f32_overloaded_step_le c s h0 h1 hov), ?_⟩
  by_cases hf : Int.tmod c.2 F32.TRAILING_FRAMES = 0
  · have hr := hov hf
    rw [f32_throttle_trailing] at hr
    rw [f32_throttle_above c.1 c.2 s hf hr.1]
    exact min_le_right _ _
  · rw [f32_throttle_off_frame _ _ _ hf]
    exact h1

theorem f32_overloaded_trace_chain (calls : List (Int × Int)) (s : ThrottleState)
    (h0 : 0 ≤ s.throttlingRatio) (h1 : s.throttlingRatio ≤ 1)
    (hov : F32.Overloaded 200000000 s calls) :
    List.Chain' (fun a b : ℚ => a ≤ b) (F32.throttleTrace s calls) := by
  induction calls generalizing s with
  | nil => simp [F32.throttleTrace]
  | cons c cs ih =>
    have hb := f32_overloaded_step_bounds c s h0 h1 hov.1
    rw [F32.throttleTrace, List.chain'_cons']
    refine ⟨?_, ih _ hb.1 hb.2 hov.2⟩
    intro y hy
    rw [f32_throttleTrace_head] at hy
    cases hy
    exact f32_overloaded_step_le c s h0 h1 hov.1

theorem f32_overloaded_run_lower (calls : List (Int × Int)) (s : ThrottleState)
    (h0 : 0 ≤ s.throttlingRatio) (h1 : s.throttlingRatio ≤ 1)
    (hov : F32.Overloaded 200000000 s calls) :
    min (s.throttlingRatio + (F32.evaluations calls : ℚ) * (7158247 / 536870912)) 1
      ≤ (F32.throttleRun s calls).throttlingRatio := by
  induction calls generalizing s with
  | nil => simp [F32.evaluations, F32.throttleRun, h1]
  | cons c cs ih =>
    have hb := f32_overloaded_step_bounds c s h0 h1 hov.1
    have hrec := ih _ hb.1 hb.2 hov.2
    have he : (0 : ℚ) ≤ (F32.evaluations cs : ℚ) * (7158247 / 536870912) :=
      mul_nonneg (Nat.cast_nonneg _) (by norm_num)
    rw [F32.throttleRun]
    refine le_trans ?_ hrec
    by_cases hf : Int.tmod c.2 F32.TRAILING_FRAMES = 0
    · have hr := hov.1 hf
      rw [f32_throttle_trailing] at hr
      have h := f32_up_step c.1 c.2 s hf hr.1 hr.2 h0
      have hev : F32.evaluations (c :: cs) = F32.evaluations cs + 1 := by
        simp [F32.evaluations, List.countP_cons, hf]
      rw [hev]
      push_cast
      refine le_min ?_ (min_le_right _ _)
      rcases le_total (s.throttlingRatio + 7158247 / 536870912) 1 with hle | hle
      · rw [min_eq_left hle] at h
        calc min (s.throttlingRatio + ((F32.evaluations cs : ℚ) + 1) * (7158247 / 536870912)) 1
            ≤ s.throttlingRatio + ((F32.evaluations cs : ℚ) + 1) * (7158247 / 536870912) :=
              min_le_left _ _
          _ ≤ (F32.throttle c.1 c.2 s).throttlingRatio
                + (F32.evaluations cs : ℚ) * (7158247 / 536870912) := by linarith
      · rw [min_eq_right hle] at h
        calc min (s.throttlingRatio + ((F32.evaluations cs : ℚ) + 1) * (7158247 / 536870912)) 1
            ≤ 1 := min_le_right _ _
          _ ≤ (F32.throttle c.1 c.2 s).throttlingRatio
                + (F32.evaluations cs : ℚ) * (7158247 / 536870912) := by linarith
    · have hev : F32.evaluations (c :: cs) = F32.evaluations cs := by
        simp [F32.evaluations, List.countP_cons, hf]
      rw [hev, f32_throttle_off_frame _ _ _ hf]

theorem f32_overloaded_run_le_one (calls : List (Int × Int)) (s : ThrottleState)
    (h0 : 0 ≤ s.throttlingRatio) (h1 : s.throttlingRatio ≤ 1)
    (hov : F32.Overloaded 200000000 s calls) :
    (F32.throttleRun s calls).throttlingRatio ≤ 1 := by
  induction calls generalizing s with
  | nil => exact h1
  | cons c cs ih =>
    have hb := f32_overloaded_step_bounds c s h0 h1 hov.1
    exact ih _ hb.1 hb.2 hov.2

/-! ## Throttling controller: frames between two evaluations -/

/-- C9: the trailing window is `TRAILING_FRAMES = 60` frames, the exact value of
`100 * 180 * ((2/150)/4)`; on a frame whose number is not a multiple of 60 `throttle` leaves
`throttlingRatio` unchanged, for every duration; so two frames on which the ratio changes lie
at least 60 frames apart.  The same holds in single precision: there too the window is 60 frames
(`18000 * BACKOFF_RATE` rounds to `60.0`) and the ratio is unchanged off the evaluation frames. -/
theorem throttle_changes_only_every_T_frames (duration frame : Int) (s : ThrottleState)
    (hf : frame % 60 ≠ 0) :
    TRAILING_FRAMES = 60
      ∧ (100 * 180 * ((2 / 150) / 4) : ℚ) = 60
      ∧ (throttle duration frame s).throttlingRatio = s.throttlingRatio
      ∧ (∀ (d₁ f₁ d₂ f₂ : Int) (s₁ s₂ : ThrottleState), f₁ < f₂ →
          (throttle d₁ f₁ s₁).throttlingRatio ≠ s₁.throttlingRatio →
          (throttle d₂ f₂ s₂).throttlingRatio ≠ s₂.throttlingRatio → 60 ≤ f₂ - f₁)
      ∧ F32.TRAILING_FRAMES = 60
      ∧ (F32.throttle duration frame s).throttlingRatio = s.throttlingRatio
      ∧ ∀ (d₁ f₁ d₂ f₂ : Int) (s₁ s₂ : ThrottleState), f₁ < f₂ →
          (F32.throttle d₁ f₁ s₁).throttlingRatio ≠ s₁.throttlingRatio →
          (F32.throttle d₂ f₂ s₂).throttlingRatio ≠ s₂.throttlingRatio → 60 ≤ f₂ - f₁ := by
  refine ⟨TRAILING_FRAMES_eq, by norm_num, ?_, ?_, F32.TRAILING_FRAMES_val, ?_, ?_⟩
  · exact throttle_skip _ _ _ (fun h => hf ((tmod_TRAILING_FRAMES_eq_zero_iff frame).mp h))
  · intro d₁ f₁ d₂ f₂ s₁ s₂ hlt h₁ h₂
    have e₁ : f₁ % 60 = 0 := by
      by_contra hne
      exact h₁ (throttle_skip _ _ _ (fun h => hne ((tmod_TRAILING_FRAMES_eq_zero_iff f₁).mp h)))
    have e₂ : f₂ % 60 = 0 := by
      by_contra hne
      exact h₂ (throttle_skip _ _ _ (fun h => hne ((tmod_TRAILING_FRAMES_eq_zero_iff f₂).mp h)))
    omega
  · exact f32_throttle_off_frame _ _ _ (fun h => hf ((f32_tmod_iff frame).mp h))
  · intro d₁ f₁ d₂ f₂ s₁ s₂ hlt h₁ h₂
    have e₁ : f₁ % 60 = 0 := by
      by_contra hne
      exact h₁ (f32_throttle_off_frame _ _ _ (fun h => hne ((f32_tmod_iff f₁).mp h)))
    have e₂ : f₂ % 60 = 0 := by
      by_contra hne
      exact h₂ (f32_throttle_off_frame _ _ _ (fun h => hne ((f32_tmod_iff f₂).mp h)))
    omega

/-- Witness of C9: frame 61 is not a multiple of 60, so an overlong frame changes nothing. -/
theorem throttle_changes_only_every_T_frames_witness :
    (61 : Int) % 60 ≠ 0
      ∧ (throttle 5000000 61 ⟨2, 1 / 2⟩).throttlingRatio = (⟨2, 1 / 2⟩ : ThrottleState).throttlingRatio
      ∧ (F32.throttle 5000000 61 ⟨2, 1 / 2⟩).throttlingRatio
          = (⟨2, 1 / 2⟩ : ThrottleState).throttlingRatio :=
  have hf : (61 : Int) % 60 ≠ 0 := by decide
  ⟨hf, (throttle_changes_only_every_T_frames 5000000 61 ⟨2, 1 / 2⟩ hf).2.2.1,
    (throttle_changes_only_every_T_frames 5000000 61 ⟨2, 1 / 2⟩ hf).2.2.2.2.2.1⟩

/-! ## Throttling controller, single precision: the two branches -/

/-- C6, as stated, fails.  On evaluation frame 60 from the state `(0, 0)` with a frame of
1266654 µs the updated trailing mix ratio is the `float` nearest to `0.95`; the code adds one
step, `THROTTLE_RATE * 1`, because the proportional term `1.5` is stored in an `int` (l.388),
while the formula of the claim gives `0.02`.  From the state `(3, 0)` with a frame of 66666 µs
the updated trailing mix ratio is `3.0`, where the term of the claim is the integer `22`; in
single precision the term is a little less than `22` and the code adds `21` steps. -/
theorem throttle_up_untruncated_counterexample :
    Int.tmod 60 F32.TRAILING_FRAMES = 0
      ∧ (F32.throttle 1266654 60 ⟨0, 0⟩).trailingMixRatio = 3984589 / 4194304
      ∧ F32.toInt (F32.add 1 (F32.div (F32.sub (F32.throttle 1266654 60 ⟨0, 0⟩).trailingMixRatio F32.TARGET) (F32.round (1 / 10)))) = 1
      ∧ (F32.throttle 1266654 60 ⟨0, 0⟩).throttlingRatio = 7158279 / 536870912
      ∧ min (1 : ℚ) (0 + (2 / 150)
            * (1 + ((F32.throttle 1266654 60 ⟨0, 0⟩).trailingMixRatio - 9 / 10) / (1 / 10)))
          = 3145729 / 157286400
      ∧ (F32.throttle 1266654 60 ⟨0, 0⟩).throttlingRatio + 1 / 200
          < min (1 : ℚ) (0 + (2 / 150)
            * (1 + ((F32.throttle 1266654 60 ⟨0, 0⟩).trailingMixRatio - 9 / 10) / (1 / 10)))
      ∧ (F32.throttle 66666 60 ⟨3, 0⟩).trailingMixRatio = 3
      ∧ F32.toInt (F32.add 1 (F32.div (F32.sub (F32.throttle 66666 60 ⟨3, 0⟩).trailingMixRatio F32.TARGET) (F32.round (1 / 10)))) = 21
      ∧ (F32.throttle 66666 60 ⟨3, 0⟩).throttlingRatio = 9395241 / 33554432
      ∧ min (1 : ℚ) (0 + (2 / 150)
            * (1 + ((F32.throttle 66666 60 ⟨3, 0⟩).trailingMixRatio - 9 / 10) / (1 / 10)))
          = 22 / 75
      ∧ (F32.throttle 66666 60 ⟨3, 0⟩).throttlingRatio + 1 / 100
          < min (1 : ℚ) (0 + (2 / 150)
            * (1 + ((F32.throttle 66666 60 ⟨3, 0⟩).trailingMixRatio - 9 / 10) / (1 / 10))) := by
  have e1 : F32.ofInt 1266654 = 1266654 :=
    F32.round_pos _ (1 / 8) _ 10133232 (-3) (by norm_num)
  have e2 : F32.div 1266654 22222 = 57 :=
    F32.round_pos _ (1 / 262144) _ 14942208 (-18) (by norm_num)
  have e3 : F32.mul (8947849 / 536870912) 57 = 3984589 / 4194304 :=
    F32.round_pos _ (1 / 16777216) _ 15938356 (-24) (by norm_num)
  have e4 : F32.mul (4124399 / 4194304) 0 = 0 :=
    by norm_num [F32.mul, F32.round_zero]
  have e5 : F32.add 0 (3984589 / 4194304) = 3984589 / 4194304 :=
    F32.round_pos _ (1 / 16777216) _ 15938356 (-24) (by norm_num)
  have hupdA : F32.updatedTrailingMixRatio 1266654 ⟨0, 0⟩ = 3984589 / 4194304 := by
    unfold F32.updatedTrailingMixRatio
    dsimp only
    rw [F32.PREVIOUS_FRAMES_RATIO_val, F32.CURRENT_FRAME_RATIO_val, F32.FRAME_TIME_val, e1,
      e2, e3, e4, e5]
  have hfA : Int.tmod 60 F32.TRAILING_FRAMES = 0 := by
    rw [F32.TRAILING_FRAMES_val]
    decide
  have hrA : F32.TARGET < F32.updatedTrailingMixRatio 1266654 ⟨0, 0⟩ := by
    rw [hupdA, F32.TARGET_val]
    norm_num
  have e6 : F32.sub (3984589 / 4194304) (7549747 / 8388608) = 419431 / 8388608 :=
    F32.round_pos _ (1 / 268435456) _ 13421792 (-28) (by norm_num)
  have e7 : F32.div (419431 / 8388608) (13421773 / 134217728) = 2097155 / 4194304 :=
    F32.round_pos _ (1 / 16777216) _ 8388620 (-24) (by norm_num)
  have e8 : F32.add 1 (2097155 / 4194304) = 6291459 / 4194304 :=
    F32.round_pos _ (1 / 8388608) _ 12582918 (-23) (by norm_num)
  have e9 : F32.toInt (6291459 / 4194304) = 1 :=
    F32.toInt_at _ 1 (by norm_num)
  have e10 : F32.ofInt 1 = 1 :=
    F32.round_pos _ (1 / 8388608) _ 8388608 (-23) (by norm_num)
  have e11 : F32.mul (7158279 / 536870912) 1 = 7158279 / 536870912 :=
    F32.round_pos _ (1 / 1073741824) _ 14316558 (-30) (by norm_num)
  have e12 : F32.add 0 (7158279 / 536870912) = 7158279 / 536870912 :=
    F32.round_pos _ (1 / 1073741824) _ 14316558 (-30) (by norm_num)
  have htermA : F32.toInt (F32.add 1 (F32.div (F32.sub
      (F32.updatedTrailingMixRatio 1266654 ⟨0, 0⟩) F32.TARGET) (F32.round (1 / 10)))) = 1 := by
    rw [hupdA, F32.TARGET_val, F32.round_tenth, e6, e7, e8, e9]
  have hvA : (F32.throttle 1266654 60 ⟨0, 0⟩).throttlingRatio = 7158279 / 536870912 := by
    rw [f32_throttle_above _ _ _ hfA hrA, htermA]
    dsimp only
    rw [F32.THROTTLE_RATE_val, e10, e11, e12]
    norm_num
  have e13 : F32.ofInt 66666 = 66666 :=
    F32.round_pos _ (1 / 128) _ 8533248 (-7) (by norm_num)
  have e14 : F32.div 66666 22222 = 3 :=
    F32.round_pos _ (1 / 4194304) _ 12582912 (-22) (by norm_num)
  have e15 : F32.mul (8947849 / 536870912) 3 = 6710887 / 134217728 :=
    F32.round_tie _ (1 / 268435456) _ 13421774 (-28) (by norm_num)
  have e16 : F32.mul (4124399 / 4194304) 3 = 12373197 / 4194304 :=
    F32.round_pos _ (1 / 4194304) _ 12373197 (-22) (by norm_num)
  have e17 : F32.add (12373197 / 4194304) (6710887 / 134217728) = 3 :=
    F32.round_pos _ (1 / 4194304) _ 12582912 (-22) (by norm_num)
  have hupdB : F32.updatedTrailingMixRatio 66666 ⟨3, 0⟩ = 3 := by
    unfold F32.updatedTrailingMixRatio
    dsimp only
    rw [F32.PREVIOUS_FRAMES_RATIO_val, F32.CURRENT_FRAME_RATIO_val, F32.FRAME_TIME_val, e13,
      e14, e15, e16, e17]
  have hfB : Int.tmod 60 F32.TRAILING_FRAMES = 0 := by
    rw [F32.TRAILING_FRAMES_val]
    decide
  have hrB : F32.TARGET < F32.updatedTrailingMixRatio 66666 ⟨3, 0⟩ := by
    rw [hupdB, F32.TARGET_val]
    norm_num
  have e18 : F32.sub 3 (7549747 / 8388608) = 4404019 / 2097152 :=
    F32.round_tie _ (1 / 4194304) _ 8808038 (-22) (by norm_num)
  have e19 : F32.div (4404019 / 2097152) (13421773 / 134217728) = 11010047 / 524288 :=
    F32.round_pos _ (1 / 524288) _ 11010047 (-19) (by norm_num)
  have e20 : F32.add 1 (11010047 / 524288) = 11534335 / 524288 :=
    F32.round_pos _ (1 / 524288) _ 11534335 (-19) (by norm_num)
  have e21 : F32.toInt (11534335 / 524288) = 21 :=
    F32.toInt_at _ 21 (by norm_num)
  have e22 : F32.ofInt 21 = 21 :=
    F32.round_pos _ (1 / 524288) _ 11010048 (-19) (by norm_num)
  have e23 : F32.mul (7158279 / 536870912) 21 = 9395241 / 33554432 :=
    F32.round_pos _ (1 / 33554432) _ 9395241 (-25) (by norm_num)
  have e24 : F32.add 0 (9395241 / 33554432) = 9395241 / 33554432 :=
    F32.round_pos _ (1 / 33554432) _ 9395241 (-25) (by norm_num)
  have htermB : F32.toInt (F32.add 1 (F32.div (F32.sub
      (F32.updatedTrailingMixRatio 66666 ⟨3, 0⟩) F32.TARGET) (F32.round (1 / 10)))) = 21 := by
    rw [hupdB, F32.TARGET_val, F32.round_tenth, e18, e19, e20, e21]
  have hvB : (F32.throttle 66666 60 ⟨3, 0⟩).throttlingRatio = 9395241 / 33554432 := by
    rw [f32_throttle_above _ _ _ hfB hrB, htermB]
    dsimp only
    rw [F32.THROTTLE_RATE_val, e22, e23, e24]
    norm_num
  have hrA' : (F32.throttle 1266654 60 ⟨0, 0⟩).trailingMixRatio = 3984589 / 4194304 := by
    rw [f32_throttle_trailing, hupdA]
  have hrB' : (F32.throttle 66666 60 ⟨3, 0⟩).trailingMixRatio = 3 := by
    rw [f32_throttle_trailing, hupdB]
  refine ⟨hfA, hrA', ?_, hvA, ?_, ?_, hrB', ?_, hvB, ?_, ?_⟩
  · rw [f32_throttle_trailing]
    exact htermA
  · rw [hrA']
    norm_num
  · rw [hvA, hrA']
    norm_num
  · rw [f32_throttle_trailing]
    exact htermB
  · rw [hrB']
    norm_num
  · rw [hvB, hrB']
    norm_num

/-- C6 (amended): on an evaluation frame (frame number a multiple of 60) on which the updated
trailing mix ratio `r` is above `0.9` and at most `2 * 10 ^ 8`, `throttle` sets the throttling
ratio to `min (old + THROTTLE_RATE * k) 1`, every operation rounded to single precision, where
`k` is the proportional term `1 + (r - 0.9f) / 0.1f` of l.388, evaluated in single precision and
truncated to an `int`.  The truncation is in the range of `int`, `k` is at least `1`,
`THROTTLE_RATE` is the `float` nearest to `2 / 150`, and for an old value in `[0, 1]` the new
value lies between the old value and `1`. -/
theorem throttle_up_truncated (duration frame : Int) (s : ThrottleState)
    (hframe : frame % 60 = 0)
    (hr : 9 / 10 < F32.updatedTrailingMixRatio duration s)
    (hmax : F32.updatedTrailingMixRatio duration s ≤ 200000000)
    (h0 : 0 ≤ s.throttlingRatio) (h1 : s.throttlingRatio ≤ 1) :
    F32.toInt (F32.add 1 (F32.div (F32.sub (F32.updatedTrailingMixRatio duration s) F32.TARGET) (F32.round (1 / 10))))
        = ⌊F32.add 1 (F32.div (F32.sub (F32.updatedTrailingMixRatio duration s) F32.TARGET) (F32.round (1 / 10)))⌋
      ∧ 1 ≤ F32.toInt (F32.add 1 (F32.div (F32.sub (F32.updatedTrailingMixRatio duration s) F32.TARGET) (F32.round (1 / 10))))
      ∧ F32.toInt (F32.add 1 (F32.div (F32.sub (F32.updatedTrailingMixRatio duration s) F32.TARGET) (F32.round (1 / 10)))) ≤ INT_MAX
      ∧ (F32.throttle duration frame s).throttlingRatio
          = min (F32.add s.throttlingRatio (F32.mul F32.THROTTLE_RATE (F32.ofInt (F32.toInt
              (F32.add 1 (F32.div (F32.sub (F32.updatedTrailingMixRatio duration s) F32.TARGET) (F32.round (1 / 10)))))))) 1
      ∧ F32.THROTTLE_RATE = F32.round (2 / 150)
      ∧ s.throttlingRatio ≤ (F32.throttle duration frame s).throttlingRatio
      ∧ (F32.throttle duration frame s).throttlingRatio ≤ 1 := by
  have hf : Int.tmod frame F32.TRAILING_FRAMES = 0 := (f32_tmod_iff frame).mpr hframe
  have hr' : F32.TARGET < F32.updatedTrailingMixRatio duration s := by
    by_contra hle
    rw [not_lt, ← f32_le_TARGET_iff _ (f32_updated_isFloat duration s)] at hle
    linarith
  obtain ⟨e1, e2⟩ := f32_up_term_toInt _ hr' hmax
  have hrate : F32.THROTTLE_RATE = F32.round (2 / 150) := by
    rw [F32.THROTTLE_RATE_val]
    exact (F32.round_pos _ (1 / 1073741824) _ 14316558 (-30) (by norm_num)).symm
  have hstep := f32_up_step duration frame s hf hr' hmax h0
  have hval := f32_throttle_above duration frame s hf hr'
  refine ⟨e1, by rw [e1]; exact e2, ?_, hval, hrate, ?_, ?_⟩
  · unfold F32.toInt
    split_ifs with hc
    · exact hc.2
    · decide
  · have : s.throttlingRatio ≤ min (s.throttlingRatio + 7158247 / 536870912) 1 :=
      le_min (by linarith) h1
    linarith
  · rw [hval]
    exact min_le_right _ _

/-- Witness of C6: a frame of 1400000 µs on frame 60 from the state `(0, 1/2)`; the updated
trailing mix ratio is about `1.05`, the proportional term is `2`, and the throttling ratio
becomes `276125 / 524288`. -/
theorem throttle_up_truncated_witness :
    (60 : Int) % 60 = 0
      ∧ 9 / 10 < F32.updatedTrailingMixRatio 1400000 ⟨0, 1 / 2⟩
      ∧ F32.updatedTrailingMixRatio 1400000 ⟨0, 1 / 2⟩ ≤ 200000000
      ∧ F32.toInt (F32.add 1 (F32.div (F32.sub (F32.updatedTrailingMixRatio 1400000 ⟨0, 1 / 2⟩) F32.TARGET) (F32.round (1 / 10)))) = 2
      ∧ (F32.throttle 1400000 60 ⟨0, 1 / 2⟩).throttlingRatio = 276125 / 524288
      ∧ (F32.throttle 1400000 60 ⟨0, 1 / 2⟩).throttlingRatio
          = min (F32.add (1 / 2) (F32.mul F32.THROTTLE_RATE (F32.ofInt (F32.toInt
              (F32.add 1 (F32.div (F32.sub (F32.updatedTrailingMixRatio 1400000 ⟨0, 1 / 2⟩) F32.TARGET) (F32.round (1 / 10)))))))) 1 := by
  have e1 : F32.ofInt 1400000 = 1400000 :=
    F32.round_pos _ (1 / 8) _ 11200000 (-3) (by norm_num)
  have e2 : F32.div 1400000 22222 = 16515237 / 262144 :=
    F32.round_pos _ (1 / 262144) _ 16515237 (-18) (by norm_num)
  have e3 : F32.mul (8947849 / 536870912) (16515237 / 262144) = 8808127 / 8388608 :=
    F32.round_pos _ (1 / 8388608) _ 8808127 (-23) (by norm_num)
  have e4 : F32.mul (4124399 / 4194304) 0 = 0 :=
    by norm_num [F32.mul, F32.round_zero]
  have e5 : F32.add 0 (8808127 / 8388608) = 8808127 / 8388608 :=
    F32.round_pos _ (1 / 8388608) _ 8808127 (-23) (by norm_num)
  have hupdW : F32.updatedTrailingMixRatio 1400000 ⟨0, (1 / 2)⟩ = 8808127 / 8388608 := by
    unfold F32.updatedTrailingMixRatio
    dsimp only
    rw [F32.PREVIOUS_FRAMES_RATIO_val, F32.CURRENT_FRAME_RATIO_val, F32.FRAME_TIME_val, e1,
      e2, e3, e4, e5]
  have hfW : Int.tmod 60 F32.TRAILING_FRAMES = 0 := by
    rw [F32.TRAILING_FRAMES_val]
    decide
  have hrW : F32.TARGET < F32.updatedTrailingMixRatio 1400000 ⟨0, (1 / 2)⟩ := by
    rw [hupdW, F32.TARGET_val]
    norm_num
  have e6 : F32.sub (8808127 / 8388608) (7549747 / 8388608) = 314595 / 2097152 :=
    F32.round_pos _ (1 / 67108864) _ 10067040 (-26) (by norm_num)
  have e7 : F32.div (314595 / 2097152) (13421773 / 134217728) = 1572975 / 1048576 :=
    F32.round_pos _ (1 / 8388608) _ 12583800 (-23) (by norm_num)
  have e8 : F32.add 1 (1572975 / 1048576) = 2621551 / 1048576 :=
    F32.round_pos _ (1 / 4194304) _ 10486204 (-22) (by norm_num)
  have e9 : F32.toInt (2621551 / 1048576) = 2 :=
    F32.toInt_at _ 2 (by norm_num)
  have e10 : F32.ofInt 2 = 2 :=
    F32.round_pos _ (1 / 4194304) _ 8388608 (-22) (by norm_num)
  have e11 : F32.mul (7158279 / 536870912) 2 = 7158279 / 268435456 :=
    F32.round_pos _ (1 / 536870912) _ 14316558 (-29) (by norm_num)
  have e12 : F32.add (1 / 2) (7158279 / 268435456) = 276125 / 524288 :=
    F32.round_pos _ (1 / 16777216) _ 8836000 (-24) (by norm_num)
  have htermW : F32.toInt (F32.add 1 (F32.div (F32.sub
      (F32.updatedTrailingMixRatio 1400000 ⟨0, (1 / 2)⟩) F32.TARGET) (F32.round (1 / 10)))) = 2 := by
    rw [hupdW, F32.TARGET_val, F32.round_tenth, e6, e7, e8, e9]
  have hvW : (F32.throttle 1400000 60 ⟨0, (1 / 2)⟩).throttlingRatio = 276125 / 524288 := by
    rw [f32_throttle_above _ _ _ hfW hrW, htermW]
    dsimp only
    rw [F32.THROTTLE_RATE_val, e10, e11, e12]
    norm_num
  have h1 : 9 / 10 < F32.updatedTrailingMixRatio 1400000 ⟨0, 1 / 2⟩ := by
    rw [hupdW]
    norm_num
  have h2 : F32.updatedTrailingMixRatio 1400000 ⟨0, 1 / 2⟩ ≤ 200000000 := by
    rw [hupdW]
    norm_num
  exact ⟨by decide, h1, h2, htermW, hvW,
    (throttle_up_truncated 1400000 60 ⟨0, 1 / 2⟩ (by decide) h1 h2 (by norm_num)
      (by norm_num)).2.2.2.1⟩

/-- C7, as stated, fails.  On evaluation frame 60 from the state `(0, 1)` with a frame of
533328 µs the updated trailing mix ratio is about `0.4`; the code subtracts three steps,
`BACKOFF_RATE * 3`, because the proportional term `3.5` is stored in an `int` (l.395), while
the formula of the claim subtracts `3.5` steps.  With a frame of 133332 µs the updated trailing
mix ratio is the `float` next above `0.1f`, where the term of the claim is a little less than
`5`, of integer part `4`; in single precision the term is `5.0` and the code subtracts five
steps, so that truncating the real-number term does not describe the code either. -/
theorem throttle_down_untruncated_counterexample :
    Int.tmod 60 F32.TRAILING_FRAMES = 0
      ∧ (F32.throttle 533328 60 ⟨0, 1⟩).trailingMixRatio = 6710887 / 16777216
      ∧ F32.toInt (F32.add 1 (F32.div (F32.sub F32.TARGET (F32.throttle 533328 60 ⟨0, 1⟩).trailingMixRatio) (F32.round (2 / 10)))) = 3
      ∧ (F32.throttle 533328 60 ⟨0, 1⟩).throttlingRatio = 4152361 / 4194304
      ∧ max (0 : ℚ) (1 - (2 / 150 / 4)
            * (1 + (9 / 10 - (F32.throttle 533328 60 ⟨0, 1⟩).trailingMixRatio) / (2 / 10)))
          = 4974444547 / 5033164800
      ∧ max (0 : ℚ) (1 - (2 / 150 / 4)
            * (1 + (9 / 10 - (F32.throttle 533328 60 ⟨0, 1⟩).trailingMixRatio) / (2 / 10))) + 1 / 1000
          < (F32.throttle 533328 60 ⟨0, 1⟩).throttlingRatio
      ∧ (F32.throttle 133332 60 ⟨0, 1⟩).trailingMixRatio = 6710887 / 67108864
      ∧ F32.toInt (F32.add 1 (F32.div (F32.sub F32.TARGET (F32.throttle 133332 60 ⟨0, 1⟩).trailingMixRatio) (F32.round (2 / 10)))) = 5
      ∧ ⌊(1 : ℚ) + (9 / 10 - (F32.throttle 133332 60 ⟨0, 1⟩).trailingMixRatio) / (2 / 10)⌋ = 4
      ∧ (F32.throttle 133332 60 ⟨0, 1⟩).throttlingRatio = 4124399 / 4194304
      ∧ (F32.throttle 133332 60 ⟨0, 1⟩).throttlingRatio + 1 / 1000 < 1 - (2 / 150 / 4) * 4 := by
  have e1 : F32.ofInt 533328 = 533328 :=
    F32.round_pos _ (1 / 16) _ 8533248 (-4) (by norm_num)
  have e2 : F32.div 533328 22222 = 24 :=
    F32.round_pos _ (1 / 524288) _ 12582912 (-19) (by norm_num)
  have e3 : F32.mul (8947849 / 536870912) 24 = 6710887 / 16777216 :=
    F32.round_tie _ (1 / 33554432) _ 13421774 (-25) (by norm_num)
  have e4 : F32.mul (4124399 / 4194304) 0 = 0 :=
    by norm_num [F32.mul, F32.round_zero]
  have e5 : F32.add 0 (6710887 / 16777216) = 6710887 / 16777216 :=
    F32.round_pos _ (1 / 33554432) _ 13421774 (-25) (by norm_num)
  have hupdA : F32.updatedTrailingMixRatio 533328 ⟨0, 1⟩ = 6710887 / 16777216 := by
    unfold F32.updatedTrailingMixRatio
    dsimp only
    rw [F32.PREVIOUS_FRAMES_RATIO_val, F32.CURRENT_FRAME_RATIO_val, F32.FRAME_TIME_val, e1,
      e2, e3, e4, e5]
  have hfA : Int.tmod 60 F32.TRAILING_FRAMES = 0 := by
    rw [F32.TRAILING_FRAMES_val]
    decide
  have hrA : F32.updatedTrailingMixRatio 533328 ⟨0, 1⟩ ≤ F32.BACKOFF_TARGET := by
    rw [hupdA, F32.BACKOFF_TARGET_val]
    norm_num
  have e6 : F32.sub (7549747 / 8388608) (6710887 / 16777216) = 8388607 / 16777216 :=
    F32.round_pos _ (1 / 33554432) _ 16777214 (-25) (by norm_num)
  have e7 : F32.div (8388607 / 16777216) (13421773 / 67108864) = 10485759 / 4194304 :=
    F32.round_pos _ (1 / 4194304) _ 10485759 (-22) (by norm_num)
  have e8 : F32.add 1 (10485759 / 4194304) = 14680063 / 4194304 :=
    F32.round_pos _ (1 / 4194304) _ 14680063 (-22) (by norm_num)
  have e9 : F32.toInt (14680063 / 4194304) = 3 :=
    F32.toInt_at _ 3 (by norm_num)
  have e10 : F32.ofInt 3 = 3 :=
    F32.round_pos _ (1 / 4194304) _ 12582912 (-22) (by norm_num)
  have e11 : F32.mul (7158279 / 2147483648) 3 = 5368709 / 536870912 :=
    F32.round_tie _ (1 / 1073741824) _ 10737418 (-30) (by norm_num)
  have e12 : F32.sub 1 (5368709 / 536870912) = 4152361 / 4194304 :=
    F32.round_pos _ (1 / 16777216) _ 16609444 (-24) (by norm_num)
  have htermA : F32.toInt (F32.add 1 (F32.div (F32.sub F32.TARGET
      (F32.updatedTrailingMixRatio 533328 ⟨0, 1⟩)) (F32.round (2 / 10)))) = 3 := by
    rw [hupdA, F32.TARGET_val, F32.round_fifth, e6, e7, e8, e9]
  have hvA : (F32.throttle 533328 60 ⟨0, 1⟩).throttlingRatio = 4152361 / 4194304 := by
    rw [f32_throttle_below _ _ _ hfA hrA (by norm_num), htermA]
    dsimp only
    rw [F32.BACKOFF_RATE_val, e10, e11, e12]
    norm_num
  have e13 : F32.ofInt 133332 = 133332 :=
    F32.round_pos _ (1 / 64) _ 8533248 (-6) (by norm_num)
  have e14 : F32.div 133332 22222 = 6 :=
    F32.round_pos _ (1 / 2097152) _ 12582912 (-21) (by norm_num)
  have e15 : F32.mul (8947849 / 536870912) 6 = 6710887 / 67108864 :=
    F32.round_tie _ (1 / 134217728) _ 13421774 (-27) (by norm_num)
  have e16 : F32.mul (4124399 / 4194304) 0 = 0 :=
    by norm_num [F32.mul, F32.round_zero]
  have e17 : F32.add 0 (6710887 / 67108864) = 6710887 / 67108864 :=
    F32.round_pos _ (1 / 134217728) _ 13421774 (-27) (by norm_num)
  have hupdB : F32.updatedTrailingMixRatio 133332 ⟨0, 1⟩ = 6710887 / 67108864 := by
    unfold F32.updatedTrailingMixRatio
    dsimp only
    rw [F32.PREVIOUS_FRAMES_RATIO_val, F32.CURRENT_FRAME_RATIO_val, F32.FRAME_TIME_val, e13,
      e14, e15, e16, e17]
  have hfB : Int.tmod 60 F32.TRAILING_FRAMES = 0 := by
    rw [F32.TRAILING_FRAMES_val]
    decide
  have hrB : F32.updatedTrailingMixRatio 133332 ⟨0, 1⟩ ≤ F32.BACKOFF_TARGET := by
    rw [hupdB, F32.BACKOFF_TARGET_val]
    norm_num
  have e18 : F32.sub (7549747 / 8388608) (6710887 / 67108864) = 3355443 / 4194304 :=
    F32.round_pos _ (1 / 16777216) _ 13421772 (-24) (by norm_num)
  have e19 : F32.div (3355443 / 4194304) (13421773 / 67108864) = 16777215 / 4194304 :=
    F32.round_pos _ (1 / 4194304) _ 16777215 (-22) (by norm_num)
  have e20 : F32.add 1 (16777215 / 4194304) = 5 :=
    F32.round_tie _ (1 / 2097152) _ 10485760 (-21) (by norm_num)
  have e21 : F32.toInt 5 = 5 :=
    F32.toInt_at _ 5 (by norm_num)
  have e22 : F32.ofInt 5 = 5 :=
    F32.round_pos _ (1 / 2097152) _ 10485760 (-21) (by norm_num)
  have e23 : F32.mul (7158279 / 2147483648) 5 = 8947849 / 536870912 :=
    F32.round_pos _ (1 / 536870912) _ 8947849 (-29) (by norm_num)
  have e24 : F32.sub 1 (8947849 / 536870912) = 4124399 / 4194304 :=
    F32.round_pos _ (1 / 16777216) _ 16497596 (-24) (by norm_num)
  have htermB : F32.toInt (F32.add 1 (F32.div (F32.sub F32.TARGET
      (F32.updatedTrailingMixRatio 133332 ⟨0, 1⟩)) (F32.round (2 / 10)))) = 5 := by
    rw [hupdB, F32.TARGET_val, F32.round_fifth, e18, e19, e20, e21]
  have hvB : (F32.throttle 133332 60 ⟨0, 1⟩).throttlingRatio = 4124399 / 4194304 := by
    rw [f32_throttle_below _ _ _ hfB hrB (by norm_num), htermB]
    dsimp only
    rw [F32.BACKOFF_RATE_val, e22, e23, e24]
    norm_num
  have hrA' : (F32.throttle 533328 60 ⟨0, 1⟩).trailingMixRatio = 6710887 / 16777216 := by
    rw [f32_throttle_trailing, hupdA]
  have hrB' : (F32.throttle 133332 60 ⟨0, 1⟩).trailingMixRatio = 6710887 / 67108864 := by
    rw [f32_throttle_trailing, hupdB]
  refine ⟨hfA, hrA', ?_, hvA, ?_, ?_, hrB', ?_, ?_, hvB, ?_⟩
  · rw [f32_throttle_trailing]
    exact htermA
  · rw [hrA']
    norm_num
  · rw [hvA, hrA']
    norm_num
  · rw [f32_throttle_trailing]
    exact htermB
  · rw [hrB', Int.floor_eq_iff]
    norm_num
  · rw [hvB]
    norm_num

/-- C7 (amended): on an evaluation frame (frame number a multiple of 60) on which the updated
trailing mix ratio `r` lies in `[0, 0.44]` and the throttling ratio is positive, `throttle` sets
the throttling ratio to `max (old - BACKOFF_RATE * k) 0`, every operation rounded to single
precision, where `k` is the proportional term `1 + (0.9f - r) / 0.2f` of l.395, evaluated in
single precision and truncated to an `int`.  `k` is `3`, `4` or `5`, `BACKOFF_RATE` is the
`float` nearest to `(2 / 150) / 4`, and for an old value in `(0, 1]` the new value lies between
`0` and the old value. -/
theorem throttle_down_truncated (duration frame : Int) (s : ThrottleState)
    (hframe : frame % 60 = 0)
    (hr : F32.updatedTrailingMixRatio duration s ≤ 44 / 100)
    (hr0 : 0 ≤ F32.updatedTrailingMixRatio duration s)
    (h0 : 0 < s.throttlingRatio) (h1 : s.throttlingRatio ≤ 1) :
    F32.toInt (F32.add 1 (F32.div (F32.sub F32.TARGET (F32.updatedTrailingMixRatio duration s)) (F32.round (2 / 10))))
        = ⌊F32.add 1 (F32.div (F32.sub F32.TARGET (F32.updatedTrailingMixRatio duration s)) (F32.round (2 / 10)))⌋
      ∧ 3 ≤ F32.toInt (F32.add 1 (F32.div (F32.sub F32.TARGET (F32.updatedTrailingMixRatio duration s)) (F32.round (2 / 10))))
      ∧ F32.toInt (F32.add 1 (F32.div (F32.sub F32.TARGET (F32.updatedTrailingMixRatio duration s)) (F32.round (2 / 10)))) ≤ 5
      ∧ (F32.throttle duration frame s).throttlingRatio
          = max (F32.sub s.throttlingRatio (F32.mul F32.BACKOFF_RATE (F32.ofInt (F32.toInt
              (F32.add 1 (F32.div (F32.sub F32.TARGET (F32.updatedTrailingMixRatio duration s)) (F32.round (2 / 10)))))))) 0
      ∧ F32.BACKOFF_RATE = F32.round (2 / 150 / 4)
      ∧ 0 ≤ (F32.throttle duration frame s).throttlingRatio
      ∧ (F32.throttle duration frame s).throttlingRatio ≤ s.throttlingRatio := by
  have hf : Int.tmod frame F32.TRAILING_FRAMES = 0 := (f32_tmod_iff frame).mpr hframe
  have hr' : F32.updatedTrailingMixRatio duration s ≤ F32.BACKOFF_TARGET :=
    (f32_le_BACKOFF_TARGET_iff _ (f32_updated_isFloat duration s)).mp hr
  obtain ⟨e1, e2, e3⟩ := f32_down_term_toInt _ hr0 hr'
  have hrate : F32.BACKOFF_RATE = F32.round (2 / 150 / 4) := by
    rw [F32.BACKOFF_RATE_val]
    exact (F32.round_pos _ (1 / 4294967296) _ 14316558 (-32) (by norm_num)).symm
  have hstep := f32_down_step duration frame s hf hr' hr0 h0 h1
  have hval := f32_throttle_below duration frame s hf hr' h0
  refine ⟨e1, by rw [e1]; exact e2, by rw [e1]; exact e3, hval, hrate, ?_, hstep⟩
  rw [hval]
  exact le_max_right _ _

/-- Witness of C7: a frame of 400000 µs on frame 60 from the state `(0, 1/2)`; the updated
trailing mix ratio is about `0.3`, the proportional term is `3`, and the throttling ratio
becomes `2055209 / 4194304`. -/
theorem throttle_down_truncated_witness :
    (60 : Int) % 60 = 0
      ∧ F32.updatedTrailingMixRatio 400000 ⟨0, 1 / 2⟩ ≤ 44 / 100
      ∧ 0 ≤ F32.updatedTrailingMixRatio 400000 ⟨0, 1 / 2⟩
      ∧ F32.toInt (F32.add 1 (F32.div (F32.sub F32.TARGET (F32.updatedTrailingMixRatio 400000 ⟨0, 1 / 2⟩)) (F32.round (2 / 10)))) = 3
      ∧ (F32.throttle 400000 60 ⟨0, 1 / 2⟩).throttlingRatio = 2055209 / 4194304
      ∧ (F32.throttle 400000 60 ⟨0, 1 / 2⟩).throttlingRatio
          = max (F32.sub (1 / 2) (F32.mul F32.BACKOFF_RATE (F32.ofInt (F32.toInt
              (F32.add 1 (F32.div (F32.sub F32.TARGET (F32.updatedTrailingMixRatio 400000 ⟨0, 1 / 2⟩)) (F32.round (2 / 10)))))))) 0 := by
  have e1 : F32.ofInt 400000 = 400000 :=
    F32.round_pos _ (1 / 32) _ 12800000 (-5) (by norm_num)
  have e2 : F32.div 400000 22222 = 4718639 / 262144 :=
    F32.round_pos _ (1 / 524288) _ 9437278 (-19) (by norm_num)
  have e3 : F32.mul (8947849 / 536870912) (4718639 / 262144) = 5033215 / 16777216 :=
    F32.round_pos _ (1 / 33554432) _ 10066430 (-25) (by norm_num)
  have e4 : F32.mul (4124399 / 4194304) 0 = 0 :=
    by norm_num [F32.mul, F32.round_zero]
  have e5 : F32.add 0 (5033215 / 16777216) = 5033215 / 16777216 :=
    F32.round_pos _ (1 / 33554432) _ 10066430 (-25) (by norm_num)
  have hupdW : F32.updatedTrailingMixRatio 400000 ⟨0, (1 / 2)⟩ = 5033215 / 16777216 := by
    unfold F32.updatedTrailingMixRatio
    dsimp only
    rw [F32.PREVIOUS_FRAMES_RATIO_val, F32.CURRENT_FRAME_RATIO_val, F32.FRAME_TIME_val, e1,
      e2, e3, e4, e5]
  have hfW : Int.tmod 60 F32.TRAILING_FRAMES = 0 := by
    rw [F32.TRAILING_FRAMES_val]
    decide
  have hrW : F32.updatedTrailingMixRatio 400000 ⟨0, (1 / 2)⟩ ≤ F32.BACKOFF_TARGET := by
    rw [hupdW, F32.BACKOFF_TARGET_val]
    norm_num
  have e6 : F32.sub (7549747 / 8388608) (5033215 / 16777216) = 10066279 / 16777216 :=
    F32.round_pos _ (1 / 16777216) _ 10066279 (-24) (by norm_num)
  have e7 : F32.div (10066279 / 16777216) (13421773 / 67108864) = 12582849 / 4194304 :=
    F32.round_pos _ (1 / 4194304) _ 12582849 (-22) (by norm_num)
  have e8 : F32.add 1 (12582849 / 4194304) = 16777153 / 4194304 :=
    F32.round_pos _ (1 / 4194304) _ 16777153 (-22) (by norm_num)
  have e9 : F32.toInt (16777153 / 4194304) = 3 :=
    F32.toInt_at _ 3 (by norm_num)
  have e10 : F32.ofInt 3 = 3 :=
    F32.round_pos _ (1 / 4194304) _ 12582912 (-22) (by norm_num)
  have e11 : F32.mul (7158279 / 2147483648) 3 = 5368709 / 536870912 :=
    F32.round_tie _ (1 / 1073741824) _ 10737418 (-30) (by norm_num)
  have e12 : F32.sub (1 / 2) (5368709 / 536870912) = 2055209 / 4194304 :=
    F32.round_pos _ (1 / 33554432) _ 16441672 (-25) (by norm_num)
  have htermW : F32.toInt (F32.add 1 (F32.div (F32.sub F32.TARGET
      (F32.updatedTrailingMixRatio 400000 ⟨0, (1 / 2)⟩)) (F32.round (2 / 10)))) = 3 := by
    rw [hupdW, F32.TARGET_val, F32.round_fifth, e6, e7, e8, e9]
  have hvW : (F32.throttle 400000 60 ⟨0, (1 / 2)⟩).throttlingRatio = 2055209 / 4194304 := by
    rw [f32_throttle_below _ _ _ hfW hrW (by norm_num), htermW]
    dsimp only
    rw [F32.BACKOFF_RATE_val, e10, e11, e12]
    norm_num
  have h1 : F32.updatedTrailingMixRatio 400000 ⟨0, 1 / 2⟩ ≤ 44 / 100 := by
    rw [hupdW]
    norm_num
  have h2 : 0 ≤ F32.updatedTrailingMixRatio 400000 ⟨0, 1 / 2⟩ := by
    rw [hupdW]
    norm_num
  exact ⟨by decide, h1, h2, htermW, hvW,
    (throttle_down_truncated 400000 60 ⟨0, 1 / 2⟩ (by decide) h1 h2 (by norm_num)
      (by norm_num)).2.2.2.1⟩

/-! ## Throttling controller, single precision: range of the throttling ratio -/

/-- C1: the throttling ratio leaves `[0, 1]`.  The claim asks that `throttle` keeps
`throttlingRatio` in `[0, 1]` for every frame duration `>= 0`, from every state with
`throttlingRatio` in `[0, 1]` and `trailingMixRatio >= 0`, hence in every state reachable from
the initial one.  From the initial state `(0, 0)`, on evaluation frame 60, a frame of
`3 * 10 ^ 14` µs gives the updated trailing mix ratio `225002272`; the proportional term
`2250022656` is beyond the range of the `int` it is stored in (l.388), the conversion yields
`INT_MIN`, and `std::min` bounds the sum only from above: the throttling ratio becomes
`-28633116`. -/
theorem throttle_ratio_leaves_unit_interval :
    (0 : Int) ≤ 300000000000000
      ∧ (0 : ℚ) ≤ (⟨0, 0⟩ : ThrottleState).trailingMixRatio
      ∧ (0 : ℚ) ≤ (⟨0, 0⟩ : ThrottleState).throttlingRatio
      ∧ (⟨0, 0⟩ : ThrottleState).throttlingRatio ≤ 1
      ∧ Int.tmod 60 F32.TRAILING_FRAMES = 0
      ∧ (F32.throttle 300000000000000 60 ⟨0, 0⟩).trailingMixRatio = 225002272
      ∧ F32.add 1 (F32.div (F32.sub (F32.throttle 300000000000000 60 ⟨0, 0⟩).trailingMixRatio F32.TARGET) (F32.round (1 / 10)))
          = 2250022656
      ∧ INT_MAX < AvatarMixer.toInt (F32.add 1 (F32.div (F32.sub (F32.throttle 300000000000000 60 ⟨0, 0⟩).trailingMixRatio F32.TARGET) (F32.round (1 / 10))))
      ∧ F32.toInt (F32.add 1 (F32.div (F32.sub (F32.throttle 300000000000000 60 ⟨0, 0⟩).trailingMixRatio F32.TARGET) (F32.round (1 / 10)))) = INT_MIN
      ∧ (F32.throttle 300000000000000 60 ⟨0, 0⟩).throttlingRatio = -28633116
      ∧ (F32.throttle 300000000000000 60 ⟨0, 0⟩).throttlingRatio < 0
      ∧ (F32.throttleRun ⟨0, 0⟩ [(300000000000000, 60)]).throttlingRatio < 0 := by
  have e1 : F32.ofInt 300000000000000 = 300000009519104 :=
    F32.round_pos _ (33554432) _ 8940697 (25) (by norm_num)
  have e2 : F32.div 300000009519104 22222 = 13500135424 :=
    F32.round_pos _ (1024) _ 13183726 (10) (by norm_num)
  have e3 : F32.mul (8947849 / 536870912) 13500135424 = 225002272 :=
    F32.round_pos _ (16) _ 14062642 (4) (by norm_num)
  have e4 : F32.mul (4124399 / 4194304) 0 = 0 :=
    by norm_num [F32.mul, F32.round_zero]
  have e5 : F32.add 0 225002272 = 225002272 :=
    F32.round_pos _ (16) _ 14062642 (4) (by norm_num)
  have hupdA : F32.updatedTrailingMixRatio 300000000000000 ⟨0, 0⟩ = 225002272 := by
    unfold F32.updatedTrailingMixRatio
    dsimp only
    rw [F32.PREVIOUS_FRAMES_RATIO_val, F32.CURRENT_FRAME_RATIO_val, F32.FRAME_TIME_val, e1,
      e2, e3, e4, e5]
  have hfA : Int.tmod 60 F32.TRAILING_FRAMES = 0 := by
    rw [F32.TRAILING_FRAMES_val]
    decide
  have hrA : F32.TARGET < F32.updatedTrailingMixRatio 300000000000000 ⟨0, 0⟩ := by
    rw [hupdA, F32.TARGET_val]
    norm_num
  have e6 : F32.sub 225002272 (7549747 / 8388608) = 225002272 :=
    F32.round_pos _ (16) _ 14062642 (4) (by norm_num)
  have e7 : F32.div 225002272 (13421773 / 134217728) = 2250022656 :=
    F32.round_pos _ (256) _ 8789151 (8) (by norm_num)
  have e8 : F32.add 1 2250022656 = 2250022656 :=
    F32.round_pos _ (256) _ 8789151 (8) (by norm_num)
  have e9 : F32.toInt 2250022656 = INT_MIN :=
    F32.toInt_out_of_range _ (by norm_num)
  have e10 : F32.ofInt (-2147483648) = -2147483648 :=
    F32.round_negative _ (256) _ 8388608 (8) (by norm_num)
  have e11 : F32.mul (7158279 / 536870912) (-2147483648) = -28633116 :=
    F32.round_negative _ (2) _ 14316558 (1) (by norm_num)
  have e12 : F32.add 0 (-28633116) = -28633116 :=
    F32.round_negative _ (2) _ 14316558 (1) (by norm_num)
  have htermA : F32.toInt (F32.add 1 (F32.div (F32.sub
      (F32.updatedTrailingMixRatio 300000000000000 ⟨0, 0⟩) F32.TARGET) (F32.round (1 / 10)))) = INT_MIN := by
    rw [hupdA, F32.TARGET_val, F32.round_tenth, e6, e7, e8, e9]
  have hvA : (F32.throttle 300000000000000 60 ⟨0, 0⟩).throttlingRatio = -28633116 := by
    rw [f32_throttle_above _ _ _ hfA hrA, htermA]
    dsimp only
    unfold INT_MIN
    rw [F32.THROTTLE_RATE_val, e10, e11, e12]
    norm_num
  have hrA' : (F32.throttle 300000000000000 60 ⟨0, 0⟩).trailingMixRatio = 225002272 := by
    rw [f32_throttle_trailing, hupdA]
  have hT : F32.add 1 (F32.div (F32.sub (F32.throttle 300000000000000 60 ⟨0, 0⟩).trailingMixRatio F32.TARGET) (F32.round (1 / 10)))
      = 2250022656 := by
    rw [hrA', F32.TARGET_val, F32.round_tenth, e6, e7, e8]
  refine ⟨by decide, le_refl _, le_refl _, zero_le_one, hfA, hrA', hT, ?_, ?_, hvA, ?_, ?_⟩
  · rw [hT, toInt_eq_floor _ (by norm_num)]
    norm_num [INT_MAX]
  · rw [f32_throttle_trailing]
    exact htermA
  · rw [hvA]
    norm_num
  · show (F32.throttle 300000000000000 60 ⟨0, 0⟩).throttlingRatio < 0
    rw [hvA]
    norm_num

/-! ## Throttling controller, single precision: the deadband -/

/-- The deadband of the single-precision controller, with the thresholds read as the real numbers
`0.44` and `0.9`.  On an evaluation frame with `0.44 < r <= 0.9` the throttling ratio is
unchanged, and so it is for `r <= 0.44` when the ratio is `0`; for `0.44 < r <= 2 * 10 ^ 8` the
ratio does not decrease, and for `0 <= r <= 0.9` it does not increase. -/
theorem f32_throttle_deadband (duration frame : Int) (s : ThrottleState)
    (h0 : 0 ≤ s.throttlingRatio) (h1 : s.throttlingRatio ≤ 1) :
    (44 / 100 < F32.updatedTrailingMixRatio duration s →
        F32.updatedTrailingMixRatio duration s ≤ 9 / 10 → (F32.throttle duration frame s).throttlingRatio = s.throttlingRatio)
      ∧ (F32.updatedTrailingMixRatio duration s ≤ 44 / 100 → s.throttlingRatio = 0 →
          (F32.throttle duration frame s).throttlingRatio = s.throttlingRatio)
      ∧ (44 / 100 < F32.updatedTrailingMixRatio duration s →
          F32.updatedTrailingMixRatio duration s ≤ 200000000 → s.throttlingRatio ≤ (F32.throttle duration frame s).throttlingRatio)
      ∧ (0 ≤ F32.updatedTrailingMixRatio duration s →
          F32.updatedTrailingMixRatio duration s ≤ 9 / 10 → (F32.throttle duration frame s).throttlingRatio ≤ s.throttlingRatio) := by
  have hT := f32_le_TARGET_iff _ (f32_updated_isFloat duration s)
  have hB := f32_le_BACKOFF_TARGET_iff _ (f32_updated_isFloat duration s)
  have hBT : F32.BACKOFF_TARGET < F32.TARGET := by
    rw [F32.BACKOFF_TARGET_val, F32.TARGET_val]
    norm_num
  refine ⟨?_, ?_, ?_, ?_⟩
  · intro hlo hhi
    refine f32_throttle_between duration frame s (hT.mp hhi) (Or.inl ?_)
    by_contra hle
    exact absurd (hB.mpr (not_lt.mp hle)) (not_le.mpr hlo)
  · intro hlo hz
    exact f32_throttle_between duration frame s (le_trans (hB.mp hlo) hBT.le) (Or.inr hz.le)
  · intro hlo hmax
    by_cases hf : Int.tmod frame F32.TRAILING_FRAMES = 0
    · rcases lt_or_le F32.TARGET (F32.updatedTrailingMixRatio duration s) with hr | hr
      · have hstep := f32_up_step duration frame s hf hr hmax h0
        have : s.throttlingRatio ≤ min (s.throttlingRatio + 7158247 / 536870912) 1 :=
          le_min (by linarith) h1
        linarith
      · refine (f32_throttle_between duration frame s hr (Or.inl ?_)).ge
        by_contra hle
        exact absurd (hB.mpr (not_lt.mp hle)) (not_le.mpr hlo)
    · exact (f32_throttle_off_frame duration frame s hf).ge
  · intro hr0 hhi
    by_cases hf : Int.tmod frame F32.TRAILING_FRAMES = 0
    · rcases lt_or_le F32.BACKOFF_TARGET (F32.updatedTrailingMixRatio duration s) with hr | hr
      · exact (f32_throttle_between duration frame s (hT.mp hhi) (Or.inl hr)).le
      · rcases h0.lt_or_eq with hpos | hz
        · exact f32_down_step duration frame s hf hr hr0 hpos h1
        · exact (f32_throttle_between duration frame s (hT.mp hhi) (Or.inr hz.symm.le)).le
    · exact (f32_throttle_off_frame duration frame s hf).le

/-- The upper edge of the deadband, an example: a frame of 1199988 µs (54 frame times) on frame
60 from the state `(0, 1/2)`.  In real numbers the updated trailing mix ratio would be `0.9`
exactly; the code computes `15099495 / 16777216` (`0.90000004`), which is above `0.9`, and takes one
throttling step, to `538269 / 1048576` (`0.5133`). -/
theorem f32_throttle_deadband_edge :
    (throttle 1199988 60 ⟨0, 1 / 2⟩).trailingMixRatio = 9 / 10
      ∧ (F32.throttle 1199988 60 ⟨0, 1 / 2⟩).trailingMixRatio = 15099495 / 16777216
      ∧ 9 / 10 < (F32.throttle 1199988 60 ⟨0, 1 / 2⟩).trailingMixRatio
      ∧ (F32.throttle 1199988 60 ⟨0, 1 / 2⟩).throttlingRatio = 538269 / 1048576 := by
  have e1 : F32.ofInt 1199988 = 1199988 :=
    F32.round_pos _ (1 / 8) _ 9599904 (-3) (by norm_num)
  have e2 : F32.div 1199988 22222 = 54 :=
    F32.round_pos _ (1 / 262144) _ 14155776 (-18) (by norm_num)
  have e3 : F32.mul (8947849 / 536870912) 54 = 15099495 / 16777216 :=
    F32.round_pos _ (1 / 16777216) _ 15099495 (-24) (by norm_num)
  have e4 : F32.mul (4124399 / 4194304) 0 = 0 :=
    by norm_num [F32.mul, F32.round_zero]
  have e5 : F32.add 0 (15099495 / 16777216) = 15099495 / 16777216 :=
    F32.round_pos _ (1 / 16777216) _ 15099495 (-24) (by norm_num)
  have hupdE : F32.updatedTrailingMixRatio 1199988 ⟨0, (1 / 2)⟩ = 15099495 / 16777216 := by
    unfold F32.updatedTrailingMixRatio
    dsimp only
    rw [F32.PREVIOUS_FRAMES_RATIO_val, F32.CURRENT_FRAME_RATIO_val, F32.FRAME_TIME_val, e1,
      e2, e3, e4, e5]
  have hfE : Int.tmod 60 F32.TRAILING_FRAMES = 0 := by
    rw [F32.TRAILING_FRAMES_val]
    decide
  have hrE : F32.TARGET < F32.updatedTrailingMixRatio 1199988 ⟨0, (1 / 2)⟩ := by
    rw [hupdE, F32.TARGET_val]
    norm_num
  have e6 : F32.sub (15099495 / 16777216) (7549747 / 8388608) = 1 / 16777216 :=
    F32.round_pos _ (1 / 140737488355328) _ 8388608 (-47) (by norm_num)
  have e7 : F32.div (1 / 16777216) (13421773 / 134217728) = 5 / 8388608 :=
    F32.round_pos _ (1 / 17592186044416) _ 10485760 (-44) (by norm_num)
  have e8 : F32.add 1 (5 / 8388608) = 8388613 / 8388608 :=
    F32.round_pos _ (1 / 8388608) _ 8388613 (-23) (by norm_num)
  have e9 : F32.toInt (8388613 / 8388608) = 1 :=
    F32.toInt_at _ 1 (by norm_num)
  have e10 : F32.ofInt 1 = 1 :=
    F32.round_pos _ (1 / 8388608) _ 8388608 (-23) (by norm_num)
  have e11 : F32.mul (7158279 / 536870912) 1 = 7158279 / 536870912 :=
    F32.round_pos _ (1 / 1073741824) _ 14316558 (-30) (by norm_num)
  have e12 : F32.add (1 / 2) (7158279 / 536870912) = 538269 / 1048576 :=
    F32.round_pos _ (1 / 16777216) _ 8612304 (-24) (by norm_num)
  have htermE : F32.toInt (F32.add 1 (F32.div (F32.sub
      (F32.updatedTrailingMixRatio 1199988 ⟨0, (1 / 2)⟩) F32.TARGET) (F32.round (1 / 10)))) = 1 := by
    rw [hupdE, F32.TARGET_val, F32.round_tenth, e6, e7, e8, e9]
  have hvE : (F32.throttle 1199988 60 ⟨0, (1 / 2)⟩).throttlingRatio = 538269 / 1048576 := by
    rw [f32_throttle_above _ _ _ hfE hrE, htermE]
    dsimp only
    rw [F32.THROTTLE_RATE_val, e10, e11, e12]
    norm_num
  have hrE' : (F32.throttle 1199988 60 ⟨0, 1 / 2⟩).trailingMixRatio = 15099495 / 16777216 := by
    rw [f32_throttle_trailing, hupdE]
  refine ⟨?_, hrE', ?_, hvE⟩
  · rw [throttle_trailingMixRatio, updated_at_initial]
    norm_num
  · rw [hrE']
    norm_num

/-- C8: the throttling ratio decreases above the back-off threshold.  The claim asks that
`throttlingRatio` never decreases when the updated trailing mix ratio `r` is above `0.44`.  From
the state `(0, 1/2)`, on evaluation frame 60, a frame of `3 * 10 ^ 14` µs gives
`r = 225002272`, above `0.44` and above `0.9`; the proportional term `2250022656` is beyond
the range of the `int` it is stored in (l.388), the conversion yields `INT_MIN`, and the
throttling ratio falls from `1/2` to `-28633116`. -/
theorem throttle_ratio_decreases_above_backoff :
    Int.tmod 60 F32.TRAILING_FRAMES = 0
      ∧ (F32.throttle 300000000000000 60 ⟨0, 1 / 2⟩).trailingMixRatio = 225002272
      ∧ 44 / 100 < (F32.throttle 300000000000000 60 ⟨0, 1 / 2⟩).trailingMixRatio
      ∧ F32.toInt (F32.add 1 (F32.div (F32.sub (F32.throttle 300000000000000 60 ⟨0, 1 / 2⟩).trailingMixRatio F32.TARGET) (F32.round (1 / 10)))) = INT_MIN
      ∧ (F32.throttle 300000000000000 60 ⟨0, 1 / 2⟩).throttlingRatio = -28633116
      ∧ (F32.throttle 300000000000000 60 ⟨0, 1 / 2⟩).throttlingRatio < (⟨0, 1 / 2⟩ : ThrottleState).throttlingRatio := by
  have e1 : F32.ofInt 300000000000000 = 300000009519104 :=
    F32.round_pos _ (33554432) _ 8940697 (25) (by norm_num)
  have e2 : F32.div 300000009519104 22222 = 13500135424 :=
    F32.round_pos _ (1024) _ 13183726 (10) (by norm_num)
  have e3 : F32.mul (8947849 / 536870912) 13500135424 = 225002272 :=
    F32.round_pos _ (16) _ 14062642 (4) (by norm_num)
  have e4 : F32.mul (4124399 / 4194304) 0 = 0 :=
    by norm_num [F32.mul, F32.round_zero]
  have e5 : F32.add 0 225002272 = 225002272 :=
    F32.round_pos _ (16) _ 14062642 (4) (by norm_num)
  have hupdA : F32.updatedTrailingMixRatio 300000000000000 ⟨0, (1 / 2)⟩ = 225002272 := by
    unfold F32.updatedTrailingMixRatio
    dsimp only
    rw [F32.PREVIOUS_FRAMES_RATIO_val, F32.CURRENT_FRAME_RATIO_val, F32.FRAME_TIME_val, e1,
      e2, e3, e4, e5]
  have hfA : Int.tmod 60 F32.TRAILING_FRAMES = 0 := by
    rw [F32.TRAILING_FRAMES_val]
    decide
  have hrA : F32.TARGET < F32.updatedTrailingMixRatio 300000000000000 ⟨0, (1 / 2)⟩ := by
    rw [hupdA, F32.TARGET_val]
    norm_num
  have e6 : F32.sub 225002272 (7549747 / 8388608) = 225002272 :=
    F32.round_pos _ (16) _ 14062642 (4) (by norm_num)
  have e7 : F32.div 225002272 (13421773 / 134217728) = 2250022656 :=
    F32.round_pos _ (256) _ 8789151 (8) (by norm_num)
  have e8 : F32.add 1 2250022656 = 2250022656 :=
    F32.round_pos _ (256) _ 8789151 (8) (by norm_num)
  have e9 : F32.toInt 2250022656 = INT_MIN :=
    F32.toInt_out_of_range _ (by norm_num)
  have e10 : F32.ofInt (-2147483648) = -2147483648 :=
    F32.round_negative _ (256) _ 8388608 (8) (by norm_num)
  have e11 : F32.mul (7158279 / 536870912) (-2147483648) = -28633116 :=
    F32.round_negative _ (2) _ 14316558 (1) (by norm_num)
  have e12 : F32.add (1 / 2) (-28633116) = -28633116 :=
    F32.round_negative _ (2) _ 14316558 (1) (by norm_num)
  have htermA : F32.toInt (F32.add 1 (F32.div (F32.sub
      (F32.updatedTrailingMixRatio 300000000000000 ⟨0, (1 / 2)⟩) F32.TARGET) (F32.round (1 / 10)))) = INT_MIN := by
    rw [hupdA, F32.TARGET_val, F32.round_tenth, e6, e7, e8, e9]
  have hvA : (F32.throttle 300000000000000 60 ⟨0, (1 / 2)⟩).throttlingRatio = -28633116 := by
    rw [f32_throttle_above _ _ _ hfA hrA, htermA]
    dsimp only
    unfold INT_MIN
    rw [F32.THROTTLE_RATE_val, e10, e11, e12]
    norm_num
  have hrA' : (F32.throttle 300000000000000 60 ⟨0, 1 / 2⟩).trailingMixRatio = 225002272 := by
    rw [f32_throttle_trailing, hupdA]
  refine ⟨hfA, hrA', ?_, ?_, hvA, ?_⟩
  · rw [hrA']
    norm_num
  · rw [f32_throttle_trailing]
    exact htermA
  · rw [hvA]
    norm_num

/-! ## Throttling controller, single precision: sustained overload -/

/-- One overloaded evaluation of the single-precision controller: for `0.9 < r <= 2 * 10 ^ 8` and
an old throttling ratio in `[0, 1]` the new ratio is at least the old one, strictly greater when
the old one is below `1`, at most `1`, and equal to `1` once `old + increment >= 1`. -/
theorem f32_throttle_overloaded_step (duration frame : Int) (s : ThrottleState)
    (hframe : frame % 60 = 0)
    (hr : 9 / 10 < F32.updatedTrailingMixRatio duration s)
    (hmax : F32.updatedTrailingMixRatio duration s ≤ 200000000)
    (h0 : 0 ≤ s.throttlingRatio) (h1 : s.throttlingRatio ≤ 1) :
    s.throttlingRatio ≤ (F32.throttle duration frame s).throttlingRatio
      ∧ (s.throttlingRatio < 1 → s.throttlingRatio < (F32.throttle duration frame s).throttlingRatio)
      ∧ (F32.throttle duration frame s).throttlingRatio ≤ 1
      ∧ (1 ≤ s.throttlingRatio + F32.mul F32.THROTTLE_RATE (F32.ofInt (F32.toInt
            (F32.add 1 (F32.div (F32.sub (F32.updatedTrailingMixRatio duration s) F32.TARGET) (F32.round (1 / 10)))))) →
          (F32.throttle duration frame s).throttlingRatio = 1) := by
  have hf : Int.tmod frame F32.TRAILING_FRAMES = 0 := (f32_tmod_iff frame).mpr hframe
  have hr' : F32.TARGET < F32.updatedTrailingMixRatio duration s := by
    by_contra hle
    rw [not_lt, ← f32_le_TARGET_iff _ (f32_updated_isFloat duration s)] at hle
    linarith
  have hstep := f32_up_step duration frame s hf hr' hmax h0
  have hval := f32_throttle_above duration frame s hf hr'
  refine ⟨?_, ?_, ?_, ?_⟩
  · have : s.throttlingRatio ≤ min (s.throttlingRatio + 7158247 / 536870912) 1 :=
      le_min (by linarith) h1
    linarith
  · intro hlt
    have : s.throttlingRatio < min (s.throttlingRatio + 7158247 / 536870912) 1 :=
      lt_min (by linarith) hlt
    linarith
  · rw [hval]
    exact min_le_right _ _
  · intro hge
    rw [hval]
    have h := F32.round_mono hge
    rw [F32.round_one] at h
    exact min_eq_right h

/-- A run of the single-precision controller in which every evaluation frame sees
`0.9f < r <= 2 * 10 ^ 8`, started with a throttling ratio in `[0, 1]`: the observed throttling
ratios are non-decreasing, and after 76 evaluations the ratio is `1`. -/
theorem f32_throttle_overloaded_run (calls : List (Int × Int)) (s : ThrottleState)
    (h0 : 0 ≤ s.throttlingRatio) (h1 : s.throttlingRatio ≤ 1)
    (hov : F32.Overloaded 200000000 s calls) :
    List.Chain' (fun a b : ℚ => a ≤ b) (F32.throttleTrace s calls)
      ∧ (76 ≤ F32.evaluations calls → (F32.throttleRun s calls).throttlingRatio = 1) := by
  refine ⟨f32_overloaded_trace_chain calls s h0 h1 hov, ?_⟩
  intro hn
  refine le_antisymm (f32_overloaded_run_le_one calls s h0 h1 hov) ?_
  refine le_trans ?_ (f32_overloaded_run_lower calls s h0 h1 hov)
  refine le_min ?_ le_rfl
  have hq : (76 : ℚ) ≤ (F32.evaluations calls : ℚ) := by exact_mod_cast hn
  nlinarith

/-- One evaluation of a steadily overloaded mixer: with frames of 21350 µs the trailing mix
ratio `16118871 / 16777216` (about `0.96`) reproduces itself, the proportional term is `1`, and the
throttling ratio rises by one step `THROTTLE_RATE`, rounded, up to `1`. -/
theorem f32_steady_overload_step (f : Int) (t : ℚ)
    (hf : Int.tmod f F32.TRAILING_FRAMES = 0) :
    F32.throttle 21350 f ⟨16118871 / 16777216, t⟩
      = ⟨16118871 / 16777216, min (F32.add t (7158279 / 536870912)) 1⟩ := by
  have e1 : F32.ofInt 21350 = 21350 :=
    F32.round_pos _ (1 / 512) _ 10931200 (-9) (by norm_num)
  have e2 : F32.div 21350 22222 = 16118871 / 16777216 :=
    F32.round_pos _ (1 / 16777216) _ 16118871 (-24) (by norm_num)
  have e3 : F32.mul (8947849 / 536870912) (16118871 / 16777216) = 2149183 / 134217728 :=
    F32.round_pos _ (1 / 536870912) _ 8596732 (-29) (by norm_num)
  have e4 : F32.mul (4124399 / 4194304) (16118871 / 16777216) = 15850223 / 16777216 :=
    F32.round_pos _ (1 / 16777216) _ 15850223 (-24) (by norm_num)
  have e5 : F32.add (15850223 / 16777216) (2149183 / 134217728) = 16118871 / 16777216 :=
    F32.round_pos _ (1 / 16777216) _ 16118871 (-24) (by norm_num)
  have e6 : F32.sub (16118871 / 16777216) (7549747 / 8388608) = 1019377 / 16777216 :=
    F32.round_pos _ (1 / 268435456) _ 16310032 (-28) (by norm_num)
  have e7 : F32.div (1019377 / 16777216) (13421773 / 134217728) = 5096885 / 8388608 :=
    F32.round_pos _ (1 / 16777216) _ 10193770 (-24) (by norm_num)
  have e8 : F32.add 1 (5096885 / 8388608) = 13485493 / 8388608 :=
    F32.round_pos _ (1 / 8388608) _ 13485493 (-23) (by norm_num)
  have e9 : F32.toInt (13485493 / 8388608) = 1 :=
    F32.toInt_at _ 1 (by norm_num)
  have e10 : F32.ofInt 1 = 1 :=
    F32.round_pos _ (1 / 8388608) _ 8388608 (-23) (by norm_num)
  have e11 : F32.mul (7158279 / 536870912) 1 = 7158279 / 536870912 :=
    F32.round_pos _ (1 / 1073741824) _ 14316558 (-30) (by norm_num)
  have hupd : F32.updatedTrailingMixRatio 21350 ⟨16118871 / 16777216, t⟩ = 16118871 / 16777216 := by
    unfold F32.updatedTrailingMixRatio
    dsimp only
    rw [F32.PREVIOUS_FRAMES_RATIO_val, F32.CURRENT_FRAME_RATIO_val, F32.FRAME_TIME_val, e1,
      e2, e3, e4, e5]
  have hr : F32.TARGET < F32.updatedTrailingMixRatio 21350 ⟨16118871 / 16777216, t⟩ := by
    rw [hupd, F32.TARGET_val]
    norm_num
  have h1 : (F32.throttle 21350 f ⟨16118871 / 16777216, t⟩).trailingMixRatio = 16118871 / 16777216 := by
    rw [f32_throttle_trailing, hupd]
  have h2 : (F32.throttle 21350 f ⟨16118871 / 16777216, t⟩).throttlingRatio
      = min (F32.add t (7158279 / 536870912)) 1 := by
    rw [f32_throttle_above _ _ _ hf hr, hupd, F32.TARGET_val, F32.round_tenth, e6, e7, e8,
      e9, F32.THROTTLE_RATE_val, e10, e11]
  calc F32.throttle 21350 f ⟨16118871 / 16777216, t⟩
      = ⟨(F32.throttle 21350 f ⟨16118871 / 16777216, t⟩).trailingMixRatio,
          (F32.throttle 21350 f ⟨16118871 / 16777216, t⟩).throttlingRatio⟩ := rfl
    _ = ⟨16118871 / 16777216, min (F32.add t (7158279 / 536870912)) 1⟩ := by rw [h1, h2]

/-- A run of evaluation frames of 21350 µs each, started with the trailing mix ratio
`16118871 / 16777216`: the trailing mix ratio stays, the run is overloaded, and the throttling ratio is the
step of `f32_steady_overload_step` iterated once per call. -/
theorem f32_steady_overload_run (calls : List (Int × Int)) (t : ℚ)
    (hcalls : ∀ c ∈ calls, c.1 = 21350 ∧ Int.tmod c.2 F32.TRAILING_FRAMES = 0) :
    F32.throttleRun ⟨16118871 / 16777216, t⟩ calls
        = ⟨16118871 / 16777216, (fun t : ℚ => min (F32.add t (7158279 / 536870912)) 1)^[calls.length] t⟩
      ∧ F32.Overloaded 200000000 ⟨16118871 / 16777216, t⟩ calls
      ∧ F32.evaluations calls = calls.length := by
  induction calls generalizing t with
  | nil => exact ⟨rfl, trivial, rfl⟩
  | cons c cs ih =>
    obtain ⟨hd, hf⟩ := hcalls c (List.mem_cons_self _ _)
    have hstep := f32_steady_overload_step c.2 t hf
    obtain ⟨i1, i2, i3⟩ := ih (min (F32.add t (7158279 / 536870912)) 1)
      (fun c' hc' => hcalls c' (List.mem_cons_of_mem _ hc'))
    refine ⟨?_, ⟨?_, ?_⟩, ?_⟩
    · rw [F32.throttleRun, hd, hstep, i1, List.length_cons, Function.iterate_succ_apply]
    · intro _
      rw [hd, hstep, F32.TARGET_val]
      constructor <;> norm_num
    · rw [hd, hstep]
      exact i2
    · rw [F32.evaluations, List.countP_cons_of_pos _ _ (by simpa using hf), List.length_cons]
      rw [F32.evaluations] at i3
      rw [i3]

/-- Sustained overload, an example: 76 evaluation frames (frames 60, 120, ..., 4560) of 21350 µs
each, started with the trailing mix ratio `16118871 / 16777216` and the throttling ratio `0`.  Every
evaluation sees the trailing mix ratio `16118871 / 16777216`, above `0.9`, and adds one step; after 75
evaluations the throttling ratio is `16777205 / 16777216` (`0.99999934`), after 76 it is `1`. -/
theorem f32_steady_overload_reaches_one :
    F32.Overloaded 200000000 ⟨16118871 / 16777216, 0⟩ ((List.range 76).map (fun i : Nat => ((21350 : Int), 60 * ((i : Int) + 1))))
      ∧ F32.evaluations ((List.range 75).map (fun i : Nat => ((21350 : Int), 60 * ((i : Int) + 1)))) = 75
      ∧ F32.evaluations ((List.range 76).map (fun i : Nat => ((21350 : Int), 60 * ((i : Int) + 1)))) = 76
      ∧ F32.throttleRun ⟨16118871 / 16777216, 0⟩ ((List.range 75).map (fun i : Nat => ((21350 : Int), 60 * ((i : Int) + 1))))
          = ⟨16118871 / 16777216, 16777205 / 16777216⟩
      ∧ F32.throttleRun ⟨16118871 / 16777216, 0⟩ ((List.range 76).map (fun i : Nat => ((21350 : Int), 60 * ((i : Int) + 1))))
          = ⟨16118871 / 16777216, 1⟩ := by
  have hcalls : ∀ n : Nat, ∀ c ∈ (List.range n).map (fun i : Nat => ((21350 : Int), 60 * ((i : Int) + 1))),
      c.1 = 21350 ∧ Int.tmod c.2 F32.TRAILING_FRAMES = 0 := by
    intro n c hc
    rw [List.mem_map] at hc
    obtain ⟨i, -, rfl⟩ := hc
    refine ⟨rfl, (f32_tmod_iff _).mpr ?_⟩
    exact Int.mul_emod_right 60 _
  have v0 : (fun t : ℚ => min (F32.add t (7158279 / 536870912)) 1)^[0] 0 = 0 := rfl
  have v1 : (fun t : ℚ => min (F32.add t (7158279 / 536870912)) 1)^[1] 0 = 7158279 / 536870912 := by
    rw [Function.iterate_succ_apply', v0]
    show min (F32.add 0 (7158279 / 536870912)) 1 = 7158279 / 536870912
    rw [show F32.add 0 (7158279 / 536870912) = 7158279 / 536870912 from
      F32.round_pos _ (1 / 1073741824) _ 14316558 (-30) (by norm_num)]
    norm_num
  have v2 : (fun t : ℚ => min (F32.add t (7158279 / 536870912)) 1)^[2] 0 = 7158279 / 268435456 := by
    rw [Function.iterate_succ_apply', v1]
    show min (F32.add (7158279 / 536870912) (7158279 / 536870912)) 1 = 7158279 / 268435456
    rw [show F32.add (7158279 / 536870912) (7158279 / 536870912) = 7158279 / 268435456 from
      F32.round_pos _ (1 / 536870912) _ 14316558 (-29) (by norm_num)]
    norm_num
  have v3 : (fun t : ℚ => min (F32.add t (7158279 / 536870912)) 1)^[3] 0 = 5368709 / 134217728 := by
    rw [Function.iterate_succ_apply', v2]
    show min (F32.add (7158279 / 268435456) (7158279 / 536870912)) 1 = 5368709 / 134217728
    rw [show F32.add (7158279 / 268435456) (7158279 / 536870912) = 5368709 / 134217728 from
      F32.round_tie _ (1 / 268435456) _ 10737418 (-28) (by norm_num)]
    norm_num
  have v4 : (fun t : ℚ => min (F32.add t (7158279 / 536870912)) 1)^[4] 0 = 7158279 / 134217728 := by
    rw [Function.iterate_succ_apply', v3]
    show min (F32.add (5368709 / 134217728) (7158279 / 536870912)) 1 = 7158279 / 134217728
    rw [show F32.add (5368709 / 134217728) (7158279 / 536870912) = 7158279 / 134217728 from
      F32.round_tie _ (1 / 268435456) _ 14316558 (-28) (by norm_num)]
    norm_num
  have v5 : (fun t : ℚ => min (F32.add t (7158279 / 536870912)) 1)^[5] 0 = 8947849 / 134217728 := by
    rw [Function.iterate_succ_apply', v4]
    show min (F32.add (7158279 / 134217728) (7158279 / 536870912)) 1 = 8947849 / 134217728
    rw [show F32.add (7158279 / 134217728) (7158279 / 536870912) = 8947849 / 134217728 from
      F32.round_pos _ (1 / 134217728) _ 8947849 (-27) (by norm_num)]
    norm_num
  have v6 : (fun t : ℚ => min (F32.add t (7158279 / 536870912)) 1)^[6] 0 = 10737419 / 134217728 := by
    rw [Function.iterate_succ_apply', v5]
    show min (F32.add (8947849 / 134217728) (7158279 / 536870912)) 1 = 10737419 / 134217728
    rw [show F32.add (8947849 / 134217728) (7158279 / 536870912) = 10737419 / 134217728 from
      F32.round_pos _ (1 / 134217728) _ 10737419 (-27) (by norm_num)]
    norm_num
  have v7 : (fun t : ℚ => min (F32.add t (7158279 / 536870912)) 1)^[7] 0 = 12526989 / 134217728 := by
    rw [Function.iterate_succ_apply', v6]
    show min (F32.add (10737419 / 134217728) (7158279 / 536870912)) 1 = 12526989 / 134217728
    rw [show F32.add (10737419 / 134217728) (7158279 / 536870912) = 12526989 / 134217728 from
      F32.round_pos _ (1 / 134217728) _ 12526989 (-27) (by norm_num)]
    norm_num
  have v8 : (fun t : ℚ => min (F32.add t (7158279 / 536870912)) 1)^[8] 0 = 14316559 / 134217728 := by
    rw [Function.iterate_succ_apply', v7]
    show min (F32.add (12526989 / 134217728) (7158279 / 536870912)) 1 = 14316559 / 134217728
    rw [show F32.add (12526989 / 134217728) (7158279 / 536870912) = 14316559 / 134217728 from
      F32.round_pos _ (1 / 134217728) _ 14316559 (-27) (by norm_num)]
    norm_num
  have v9 : (fun t : ℚ => min (F32.add t (7158279 / 536870912)) 1)^[9] 0 = 16106129 / 134217728 := by
    rw [Function.iterate_succ_apply', v8]
    show min (F32.add (14316559 / 134217728) (7158279 / 536870912)) 1 = 16106129 / 134217728
    rw [show F32.add (14316559 / 134217728) (7158279 / 536870912) = 16106129 / 134217728 from
      F32.round_pos _ (1 / 134217728) _ 16106129 (-27) (by norm_num)]
    norm_num
  have v10 : (fun t : ℚ => min (F32.add t (7158279 / 536870912)) 1)^[10] 0 = 8947849 / 67108864 := by
    rw [Function.iterate_succ_apply', v9]
    show min (F32.add (16106129 / 134217728) (7158279 / 536870912)) 1 = 8947849 / 67108864
    rw [show F32.add (16106129 / 134217728) (7158279 / 536870912) = 8947849 / 67108864 from
      F32.round_pos _ (1 / 67108864) _ 8947849 (-26) (by norm_num)]
    norm_num
  have v11 : (fun t : ℚ => min (F32.add t (7158279 / 536870912)) 1)^[11] 0 = 4921317 / 33554432 := by
    rw [Function.iterate_succ_apply', v10]
    show min (F32.add (8947849 / 67108864) (7158279 / 536870912)) 1 = 4921317 / 33554432
    rw [show F32.add (8947849 / 67108864) (7158279 / 536870912) = 4921317 / 33554432 from
      F32.round_pos _ (1 / 67108864) _ 9842634 (-26) (by norm_num)]
    norm_num
  have v12 : (fun t : ℚ => min (F32.add t (7158279 / 536870912)) 1)^[12] 0 = 10737419 / 67108864 := by
    rw [Function.iterate_succ_apply', v11]
    show min (F32.add (4921317 / 33554432) (7158279 / 536870912)) 1 = 10737419 / 67108864
    rw [show F32.add (4921317 / 33554432) (7158279 / 536870912) = 10737419 / 67108864 from
      F32.round_pos _ (1 / 67108864) _ 10737419 (-26) (by norm_num)]
    norm_num
  have v13 : (fun t : ℚ => min (F32.add t (7158279 / 536870912)) 1)^[13] 0 = 2908051 / 16777216 := by
    rw [Function.iterate_succ_apply', v12]
    show min (F32.add (10737419 / 67108864) (7158279 / 536870912)) 1 = 2908051 / 16777216
    rw [show F32.add (10737419 / 67108864) (7158279 / 536870912) = 2908051 / 16777216 from
      F32.round_pos _ (1 / 67108864) _ 11632204 (-26) (by norm_num)]
    norm_num
  have v14 : (fun t : ℚ => min (F32.add t (7158279 / 536870912)) 1)^[14] 0 = 12526989 / 67108864 := by
    rw [Function.iterate_succ_apply', v13]
    show min (F32.add (2908051 / 16777216) (7158279 / 536870912)) 1 = 12526989 / 67108864
    rw [show F32.add (2908051 / 16777216) (7158279 / 536870912) = 12526989 / 67108864 from
      F32.round_pos _ (1 / 67108864) _ 12526989 (-26) (by norm_num)]
    norm_num
  have v15 : (fun t : ℚ => min (F32.add t (7158279 / 536870912)) 1)^[15] 0 = 6710887 / 33554432 := by
    rw [Function.iterate_succ_apply', v14]
    show min (F32.add (12526989 / 67108864) (7158279 / 536870912)) 1 = 6710887 / 33554432
    rw [show F32.add (12526989 / 67108864) (7158279 / 536870912) = 6710887 / 33554432 from
      F32.round_pos _ (1 / 67108864) _ 13421774 (-26) (by norm_num)]
    norm_num
  have v16 : (fun t : ℚ => min (F32.add t (7158279 / 536870912)) 1)^[16] 0 = 14316559 / 67108864 := by
    rw [Function.iterate_succ_apply', v15]
    show min (F32.add (6710887 / 33554432) (7158279 / 536870912)) 1 = 14316559 / 67108864
    rw [show F32.add (6710887 / 33554432) (7158279 / 536870912) = 14316559 / 67108864 from
      F32.round_pos _ (1 / 67108864) _ 14316559 (-26) (by norm_num)]
    norm_num
  have v17 : (fun t : ℚ => min (F32.add t (7158279 / 536870912)) 1)^[17] 0 = 950709 / 4194304 := by
    rw [Function.iterate_succ_apply', v16]
    show min (F32.add (14316559 / 67108864) (7158279 / 536870912)) 1 = 950709 / 4194304
    rw [show F32.add (14316559 / 67108864) (7158279 / 536870912) = 950709 / 4194304 from
      F32.round_pos _ (1 / 67108864) _ 15211344 (-26) (by norm_num)]
    norm_num
  have v18 : (fun t : ℚ => min (F32.add t (7158279 / 536870912)) 1)^[18] 0 = 16106129 / 67108864 := by
    rw [Function.iterate_succ_apply', v17]
    show min (F32.add (950709 / 4194304) (7158279 / 536870912)) 1 = 16106129 / 67108864
    rw [show F32.add (950709 / 4194304) (7158279 / 536870912) = 16106129 / 67108864 from
      F32.round_pos _ (1 / 67108864) _ 16106129 (-26) (by norm_num)]
    norm_num
  have v19 : (fun t : ℚ => min (F32.add t (7158279 / 536870912)) 1)^[19] 0 = 8500457 / 33554432 := by
    rw [Function.iterate_succ_apply', v18]
    show min (F32.add (16106129 / 67108864) (7158279 / 536870912)) 1 = 8500457 / 33554432
    rw [show F32.add (16106129 / 67108864) (7158279 / 536870912) = 8500457 / 33554432 from
      F32.round_pos _ (1 / 33554432) _ 8500457 (-25) (by norm_num)]
    norm_num
  have v20 : (fun t : ℚ => min (F32.add t (7158279 / 536870912)) 1)^[20] 0 = 8947849 / 33554432 := by
    rw [Function.iterate_succ_apply', v19]
    show min (F32.add (8500457 / 33554432) (7158279 / 536870912)) 1 = 8947849 / 33554432
    rw [show F32.add (8500457 / 33554432) (7158279 / 536870912) = 8947849 / 33554432 from
      F32.round_pos _ (1 / 33554432) _ 8947849 (-25) (by norm_num)]
    norm_num
  have v21 : (fun t : ℚ => min (F32.add t (7158279 / 536870912)) 1)^[21] 0 = 9395241 / 33554432 := by
    rw [Function.iterate_succ_apply', v20]
    show min (F32.add (8947849 / 33554432) (7158279 / 536870912)) 1 = 9395241 / 33554432
    rw [show F32.add (8947849 / 33554432) (7158279 / 536870912) = 9395241 / 33554432 from
      F32.round_pos _ (1 / 33554432) _ 9395241 (-25) (by norm_num)]
    norm_num
  have v22 : (fun t : ℚ => min (F32.add t (7158279 / 536870912)) 1)^[22] 0 = 9842633 / 33554432 := by
    rw [Function.iterate_succ_apply', v21]
    show min (F32.add (9395241 / 33554432) (7158279 / 536870912)) 1 = 9842633 / 33554432
    rw [show F32.add (9395241 / 33554432) (7158279 / 536870912) = 9842633 / 33554432 from
      F32.round_pos _ (1 / 33554432) _ 9842633 (-25) (by norm_num)]
    norm_num
  have v23 : (fun t : ℚ => min (F32.add t (7158279 / 536870912)) 1)^[23] 0 = 10290025 / 33554432 := by
    rw [Function.iterate_succ_apply', v22]
    show min (F32.add (9842633 / 33554432) (7158279 / 536870912)) 1 = 10290025 / 33554432
    rw [show F32.add (9842633 / 33554432) (7158279 / 536870912) = 10290025 / 33554432 from
      F32.round_pos _ (1 / 33554432) _ 10290025 (-25) (by norm_num)]
    norm_num
  have v24 : (fun t : ℚ => min (F32.add t (7158279 / 536870912)) 1)^[24] 0 = 10737417 / 33554432 := by
    rw [Function.iterate_succ_apply', v23]
    show min (F32.add (10290025 / 33554432) (7158279 / 536870912)) 1 = 10737417 / 33554432
    rw [show F32.add (10290025 / 33554432) (7158279 / 536870912) = 10737417 / 33554432 from
      F32.round_pos _ (1 / 33554432) _ 10737417 (-25) (by norm_num)]
    norm_num
  have v25 : (fun t : ℚ => min (F32.add t (7158279 / 536870912)) 1)^[25] 0 = 11184809 / 33554432 := by
    rw [Function.iterate_succ_apply', v24]
    show min (F32.add (10737417 / 33554432) (7158279 / 536870912)) 1 = 11184809 / 33554432
    rw [show F32.add (10737417 / 33554432) (7158279 / 536870912) = 11184809 / 33554432 from
      F32.round_pos _ (1 / 33554432) _ 11184809 (-25) (by norm_num)]
    norm_num
  have v26 : (fun t : ℚ => min (F32.add t (7158279 / 536870912)) 1)^[26] 0 = 11632201 / 33554432 := by
    rw [Function.iterate_succ_apply', v25]
    show min (F32.add (11184809 / 33554432) (7158279 / 536870912)) 1 = 11632201 / 33554432
    rw [show F32.add (11184809 / 33554432) (7158279 / 536870912) = 11632201 / 33554432 from
      F32.round_pos _ (1 / 33554432) _ 11632201 (-25) (by norm_num)]
    norm_num
  have v27 : (fun t : ℚ => min (F32.add t (7158279 / 536870912)) 1)^[27] 0 = 12079593 / 33554432 := by
    rw [Function.iterate_succ_apply', v26]
    show min (F32.add (11632201 / 33554432) (7158279 / 536870912)) 1 = 12079593 / 33554432
    rw [show F32.add (11632201 / 33554432) (7158279 / 536870912) = 12079593 / 33554432 from
      F32.round_pos _ (1 / 33554432) _ 12079593 (-25) (by norm_num)]
    norm_num
  have v28 : (fun t : ℚ => min (F32.add t (7158279 / 536870912)) 1)^[28] 0 = 12526985 / 33554432 := by
    rw [Function.iterate_succ_apply', v27]
    show min (F32.add (12079593 / 33554432) (7158279 / 536870912)) 1 = 12526985 / 33554432
    rw [show F32.add (12079593 / 33554432) (7158279 / 536870912) = 12526985 / 33554432 from
      F32.round_pos _ (1 / 33554432) _ 12526985 (-25) (by norm_num)]
    norm_num
  have v29 : (fun t : ℚ => min (F32.add t (7158279 / 536870912)) 1)^[29] 0 = 12974377 / 33554432 := by
    rw [Function.iterate_succ_apply', v28]
    show min (F32.add (12526985 / 33554432) (7158279 / 536870912)) 1 = 12974377 / 33554432
    rw [show F32.add (12526985 / 33554432) (7158279 / 536870912) = 12974377 / 33554432 from
      F32.round_pos _ (1 / 33554432) _ 12974377 (-25) (by norm_num)]
    norm_num
  have v30 : (fun t : ℚ => min (F32.add t (7158279 / 536870912)) 1)^[30] 0 = 13421769 / 33554432 := by
    rw [Function.iterate_succ_apply', v29]
    show min (F32.add (12974377 / 33554432) (7158279 / 536870912)) 1 = 13421769 / 33554432
    rw [show F32.add (12974377 / 33554432) (7158279 / 536870912) = 13421769 / 33554432 from
      F32.round_pos _ (1 / 33554432) _ 13421769 (-25) (by norm_num)]
    norm_num
  have v31 : (fun t : ℚ => min (F32.add t (7158279 / 536870912)) 1)^[31] 0 = 13869161 / 33554432 := by
    rw [Function.iterate_succ_apply', v30]
    show min (F32.add (13421769 / 33554432) (7158279 / 536870912)) 1 = 13869161 / 33554432
    rw [show F32.add (13421769 / 33554432) (7158279 / 536870912) = 13869161 / 33554432 from
      F32.round_pos _ (1 / 33554432) _ 13869161 (-25) (by norm_num)]
    norm_num
  have v32 : (fun t : ℚ => min (F32.add t (7158279 / 536870912)) 1)^[32] 0 = 14316553 / 33554432 := by
    rw [Function.iterate_succ_apply', v31]
    show min (F32.add (13869161 / 33554432) (7158279 / 536870912)) 1 = 14316553 / 33554432
    rw [show F32.add (13869161 / 33554432) (7158279 / 536870912) = 14316553 / 33554432 from
      F32.round_pos _ (1 / 33554432) _ 14316553 (-25) (by norm_num)]
    norm_num
  have v33 : (fun t : ℚ => min (F32.add t (7158279 / 536870912)) 1)^[33] 0 = 14763945 / 33554432 := by
    rw [Function.iterate_succ_apply', v32]
    show min (F32.add (14316553 / 33554432) (7158279 / 536870912)) 1 = 14763945 / 33554432
    rw [show F32.add (14316553 / 33554432) (7158279 / 536870912) = 14763945 / 33554432 from
      F32.round_pos _ (1 / 33554432) _ 14763945 (-25) (by norm_num)]
    norm_num
  have v34 : (fun t : ℚ => min (F32.add t (7158279 / 536870912)) 1)^[34] 0 = 15211337 / 33554432 := by
    rw [Function.iterate_succ_apply', v33]
    show min (F32.add (14763945 / 33554432) (7158279 / 536870912)) 1 = 15211337 / 33554432
    rw [show F32.add (14763945 / 33554432) (7158279 / 536870912) = 15211337 / 33554432 from
      F32.round_pos _ (1 / 33554432) _ 15211337 (-25) (by norm_num)]
    norm_num
  have v35 : (fun t : ℚ => min (F32.add t (7158279 / 536870912)) 1)^[35] 0 = 15658729 / 33554432 := by
    rw [Function.iterate_succ_apply', v34]
    show min (F32.add (15211337 / 33554432) (7158279 / 536870912)) 1 = 15658729 / 33554432
    rw [show F32.add (15211337 / 33554432) (7158279 / 536870912) = 15658729 / 33554432 from
      F32.round_pos _ (1 / 33554432) _ 15658729 (-25) (by norm_num)]
    norm_num
  have v36 : (fun t : ℚ => min (F32.add t (7158279 / 536870912)) 1)^[36] 0 = 16106121 / 33554432 := by
    rw [Function.iterate_succ_apply', v35]
    show min (F32.add (15658729 / 33554432) (7158279 / 536870912)) 1 = 16106121 / 33554432
    rw [show F32.add (15658729 / 33554432) (7158279 / 536870912) = 16106121 / 33554432 from
      F32.round_pos _ (1 / 33554432) _ 16106121 (-25) (by norm_num)]
    norm_num
  have v37 : (fun t : ℚ => min (F32.add t (7158279 / 536870912)) 1)^[37] 0 = 16553513 / 33554432 := by
    rw [Function.iterate_succ_apply', v36]
    show min (F32.add (16106121 / 33554432) (7158279 / 536870912)) 1 = 16553513 / 33554432
    rw [show F32.add (16106121 / 33554432) (7158279 / 536870912) = 16553513 / 33554432 from
      F32.round_pos _ (1 / 33554432) _ 16553513 (-25) (by norm_num)]
    norm_num
  have v38 : (fun t : ℚ => min (F32.add t (7158279 / 536870912)) 1)^[38] 0 = 8500453 / 16777216 := by
    rw [Function.iterate_succ_apply', v37]
    show min (F32.add (16553513 / 33554432) (7158279 / 536870912)) 1 = 8500453 / 16777216
    rw [show F32.add (16553513 / 33554432) (7158279 / 536870912) = 8500453 / 16777216 from
      F32.round_pos _ (1 / 16777216) _ 8500453 (-24) (by norm_num)]
    norm_num
  have v39 : (fun t : ℚ => min (F32.add t (7158279 / 536870912)) 1)^[39] 0 = 8724149 / 16777216 := by
    rw [Function.iterate_succ_apply', v38]
    show min (F32.add (8500453 / 16777216) (7158279 / 536870912)) 1 = 8724149 / 16777216
    rw [show F32.add (8500453 / 16777216) (7158279 / 536870912) = 8724149 / 16777216 from
      F32.round_pos _ (1 / 16777216) _ 8724149 (-24) (by norm_num)]
    norm_num
  have v40 : (fun t : ℚ => min (F32.add t (7158279 / 536870912)) 1)^[40] 0 = 8947845 / 16777216 := by
    rw [Function.iterate_succ_apply', v39]
    show min (F32.add (8724149 / 16777216) (7158279 / 536870912)) 1 = 8947845 / 16777216
    rw [show F32.add (8724149 / 16777216) (7158279 / 536870912) = 8947845 / 16777216 from
      F32.round_pos _ (1 / 16777216) _ 8947845 (-24) (by norm_num)]
    norm_num
  have v41 : (fun t : ℚ => min (F32.add t (7158279 / 536870912)) 1)^[41] 0 = 9171541 / 16777216 := by
    rw [Function.iterate_succ_apply', v40]
    show min (F32.add (8947845 / 16777216) (7158279 / 536870912)) 1 = 9171541 / 16777216
    rw [show F32.add (8947845 / 16777216) (7158279 / 536870912) = 9171541 / 16777216 from
      F32.round_pos _ (1 / 16777216) _ 9171541 (-24) (by norm_num)]
    norm_num
  have v42 : (fun t : ℚ => min (F32.add t (7158279 / 536870912)) 1)^[42] 0 = 9395237 / 16777216 := by
    rw [Function.iterate_succ_apply', v41]
    show min (F32.add (9171541 / 16777216) (7158279 / 536870912)) 1 = 9395237 / 16777216
    rw [show F32.add (9171541 / 16777216) (7158279 / 536870912) = 9395237 / 16777216 from
      F32.round_pos _ (1 / 16777216) _ 9395237 (-24) (by norm_num)]
    norm_num
  have v43 : (fun t : ℚ => min (F32.add t (7158279 / 536870912)) 1)^[43] 0 = 9618933 / 16777216 := by
    rw [Function.iterate_succ_apply', v42]
    show min (F32.add (9395237 / 16777216) (7158279 / 536870912)) 1 = 9618933 / 16777216
    rw [show F32.add (9395237 / 16777216) (7158279 / 536870912) = 9618933 / 16777216 from
      F32.round_pos _ (1 / 16777216) _ 9618933 (-24) (by norm_num)]
    norm_num
  have v44 : (fun t : ℚ => min (F32.add t (7158279 / 536870912)) 1)^[44] 0 = 9842629 / 16777216 := by
    rw [Function.iterate_succ_apply', v43]
    show min (F32.add (9618933 / 16777216) (7158279 / 536870912)) 1 = 9842629 / 16777216
    rw [show F32.add (9618933 / 16777216) (7158279 / 536870912) = 9842629 / 16777216 from
      F32.round_pos _ (1 / 16777216) _ 9842629 (-24) (by norm_num)]
    norm_num
  have v45 : (fun t : ℚ => min (F32.add t (7158279 / 536870912)) 1)^[45] 0 = 10066325 / 16777216 := by
    rw [Function.iterate_succ_apply', v44]
    show min (F32.add (9842629 / 16777216) (7158279 / 536870912)) 1 = 10066325 / 16777216
    rw [show F32.add (9842629 / 16777216) (7158279 / 536870912) = 10066325 / 16777216 from
      F32.round_pos _ (1 / 16777216) _ 10066325 (-24) (by norm_num)]
    norm_num
  have v46 : (fun t : ℚ => min (F32.add t (7158279 / 536870912)) 1)^[46] 0 = 10290021 / 16777216 := by
    rw [Function.iterate_succ_apply', v45]
    show min (F32.add (10066325 / 16777216) (7158279 / 536870912)) 1 = 10290021 / 16777216
    rw [show F32.add (10066325 / 16777216) (7158279 / 536870912) = 10290021 / 16777216 from
      F32.round_pos _ (1 / 16777216) _ 10290021 (-24) (by norm_num)]
    norm_num
  have v47 : (fun t : ℚ => min (F32.add t (7158279 / 536870912)) 1)^[47] 0 = 10513717 / 16777216 := by
    rw [Function.iterate_succ_apply', v46]
    show min (F32.add (10290021 / 16777216) (7158279 / 536870912)) 1 = 10513717 / 16777216
    rw [show F32.add (10290021 / 16777216) (7158279 / 536870912) = 10513717 / 16777216 from
      F32.round_pos _ (1 / 16777216) _ 10513717 (-24) (by norm_num)]
    norm_num
  have v48 : (fun t : ℚ => min (F32.add t (7158279 / 536870912)) 1)^[48] 0 = 10737413 / 16777216 := by
    rw [Function.iterate_succ_apply', v47]
    show min (F32.add (10513717 / 16777216) (7158279 / 536870912)) 1 = 10737413 / 16777216
    rw [show F32.add (10513717 / 16777216) (7158279 / 536870912) = 10737413 / 16777216 from
      F32.round_pos _ (1 / 16777216) _ 10737413 (-24) (by norm_num)]
    norm_num
  have v49 : (fun t : ℚ => min (F32.add t (7158279 / 536870912)) 1)^[49] 0 = 10961109 / 16777216 := by
    rw [Function.iterate_succ_apply', v48]
    show min (F32.add (10737413 / 16777216) (7158279 / 536870912)) 1 = 10961109 / 16777216
    rw [show F32.add (10737413 / 16777216) (7158279 / 536870912) = 10961109 / 16777216 from
      F32.round_pos _ (1 / 16777216) _ 10961109 (-24) (by norm_num)]
    norm_num
  have v50 : (fun t : ℚ => min (F32.add t (7158279 / 536870912)) 1)^[50] 0 = 11184805 / 16777216 := by
    rw [Function.iterate_succ_apply', v49]
    show min (F32.add (10961109 / 16777216) (7158279 / 536870912)) 1 = 11184805 / 16777216
    rw [show F32.add (10961109 / 16777216) (7158279 / 536870912) = 11184805 / 16777216 from
      F32.round_pos _ (1 / 16777216) _ 11184805 (-24) (by norm_num)]
    norm_num
  have v51 : (fun t : ℚ => min (F32.add t (7158279 / 536870912)) 1)^[51] 0 = 11408501 / 16777216 := by
    rw [Function.iterate_succ_apply', v50]
    show min (F32.add (11184805 / 16777216) (7158279 / 536870912)) 1 = 11408501 / 16777216
    rw [show F32.add (11184805 / 16777216) (7158279 / 536870912) = 11408501 / 16777216 from
      F32.round_pos _ (1 / 16777216) _ 11408501 (-24) (by norm_num)]
    norm_num
  have v52 : (fun t : ℚ => min (F32.add t (7158279 / 536870912)) 1)^[52] 0 = 11632197 / 16777216 := by
    rw [Function.iterate_succ_apply', v51]
    show min (F32.add (11408501 / 16777216) (7158279 / 536870912)) 1 = 11632197 / 16777216
    rw [show F32.add (11408501 / 16777216) (7158279 / 536870912) = 11632197 / 16777216 from
      F32.round_pos _ (1 / 16777216) _ 11632197 (-24) (by norm_num)]
    norm_num
  have v53 : (fun t : ℚ => min (F32.add t (7158279 / 536870912)) 1)^[53] 0 = 11855893 / 16777216 := by
    rw [Function.iterate_succ_apply', v52]
    show min (F32.add (11632197 / 16777216) (7158279 / 536870912)) 1 = 11855893 / 16777216
    rw [show F32.add (11632197 / 16777216) (7158279 / 536870912) = 11855893 / 16777216 from
      F32.round_pos _ (1 / 16777216) _ 11855893 (-24) (by norm_num)]
    norm_num
  have v54 : (fun t : ℚ => min (F32.add t (7158279 / 536870912)) 1)^[54] 0 = 12079589 / 16777216 := by
    rw [Function.iterate_succ_apply', v53]
    show min (F32.add (11855893 / 16777216) (7158279 / 536870912)) 1 = 12079589 / 16777216
    rw [show F32.add (11855893 / 16777216) (7158279 / 536870912) = 12079589 / 16777216 from
      F32.round_pos _ (1 / 16777216) _ 12079589 (-24) (by norm_num)]
    norm_num
  have v55 : (fun t : ℚ => min (F32.add t (7158279 / 536870912)) 1)^[55] 0 = 12303285 / 16777216 := by
    rw [Function.iterate_succ_apply', v54]
    show min (F32.add (12079589 / 16777216) (7158279 / 536870912)) 1 = 12303285 / 16777216
    rw [show F32.add (12079589 / 16777216) (7158279 / 536870912) = 12303285 / 16777216 from
      F32.round_pos _ (1 / 16777216) _ 12303285 (-24) (by norm_num)]
    norm_num
  have v56 : (fun t : ℚ => min (F32.add t (7158279 / 536870912)) 1)^[56] 0 = 12526981 / 16777216 := by
    rw [Function.iterate_succ_apply', v55]
    show min (F32.add (12303285 / 16777216) (7158279 / 536870912)) 1 = 12526981 / 16777216
    rw [show F32.add (12303285 / 16777216) (7158279 / 536870912) = 12526981 / 16777216 from
      F32.round_pos _ (1 / 16777216) _ 12526981 (-24) (by norm_num)]
    norm_num
  have v57 : (fun t : ℚ => min (F32.add t (7158279 / 536870912)) 1)^[57] 0 = 12750677 / 16777216 := by
    rw [Function.iterate_succ_apply', v56]
    show min (F32.add (12526981 / 16777216) (7158279 / 536870912)) 1 = 12750677 / 16777216
    rw [show F32.add (12526981 / 16777216) (7158279 / 536870912) = 12750677 / 16777216 from
      F32.round_pos _ (1 / 16777216) _ 12750677 (-24) (by norm_num)]
    norm_num
  have v58 : (fun t : ℚ => min (F32.add t (7158279 / 536870912)) 1)^[58] 0 = 12974373 / 16777216 := by
    rw [Function.iterate_succ_apply', v57]
    show min (F32.add (12750677 / 16777216) (7158279 / 536870912)) 1 = 12974373 / 16777216
    rw [show F32.add (12750677 / 16777216) (7158279 / 536870912) = 12974373 / 16777216 from
      F32.round_pos _ (1 / 16777216) _ 12974373 (-24) (by norm_num)]
    norm_num
  have v59 : (fun t : ℚ => min (F32.add t (7158279 / 536870912)) 1)^[59] 0 = 13198069 / 16777216 := by
    rw [Function.iterate_succ_apply', v58]
    show min (F32.add (12974373 / 16777216) (7158279 / 536870912)) 1 = 13198069 / 16777216
    rw [show F32.add (12974373 / 16777216) (7158279 / 536870912) = 13198069 / 16777216 from
      F32.round_pos _ (1 / 16777216) _ 13198069 (-24) (by norm_num)]
    norm_num
  have v60 : (fun t : ℚ => min (F32.add t (7158279 / 536870912)) 1)^[60] 0 = 13421765 / 16777216 := by
    rw [Function.iterate_succ_apply', v59]
    show min (F32.add (13198069 / 16777216) (7158279 / 536870912)) 1 = 13421765 / 16777216
    rw [show F32.add (13198069 / 16777216) (7158279 / 536870912) = 13421765 / 16777216 from
      F32.round_pos _ (1 / 16777216) _ 13421765 (-24) (by norm_num)]
    norm_num
  have v61 : (fun t : ℚ => min (F32.add t (7158279 / 536870912)) 1)^[61] 0 = 13645461 / 16777216 := by
    rw [Function.iterate_succ_apply', v60]
    show min (F32.add (13421765 / 16777216) (7158279 / 536870912)) 1 = 13645461 / 16777216
    rw [show F32.add (13421765 / 16777216) (7158279 / 536870912) = 13645461 / 16777216 from
      F32.round_pos _ (1 / 16777216) _ 13645461 (-24) (by norm_num)]
    norm_num
  have v62 : (fun t : ℚ => min (F32.add t (7158279 / 536870912)) 1)^[62] 0 = 13869157 / 16777216 := by
    rw [Function.iterate_succ_apply', v61]
    show min (F32.add (13645461 / 16777216) (7158279 / 536870912)) 1 = 13869157 / 16777216
    rw [show F32.add (13645461 / 16777216) (7158279 / 536870912) = 13869157 / 16777216 from
      F32.round_pos _ (1 / 16777216) _ 13869157 (-24) (by norm_num)]
    norm_num
  have v63 : (fun t : ℚ => min (F32.add t (7158279 / 536870912)) 1)^[63] 0 = 14092853 / 16777216 := by
    rw [Function.iterate_succ_apply', v62]
    show min (F32.add (13869157 / 16777216) (7158279 / 536870912)) 1 = 14092853 / 16777216
    rw [show F32.add (13869157 / 16777216) (7158279 / 536870912) = 14092853 / 16777216 from
      F32.round_pos _ (1 / 16777216) _ 14092853 (-24) (by norm_num)]
    norm_num
  have v64 : (fun t : ℚ => min (F32.add t (7158279 / 536870912)) 1)^[64] 0 = 14316549 / 16777216 := by
    rw [Function.iterate_succ_apply', v63]
    show min (F32.add (14092853 / 16777216) (7158279 / 536870912)) 1 = 14316549 / 16777216
    rw [show F32.add (14092853 / 16777216) (7158279 / 536870912) = 14316549 / 16777216 from
      F32.round_pos _ (1 / 16777216) _ 14316549 (-24) (by norm_num)]
    norm_num
  have v65 : (fun t : ℚ => min (F32.add t (7158279 / 536870912)) 1)^[65] 0 = 14540245 / 16777216 := by
    rw [Function.iterate_succ_apply', v64]
    show min (F32.add (14316549 / 16777216) (7158279 / 536870912)) 1 = 14540245 / 16777216
    rw [show F32.add (14316549 / 16777216) (7158279 / 536870912) = 14540245 / 16777216 from
      F32.round_pos _ (1 / 16777216) _ 14540245 (-24) (by norm_num)]
    norm_num
  have v66 : (fun t : ℚ => min (F32.add t (7158279 / 536870912)) 1)^[66] 0 = 14763941 / 16777216 := by
    rw [Function.iterate_succ_apply', v65]
    show min (F32.add (14540245 / 16777216) (7158279 / 536870912)) 1 = 14763941 / 16777216
    rw [show F32.add (14540245 / 16777216) (7158279 / 536870912) = 14763941 / 16777216 from
      F32.round_pos _ (1 / 16777216) _ 14763941 (-24) (by norm_num)]
    norm_num
  have v67 : (fun t : ℚ => min (F32.add t (7158279 / 536870912)) 1)^[67] 0 = 14987637 / 16777216 := by
    rw [Function.iterate_succ_apply', v66]
    show min (F32.add (14763941 / 16777216) (7158279 / 536870912)) 1 = 14987637 / 16777216
    rw [show F32.add (14763941 / 16777216) (7158279 / 536870912) = 14987637 / 16777216 from
      F32.round_pos _ (1 / 16777216) _ 14987637 (-24) (by norm_num)]
    norm_num
  have v68 : (fun t : ℚ => min (F32.add t (7158279 / 536870912)) 1)^[68] 0 = 15211333 / 16777216 := by
    rw [Function.iterate_succ_apply', v67]
    show min (F32.add (14987637 / 16777216) (7158279 / 536870912)) 1 = 15211333 / 16777216
    rw [show F32.add (14987637 / 16777216) (7158279 / 536870912) = 15211333 / 16777216 from
      F32.round_pos _ (1 / 16777216) _ 15211333 (-24) (by norm_num)]
    norm_num
  have v69 : (fun t : ℚ => min (F32.add t (7158279 / 536870912)) 1)^[69] 0 = 15435029 / 16777216 := by
    rw [Function.iterate_succ_apply', v68]
    show min (F32.add (15211333 / 16777216) (7158279 / 536870912)) 1 = 15435029 / 16777216
    rw [show F32.add (15211333 / 16777216) (7158279 / 536870912) = 15435029 / 16777216 from
      F32.round_pos _ (1 / 16777216) _ 15435029 (-24) (by norm_num)]
    norm_num
  have v70 : (fun t : ℚ => min (F32.add t (7158279 / 536870912)) 1)^[70] 0 = 15658725 / 16777216 := by
    rw [Function.iterate_succ_apply', v69]
    show min (F32.add (15435029 / 16777216) (7158279 / 536870912)) 1 = 15658725 / 16777216
    rw [show F32.add (15435029 / 16777216) (7158279 / 536870912) = 15658725 / 16777216 from
      F32.round_pos _ (1 / 16777216) _ 15658725 (-24) (by norm_num)]
    norm_num
  have v71 : (fun t : ℚ => min (F32.add t (7158279 / 536870912)) 1)^[71] 0 = 15882421 / 16777216 := by
    rw [Function.iterate_succ_apply', v70]
    show min (F32.add (15658725 / 16777216) (7158279 / 536870912)) 1 = 15882421 / 16777216
    rw [show F32.add (15658725 / 16777216) (7158279 / 536870912) = 15882421 / 16777216 from
      F32.round_pos _ (1 / 16777216) _ 15882421 (-24) (by norm_num)]
    norm_num
  have v72 : (fun t : ℚ => min (F32.add t (7158279 / 536870912)) 1)^[72] 0 = 16106117 / 16777216 := by
    rw [Function.iterate_succ_apply', v71]
    show min (F32.add (15882421 / 16777216) (7158279 / 536870912)) 1 = 16106117 / 16777216
    rw [show F32.add (15882421 / 16777216) (7158279 / 536870912) = 16106117 / 16777216 from
      F32.round_pos _ (1 / 16777216) _ 16106117 (-24) (by norm_num)]
    norm_num
  have v73 : (fun t : ℚ => min (F32.add t (7158279 / 536870912)) 1)^[73] 0 = 16329813 / 16777216 := by
    rw [Function.iterate_succ_apply', v72]
    show min (F32.add (16106117 / 16777216) (7158279 / 536870912)) 1 = 16329813 / 16777216
    rw [show F32.add (16106117 / 16777216) (7158279 / 536870912) = 16329813 / 16777216 from
      F32.round_pos _ (1 / 16777216) _ 16329813 (-24) (by norm_num)]
    norm_num
  have v74 : (fun t : ℚ => min (F32.add t (7158279 / 536870912)) 1)^[74] 0 = 16553509 / 16777216 := by
    rw [Function.iterate_succ_apply', v73]
    show min (F32.add (16329813 / 16777216) (7158279 / 536870912)) 1 = 16553509 / 16777216
    rw [show F32.add (16329813 / 16777216) (7158279 / 536870912) = 16553509 / 16777216 from
      F32.round_pos _ (1 / 16777216) _ 16553509 (-24) (by norm_num)]
    norm_num
  have v75 : (fun t : ℚ => min (F32.add t (7158279 / 536870912)) 1)^[75] 0 = 16777205 / 16777216 := by
    rw [Function.iterate_succ_apply', v74]
    show min (F32.add (16553509 / 16777216) (7158279 / 536870912)) 1 = 16777205 / 16777216
    rw [show F32.add (16553509 / 16777216) (7158279 / 536870912) = 16777205 / 16777216 from
      F32.round_pos _ (1 / 16777216) _ 16777205 (-24) (by norm_num)]
    norm_num
  have v76 : (fun t : ℚ => min (F32.add t (7158279 / 536870912)) 1)^[76] 0 = 1 := by
    rw [Function.iterate_succ_apply', v75]
    show min (F32.add (16777205 / 16777216) (7158279 / 536870912)) 1 = 1
    rw [show F32.add (16777205 / 16777216) (7158279 / 536870912) = 8500451 / 8388608 from
      F32.round_pos _ (1 / 8388608) _ 8500451 (-23) (by norm_num)]
    norm_num
  obtain ⟨a1, -, a3⟩ := f32_steady_overload_run ((List.range 75).map (fun i : Nat => ((21350 : Int), 60 * ((i : Int) + 1)))) 0 (hcalls 75)
  obtain ⟨b1, b2, b3⟩ := f32_steady_overload_run ((List.range 76).map (fun i : Nat => ((21350 : Int), 60 * ((i : Int) + 1)))) 0 (hcalls 76)
  rw [List.length_map, List.length_range] at a1 a3 b1 b3
  rw [v75] at a1
  rw [v76] at b1
  exact ⟨b2, a3, b3, a1, b1⟩

/-- C10: under overload the throttling ratio decreases.  The claim asks that on an evaluation
frame with updated trailing mix ratio above `0.9` and an old throttling ratio in `[0, 1]` the
new ratio is at least the old one.  From the state `(0, 3/4)`, on evaluation frame 120, a frame
of `4 * 10 ^ 14` µs gives `r = 300003008`; the proportional term `3000029952` is beyond
the range of the `int` it is stored in (l.388), the conversion yields `INT_MIN`, and the
throttling ratio falls from `3/4` to `-28633116`: the run of this one call is overloaded
and its trace, `3/4` then `-28633116`, is decreasing. -/
theorem throttle_overload_ratio_decreases :
    Int.tmod 120 F32.TRAILING_FRAMES = 0
      ∧ (F32.throttle 400000000000000 120 ⟨0, 3 / 4⟩).trailingMixRatio = 300003008
      ∧ 9 / 10 < (F32.throttle 400000000000000 120 ⟨0, 3 / 4⟩).trailingMixRatio
      ∧ F32.toInt (F32.add 1 (F32.div (F32.sub (F32.throttle 400000000000000 120 ⟨0, 3 / 4⟩).trailingMixRatio F32.TARGET) (F32.round (1 / 10)))) = INT_MIN
      ∧ (F32.throttle 400000000000000 120 ⟨0, 3 / 4⟩).throttlingRatio = -28633116
      ∧ (F32.throttle 400000000000000 120 ⟨0, 3 / 4⟩).throttlingRatio < (⟨0, 3 / 4⟩ : ThrottleState).throttlingRatio
      ∧ F32.throttleTrace ⟨0, 3 / 4⟩ [(400000000000000, 120)] = [3 / 4, -28633116] := by
  have e1 : F32.ofInt 400000000000000 = 400000001507328 :=
    F32.round_pos _ (33554432) _ 11920929 (25) (by norm_num)
  have e2 : F32.div 400000001507328 22222 = 18000179200 :=
    F32.round_pos _ (2048) _ 8789150 (11) (by norm_num)
  have e3 : F32.mul (8947849 / 536870912) 18000179200 = 300003008 :=
    F32.round_pos _ (32) _ 9375094 (5) (by norm_num)
  have e4 : F32.mul (4124399 / 4194304) 0 = 0 :=
    by norm_num [F32.mul, F32.round_zero]
  have e5 : F32.add 0 300003008 = 300003008 :=
    F32.round_pos _ (32) _ 9375094 (5) (by norm_num)
  have hupdA : F32.updatedTrailingMixRatio 400000000000000 ⟨0, (3 / 4)⟩ = 300003008 := by
    unfold F32.updatedTrailingMixRatio
    dsimp only
    rw [F32.PREVIOUS_FRAMES_RATIO_val, F32.CURRENT_FRAME_RATIO_val, F32.FRAME_TIME_val, e1,
      e2, e3, e4, e5]
  have hfA : Int.tmod 120 F32.TRAILING_FRAMES = 0 := by
    rw [F32.TRAILING_FRAMES_val]
    decide
  have hrA : F32.TARGET < F32.updatedTrailingMixRatio 400000000000000 ⟨0, (3 / 4)⟩ := by
    rw [hupdA, F32.TARGET_val]
    norm_num
  have e6 : F32.sub 300003008 (7549747 / 8388608) = 300003008 :=
    F32.round_pos _ (32) _ 9375094 (5) (by norm_num)
  have e7 : F32.div 300003008 (13421773 / 134217728) = 3000029952 :=
    F32.round_pos _ (256) _ 11718867 (8) (by norm_num)
  have e8 : F32.add 1 3000029952 = 3000029952 :=
    F32.round_pos _ (256) _ 11718867 (8) (by norm_num)
  have e9 : F32.toInt 3000029952 = INT_MIN :=
    F32.toInt_out_of_range _ (by norm_num)
  have e10 : F32.ofInt (-2147483648) = -2147483648 :=
    F32.round_negative _ (256) _ 8388608 (8) (by norm_num)
  have e11 : F32.mul (7158279 / 536870912) (-2147483648) = -28633116 :=
    F32.round_negative _ (2) _ 14316558 (1) (by norm_num)
  have e12 : F32.add (3 / 4) (-28633116) = -28633116 :=
    F32.round_negative _ (2) _ 14316558 (1) (by norm_num)
  have htermA : F32.toInt (F32.add 1 (F32.div (F32.sub
      (F32.updatedTrailingMixRatio 400000000000000 ⟨0, (3 / 4)⟩) F32.TARGET) (F32.round (1 / 10)))) = INT_MIN := by
    rw [hupdA, F32.TARGET_val, F32.round_tenth, e6, e7, e8, e9]
  have hvA : (F32.throttle 400000000000000 120 ⟨0, (3 / 4)⟩).throttlingRatio = -28633116 := by
    rw [f32_throttle_above _ _ _ hfA hrA, htermA]
    dsimp only
    unfold INT_MIN
    rw [F32.THROTTLE_RATE_val, e10, e11, e12]
    norm_num
  have hrA' : (F32.throttle 400000000000000 120 ⟨0, 3 / 4⟩).trailingMixRatio = 300003008 := by
    rw [f32_throttle_trailing, hupdA]
  refine ⟨hfA, hrA', ?_, ?_, hvA, ?_, ?_⟩
  · rw [hrA']
    norm_num
  · rw [f32_throttle_trailing]
    exact htermA
  · rw [hvA]
    norm_num
  · show [(3 / 4 : ℚ), (F32.throttle 400000000000000 120 ⟨0, 3 / 4⟩).throttlingRatio] = _
    rw [hvA]

/-! ## The display-name registry as a finite map -/

theorem entry_nil (key : QString) : DisplayNameRegistry.entry [] key = none := rfl

theorem entry_cons (k : QString) (v : Int × Int) (names : DisplayNameRegistry) (key : QString) :
    DisplayNameRegistry.entry ((k, v) :: names) key
      = if k = key then some v else DisplayNameRegistry.entry names key := by
  unfold DisplayNameRegistry.entry
  by_cases h : k = key
  · simp [List.find?_cons, h]
  · simp [List.find?_cons, h]

theorem entry_remove (names : DisplayNameRegistry) (k key : QString) :
    (names.remove k).entry key = if key = k then none else names.entry key := by
  induction names with
  | nil => simp [DisplayNameRegistry.remove, entry_nil]
  | cons e names ih =>
    obtain ⟨k', v⟩ := e
    unfold DisplayNameRegistry.remove at ih ⊢
    by_cases h1 : k' = k
    · subst h1
      rw [List.filter_cons]
      simp only [beq_self_eq_true, Bool.not_true, Bool.false_eq_true, if_false]
      rw [ih, entry_cons]
      by_cases h2 : key = k'
      · simp [h2]
      · have : ¬ k' = key := fun h => h2 h.symm
        simp [h2, this]
    · rw [List.filter_cons]
      have hb : (!((k', v).1 == k)) = true := by simp [h1]
      rw [if_pos hb, entry_cons, entry_cons, ih]
      by_cases h2 : k' = key
      · have : ¬ key = k := fun h => h1 (h2.trans h)
        simp [h2, this]
      · simp [h2]

theorem entry_set (names : DisplayNameRegistry) (k : QString) (v : Int × Int) (key : QString) :
    (names.set k v).entry key = if key = k then some v else names.entry key := by
  unfold DisplayNameRegistry.set
  rw [entry_cons, entry_remove]
  by_cases h : k = key
  · simp [h]
  · have : ¬ key = k := fun h' => h h'.symm
    simp [h, this]

theorem entry_release (names : DisplayNameRegistry) (name key : QString) :
    (names.release name).entry key
      = if key = name then
          (if (names.value name).2 - 1 ≤ 0 then none
            else some ((names.value name).1, (names.value name).2 - 1))
        else names.entry key := by
  unfold DisplayNameRegistry.release
  dsimp only
  by_cases h : (names.value name).2 - 1 ≤ 0
  · rw [if_pos h, if_pos h, entry_remove, entry_set]
    by_cases h2 : key = name <;> simp [h2]
  · rw [if_neg h, if_neg h, entry_set]

/-- The keys of the registry. -/
theorem keys_remove_nodup (names : DisplayNameRegistry) (k : QString)
    (h : (names.map Prod.fst).Nodup) : ((names.remove k).map Prod.fst).Nodup := by
  unfold DisplayNameRegistry.remove
  exact List.Nodup.sublist (List.Sublist.map _ (List.filter_sublist _)) h

theorem not_mem_keys_remove (names : DisplayNameRegistry) (k : QString) :
    k ∉ (names.remove k).map Prod.fst := by
  unfold DisplayNameRegistry.remove
  simp [List.mem_map, List.mem_filter]

theorem keys_set_nodup (names : DisplayNameRegistry) (k : QString) (v : Int × Int)
    (h : (names.map Prod.fst).Nodup) : ((names.set k v).map Prod.fst).Nodup := by
  unfold DisplayNameRegistry.set
  rw [List.map_cons, List.nodup_cons]
  exact ⟨not_mem_keys_remove names k, keys_remove_nodup names k h⟩

theorem keys_release_nodup (names : DisplayNameRegistry) (k : QString)
    (h : (names.map Prod.fst).Nodup) : ((names.release k).map Prod.fst).Nodup := by
  unfold DisplayNameRegistry.release
  dsimp only
  split_ifs
  · exact keys_remove_nodup _ _ (keys_set_nodup _ _ _ h)
  · exact keys_set_nodup _ _ _ h

theorem value_eq_of_entry (names : DisplayNameRegistry) (k : QString) (v : Int × Int)
    (h : names.entry k = some v) : names.value k = v := by
  simp [DisplayNameRegistry.value, h]

theorem value_eq_of_entry_none (names : DisplayNameRegistry) (k : QString)
    (h : names.entry k = none) : names.value k = (0, 0) := by
  simp [DisplayNameRegistry.value, h]

theorem entry_of_mem (names : DisplayNameRegistry) (h : (names.map Prod.fst).Nodup)
    (e : QString × (Int × Int)) (he : e ∈ names) : names.entry e.1 = some e.2 := by
  induction names with
  | nil => cases he
  | cons a names ih =>
    obtain ⟨k, v⟩ := a
    rw [List.map_cons, List.nodup_cons] at h
    rw [entry_cons]
    rcases List.mem_cons.mp he with rfl | hmem
    · simp
    · have hne : ¬ k = e.1 := by
        intro hk
        have hm : e.1 ∈ names.map Prod.fst := List.mem_map_of_mem Prod.fst hmem
        rw [← hk] at hm
        exact h.1 hm
      rw [if_neg hne]
      exact ih h.2 hmem

/-! ## Reference counts follow the holders -/

theorem refsAgree_release (names : DisplayNameRegistry) (H H' : QString → Nat) (old : QString)
    (hinv : RefsAgree names H) (hold : old ≠ [] → 0 < H old)
    (hH : ∀ b, b ≠ [] → H' b + (if b = old then 1 else 0) = H b) :
    RefsAgree (names.release old) H' := by
  intro b
  rw [entry_release]
  by_cases hb : b = old
  · subst hb
    rw [if_pos rfl]
    have hi := hinv b
    by_cases hnil : b = []
    · have hnone : names.entry b = none := by
        have : ¬ (b ≠ [] ∧ 0 < H b) := fun h => h.1 hnil
        rw [if_neg this] at hi
        simpa using hi
      rw [value_eq_of_entry_none _ _ hnone]
      have : ¬ (b ≠ [] ∧ 0 < H' b) := fun h => h.1 hnil
      simp [this]
    · have hpos := hold hnil
      have hrel := hH b hnil
      rw [if_pos rfl] at hrel
      rw [if_pos ⟨hnil, hpos⟩] at hi
      obtain ⟨v, hv, hv2⟩ := Option.map_eq_some'.mp hi
      rw [value_eq_of_entry _ _ _ hv, hv2]
      by_cases hone : H' b = 0
      · have h1 : H b = 1 := by omega
        have : ¬ (b ≠ [] ∧ 0 < H' b) := fun h => by omega
        simp [h1, this]
      · have hc : ¬ ((H b : Int) - 1 ≤ 0) := by omega
        have hc2 : (b ≠ [] ∧ 0 < H' b) := ⟨hnil, by omega⟩
        rw [if_neg hc, if_pos hc2]
        simp only [Option.map_some']
        congr 1
        omega
  · rw [if_neg hb, hinv b]
    by_cases hnil : b = []
    · have h1 : ¬ (b ≠ [] ∧ 0 < H b) := fun h => h.1 hnil
      have h2 : ¬ (b ≠ [] ∧ 0 < H' b) := fun h => h.1 hnil
      rw [if_neg h1, if_neg h2]
    · have hrel := hH b hnil
      rw [if_neg hb] at hrel
      simp only [Nat.add_zero] at hrel
      rw [hrel]

theorem refsAgree_acquire (names : DisplayNameRegistry) (H H' : QString → Nat) (new : QString)
    (w : Int) (hinv : RefsAgree names H) (hnew : new ≠ [])
    (hH : ∀ b, b ≠ [] → H' b = H b + (if b = new then 1 else 0)) :
    RefsAgree (names.set new (w, (names.value new).2 + 1)) H' := by
  intro b
  rw [entry_set]
  by_cases hb : b = new
  · subst hb
    rw [if_pos rfl]
    have hrel := hH b hnew
    rw [if_pos rfl] at hrel
    have hc2 : (b ≠ [] ∧ 0 < H' b) := ⟨hnew, by omega⟩
    rw [if_pos hc2]
    simp only [Option.map_some']
    congr 1
    have hi := hinv b
    by_cases hpos : 0 < H b
    · rw [if_pos ⟨hnew, hpos⟩] at hi
      obtain ⟨v, hv, hv2⟩ := Option.map_eq_some'.mp hi
      rw [value_eq_of_entry _ _ _ hv, hv2]
      omega
    · have : ¬ (b ≠ [] ∧ 0 < H b) := fun h => hpos h.2
      rw [if_neg this] at hi
      have hnone : names.entry b = none := by simpa using hi
      rw [value_eq_of_entry_none _ _ hnone]
      simp only
      omega
  · rw [if_neg hb, hinv b]
    by_cases hnil : b = []
    · have h1 : ¬ (b ≠ [] ∧ 0 < H b) := fun h => h.1 hnil
      have h2 : ¬ (b ≠ [] ∧ 0 < H' b) := fun h => h.1 hnil
      rw [if_neg h1, if_neg h2]
    · have hrel := hH b hnil
      rw [if_neg hb] at hrel
      simp only [Nat.add_zero] at hrel
      rw [hrel]

theorem refsAgree_congr (names : DisplayNameRegistry) (H H' : QString → Nat)
    (hinv : RefsAgree names H) (hH : ∀ b, b ≠ [] → H' b = H b) : RefsAgree names H' := by
  intro b
  rw [hinv b]
  by_cases hnil : b = []
  · have h1 : ¬ (b ≠ [] ∧ 0 < H b) := fun h => h.1 hnil
    have h2 : ¬ (b ≠ [] ∧ 0 < H' b) := fun h => h.1 hnil
    rw [if_neg h1, if_neg h2]
  · rw [hH b hnil]

/-! ## Node list bookkeeping -/

theorem nodeWithUUID_some (nodes : List Node) (uuid : Nat) (n : Node)
    (h : nodeWithUUID nodes uuid = some n) : n.uuid = uuid ∧ n ∈ nodes := by
  unfold nodeWithUUID at h
  have h1 := List.find?_some h
  have h2 := List.mem_of_find?_eq_some h
  exact ⟨by simpa using h1, h2⟩

theorem holdersIn_cons (n : Node) (nodes : List Node) (b : QString) :
    holdersIn (n :: nodes) b = n.holds b + holdersIn nodes b := by
  simp [holdersIn]

theorem holdersIn_append (xs ys : List Node) (b : QString) :
    holdersIn (xs ++ ys) b = holdersIn xs b + holdersIn ys b := by
  simp [holdersIn]

theorem holds_le_holdersIn (nodes : List Node) (n : Node) (hn : n ∈ nodes) (b : QString) :
    n.holds b ≤ holdersIn nodes b := by
  induction nodes with
  | nil => cases hn
  | cons a nodes ih =>
    rw [holdersIn_cons]
    rcases List.mem_cons.mp hn with rfl | hmem
    · omega
    · have := ih hmem
      omega

theorem storeNode_holders (nodes : List Node) (n n' : Node) (b : QString)
    (h : nodeWithUUID nodes n'.uuid = some n) :
    holdersIn (storeNode n' nodes) b + n.holds b = holdersIn nodes b + n'.holds b := by
  induction nodes with
  | nil => simp [nodeWithUUID] at h
  | cons a nodes ih =>
    unfold nodeWithUUID at h ih
    rw [List.find?_cons] at h
    unfold storeNode
    by_cases ha : a.uuid == n'.uuid
    · rw [ha] at h
      simp only [Option.some.injEq] at h
      subst h
      rw [if_pos ha, holdersIn_cons, holdersIn_cons]
      omega
    · have ha' : (a.uuid == n'.uuid) = false := by simpa using ha
      rw [ha'] at h
      rw [if_neg ha, holdersIn_cons, holdersIn_cons]
      have := ih h
      omega

theorem mem_storeNode (nodes : List Node) (n' x : Node) (hx : x ∈ storeNode n' nodes) :
    x = n' ∨ x ∈ nodes := by
  induction nodes with
  | nil => simp [storeNode] at hx
  | cons a nodes ih =>
    unfold storeNode at hx
    by_cases ha : a.uuid == n'.uuid
    · rw [if_pos ha] at hx
      rcases List.mem_cons.mp hx with h | h
      · exact Or.inl h
      · exact Or.inr (List.mem_cons_of_mem _ h)
    · rw [if_neg ha] at hx
      rcases List.mem_cons.mp hx with h | h
      · exact Or.inr (h ▸ List.mem_cons_self _ _)
      · rcases ih h with h' | h'
        · exact Or.inl h'
        · exact Or.inr (List.mem_cons_of_mem _ h')

/-! ## `manageIdentityData` case by case -/

theorem baseNameOf_ne_nil (displayName : QString) : baseNameOf displayName ≠ [] := by
  unfold baseNameOf
  dsimp only
  split_ifs with h
  · decide
  · intro hnil
    rw [hnil] at h
    exact h rfl

theorem manageIdentityData_no_data (names : DisplayNameRegistry) (node : Node)
    (h : node.linkedData = none) : manageIdentityData names node = ⟨names, node, []⟩ := by
  unfold manageIdentityData
  rw [h]

theorem manageIdentityData_no_identity (names : DisplayNameRegistry) (node : Node)
    (nodeData : AvatarMixerClientData) (h : node.linkedData = some nodeData)
    (hfirst : nodeData.avatar.hasProcessedFirstIdentity = false) :
    manageIdentityData names node = ⟨names, node, []⟩ := by
  unfold manageIdentityData
  rw [h]
  dsimp only
  rw [if_pos hfirst]

theorem manageIdentityData_no_change (names : DisplayNameRegistry) (node : Node)
    (nodeData : AvatarMixerClientData) (h : node.linkedData = some nodeData)
    (hmust : nodeData.avatarSessionDisplayNameMustChange = false) :
    manageIdentityData names node = ⟨names, node, []⟩ := by
  unfold manageIdentityData
  rw [h]
  dsimp only
  have hm : ¬ nodeData.avatarSessionDisplayNameMustChange = true := by simp [hmust]
  by_cases hf : nodeData.avatar.hasProcessedFirstIdentity = false
  · rw [if_pos hf]
  · rw [if_neg hf, if_neg hm]

theorem wrapInt_eq (x : Int) (h1 : INT_MIN ≤ x) (h2 : x ≤ INT_MAX) : wrapInt x = x := by
  unfold wrapInt
  unfold INT_MIN at h1 ⊢
  unfold INT_MAX at h2
  omega

/-- The session display name chosen for base name `b` at high-water mark `h`. -/
theorem manageIdentityData_rename (names : DisplayNameRegistry) (node : Node)
    (nodeData : AvatarMixerClientData) (h : node.linkedData = some nodeData)
    (hfirst : nodeData.avatar.hasProcessedFirstIdentity = true)
    (hmust : nodeData.avatarSessionDisplayNameMustChange = true) :
    (manageIdentityData names node).names
        = (names.release nodeData.baseDisplayName).set (baseNameOf nodeData.avatar.displayName)
            (wrapInt (((names.release nodeData.baseDisplayName).value (baseNameOf nodeData.avatar.displayName)).1 + 1),
             ((names.release nodeData.baseDisplayName).value (baseNameOf nodeData.avatar.displayName)).2 + 1)
      ∧ (manageIdentityData names node).node.uuid = node.uuid
      ∧ (manageIdentityData names node).node.type = node.type
      ∧ ∃ d, (manageIdentityData names node).node.linkedData = some d
          ∧ d.baseDisplayName = baseNameOf nodeData.avatar.displayName
          ∧ d.avatar.sessionDisplayName
              = (if ((names.release nodeData.baseDisplayName).value (baseNameOf nodeData.avatar.displayName)).1 > 0
                  then baseNameOf nodeData.avatar.displayName ++ ['_']
                    ++ QString.number ((names.release nodeData.baseDisplayName).value (baseNameOf nodeData.avatar.displayName)).1
                  else baseNameOf nodeData.avatar.displayName)
          ∧ d.avatarSessionDisplayNameMustChange = false := by
  have hf : ¬ nodeData.avatar.hasProcessedFirstIdentity = false := by simp [hfirst]
  unfold manageIdentityData
  rw [h]
  dsimp only
  rw [if_neg hf, if_pos hmust]
  split_ifs <;> exact ⟨rfl, rfl, rfl, _, rfl, rfl, rfl, rfl⟩

theorem manageIdentityData_uuid (names : DisplayNameRegistry) (node : Node) :
    (manageIdentityData names node).node.uuid = node.uuid := by
  unfold manageIdentityData
  split
  · rfl
  · dsimp only
    split_ifs <;> rfl

/-! ## The registry invariant is preserved by every event -/

theorem holds_no_data (n : Node) (b : QString) (h : n.linkedData = none) : n.holds b = 0 := by
  unfold Node.holds
  rw [h]

theorem holds_data (n : Node) (d : AvatarMixerClientData) (b : QString) (h : n.linkedData = some d) :
    n.holds b = if b = d.baseDisplayName then 1 else 0 := by
  unfold Node.holds
  rw [h]
  by_cases hb : b = d.baseDisplayName
  · simp [hb]
  · have : ¬ d.baseDisplayName = b := fun e => hb e.symm
    simp [hb, this]

theorem holders_pos_of_mem (nodes : List Node) (n : Node) (d : AvatarMixerClientData)
    (hn : n ∈ nodes) (hd : n.linkedData = some d) : 0 < holdersIn nodes d.baseDisplayName := by
  have h := holds_le_holdersIn nodes n hn d.baseDisplayName
  rw [holds_data n d _ hd, if_pos rfl] at h
  omega

theorem registryInv_initial (p : Node → Node → Bool) : RegistryInv (Mixer.initial p) := by
  refine ⟨?_, ?_, ?_⟩
  · simp [Mixer.initial]
  · intro b
    simp [Mixer.initial, Mixer.holders, holdersIn, entry_nil]
  · intro n hn
    simp [Mixer.initial] at hn

theorem step_connect (m : Mixer) (node : Node) :
    m.step (.connect node)
      = match nodeWithUUID m.nodes node.uuid with
        | some _ => m
        | none => { m with nodes := m.nodes ++ [{ node with linkedData := none }] } := rfl

theorem step_identity (m : Mixer) (uuid : Nat) (displayName : QString) (ic dc : Bool) :
    m.step (.identity uuid displayName ic dc)
      = match nodeWithUUID m.nodes uuid with
        | none => m
        | some node =>
          { m with nodes := storeNode (handleAvatarIdentityPacket node displayName ic dc) m.nodes } := rfl

theorem step_manage (m : Mixer) (uuid : Nat) :
    m.step (.manage uuid)
      = match nodeWithUUID m.nodes uuid with
        | none => m
        | some node =>
          if node.type = NodeType.Agent then
            { m with
              sessionDisplayNames := (manageIdentityData m.sessionDisplayNames node).names
              nodes := storeNode (manageIdentityData m.sessionDisplayNames node).node m.nodes
              sent := m.sent ++ (manageIdentityData m.sessionDisplayNames node).packets
              sumIdentityPackets :=
                m.sumIdentityPackets + (manageIdentityData m.sessionDisplayNames node).packets.length }
          else m := rfl

theorem step_kill (m : Mixer) (uuid : Nat) :
    m.step (.kill uuid)
      = match nodeWithUUID m.nodes uuid with
        | none => m
        | some node =>
          { handleAvatarKilled m node with
            nodes := storeNode { node with linkedData := none } (handleAvatarKilled m node).nodes } := rfl

theorem registryInv_connect (m : Mixer) (node : Node) (h : RegistryInv m) :
    RegistryInv (m.step (.connect node)) := by
  rw [step_connect]
  split
  · exact h
  · refine ⟨h.nodup, ?_, ?_⟩
    · refine refsAgree_congr _ _ _ h.refs ?_
      intro b _
      show holdersIn (m.nodes ++ [{ node with linkedData := none }]) b = holdersIn m.nodes b
      rw [holdersIn_append, holdersIn_cons, holds_no_data _ _ rfl]
      simp [holdersIn]
    · intro n hn hty d hd
      rcases List.mem_append.mp hn with hmem | hmem
      · exact h.agents n hmem hty d hd
      · rw [List.mem_singleton] at hmem
        subst hmem
        cases hd

theorem handleAvatarIdentityPacket_spec (n : Node) (displayName : QString) (ic dc : Bool) :
    (handleAvatarIdentityPacket n displayName ic dc).uuid = n.uuid
      ∧ (handleAvatarIdentityPacket n displayName ic dc).type = n.type
      ∧ ∃ d', (handleAvatarIdentityPacket n displayName ic dc).linkedData = some d'
          ∧ d'.baseDisplayName = (match n.linkedData with
              | some d => d.baseDisplayName
              | none => []) := by
  unfold handleAvatarIdentityPacket getOrCreateClientData
  cases hd : n.linkedData with
  | none =>
    dsimp only
    cases ic <;> exact ⟨rfl, rfl, _, rfl, rfl⟩
  | some d =>
    dsimp only
    rw [hd]
    dsimp only
    cases ic <;> exact ⟨rfl, rfl, _, rfl, rfl⟩

theorem registryInv_identity (m : Mixer) (uuid : Nat) (displayName : QString) (ic dc : Bool)
    (h : RegistryInv m) : RegistryInv (m.step (.identity uuid displayName ic dc)) := by
  rw [step_identity]
  cases hfind : nodeWithUUID m.nodes uuid with
  | none => exact h
  | some node =>
    dsimp only
    obtain ⟨hu, hty, d', hd', hbase⟩ := handleAvatarIdentityPacket_spec node displayName ic dc
    obtain ⟨hnu, hmem⟩ := nodeWithUUID_some _ _ _ hfind
    have hfind' : nodeWithUUID m.nodes (handleAvatarIdentityPacket node displayName ic dc).uuid = some node := by
      rw [hu, hnu]; exact hfind
    refine ⟨h.nodup, ?_, ?_⟩
    · refine refsAgree_congr _ _ _ h.refs ?_
      intro b hb
      have hs := storeNode_holders m.nodes node _ b hfind'
      have hh : (handleAvatarIdentityPacket node displayName ic dc).holds b = node.holds b := by
        rw [holds_data _ d' b hd', hbase]
        cases hd : node.linkedData with
        | none =>
          rw [holds_no_data _ _ hd]
          simp [hb]
        | some d => rw [holds_data _ d b hd]
      show holdersIn (storeNode _ m.nodes) b = holdersIn m.nodes b
      omega
    · intro n hn hnty d hd
      rcases mem_storeNode _ _ _ hn with heq | hmem'
      · subst heq
        rw [hty] at hnty
        rw [hd'] at hd
        cases hd
        rw [hbase]
        cases hd0 : node.linkedData with
        | none => rfl
        | some d0 => exact h.agents node hmem hnty d0 hd0
      · exact h.agents n hmem' hnty d hd

theorem storeNode_self_inv (m : Mixer) (sent : List Packet) (k : Nat)
    (node : Node) (uuid : Nat) (hfind : nodeWithUUID m.nodes uuid = some node) (h : RegistryInv m) :
    RegistryInv { m with sessionDisplayNames := m.sessionDisplayNames, nodes := storeNode node m.nodes,
                         sent := sent, sumIdentityPackets := k } := by
  obtain ⟨hnu, hmem⟩ := nodeWithUUID_some _ _ _ hfind
  have hfind' : nodeWithUUID m.nodes node.uuid = some node := by rw [hnu]; exact hfind
  refine ⟨h.nodup, ?_, ?_⟩
  · refine refsAgree_congr _ _ _ h.refs ?_
    intro b _
    have hs := storeNode_holders m.nodes node node b hfind'
    show holdersIn (storeNode node m.nodes) b = holdersIn m.nodes b
    omega
  · intro n hn hnty d hd
    rcases mem_storeNode _ _ _ hn with heq | hmem'
    · subst heq
      exact h.agents n hmem hnty d hd
    · exact h.agents n hmem' hnty d hd

theorem registryInv_manage (m : Mixer) (uuid : Nat) (h : RegistryInv m) :
    RegistryInv (m.step (.manage uuid)) := by
  rw [step_manage]
  cases hfind : nodeWithUUID m.nodes uuid with
  | none => exact h
  | some node =>
    dsimp only
    obtain ⟨hnu, hmem⟩ := nodeWithUUID_some _ _ _ hfind
    by_cases hty : node.type = NodeType.Agent
    swap
    · rw [if_neg hty]; exact h
    rw [if_pos hty]
    cases hd : node.linkedData with
    | none =>
      rw [manageIdentityData_no_data _ _ hd]
      exact storeNode_self_inv m _ _ node uuid hfind h
    | some nodeData =>
      by_cases hfirst : nodeData.avatar.hasProcessedFirstIdentity = false
      · rw [manageIdentityData_no_identity _ _ _ hd hfirst]
        exact storeNode_self_inv m _ _ node uuid hfind h
      by_cases hmust : nodeData.avatarSessionDisplayNameMustChange = false
      · rw [manageIdentityData_no_change _ _ _ hd hmust]
        exact storeNode_self_inv m _ _ node uuid hfind h
      have hfirst' : nodeData.avatar.hasProcessedFirstIdentity = true := by simpa using hfirst
      have hmust' : nodeData.avatarSessionDisplayNameMustChange = true := by simpa using hmust
      obtain ⟨hnames, hu, hty', d', hd', hbase, -, -⟩ :=
        manageIdentityData_rename m.sessionDisplayNames node nodeData hd hfirst' hmust'
      have hfind' : nodeWithUUID m.nodes (manageIdentityData m.sessionDisplayNames node).node.uuid = some node := by
        rw [hu, hnu]; exact hfind
      have hnew := baseNameOf_ne_nil nodeData.avatar.displayName
      have hcount : ∀ b, holdersIn (storeNode (manageIdentityData m.sessionDisplayNames node).node m.nodes) b
          + (if b = nodeData.baseDisplayName then 1 else 0)
          = holdersIn m.nodes b + (if b = baseNameOf nodeData.avatar.displayName then 1 else 0) := by
        intro b
        have hs := storeNode_holders m.nodes node _ b hfind'
        rw [holds_data _ d' b hd', holds_data _ nodeData b hd, hbase] at hs
        exact hs
      have hold := holders_pos_of_mem m.nodes node nodeData hmem hd
      refine ⟨?_, ?_, ?_⟩
      · show ((manageIdentityData m.sessionDisplayNames node).names.map Prod.fst).Nodup
        rw [hnames]
        exact keys_set_nodup _ _ _ (keys_release_nodup _ _ h.nodup)
      · show RefsAgree (manageIdentityData m.sessionDisplayNames node).names
          (holdersIn (storeNode (manageIdentityData m.sessionDisplayNames node).node m.nodes))
        rw [hnames]
        refine refsAgree_acquire _
          (fun b => holdersIn m.nodes b - (if b = nodeData.baseDisplayName then 1 else 0)) _ _ _
          (refsAgree_release _ m.holders _ _ h.refs (fun _ => hold) ?_) hnew ?_
        · intro b _
          beta_reduce
          show holdersIn m.nodes b - (if b = nodeData.baseDisplayName then 1 else 0)
            + (if b = nodeData.baseDisplayName then 1 else 0) = holdersIn m.nodes b
          by_cases hb : b = nodeData.baseDisplayName
          · subst hb
            simp only [if_true]
            omega
          · simp only [hb, if_false]
            omega
        · intro b _
          have hc := hcount b
          beta_reduce
          by_cases hb : b = nodeData.baseDisplayName
          · subst hb
            simp only [if_true] at hc ⊢
            split_ifs at hc ⊢ <;> omega
          · simp only [hb, if_false] at hc ⊢
            split_ifs at hc ⊢ <;> omega
      · intro n hn hnty d hdn
        rcases mem_storeNode _ _ _ hn with heq | hmem'
        · subst heq
          rw [hty'] at hnty
          exact absurd hty hnty
        · exact h.agents n hmem' hnty d hdn

theorem queueCleanup_uuid (avatarNode n : Node) : (queueCleanup avatarNode n).uuid = n.uuid := by
  unfold queueCleanup
  split
  · rfl
  · split_ifs <;> rfl

theorem queueCleanup_type (avatarNode n : Node) : (queueCleanup avatarNode n).type = n.type := by
  unfold queueCleanup
  split
  · rfl
  · split_ifs <;> rfl

theorem queueCleanup_no_data (avatarNode n : Node) (h : n.linkedData = none) :
    queueCleanup avatarNode n = n := by
  unfold queueCleanup
  rw [h]

theorem queueCleanup_same (avatarNode n : Node) (h : n.uuid = avatarNode.uuid) :
    queueCleanup avatarNode n = n := by
  unfold queueCleanup
  split
  · rfl
  · rw [if_pos h]

theorem queueCleanup_other (avatarNode n : Node) (d : AvatarMixerClientData)
    (hd : n.linkedData = some d) (h : n.uuid ≠ avatarNode.uuid) :
    queueCleanup avatarNode n
      = { n with
          linkedData := some { d with cleanups := d.cleanups ++ [(avatarNode.uuid, avatarNode.localID)] } } := by
  unfold queueCleanup
  rw [hd]
  dsimp only
  rw [if_neg h]

theorem queueCleanup_base (avatarNode n : Node) (d' : AvatarMixerClientData)
    (h : (queueCleanup avatarNode n).linkedData = some d') :
    ∃ d, n.linkedData = some d ∧ d.baseDisplayName = d'.baseDisplayName := by
  cases hd : n.linkedData with
  | none =>
    rw [queueCleanup_no_data _ _ hd, hd] at h
    cases h
  | some d =>
    by_cases hu : n.uuid = avatarNode.uuid
    · rw [queueCleanup_same _ _ hu, hd] at h
      have h2 := Option.some.inj h
      rw [← h2]
      exact ⟨_, rfl, rfl⟩
    · rw [queueCleanup_other _ _ d hd hu] at h
      have h2 := Option.some.inj h
      rw [← h2]
      exact ⟨_, rfl, rfl⟩

theorem queueCleanup_holds (avatarNode n : Node) (b : QString) :
    (queueCleanup avatarNode n).holds b = n.holds b := by
  cases hd : n.linkedData with
  | none => rw [queueCleanup_no_data _ _ hd]
  | some d =>
    by_cases hu : n.uuid = avatarNode.uuid
    · rw [queueCleanup_same _ _ hu]
    · rw [queueCleanup_other _ _ d hd hu, holds_data n d b hd, holds_data _ _ b rfl]

theorem queueCleanup_self (node : Node) : queueCleanup node node = node :=
  queueCleanup_same node node rfl

theorem holdersIn_map_queueCleanup (avatarNode : Node) (nodes : List Node) (b : QString) :
    holdersIn (nodes.map (queueCleanup avatarNode)) b = holdersIn nodes b := by
  induction nodes with
  | nil => rfl
  | cons a nodes ih => rw [List.map_cons, holdersIn_cons, holdersIn_cons, ih, queueCleanup_holds]

theorem nodeWithUUID_map_queueCleanup (avatarNode : Node) (nodes : List Node) (uuid : Nat) :
    nodeWithUUID (nodes.map (queueCleanup avatarNode)) uuid
      = (nodeWithUUID nodes uuid).map (queueCleanup avatarNode) := by
  induction nodes with
  | nil => rfl
  | cons a nodes ih =>
    unfold nodeWithUUID at ih ⊢
    rw [List.map_cons, List.find?_cons, List.find?_cons, queueCleanup_uuid]
    cases a.uuid == uuid
    · exact ih
    · rfl

theorem handleAvatarKilled_noop (m : Mixer) (node : Node)
    (h : node.linkedData = none ∨ node.type ≠ NodeType.Agent) : handleAvatarKilled m node = m := by
  unfold handleAvatarKilled
  cases hd : node.linkedData with
  | none => rfl
  | some d =>
    rcases h with h | h
    · rw [hd] at h; cases h
    · dsimp only
      rw [if_neg h]

theorem handleAvatarKilled_agent (m : Mixer) (node : Node) (d : AvatarMixerClientData)
    (hd : node.linkedData = some d) (hty : node.type = NodeType.Agent) :
    handleAvatarKilled m node
      = { m with
          sessionDisplayNames := m.sessionDisplayNames.release d.baseDisplayName
          sent := m.sent ++ ((m.nodes.filter (receivesKill m node)).map (killPacketFor node))
          nodes := m.nodes.map (queueCleanup node) } := by
  unfold handleAvatarKilled
  rw [hd]
  dsimp only
  rw [if_pos hty]

theorem registryInv_kill (m : Mixer) (uuid : Nat) (h : RegistryInv m) :
    RegistryInv (m.step (.kill uuid)) := by
  rw [step_kill]
  cases hfind : nodeWithUUID m.nodes uuid with
  | none => exact h
  | some node =>
    dsimp only
    obtain ⟨hnu, hmem⟩ := nodeWithUUID_some _ _ _ hfind
    by_cases hag : node.linkedData = none ∨ node.type ≠ NodeType.Agent
    · rw [handleAvatarKilled_noop m node hag]
      have hfind' : nodeWithUUID m.nodes ({ node with linkedData := none } : Node).uuid = some node := by
        show nodeWithUUID m.nodes node.uuid = some node
        rw [hnu]; exact hfind
      refine ⟨h.nodup, ?_, ?_⟩
      · refine refsAgree_congr _ _ _ h.refs ?_
        intro b hb
        have hs := storeNode_holders m.nodes node _ b hfind'
        rw [holds_no_data ({ node with linkedData := none } : Node) b rfl] at hs
        have hz : node.holds b = 0 := by
          cases hd : node.linkedData with
          | none => exact holds_no_data _ _ hd
          | some d =>
            have hty : node.type ≠ NodeType.Agent := by
              rcases hag with h1 | h1
              · rw [hd] at h1; cases h1
              · exact h1
            have hbase := h.agents node hmem hty d hd
            rw [holds_data _ d b hd, hbase, if_neg hb]
        show holdersIn (storeNode _ m.nodes) b = holdersIn m.nodes b
        omega
      · intro n hn hnty d hd
        rcases mem_storeNode _ _ _ hn with heq | hmem'
        · subst heq
          cases hd
        · exact h.agents n hmem' hnty d hd
    · have hty : node.type = NodeType.Agent := by
        by_contra hne
        exact hag (Or.inr hne)
      cases hd : node.linkedData with
      | none => exact absurd (Or.inl hd) hag
      | some d =>
        rw [handleAvatarKilled_agent m node d hd hty]
        have hfind' : nodeWithUUID (m.nodes.map (queueCleanup node))
            ({ node with linkedData := none } : Node).uuid = some node := by
          show nodeWithUUID (m.nodes.map (queueCleanup node)) node.uuid = some node
          rw [nodeWithUUID_map_queueCleanup, hnu, hfind, Option.map_some', queueCleanup_self]
        have hold := holders_pos_of_mem m.nodes node d hmem hd
        refine ⟨?_, ?_, ?_⟩
        · exact keys_release_nodup _ _ h.nodup
        · show RefsAgree (m.sessionDisplayNames.release d.baseDisplayName)
            (holdersIn (storeNode _ (m.nodes.map (queueCleanup node))))
          refine refsAgree_release _ m.holders _ _ h.refs (fun _ => hold) ?_
          intro b _
          have hs := storeNode_holders _ node _ b hfind'
          rw [holds_no_data ({ node with linkedData := none } : Node) b rfl, holds_data _ d b hd,
            holdersIn_map_queueCleanup] at hs
          show holdersIn (storeNode _ (m.nodes.map (queueCleanup node))) b
            + (if b = d.baseDisplayName then 1 else 0) = holdersIn m.nodes b
          omega
        · intro n hn hnty d' hd'
          rcases mem_storeNode _ _ _ hn with heq | hmem'
          · subst heq
            cases hd'
          · obtain ⟨n0, hn0, rfl⟩ := List.mem_map.mp hmem'
            obtain ⟨d0, hd0, hb0⟩ := queueCleanup_base node n0 d' hd'
            rw [← hb0]
            rw [queueCleanup_type] at hnty
            exact h.agents n0 hn0 hnty d0 hd0

theorem registryInv_step (m : Mixer) (a : Action) (h : RegistryInv m) : RegistryInv (m.step a) := by
  cases a with
  | connect node => exact registryInv_connect m node h
  | identity uuid displayName ic dc => exact registryInv_identity m uuid displayName ic dc h
  | manage uuid => exact registryInv_manage m uuid h
  | kill uuid => exact registryInv_kill m uuid h

theorem registryInv_run (as : List Action) (m : Mixer) (h : RegistryInv m) : RegistryInv (m.run as) := by
  induction as generalizing m with
  | nil => exact h
  | cons a as ih => exact ih _ (registryInv_step m a h)

/-! ## Summing the reference counts -/

theorem entry_isSome_iff_mem (names : DisplayNameRegistry) (k : QString) :
    (names.entry k).isSome ↔ k ∈ names.map Prod.fst := by
  induction names with
  | nil => simp [entry_nil]
  | cons e names ih =>
    obtain ⟨k', v⟩ := e
    rw [entry_cons, List.map_cons, List.mem_cons]
    by_cases h : k' = k
    · simp [h]
    · have h' : ¬ k = k' := fun e => h e.symm
      rw [if_neg h, ih]
      simp [h']

theorem sum_indicator (keys : List QString) (hk : keys.Nodup) (x : QString) :
    (keys.map (fun k => if k = x then 1 else 0)).sum = if x ∈ keys then 1 else 0 := by
  induction keys with
  | nil => simp
  | cons a keys ih =>
    rw [List.nodup_cons] at hk
    rw [List.map_cons, List.sum_cons, ih hk.2]
    by_cases ha : a = x
    · subst ha
      simp [hk.1]
    · have ha' : ¬ x = a := fun e => ha e.symm
      simp [ha, ha']

theorem sum_holds_keys (keys : List QString) (hk : keys.Nodup) (n : Node) :
    (keys.map (fun k => n.holds k)).sum
      = match n.linkedData with
        | some d => if d.baseDisplayName ∈ keys then 1 else 0
        | none => 0 := by
  cases hd : n.linkedData with
  | none =>
    have : (fun k => n.holds k) = fun _ => 0 := by
      funext k
      exact holds_no_data n k hd
    rw [this]
    simp
  | some d =>
    have : (fun k => n.holds k) = fun k => if k = d.baseDisplayName then 1 else 0 := by
      funext k
      exact holds_data n d k hd
    rw [this]
    exact sum_indicator keys hk d.baseDisplayName

theorem sum_holdersIn_keys (keys : List QString) (nodes : List Node) :
    (keys.map (holdersIn nodes)).sum
      = (nodes.map (fun n => (keys.map (fun k => n.holds k)).sum)).sum := by
  induction nodes with
  | nil =>
    have : holdersIn [] = fun _ => 0 := by
      funext k
      rfl
    rw [this]
    simp
  | cons a nodes ih =>
    rw [List.map_cons, List.sum_cons, ← ih]
    have : holdersIn (a :: nodes) = fun k => a.holds k + holdersIn nodes k := by
      funext k
      exact holdersIn_cons a nodes k
    rw [this, List.sum_map_add]

theorem named_eq_sum (nodes : List Node) :
    (nodes.filterMap (fun n => n.linkedData)).countP (fun d => !d.baseDisplayName.isEmpty)
      = (nodes.map Node.named).sum := by
  induction nodes with
  | nil => rfl
  | cons a nodes ih =>
    rw [List.map_cons, List.sum_cons]
    cases hd : a.linkedData with
    | none =>
      have hn : a.named = 0 := by
        unfold Node.named
        rw [hd]
      rw [List.filterMap_cons_none hd, ih, hn, Nat.zero_add]
    | some d =>
      have hn : a.named = if d.baseDisplayName = [] then 0 else 1 := by
        unfold Node.named
        rw [hd]
      rw [List.filterMap_cons_some hd, List.countP_cons, ih, hn]
      by_cases hb : d.baseDisplayName = []
      · simp [hb]
      · have he : d.baseDisplayName.isEmpty = false := by
          cases hl : d.baseDisplayName with
          | nil => exact absurd hl hb
          | cons _ _ => rfl
        rw [if_neg hb, he]
        simp only [Bool.not_false, if_true]
        omega

theorem refCount_of_mem (m : Mixer) (h : RegistryInv m) (e : QString × (Int × Int))
    (he : e ∈ m.sessionDisplayNames) : e.1 ≠ [] ∧ 0 < m.holders e.1 ∧ e.2.2 = (m.holders e.1 : Int) := by
  have hent := entry_of_mem _ h.nodup e he
  have hr := h.refs e.1
  rw [hent] at hr
  by_cases hc : e.1 ≠ [] ∧ 0 < m.holders e.1
  · rw [if_pos hc] at hr
    simp only [Option.map_some', Option.some.injEq] at hr
    exact ⟨hc.1, hc.2, hr⟩
  · rw [if_neg hc] at hr
    simp at hr

theorem refCountSum_eq_named (m : Mixer) (h : RegistryInv m) :
    m.sessionDisplayNames.refCountSum = (m.named : Int) := by
  have h1 : m.sessionDisplayNames.refCountSum
      = (((m.sessionDisplayNames.map Prod.fst).map m.holders).sum : Nat) := by
    unfold DisplayNameRegistry.refCountSum
    rw [Nat.cast_list_sum, List.map_map, List.map_map]
    congr 1
    apply List.map_congr_left
    intro e he
    exact (refCount_of_mem m h e he).2.2
  rw [h1]
  congr 1
  show ((m.sessionDisplayNames.map Prod.fst).map (holdersIn m.nodes)).sum = m.named
  rw [sum_holdersIn_keys]
  unfold Mixer.named Mixer.clients
  rw [named_eq_sum]
  congr 1
  apply List.map_congr_left
  intro n hn
  rw [sum_holds_keys _ h.nodup]
  unfold Node.named
  cases hd : n.linkedData with
  | none => rfl
  | some d =>
    dsimp only
    have hpos := holders_pos_of_mem m.nodes n d hn hd
    by_cases hb : d.baseDisplayName = []
    · have hnot : d.baseDisplayName ∉ m.sessionDisplayNames.map Prod.fst := by
        intro hmem
        obtain ⟨e, he, hek⟩ := List.mem_map.mp hmem
        have := (refCount_of_mem m h e he).1
        rw [hek] at this
        exact this hb
      rw [if_neg hnot, if_pos hb]
    · have hmem : d.baseDisplayName ∈ m.sessionDisplayNames.map Prod.fst := by
        rw [← entry_isSome_iff_mem]
        have hr := h.refs d.baseDisplayName
        rw [if_pos ⟨hb, hpos⟩] at hr
        cases hent : m.sessionDisplayNames.entry d.baseDisplayName with
        | none => rw [hent] at hr; cases hr
        | some v => rfl
      rw [if_pos hmem, if_neg hb]

/-- C3: in every state reachable from the empty registry by connect, identity, manage
(rename) and kill events, for every name `b`: the registry has an entry for `b` exactly when `b`
is a non-empty (assigned) base name held by at least one live client data; the reference count
of that entry equals the number of live client data whose base display name is `b`, hence is
at least `1`; and the sum of all reference counts equals the number of client data that have an
assigned base name. -/
theorem registry_refcounts_match_holders (policy : Node → Node → Bool) (events : List Action)
    (b : QString) :
    ((((Mixer.initial policy).run events).sessionDisplayNames.entry b).isSome
        ↔ (b ≠ [] ∧ 0 < ((Mixer.initial policy).run events).holders b))
      ∧ (∀ highWater refCount : Int,
          ((Mixer.initial policy).run events).sessionDisplayNames.entry b = some (highWater, refCount) →
            refCount = (((Mixer.initial policy).run events).holders b : Int) ∧ 1 ≤ refCount)
      ∧ ((Mixer.initial policy).run events).sessionDisplayNames.refCountSum
          = (((Mixer.initial policy).run events).named : Int) := by
  have hinv := registryInv_run events _ (registryInv_initial policy)
  have hr := hinv.refs b
  refine ⟨?_, ?_, refCountSum_eq_named _ hinv⟩
  · by_cases hc : b ≠ [] ∧ 0 < ((Mixer.initial policy).run events).holders b
    · rw [if_pos hc] at hr
      constructor
      · intro _; exact hc
      · intro _
        cases hent : ((Mixer.initial policy).run events).sessionDisplayNames.entry b with
        | none => rw [hent] at hr; cases hr
        | some v => rfl
    · rw [if_neg hc] at hr
      constructor
      · intro hs
        cases hent : ((Mixer.initial policy).run events).sessionDisplayNames.entry b with
        | none => rw [hent] at hs; cases hs
        | some v => rw [hent] at hr; cases hr
      · intro h; exact absurd h hc
  · intro highWater refCount hent
    rw [hent] at hr
    by_cases hc : b ≠ [] ∧ 0 < ((Mixer.initial policy).run events).holders b
    · rw [if_pos hc] at hr
      simp only [Option.map_some', Option.some.injEq] at hr
      exact ⟨hr, by omega⟩
    · rw [if_neg hc] at hr
      simp at hr

/-! ## Session display names -/

/-- C2 fails on the code: three agents connect and send the display names `alice`, `alice` and
`alice_1_1`.  The second agent is named `alice_1` by the collision suffix; the pattern
`trailingDigits` strips only the last `_<digits>` group of the third name, whose base name
`alice_1` is new to the registry and is handed out bare.  Nodes 2 and 3 are distinct, live, and
share the session display name `alice_1`. -/
theorem session_display_name_collision :
    ((Mixer.initial (fun _ _ => false)).run
        [.connect { uuid := 1 }, .connect { uuid := 2 }, .connect { uuid := 3 },
         .identity 1 ['a', 'l', 'i', 'c', 'e'] true true, .manage 1,
         .identity 2 ['a', 'l', 'i', 'c', 'e'] true true, .manage 2,
         .identity 3 ['a', 'l', 'i', 'c', 'e', '_', '1', '_', '1'] true true, .manage 3]).sessionNames
      = [(1, ['a', 'l', 'i', 'c', 'e']),
         (2, ['a', 'l', 'i', 'c', 'e', '_', '1']),
         (3, ['a', 'l', 'i', 'c', 'e', '_', '1'])] := by
  decide

/-- C4, as stated, fails: fresh client data has the must-change flag set but has not processed
a first identity, and the early return of `manageIdentityData` leaves such a node untouched.
Its sanitized display name is `anonymous`, yet its base display name stays empty, the flag
stays set and the registry gets no entry.  Past the guard the counters are C++ `int`s: with the
entry `alice -> (2147483647, 1)` a node sending `alice` is named `alice_2147483647` and the
increment of the high-water mark leaves `(-2147483648, 2)`, not `(h+1, c+1)`; the next node
sending `alice` is then handed the bare name `alice`. -/
theorem manageIdentityData_guard_counterexample :
    (∃ data : AvatarMixerClientData,
        (getOrCreateClientData { uuid := 7 }).linkedData = some data
          ∧ data.avatarSessionDisplayNameMustChange = true
          ∧ data.avatar.hasProcessedFirstIdentity = false
          ∧ baseNameOf data.avatar.displayName = ['a', 'n', 'o', 'n', 'y', 'm', 'o', 'u', 's'])
      ∧ manageIdentityData [] (getOrCreateClientData { uuid := 7 })
          = ⟨[], getOrCreateClientData { uuid := 7 }, []⟩
      ∧ ((manageIdentityData [] (getOrCreateClientData { uuid := 7 })).node.linkedData.map
              (fun d => (d.baseDisplayName, d.avatarSessionDisplayNameMustChange)))
          = some ([], true)
      ∧ (manageIdentityData [] (getOrCreateClientData { uuid := 7 })).names.entry
            ['a', 'n', 'o', 'n', 'y', 'm', 'o', 'u', 's'] = none
      ∧ (manageIdentityData [(['a', 'l', 'i', 'c', 'e'], (2147483647, 1))]
          { uuid := 7,
            linkedData := some { nodeID := 7,
                                 avatar := { displayName := ['a', 'l', 'i', 'c', 'e'],
                                             hasProcessedFirstIdentity := true } } }).names
          = [(['a', 'l', 'i', 'c', 'e'], (-2147483648, 2))]
      ∧ ((manageIdentityData [(['a', 'l', 'i', 'c', 'e'], (2147483647, 1))]
          { uuid := 7,
            linkedData := some { nodeID := 7,
                                 avatar := { displayName := ['a', 'l', 'i', 'c', 'e'],
                                             hasProcessedFirstIdentity := true } } }).node.linkedData.map
          (fun d => d.avatar.sessionDisplayName))
          = some ['a', 'l', 'i', 'c', 'e', '_', '2', '1', '4', '7', '4', '8', '3', '6', '4', '7']
      ∧ ((manageIdentityData [(['a', 'l', 'i', 'c', 'e'], (-2147483648, 2))]
          { uuid := 8,
            linkedData := some { nodeID := 8,
                                 avatar := { displayName := ['a', 'l', 'i', 'c', 'e'],
                                             hasProcessedFirstIdentity := true } } }).node.linkedData.map
          (fun d => d.avatar.sessionDisplayName))
          = some ['a', 'l', 'i', 'c', 'e'] := by
  refine ⟨⟨_, rfl, rfl, rfl, by decide⟩, by decide, by decide, by decide, by decide, by decide,
    by decide⟩

/-- C4 (amended): for a node `X` with client data that has processed a first identity and has
the must-change flag set, let `b` be the sanitized display name and `(h, c)` the registry value
of `b` after the previous base name of `X` has been released (`(0, 0)` if `b` is absent), with
`0 ≤ h < INT_MAX` and `c < INT_MAX`, so that both increments stay within the range of `int`.
Then `manageIdentityData` sets the base display name of `X` to `b`, its session display name to
`b` when `h = 0` and to `b_<h>` when `h > 0`, leaves the entry of `b` equal to `(h+1, c+1)`, two
values of the `int` range, and clears the must-change flag. -/
theorem manageIdentityData_assigns_session_name (names : DisplayNameRegistry) (X : Node)
    (data : AvatarMixerClientData) (hX : X.linkedData = some data)
    (hfirst : data.avatar.hasProcessedFirstIdentity = true)
    (hmust : data.avatarSessionDisplayNameMustChange = true)
    (hlow : 0 ≤ ((names.release data.baseDisplayName).value (baseNameOf data.avatar.displayName)).1)
    (hhigh : ((names.release data.baseDisplayName).value (baseNameOf data.avatar.displayName)).1
      < INT_MAX)
    (hcount : ((names.release data.baseDisplayName).value (baseNameOf data.avatar.displayName)).2
      < INT_MAX) :
    ∃ data' : AvatarMixerClientData,
      (manageIdentityData names X).node.linkedData = some data'
        ∧ data'.baseDisplayName = baseNameOf data.avatar.displayName
        ∧ (((names.release data.baseDisplayName).value (baseNameOf data.avatar.displayName)).1 = 0 →
            data'.avatar.sessionDisplayName = baseNameOf data.avatar.displayName)
        ∧ (0 < ((names.release data.baseDisplayName).value (baseNameOf data.avatar.displayName)).1 →
            data'.avatar.sessionDisplayName
              = baseNameOf data.avatar.displayName ++ ['_']
                ++ QString.number
                    ((names.release data.baseDisplayName).value (baseNameOf data.avatar.displayName)).1)
        ∧ (manageIdentityData names X).names.entry (baseNameOf data.avatar.displayName)
            = some (((names.release data.baseDisplayName).value (baseNameOf data.avatar.displayName)).1 + 1,
                    ((names.release data.baseDisplayName).value (baseNameOf data.avatar.displayName)).2 + 1)
        ∧ ((names.release data.baseDisplayName).value (baseNameOf data.avatar.displayName)).1 + 1
            ≤ INT_MAX
        ∧ ((names.release data.baseDisplayName).value (baseNameOf data.avatar.displayName)).2 + 1
            ≤ INT_MAX
        ∧ data'.avatarSessionDisplayNameMustChange = false := by
  obtain ⟨hnames, -, -, d, hd, hbase, hsession, hflag⟩ :=
    manageIdentityData_rename names X data hX hfirst hmust
  have hmin : INT_MIN ≤ 0 := by decide
  refine ⟨d, hd, hbase, ?_, ?_, ?_, by omega, by omega, hflag⟩
  · intro h0
    rw [hsession, h0]
    rfl
  · intro hpos
    rw [hsession, if_pos hpos]
  · rw [hnames, entry_set, if_pos rfl, wrapInt_eq _ (by omega) (by omega)]

/-- Witness of the amended C4, the rename collision scenario of the specification: with the
registry `{alice -> (1, 1)}` a new node sending `alice` is named `alice_1` and the registry
becomes `{alice -> (2, 2)}`. -/
theorem manageIdentityData_assigns_session_name_witness :
    ((manageIdentityData [(['a', 'l', 'i', 'c', 'e'], (1, 1))]
        { uuid := 7,
          linkedData := some { nodeID := 7,
                               avatar := { displayName := ['a', 'l', 'i', 'c', 'e'],
                                           hasProcessedFirstIdentity := true } } }).node.linkedData.map
        (fun d => d.avatar.sessionDisplayName)) = some ['a', 'l', 'i', 'c', 'e', '_', '1']
      ∧ (manageIdentityData [(['a', 'l', 'i', 'c', 'e'], (1, 1))]
          { uuid := 7,
            linkedData := some { nodeID := 7,
                                 avatar := { displayName := ['a', 'l', 'i', 'c', 'e'],
                                             hasProcessedFirstIdentity := true } } }).names
          = [(['a', 'l', 'i', 'c', 'e'], (2, 2))]
      ∧ ∃ data' : AvatarMixerClientData,
          (manageIdentityData [(['a', 'l', 'i', 'c', 'e'], (1, 1))]
            { uuid := 7,
              linkedData := some { nodeID := 7,
                                   avatar := { displayName := ['a', 'l', 'i', 'c', 'e'],
                                               hasProcessedFirstIdentity := true } } }).node.linkedData
            = some data'
          ∧ data'.baseDisplayName = baseNameOf ['a', 'l', 'i', 'c', 'e']
          ∧ data'.avatarSessionDisplayNameMustChange = false := by
  refine ⟨by decide, by decide, ?_⟩
  obtain ⟨d, hd, hbase, -, -, -, -, -, hflag⟩ :=
    manageIdentityData_assigns_session_name [(['a', 'l', 'i', 'c', 'e'], (1, 1))]
      { uuid := 7,
        linkedData := some { nodeID := 7,
                             avatar := { displayName := ['a', 'l', 'i', 'c', 'e'],
                                         hasProcessedFirstIdentity := true } } }
      { nodeID := 7,
        avatar := { displayName := ['a', 'l', 'i', 'c', 'e'], hasProcessedFirstIdentity := true } }
      rfl rfl rfl (by decide) (by decide) (by decide)
  exact ⟨d, hd, hbase, hflag⟩

/-- C5 fails on the code: the display name `a`, newline, `$` keeps its second line.  The class
`[^$]` of `trailingDigits` excludes the dollar sign, so the group that should swallow the
subsequent lines cannot reach the end of the subject and nothing is removed.  Without the
dollar sign the second line is removed.  On the display name of the specification (two spaces,
`fucker_42`, newline, `spam`, two spaces) the base name is `*er`, which on an empty registry is
also the session display name; and the base name is never empty. -/
theorem baseNameOf_keeps_line_with_dollar :
    baseNameOf ['a', '\n', '$'] = ['a', '\n', '$']
      ∧ baseNameOf ['a', '\n', 'b'] = ['a']
      ∧ baseNameOf [' ', ' ', 'f', 'u', 'c', 'k', 'e', 'r', '_', '4', '2', '\n', 's', 'p', 'a', 'm', ' ', ' ']
          = ['*', 'e', 'r']
      ∧ ((manageIdentityData []
            { uuid := 7,
              linkedData := some
                { nodeID := 7,
                  avatar :=
                    { displayName :=
                        [' ', ' ', 'f', 'u', 'c', 'k', 'e', 'r', '_', '4', '2', '\n', 's', 'p', 'a', 'm', ' ', ' '],
                      hasProcessedFirstIdentity := true } } }).node.linkedData.map
            (fun d => d.avatar.sessionDisplayName)) = some ['*', 'e', 'r']
      ∧ ∀ displayName : QString, baseNameOf displayName ≠ [] :=
  ⟨by decide, by decide, by decide, by decide, baseNameOf_ne_nil⟩

/-! ## Frame clock -/

theorem FRAME_PERIOD_USECS_eq : FRAME_PERIOD_USECS = 22222 := by
  have h : Int.tdiv 200000 9 = 22222 := by decide
  simp [FRAME_PERIOD_USECS, toInt, USECS_PER_SECOND, AVATAR_MIXER_BROADCAST_FRAMES_PER_SECOND]
  norm_num [h]

/-- C11: with `k` clock ticks per microsecond, for every previous frame timestamp `s` and
current time `now ≥ s`, `timeFrame` returns the duration `now - s` in whole microseconds (the
quotient of `now - s` by `k`, which is `now - s` itself for a microsecond clock) and sets the
frame timestamp to `max(now, s + P)` where `P` is 22222 microseconds; so the new frame start is
at least `s + P` and at least `now`, and the sleep interval `timestamp - now` is not negative. -/
theorem timeFrame_duration_and_deadline (k s now : Int) (hk : 0 < k) (hnow : s ≤ now) :
    FRAME_PERIOD_USECS = 22222
      ∧ (timeFrame k s now).duration = (now - s) / k
      ∧ k * (timeFrame k s now).duration ≤ now - s
      ∧ now - s < k * ((timeFrame k s now).duration + 1)
      ∧ (k = 1 → (timeFrame k s now).duration = now - s)
      ∧ (timeFrame k s now).timestamp = max now (s + 22222 * k)
      ∧ s + 22222 * k ≤ (timeFrame k s now).timestamp
      ∧ now ≤ (timeFrame k s now).timestamp
      ∧ (timeFrame k s now).sleepTime = (timeFrame k s now).timestamp - now
      ∧ 0 ≤ (timeFrame k s now).sleepTime := by
  have hd : (timeFrame k s now).duration = (now - s) / k := by
    show Int.tdiv (now - s) k = (now - s) / k
    exact Int.tdiv_eq_ediv (by omega) hk.le
  have ht : (timeFrame k s now).timestamp = max now (s + 22222 * k) := by
    show max now (s + FRAME_PERIOD_USECS * k) = max now (s + 22222 * k)
    rw [FRAME_PERIOD_USECS_eq]
  have hs : (timeFrame k s now).sleepTime = (timeFrame k s now).timestamp - now := rfl
  refine ⟨FRAME_PERIOD_USECS_eq, hd, ?_, ?_, ?_, ht, ?_, ?_, hs, ?_⟩
  · rw [hd]
    exact Int.mul_ediv_self_le (ne_of_gt hk)
  · rw [hd]
    have := Int.lt_mul_ediv_self_add (x := now - s) hk
    rw [mul_add, mul_one]
    exact this
  · intro h1
    rw [hd, h1, Int.ediv_one]
  · rw [ht]
    exact le_max_right _ _
  · rw [ht]
    exact le_max_left _ _
  · rw [hs, ht]
    have := le_max_left now (s + 22222 * k)
    omega

/-- Witness of C11 for a nanosecond clock: a frame that took 30 ms starts the next frame at
once and returns 30000 microseconds. -/
theorem timeFrame_duration_and_deadline_witness :
    (0 : Int) < 1000 ∧ (5 : Int) ≤ 30000005
      ∧ (timeFrame 1000 5 30000005).duration = (30000005 - 5) / 1000
      ∧ (timeFrame 1000 5 30000005).timestamp = max 30000005 (5 + 22222 * 1000)
      ∧ 0 ≤ (timeFrame 1000 5 30000005).sleepTime :=
  have hk : (0 : Int) < 1000 := by decide
  have hnow : (5 : Int) ≤ 30000005 := by decide
  ⟨hk, hnow, (timeFrame_duration_and_deadline 1000 5 30000005 hk hnow).2.1,
    (timeFrame_duration_and_deadline 1000 5 30000005 hk hnow).2.2.2.2.2.1,
    (timeFrame_duration_and_deadline 1000 5 30000005 hk hnow).2.2.2.2.2.2.2.2.2⟩

/-! ## Kill fan-out -/

theorem killPacketFor_destination (avatarNode node : Node) :
    (killPacketFor avatarNode node).destination = node.uuid := by
  unfold killPacketFor
  split_ifs <;> rfl

theorem kill_batch_none (avatarNode : Node) (p : Node → Bool) (nodes : List Node) (uuid : Nat)
    (h : uuid ∉ nodes.map Node.uuid) :
    ((nodes.filter p).map (killPacketFor avatarNode)).filter (fun q => q.destination == uuid) = [] := by
  rw [List.filter_eq_nil_iff]
  intro q hq
  obtain ⟨x, hx, rfl⟩ := List.mem_map.mp hq
  rw [killPacketFor_destination]
  have hx' : x ∈ nodes := (List.mem_filter.mp hx).1
  intro heq
  exact h (List.mem_map.mpr ⟨x, hx', by simpa using heq⟩)

theorem kill_batch_for_node (avatarNode : Node) (p : Node → Bool) (nodes : List Node)
    (hnodup : (nodes.map Node.uuid).Nodup) (n : Node) (hn : n ∈ nodes) :
    ((nodes.filter p).map (killPacketFor avatarNode)).filter (fun q => q.destination == n.uuid)
      = if p n then [killPacketFor avatarNode n] else [] := by
  induction nodes with
  | nil => cases hn
  | cons a nodes ih =>
    rw [List.map_cons, List.nodup_cons] at hnodup
    rcases List.mem_cons.mp hn with rfl | hmem
    · have hrest := kill_batch_none avatarNode p nodes n.uuid hnodup.1
      rw [List.filter_cons]
      by_cases hp : p n
      · rw [if_pos hp, if_pos hp, List.map_cons, List.filter_cons, killPacketFor_destination]
        simp [hrest]
      · rw [if_neg hp, if_neg hp]
        exact hrest
    · have hne : a.uuid ≠ n.uuid := by
        intro heq
        exact hnodup.1 (heq ▸ List.mem_map_of_mem Node.uuid hmem)
      rw [List.filter_cons]
      by_cases hp : p a
      · rw [if_pos hp, List.map_cons, List.filter_cons, killPacketFor_destination]
        simp only [beq_iff_eq, hne, if_false]
        exact ih hnodup.2 hmem
      · rw [if_neg hp]
        exact ih hnodup.2 hmem

theorem handleAvatarKilled_sent (m : Mixer) (K : Node) (data : AvatarMixerClientData)
    (hK : K.linkedData = some data) (hty : K.type = NodeType.Agent) :
    (handleAvatarKilled m K).sent
      = m.sent ++ (m.nodes.filter (receivesKill m K)).map (killPacketFor K) := by
  rw [handleAvatarKilled_agent m K data hK hty]

/-- C12: when an agent `K` with client data is killed and the node ids of the registry are
distinct, the packets that `handleAvatarKilled` sends to a node that is an agent, is not upstream
and has an active socket are exactly one `KillAvatar` packet; it is reliable and carries the id
of `K` followed by the reason `AvatarDisconnected`. -/
theorem handleAvatarKilled_kill_to_agents (m : Mixer) (K : Node) (data : AvatarMixerClientData)
    (hK : K.linkedData = some data) (hty : K.type = NodeType.Agent)
    (hnodup : (m.nodes.map Node.uuid).Nodup)
    (n : Node) (hn : n ∈ m.nodes) (hagent : n.type = NodeType.Agent)
    (hup : n.isUpstream = false) (hsock : n.hasActiveSocket = true) :
    ∃ batch : List Packet,
      (handleAvatarKilled m K).sent = m.sent ++ batch
        ∧ batch.filter (fun q => q.destination == n.uuid)
            = [Packet.killAvatar n.uuid K.uuid KillAvatarReason.AvatarDisconnected]
        ∧ (Packet.killAvatar n.uuid K.uuid KillAvatarReason.AvatarDisconnected).isReliable = true := by
  refine ⟨_, handleAvatarKilled_sent m K data hK hty, ?_, rfl⟩
  rw [kill_batch_for_node K (receivesKill m K) m.nodes hnodup n hn]
  have hp : receivesKill m K n = true := by
    simp [receivesKill, hagent, hup, hsock]
  rw [if_pos hp]
  simp [killPacketFor, hagent]

/-- Witness of C12: agent 1 is killed while agent 2 is connected; agent 2 is sent one kill
packet carrying the id 1. -/
theorem handleAvatarKilled_kill_to_agents_witness :
    ∃ batch : List Packet,
      (handleAvatarKilled
          { shouldReplicateTo := fun _ _ => false,
            nodes := [{ uuid := 1, linkedData := some { nodeID := 1 } }, { uuid := 2 }] }
          { uuid := 1, linkedData := some { nodeID := 1 } }).sent = [] ++ batch
        ∧ batch.filter (fun q => q.destination == 2)
            = [Packet.killAvatar 2 1 KillAvatarReason.AvatarDisconnected]
        ∧ (Packet.killAvatar 2 1 KillAvatarReason.AvatarDisconnected).isReliable = true :=
  handleAvatarKilled_kill_to_agents
    { shouldReplicateTo := fun _ _ => false,
      nodes := [{ uuid := 1, linkedData := some { nodeID := 1 } }, { uuid := 2 }] }
    { uuid := 1, linkedData := some { nodeID := 1 } } { nodeID := 1 } rfl rfl (by decide)
    { uuid := 2 } (by decide) rfl rfl rfl

/-- C13, as stated, fails: the agent `1`, which is not replicated, is killed while agent `3`
and the downstream mixer `2` are in the registry with active sockets and the policy replicates
to every downstream mixer.  The only packet sent is the `KillAvatar` to agent `3`; no
`ReplicatedKillAvatar` is sent to the downstream mixer. -/
theorem handleAvatarKilled_unreplicated_counterexample :
    (handleAvatarKilled
        { shouldReplicateTo := fun _ dest => dest.type == NodeType.DownstreamAvatarMixer,
          nodes := [{ uuid := 3, linkedData := some { nodeID := 3 } },
                    { uuid := 2, type := NodeType.DownstreamAvatarMixer }] }
        { uuid := 1, linkedData := some { nodeID := 1 } }).sent
      = [Packet.killAvatar 3 1 KillAvatarReason.AvatarDisconnected] := by
  decide

/-- C13 (amended): when an agent `K` with client data is killed and the node ids of the
registry are distinct, a node that is not an agent is sent one `ReplicatedKillAvatar` packet
carrying the id of `K` if it has an active socket, `K` is replicated and `shouldReplicateTo(K,
node)` holds, and is sent nothing otherwise. -/
theorem handleAvatarKilled_replicated_kill (m : Mixer) (K : Node) (data : AvatarMixerClientData)
    (hK : K.linkedData = some data) (hty : K.type = NodeType.Agent)
    (hnodup : (m.nodes.map Node.uuid).Nodup)
    (n : Node) (hn : n ∈ m.nodes) (hmixer : n.type ≠ NodeType.Agent) :
    ∃ batch : List Packet,
      (handleAvatarKilled m K).sent = m.sent ++ batch
        ∧ batch.filter (fun q => q.destination == n.uuid)
            = if n.hasActiveSocket = true ∧ K.isReplicated = true ∧ m.shouldReplicateTo K n = true then
                [Packet.replicatedKillAvatar n.uuid K.uuid KillAvatarReason.AvatarDisconnected]
              else [] := by
  refine ⟨_, handleAvatarKilled_sent m K data hK hty, ?_⟩
  rw [kill_batch_for_node K (receivesKill m K) m.nodes hnodup n hn]
  by_cases hc : n.hasActiveSocket = true ∧ K.isReplicated = true ∧ m.shouldReplicateTo K n = true
  · have hp : receivesKill m K n = true := by
      simp [receivesKill, hc.1, hc.2.1, hc.2.2]
    rw [if_pos hp, if_pos hc]
    simp [killPacketFor, hmixer]
  · have hp : ¬ receivesKill m K n = true := by
      intro hr
      apply hc
      simp only [receivesKill, Bool.and_eq_true, Bool.or_eq_true, beq_iff_eq,
        Bool.not_eq_true'] at hr
      rcases hr with ⟨h1, h2 | h2⟩
      · exact absurd h2.1 hmixer
      · exact ⟨h1, h2.1, h2.2⟩
    rw [if_neg hp, if_neg hc]

/-- Witness of the amended C13: the replicated agent 1 is killed while the downstream mixer 2
is connected; the mixer is sent one replicated kill packet carrying the id 1. -/
theorem handleAvatarKilled_replicated_kill_witness :
    ∃ batch : List Packet,
      (handleAvatarKilled
          { shouldReplicateTo := fun _ dest => dest.type == NodeType.DownstreamAvatarMixer,
            nodes := [{ uuid := 1, isReplicated := true, linkedData := some { nodeID := 1 } },
                      { uuid := 2, type := NodeType.DownstreamAvatarMixer }] }
          { uuid := 1, isReplicated := true, linkedData := some { nodeID := 1 } }).sent = [] ++ batch
        ∧ batch.filter (fun q => q.destination == 2)
            = [Packet.replicatedKillAvatar 2 1 KillAvatarReason.AvatarDisconnected] :=
  handleAvatarKilled_replicated_kill
    { shouldReplicateTo := fun _ dest => dest.type == NodeType.DownstreamAvatarMixer,
      nodes := [{ uuid := 1, isReplicated := true, linkedData := some { nodeID := 1 } },
                { uuid := 2, type := NodeType.DownstreamAvatarMixer }] }
    { uuid := 1, isReplicated := true, linkedData := some { nodeID := 1 } } { nodeID := 1 } rfl rfl
    (by decide) { uuid := 2, type := NodeType.DownstreamAvatarMixer } (by decide) (by decide)

/-! ## Per-peer tables -/

theorem valueAt_nil {α : Type} (k : Nat) : PeerMap.valueAt ([] : PeerMap α) k = none := rfl

theorem valueAt_cons {α : Type} (k : Nat) (v : α) (t : PeerMap α) (peer : Nat) :
    PeerMap.valueAt ((k, v) :: t) peer = if k = peer then some v else PeerMap.valueAt t peer := by
  unfold PeerMap.valueAt
  by_cases h : k = peer
  · simp [List.find?_cons, h]
  · simp [List.find?_cons, h]

theorem valueAt_discard {α : Type} (t : PeerMap α) (k peer : Nat) :
    (t.discard k).valueAt peer = if peer = k then none else t.valueAt peer := by
  induction t with
  | nil => simp [PeerMap.discard, valueAt_nil]
  | cons e t ih =>
    obtain ⟨k', v⟩ := e
    unfold PeerMap.discard at ih ⊢
    by_cases h1 : k' = k
    · subst h1
      rw [List.filter_cons]
      simp only [beq_self_eq_true, Bool.not_true, Bool.false_eq_true, if_false]
      rw [ih, valueAt_cons]
      by_cases h2 : peer = k'
      · simp [h2]
      · have : ¬ k' = peer := fun h => h2 h.symm
        simp [h2, this]
    · rw [List.filter_cons]
      have hb : (!((k', v).1 == k)) = true := by simp [h1]
      rw [if_pos hb, valueAt_cons, valueAt_cons, ih]
      by_cases h2 : k' = peer
      · have : ¬ peer = k := fun h => h1 (h2.trans h)
        simp [h2, this]
      · simp [h2]

theorem valueAt_assign {α : Type} (t : PeerMap α) (k : Nat) (v : α) (peer : Nat) :
    (t.assign k v).valueAt peer = if peer = k then some v else t.valueAt peer := by
  have hd := valueAt_discard t k peer
  unfold PeerMap.discard at hd
  unfold PeerMap.assign
  rw [valueAt_cons, hd]
  by_cases h : k = peer
  · simp [h]
  · have : ¬ peer = k := fun h' => h h'.symm
    simp [h, this]

theorem cleanup_fold_keeps_none (ops : List (Nat × Nat)) (acc : AvatarMixerClientData) (k : Nat)
    (h : acc.lastBroadcastTimes.valueAt k = none ∧ acc.sentTraitVersions.valueAt k = none) :
    (ops.foldl (fun a op => a.cleanupKilledNode op.1 op.2) acc).lastBroadcastTimes.valueAt k = none
      ∧ (ops.foldl (fun a op => a.cleanupKilledNode op.1 op.2) acc).sentTraitVersions.valueAt k = none := by
  induction ops generalizing acc with
  | nil => exact h
  | cons op ops ih =>
    rw [List.foldl_cons]
    apply ih
    unfold AvatarMixerClientData.cleanupKilledNode
    dsimp only
    rw [valueAt_discard, valueAt_discard, h.1, h.2]
    simp

theorem cleanup_fold_erases (ops : List (Nat × Nat)) (acc : AvatarMixerClientData) (u k : Nat)
    (h : (u, k) ∈ ops) :
    (ops.foldl (fun a op => a.cleanupKilledNode op.1 op.2) acc).lastBroadcastTimes.valueAt k = none
      ∧ (ops.foldl (fun a op => a.cleanupKilledNode op.1 op.2) acc).sentTraitVersions.valueAt k = none := by
  induction ops generalizing acc with
  | nil => cases h
  | cons op ops ih =>
    rw [List.foldl_cons]
    rcases List.mem_cons.mp h with heq | hmem
    · apply cleanup_fold_keeps_none
      rw [← heq]
      unfold AvatarMixerClientData.cleanupKilledNode
      dsimp only
      rw [valueAt_discard, valueAt_discard]
      simp
    · exact ih _ hmem

theorem runCleanups_erases (d : AvatarMixerClientData) (u k : Nat) (h : (u, k) ∈ d.cleanups) :
    d.runCleanups.lastBroadcastTimes.valueAt k = none
      ∧ d.runCleanups.sentTraitVersions.valueAt k = none
      ∧ d.runCleanups.cleanups = [] := by
  have hf := cleanup_fold_erases d.cleanups d u k h
  exact ⟨hf.1, hf.2, rfl⟩

/-- C14: after `handleAvatarKilled(K)` for an agent `K` with client data, every node record is
the old one with a `cleanupKilledNode(K.uuid, K.localID)` invocation queued on its client data if
it has client data and its id differs from the id of `K`, and is unchanged otherwise; once the
queued invocations of such a client data have run, the local id of `K` is a key neither of its
`lastBroadcastTimes` nor of its `sentTraitVersions`. -/
theorem handleAvatarKilled_schedules_cleanup (m : Mixer) (K : Node) (data : AvatarMixerClientData)
    (hK : K.linkedData = some data) (hty : K.type = NodeType.Agent) (n : Node) :
    (handleAvatarKilled m K).nodes = m.nodes.map (queueCleanup K)
      ∧ (∀ d : AvatarMixerClientData, n.linkedData = some d → n.uuid ≠ K.uuid →
          ∃ d' : AvatarMixerClientData,
            queueCleanup K n = { n with linkedData := some d' }
              ∧ d' = { d with cleanups := d.cleanups ++ [(K.uuid, K.localID)] }
              ∧ d'.runCleanups.lastBroadcastTimes.valueAt K.localID = none
              ∧ d'.runCleanups.sentTraitVersions.valueAt K.localID = none
              ∧ d'.runCleanups.cleanups = [])
      ∧ ((n.linkedData = none ∨ n.uuid = K.uuid) → queueCleanup K n = n) := by
  refine ⟨?_, ?_, ?_⟩
  · rw [handleAvatarKilled_agent m K data hK hty]
  · intro d hd hne
    refine ⟨_, queueCleanup_other K n d hd hne, rfl, ?_⟩
    apply runCleanups_erases _ K.uuid K.localID
    show (K.uuid, K.localID) ∈ d.cleanups ++ [(K.uuid, K.localID)]
    simp
  · rintro (h | h)
    · exact queueCleanup_no_data K n h
    · exact queueCleanup_same K n h

/-- Witness of C14: agent 1 (local id 11) is killed; node 2, which has broadcast to it before,
gets the cleanup queued and forgets the peer once it has run. -/
theorem handleAvatarKilled_schedules_cleanup_witness :
    (handleAvatarKilled
        { shouldReplicateTo := fun _ _ => false,
          nodes := [{ uuid := 1, localID := 11, linkedData := some { nodeID := 1 } },
                    { uuid := 2, localID := 12,
                      linkedData := some { nodeID := 2, lastBroadcastTimes := [(11, 7)] } }] }
        { uuid := 1, localID := 11, linkedData := some { nodeID := 1 } }).nodes
      = [{ uuid := 1, localID := 11, linkedData := some { nodeID := 1 } },
         { uuid := 2, localID := 12,
           linkedData := some { nodeID := 2, lastBroadcastTimes := [(11, 7)], cleanups := [(1, 11)] } }]
      ∧ (({ nodeID := 2, lastBroadcastTimes := [(11, 7)], cleanups := [(1, 11)] } :
            AvatarMixerClientData).runCleanups.lastBroadcastTimes.valueAt 11) = none := by
  have h := handleAvatarKilled_schedules_cleanup
    { shouldReplicateTo := fun _ _ => false,
      nodes := [{ uuid := 1, localID := 11, linkedData := some { nodeID := 1 } },
                { uuid := 2, localID := 12,
                  linkedData := some { nodeID := 2, lastBroadcastTimes := [(11, 7)] } }] }
    { uuid := 1, localID := 11, linkedData := some { nodeID := 1 } } { nodeID := 1 } rfl rfl
    { uuid := 2, localID := 12, linkedData := some { nodeID := 2, lastBroadcastTimes := [(11, 7)] } }
  refine ⟨h.1.trans (by decide), ?_⟩
  obtain ⟨d', -, hd', hl, -, -⟩ :=
    h.2.1 { nodeID := 2, lastBroadcastTimes := [(11, 7)] } rfl (by decide)
  rw [hd'] at hl
  exact hl

/-! ## Mutations of node records -/

theorem nodeWithUUID_nil (v : Nat) : nodeWithUUID [] v = none := rfl

theorem nodeWithUUID_cons (a : Node) (nodes : List Node) (v : Nat) :
    nodeWithUUID (a :: nodes) v = if a.uuid = v then some a else nodeWithUUID nodes v := by
  unfold nodeWithUUID
  rw [List.find?_cons]
  by_cases h : a.uuid = v
  · simp [h]
  · have hb : (a.uuid == v) = false := by simpa using h
    rw [hb, if_neg h]

theorem modifyNode_cons (u : Nat) (f : Node → Node) (a : Node) (nodes : List Node) :
    modifyNode u f (a :: nodes) = if a.uuid = u then f a :: nodes else a :: modifyNode u f nodes := by
  show (if (a.uuid == u) = true then f a :: nodes else a :: modifyNode u f nodes) = _
  by_cases h : a.uuid = u
  · simp [h]
  · simp [h]

theorem nodeWithUUID_modifyNode (u v : Nat) (f : Node → Node) (hf : ∀ n, (f n).uuid = n.uuid)
    (nodes : List Node) :
    nodeWithUUID (modifyNode u f nodes) v
      = if v = u then (nodeWithUUID nodes u).map f else nodeWithUUID nodes v := by
  induction nodes with
  | nil =>
    show nodeWithUUID [] v = _
    simp [nodeWithUUID_nil]
  | cons a nodes ih =>
    rw [modifyNode_cons]
    by_cases ha : a.uuid = u
    · rw [if_pos ha, nodeWithUUID_cons, hf a, nodeWithUUID_cons, nodeWithUUID_cons, if_pos ha]
      by_cases hv : v = u
      · have hav : a.uuid = v := ha.trans hv.symm
        rw [if_pos hav, if_pos hv]
        rfl
      · have hav : ¬ a.uuid = v := fun h => hv (h.symm.trans ha)
        rw [if_neg hav, if_neg hv, if_neg hav]
    · rw [if_neg ha, nodeWithUUID_cons, ih, nodeWithUUID_cons, nodeWithUUID_cons, if_neg ha]
      by_cases hav : a.uuid = v
      · have hvu : ¬ v = u := fun h => ha (hav.trans h)
        rw [if_pos hav, if_neg hvu, if_pos hav]
      · rw [if_neg hav, if_neg hav]

theorem modifyNode_modifyNode_same (u : Nat) (f g : Node → Node) (hg : ∀ n, (g n).uuid = n.uuid)
    (nodes : List Node) :
    modifyNode u f (modifyNode u g nodes) = modifyNode u (fun n => f (g n)) nodes := by
  induction nodes with
  | nil => rfl
  | cons a nodes ih =>
    by_cases ha : (a.uuid == u) = true
    · have hga : ((g a).uuid == u) = true := by rw [hg a]; exact ha
      show modifyNode u f (if (a.uuid == u) = true then g a :: nodes else a :: modifyNode u g nodes)
        = if (a.uuid == u) = true then f (g a) :: nodes else a :: modifyNode u (fun n => f (g n)) nodes
      rw [if_pos ha, if_pos ha]
      show (if ((g a).uuid == u) = true then f (g a) :: nodes else g a :: modifyNode u f nodes) = _
      rw [if_pos hga]
    · show modifyNode u f (if (a.uuid == u) = true then g a :: nodes else a :: modifyNode u g nodes)
        = if (a.uuid == u) = true then f (g a) :: nodes else a :: modifyNode u (fun n => f (g n)) nodes
      rw [if_neg ha, if_neg ha]
      show (if (a.uuid == u) = true then f a :: modifyNode u g nodes
        else a :: modifyNode u f (modifyNode u g nodes)) = _
      rw [if_neg ha, ih]

theorem modifyNode_comm (u v : Nat) (huv : u ≠ v) (f g : Node → Node)
    (hf : ∀ n, (f n).uuid = n.uuid) (hg : ∀ n, (g n).uuid = n.uuid) (nodes : List Node) :
    modifyNode u f (modifyNode v g nodes) = modifyNode v g (modifyNode u f nodes) := by
  induction nodes with
  | nil => rfl
  | cons a nodes ih =>
    by_cases hau : a.uuid = u
    · have hav : ¬ a.uuid = v := fun h => huv (hau.symm.trans h)
      have h1 : (a.uuid == u) = true := by simpa using hau
      have h2 : ¬ (a.uuid == v) = true := by simpa using hav
      have h3 : ¬ ((f a).uuid == v) = true := by rw [hf a]; exact h2
      show modifyNode u f (if (a.uuid == v) = true then g a :: nodes else a :: modifyNode v g nodes)
        = modifyNode v g (if (a.uuid == u) = true then f a :: nodes else a :: modifyNode u f nodes)
      rw [if_neg h2, if_pos h1]
      show (if (a.uuid == u) = true then f a :: modifyNode v g nodes
          else a :: modifyNode u f (modifyNode v g nodes))
        = if ((f a).uuid == v) = true then g (f a) :: nodes else f a :: modifyNode v g nodes
      rw [if_pos h1, if_neg h3]
    · have h1 : ¬ (a.uuid == u) = true := by simpa using hau
      show modifyNode u f (if (a.uuid == v) = true then g a :: nodes else a :: modifyNode v g nodes)
        = modifyNode v g (if (a.uuid == u) = true then f a :: nodes else a :: modifyNode u f nodes)
      rw [if_neg h1]
      by_cases hav : (a.uuid == v) = true
      · have h4 : ¬ ((g a).uuid == u) = true := by rw [hg a]; exact h1
        rw [if_pos hav]
        show (if ((g a).uuid == u) = true then f (g a) :: nodes else g a :: modifyNode u f nodes)
          = if (a.uuid == v) = true then g a :: modifyNode u f nodes
            else a :: modifyNode v g (modifyNode u f nodes)
        rw [if_neg h4, if_pos hav]
      · rw [if_neg hav]
        show (if (a.uuid == u) = true then f a :: modifyNode v g nodes
            else a :: modifyNode u f (modifyNode v g nodes))
          = if (a.uuid == v) = true then g a :: modifyNode u f nodes
            else a :: modifyNode v g (modifyNode u f nodes)
        rw [if_neg h1, if_neg hav, ih]

theorem resetPeer_uuid (k : Nat) (n : Node) : (resetPeer k n).uuid = n.uuid := rfl

theorem addIgnoredNode_uuid (x : Nat) (n : Node) : (Node.addIgnoredNode x n).uuid = n.uuid := rfl

theorem removeIgnoredNode_uuid (x : Nat) (n : Node) : (Node.removeIgnoredNode x n).uuid = n.uuid := rfl

theorem touched_refl (n : Node) : Touched n n :=
  ⟨rfl, rfl, fun d hd => ⟨d, hd, fun _ h => h, fun _ h => h⟩⟩

theorem touched_trans (a b c : Node) (hab : Touched a b) (hbc : Touched b c) : Touched a c := by
  refine ⟨hbc.uuid.trans hab.uuid, hbc.localID.trans hab.localID, ?_⟩
  intro d hd
  obtain ⟨d', hd', h1, h2⟩ := hab.data d hd
  obtain ⟨d'', hd'', h3, h4⟩ := hbc.data d' hd'
  exact ⟨d'', hd'', fun k h => h3 k (h1 k h), fun k h => h4 k (h2 k h)⟩

theorem resetPeer_data (k : Nat) (n : Node) (d : AvatarMixerClientData) (hd : n.linkedData = some d) :
    (resetPeer k n).linkedData = some ((d.setLastBroadcastTime k 0).resetSentTraitData k) := by
  unfold resetPeer
  simp [hd]

theorem touched_resetPeer (k : Nat) (n : Node) : Touched n (resetPeer k n) := by
  refine ⟨rfl, rfl, ?_⟩
  intro d hd
  refine ⟨_, resetPeer_data k n d hd, ?_, ?_⟩
  · intro j hj
    show (d.lastBroadcastTimes.assign k 0).valueAt j = some 0
    rw [valueAt_assign]
    split_ifs
    · rfl
    · exact hj
  · intro j hj
    show (d.sentTraitVersions.assign k []).valueAt j = some []
    rw [valueAt_assign]
    split_ifs
    · rfl
    · exact hj

theorem resetPeer_zero (k : Nat) (n : Node) (d : AvatarMixerClientData) (hd : n.linkedData = some d) :
    ∃ d', (resetPeer k n).linkedData = some d'
      ∧ d'.lastBroadcastTimes.valueAt k = some 0 ∧ d'.sentTraitVersions.valueAt k = some [] := by
  refine ⟨_, resetPeer_data k n d hd, ?_, ?_⟩
  · show (d.lastBroadcastTimes.assign k 0).valueAt k = some 0
    rw [valueAt_assign, if_pos rfl]
  · show (d.sentTraitVersions.assign k []).valueAt k = some []
    rw [valueAt_assign, if_pos rfl]

theorem touched_addIgnoredNode (x : Nat) (n : Node) : Touched n (Node.addIgnoredNode x n) :=
  ⟨rfl, rfl, fun d hd => ⟨d, hd, fun _ h => h, fun _ h => h⟩⟩

theorem touched_removeIgnoredNode (x : Nat) (n : Node) : Touched n (Node.removeIgnoredNode x n) :=
  ⟨rfl, rfl, fun d hd => ⟨d, hd, fun _ h => h, fun _ h => h⟩⟩

/-- The ignore update of one loop iteration. -/
theorem ignoreRequestStep_nodes (S : Node) (add : Bool) (m : Mixer) (x : Nat) :
    (ignoreRequestStep S add m x).nodes
      = modifyNode S.uuid (if add = true then Node.addIgnoredNode x else Node.removeIgnoredNode x)
          (match nodeWithUUID m.nodes x with
            | some c => modifyNode c.uuid (resetPeer S.localID)
                (modifyNode S.uuid (resetPeer c.localID) m.nodes)
            | none => m.nodes) := by
  cases add <;> rfl

theorem ignoreRequestStep_sent (S : Node) (add : Bool) (m : Mixer) (x : Nat) :
    (ignoreRequestStep S add m x).sent
      = if add = true ∧ (nodeWithUUID m.nodes x).isSome = true then
          m.sent ++ [Packet.killAvatar x S.uuid KillAvatarReason.AvatarDisconnected]
        else m.sent := by
  cases add
  · simp [ignoreRequestStep]
  · cases h : nodeWithUUID m.nodes x with
    | none => simp [ignoreRequestStep, h]
    | some c =>
      have hc := (nodeWithUUID_some _ _ _ h).1
      simp [ignoreRequestStep, h, hc]

theorem ignoreUpdate_uuid (add : Bool) (x : Nat) (n : Node) :
    ((if add = true then Node.addIgnoredNode x else Node.removeIgnoredNode x) n).uuid = n.uuid := by
  cases add <;> rfl

theorem touched_ignoreUpdate (add : Bool) (x : Nat) (n : Node) :
    Touched n ((if add = true then Node.addIgnoredNode x else Node.removeIgnoredNode x) n) := by
  cases add
  · exact touched_removeIgnoredNode x n
  · exact touched_addIgnoredNode x n

/-- The records found by id before one loop iteration are found after it, updated. -/
theorem ignoreRequestStep_lookup (S : Node) (add : Bool) (m : Mixer) (x v : Nat) :
    nodeWithUUID (ignoreRequestStep S add m x).nodes v
      = (nodeWithUUID m.nodes v).map (fun n =>
          (if v = S.uuid then (if add = true then Node.addIgnoredNode x else Node.removeIgnoredNode x)
            else id)
          ((match nodeWithUUID m.nodes x with
            | some c => fun n' =>
                (if v = c.uuid then resetPeer S.localID else id)
                  ((if v = S.uuid then resetPeer c.localID else id) n')
            | none => id) n)) := by
  rw [ignoreRequestStep_nodes, nodeWithUUID_modifyNode _ _ _ (ignoreUpdate_uuid add x)]
  cases hx : nodeWithUUID m.nodes x with
  | none =>
    dsimp only
    by_cases hv : v = S.uuid
    · subst hv
      rw [if_pos rfl, if_pos rfl]
      cases nodeWithUUID m.nodes S.uuid <;> rfl
    · rw [if_neg hv, if_neg hv]
      cases nodeWithUUID m.nodes v <;> rfl
  | some c =>
    dsimp only
    rw [nodeWithUUID_modifyNode _ _ _ (resetPeer_uuid S.localID),
      nodeWithUUID_modifyNode _ _ _ (resetPeer_uuid S.localID),
      nodeWithUUID_modifyNode _ _ _ (resetPeer_uuid c.localID),
      nodeWithUUID_modifyNode _ _ _ (resetPeer_uuid c.localID),
      nodeWithUUID_modifyNode _ _ _ (resetPeer_uuid c.localID)]
    by_cases hv : v = S.uuid
    · subst hv
      simp only [if_true]
      by_cases hc : S.uuid = c.uuid
      · rw [← hc]
        simp only [if_true]
        cases nodeWithUUID m.nodes S.uuid <;> rfl
      · have hc' : ¬ c.uuid = S.uuid := fun h => hc h.symm
        simp only [hc, hc', if_false]
        cases nodeWithUUID m.nodes S.uuid <;> rfl
    · simp only [hv, if_false]
      by_cases hc : v = c.uuid
      · subst hc
        have hc' : ¬ c.uuid = S.uuid := hv
        simp only [if_true, hc', if_false]
        cases nodeWithUUID m.nodes c.uuid <;> rfl
      · simp only [hc, if_false]
        cases nodeWithUUID m.nodes v <;> rfl

/-! ## `handleNodeIgnoreRequestPacket` -/

theorem touched_cond (c : Prop) [Decidable c] (f : Node → Node) (hf : ∀ n, Touched n (f n))
    (n : Node) : Touched n ((if c then f else id) n) := by
  split_ifs
  · exact hf n
  · exact touched_refl n

theorem ignoreRequestStep_touched (S : Node) (add : Bool) (m : Mixer) (x v : Nat) (n : Node)
    (h : nodeWithUUID m.nodes v = some n) :
    ∃ n', nodeWithUUID (ignoreRequestStep S add m x).nodes v = some n' ∧ Touched n n' := by
  rw [ignoreRequestStep_lookup, h]
  refine ⟨_, rfl, ?_⟩
  apply touched_trans _ _ _ _ (touched_cond _ _ (touched_ignoreUpdate add x) _)
  cases nodeWithUUID m.nodes x with
  | none => exact touched_refl n
  | some c =>
    dsimp only
    exact touched_trans _ _ _ (touched_cond _ _ (touched_resetPeer c.localID) n)
      (touched_cond _ _ (touched_resetPeer S.localID) _)

theorem ignoreRequestStep_absent (S : Node) (add : Bool) (m : Mixer) (x v : Nat)
    (h : nodeWithUUID m.nodes v = none) :
    nodeWithUUID (ignoreRequestStep S add m x).nodes v = none := by
  rw [ignoreRequestStep_lookup, h]
  rfl

theorem ignoreRequestStep_isSome (S : Node) (add : Bool) (m : Mixer) (x v : Nat) :
    (nodeWithUUID (ignoreRequestStep S add m x).nodes v).isSome = (nodeWithUUID m.nodes v).isSome := by
  rw [ignoreRequestStep_lookup]
  cases nodeWithUUID m.nodes v <;> rfl

theorem handle_cons (m : Mixer) (S : Node) (add : Bool) (x : Nat) (xs : List Nat) :
    handleNodeIgnoreRequestPacket m S add (x :: xs)
      = handleNodeIgnoreRequestPacket (ignoreRequestStep S add m x) S add xs := rfl

theorem handle_nil (m : Mixer) (S : Node) (add : Bool) :
    handleNodeIgnoreRequestPacket m S add [] = m := rfl

theorem handle_touched (S : Node) (add : Bool) (ids : List Nat) (m : Mixer) (v : Nat) (n : Node)
    (h : nodeWithUUID m.nodes v = some n) :
    ∃ n', nodeWithUUID (handleNodeIgnoreRequestPacket m S add ids).nodes v = some n' ∧ Touched n n' := by
  induction ids generalizing m n with
  | nil => exact ⟨n, h, touched_refl n⟩
  | cons x xs ih =>
    obtain ⟨n1, h1, t1⟩ := ignoreRequestStep_touched S add m x v n h
    obtain ⟨n2, h2, t2⟩ := ih _ n1 h1
    exact ⟨n2, by rw [handle_cons]; exact h2, touched_trans _ _ _ t1 t2⟩

theorem handle_isSome (S : Node) (add : Bool) (ids : List Nat) (m : Mixer) (v : Nat) :
    (nodeWithUUID (handleNodeIgnoreRequestPacket m S add ids).nodes v).isSome
      = (nodeWithUUID m.nodes v).isSome := by
  induction ids generalizing m with
  | nil => rfl
  | cons x xs ih => rw [handle_cons, ih, ignoreRequestStep_isSome]

/-- The ignored set of the sender after one loop iteration. -/
theorem ignoreRequestStep_ignored (S : Node) (add : Bool) (m : Mixer) (x : Nat) (R : Node)
    (h : nodeWithUUID m.nodes S.uuid = some R) :
    ∃ R', nodeWithUUID (ignoreRequestStep S add m x).nodes S.uuid = some R'
      ∧ R'.ignoredNodeIDs
          = if add = true then x :: R.ignoredNodeIDs.filter (fun y => !(y == x))
            else R.ignoredNodeIDs.filter (fun y => !(y == x)) := by
  rw [ignoreRequestStep_lookup, h]
  refine ⟨_, rfl, ?_⟩
  simp only [if_true, Option.map_some']
  cases nodeWithUUID m.nodes x with
  | none => cases add <;> rfl
  | some c =>
    dsimp only
    by_cases hc : S.uuid = c.uuid
    · rw [if_pos hc]
      cases add <;> rfl
    · rw [if_neg hc]
      cases add <;> rfl

theorem handle_ignored (S : Node) (add : Bool) (ids : List Nat) (m : Mixer) (R : Node)
    (h : nodeWithUUID m.nodes S.uuid = some R) :
    ∃ R', nodeWithUUID (handleNodeIgnoreRequestPacket m S add ids).nodes S.uuid = some R'
      ∧ ∀ y, y ∈ R'.ignoredNodeIDs
          ↔ if add = true then y ∈ ids ∨ y ∈ R.ignoredNodeIDs else y ∉ ids ∧ y ∈ R.ignoredNodeIDs := by
  induction ids generalizing m R with
  | nil =>
    refine ⟨R, h, ?_⟩
    intro y
    cases add <;> simp
  | cons x xs ih =>
    obtain ⟨R1, h1, hi1⟩ := ignoreRequestStep_ignored S add m x R h
    obtain ⟨R2, h2, hi2⟩ := ih _ R1 h1
    refine ⟨R2, by rw [handle_cons]; exact h2, ?_⟩
    intro y
    rw [hi2 y, hi1]
    cases add
    · simp only [Bool.false_eq_true, if_false, List.mem_filter, List.mem_cons]
      constructor
      · rintro ⟨h3, h4, h5⟩
        refine ⟨?_, h4⟩
        rintro (h6 | h6)
        · simp [h6] at h5
        · exact h3 h6
      · rintro ⟨h3, h4⟩
        refine ⟨fun h6 => h3 (Or.inr h6), h4, ?_⟩
        have : ¬ y = x := fun h6 => h3 (Or.inl h6)
        simp [this]
    · simp only [if_true, List.mem_filter, List.mem_cons]
      constructor
      · rintro (h3 | h3 | ⟨h3, -⟩)
        · exact Or.inl (Or.inr h3)
        · exact Or.inl (Or.inl h3)
        · exact Or.inr h3
      · rintro ((h3 | h3) | h3)
        · exact Or.inr (Or.inl h3)
        · exact Or.inl h3
        · by_cases hyx : y = x
          · exact Or.inr (Or.inl hyx)
          · exact Or.inr (Or.inr ⟨h3, by simp [hyx]⟩)

/-- After the iteration for a known node `C`, the sender and `C` have forgotten each other. -/
theorem ignoreRequestStep_zero (S : Node) (add : Bool) (m : Mixer) (x : Nat) (R C : Node)
    (dR dC : AvatarMixerClientData)
    (hR : nodeWithUUID m.nodes S.uuid = some R) (hC : nodeWithUUID m.nodes x = some C)
    (hdR : R.linkedData = some dR) (hdC : C.linkedData = some dC) :
    (∃ R' dR', nodeWithUUID (ignoreRequestStep S add m x).nodes S.uuid = some R'
        ∧ R'.linkedData = some dR'
        ∧ dR'.lastBroadcastTimes.valueAt C.localID = some 0
        ∧ dR'.sentTraitVersions.valueAt C.localID = some [])
      ∧ (∃ C' dC', nodeWithUUID (ignoreRequestStep S add m x).nodes x = some C'
        ∧ C'.linkedData = some dC'
        ∧ dC'.lastBroadcastTimes.valueAt S.localID = some 0
        ∧ dC'.sentTraitVersions.valueAt S.localID = some []) := by
  have hcx : C.uuid = x := (nodeWithUUID_some _ _ _ hC).1
  constructor
  · rw [ignoreRequestStep_lookup, hR, hC]
    simp only [if_true, Option.map_some']
    obtain ⟨d1, hd1, hz1, hz2⟩ := resetPeer_zero C.localID R dR hdR
    have t : Touched (resetPeer C.localID R)
        ((if add = true then Node.addIgnoredNode x else Node.removeIgnoredNode x)
          ((if S.uuid = C.uuid then resetPeer S.localID else id) (resetPeer C.localID R))) :=
      touched_trans _ _ _ (touched_cond _ _ (touched_resetPeer S.localID) _)
        (touched_ignoreUpdate add x _)
    obtain ⟨d2, hd2, hk1, hk2⟩ := t.data d1 hd1
    exact ⟨_, d2, rfl, hd2, hk1 _ hz1, hk2 _ hz2⟩
  · rw [ignoreRequestStep_lookup, hC]
    simp only [Option.map_some', hcx, if_true]
    have t1 : Touched C ((if x = S.uuid then resetPeer C.localID else id) C) :=
      touched_cond _ _ (touched_resetPeer C.localID) _
    obtain ⟨d1, hd1, -, -⟩ := t1.data dC hdC
    obtain ⟨d2, hd2, hz1, hz2⟩ := resetPeer_zero S.localID _ d1 hd1
    have t2 : Touched (resetPeer S.localID ((if x = S.uuid then resetPeer C.localID else id) C))
        ((if x = S.uuid then (if add = true then Node.addIgnoredNode x else Node.removeIgnoredNode x)
            else id)
          (resetPeer S.localID ((if x = S.uuid then resetPeer C.localID else id) C))) :=
      touched_cond _ _ (touched_ignoreUpdate add x) _
    obtain ⟨d3, hd3, hk1, hk2⟩ := t2.data d2 hd2
    exact ⟨_, d3, rfl, hd3, hk1 _ hz1, hk2 _ hz2⟩

theorem handle_zero (S : Node) (add : Bool) (ids : List Nat) (m : Mixer) (x : Nat) (hx : x ∈ ids)
    (R C : Node) (dR dC : AvatarMixerClientData)
    (hR : nodeWithUUID m.nodes S.uuid = some R) (hC : nodeWithUUID m.nodes x = some C)
    (hdR : R.linkedData = some dR) (hdC : C.linkedData = some dC) :
    (∃ R' dR', nodeWithUUID (handleNodeIgnoreRequestPacket m S add ids).nodes S.uuid = some R'
        ∧ R'.linkedData = some dR'
        ∧ dR'.lastBroadcastTimes.valueAt C.localID = some 0
        ∧ dR'.sentTraitVersions.valueAt C.localID = some [])
      ∧ (∃ C' dC', nodeWithUUID (handleNodeIgnoreRequestPacket m S add ids).nodes x = some C'
        ∧ C'.linkedData = some dC'
        ∧ dC'.lastBroadcastTimes.valueAt S.localID = some 0
        ∧ dC'.sentTraitVersions.valueAt S.localID = some []) := by
  induction ids generalizing m R C dR dC with
  | nil => cases hx
  | cons x0 xs ih =>
    rw [handle_cons]
    rcases List.mem_cons.mp hx with heq | hmem
    · subst heq
      obtain ⟨⟨R1, dR1, hR1, hdR1, hz1, hz2⟩, ⟨C1, dC1, hC1, hdC1, hz3, hz4⟩⟩ :=
        ignoreRequestStep_zero S add m x R C dR dC hR hC hdR hdC
      obtain ⟨R2, hR2, tR⟩ := handle_touched S add xs _ S.uuid R1 hR1
      obtain ⟨C2, hC2, tC⟩ := handle_touched S add xs _ x C1 hC1
      obtain ⟨dR2, hdR2, hk1, hk2⟩ := tR.data dR1 hdR1
      obtain ⟨dC2, hdC2, hk3, hk4⟩ := tC.data dC1 hdC1
      exact ⟨⟨R2, dR2, hR2, hdR2, hk1 _ hz1, hk2 _ hz2⟩, ⟨C2, dC2, hC2, hdC2, hk3 _ hz3, hk4 _ hz4⟩⟩
    · obtain ⟨R1, hR1, tR⟩ := ignoreRequestStep_touched S add m x0 S.uuid R hR
      obtain ⟨C1, hC1, tC⟩ := ignoreRequestStep_touched S add m x0 x C hC
      obtain ⟨dR1, hdR1, -, -⟩ := tR.data dR hdR
      obtain ⟨dC1, hdC1, -, -⟩ := tC.data dC hdC
      have := ih _ hmem R1 C1 dR1 dC1 hR1 hC1 hdR1 hdC1
      rw [tC.localID] at this
      exact this

theorem handle_sent (S : Node) (add : Bool) (ids : List Nat) (m : Mixer) :
    (handleNodeIgnoreRequestPacket m S add ids).sent
      = m.sent ++ (if add = true then
          (ids.filter (fun x => (nodeWithUUID m.nodes x).isSome)).map
            (fun x => Packet.killAvatar x S.uuid KillAvatarReason.AvatarDisconnected)
        else []) := by
  induction ids generalizing m with
  | nil => cases add <;> simp [handle_nil]
  | cons x xs ih =>
    rw [handle_cons, ih, ignoreRequestStep_sent]
    have hsame : (fun y => (nodeWithUUID (ignoreRequestStep S add m x).nodes y).isSome)
        = fun y => (nodeWithUUID m.nodes y).isSome := by
      funext y
      exact ignoreRequestStep_isSome S add m x y
    rw [hsame]
    cases add
    · simp
    · by_cases hx : (nodeWithUUID m.nodes x).isSome = true
      · simp [hx, List.filter_cons]
      · simp [hx, List.filter_cons]

/-- C15: after `handleNodeIgnoreRequestPacket` has processed a request `(flag, ids)` from the
sender `R`: every listed id is in the ignored set of `R` if the flag is add and is absent from it
if the flag is remove; ids that are not listed keep their membership; and for every listed id
whose node `C` is in the registry, `R` and `C` having client data, the entry of `C` in the
`lastBroadcastTimes` of `R` and the entry of `R` in those of `C` are `0`. -/
theorem ignore_request_updates_ignored_set (m : Mixer) (R : Node) (addToIgnore : Bool)
    (ids : List Nat) (hR : nodeWithUUID m.nodes R.uuid = some R) :
    ∃ R' : Node,
      nodeWithUUID (handleNodeIgnoreRequestPacket m R addToIgnore ids).nodes R.uuid = some R'
        ∧ (∀ x ∈ ids, (addToIgnore = true → x ∈ R'.ignoredNodeIDs)
            ∧ (addToIgnore = false → x ∉ R'.ignoredNodeIDs))
        ∧ (∀ y, y ∉ ids → (y ∈ R'.ignoredNodeIDs ↔ y ∈ R.ignoredNodeIDs))
        ∧ (∀ x ∈ ids, ∀ (C : Node) (dR dC : AvatarMixerClientData),
            nodeWithUUID m.nodes x = some C → R.linkedData = some dR → C.linkedData = some dC →
            ∃ (dR' : AvatarMixerClientData) (C' : Node) (dC' : AvatarMixerClientData),
              R'.linkedData = some dR'
                ∧ dR'.lastBroadcastTimes.valueAt C.localID = some 0
                ∧ nodeWithUUID (handleNodeIgnoreRequestPacket m R addToIgnore ids).nodes x = some C'
                ∧ C'.linkedData = some dC'
                ∧ dC'.lastBroadcastTimes.valueAt R.localID = some 0) := by
  obtain ⟨R', hR', hmem⟩ := handle_ignored R addToIgnore ids m R hR
  refine ⟨R', hR', ?_, ?_, ?_⟩
  · intro x hx
    constructor
    · intro hadd
      rw [hmem x, if_pos hadd]
      exact Or.inl hx
    · intro hrem habs
      have hne : ¬ addToIgnore = true := by simp [hrem]
      rw [hmem x, if_neg hne] at habs
      exact habs.1 hx
  · intro y hy
    rw [hmem y]
    cases addToIgnore
    · simp [hy]
    · simp [hy]
  · intro x hx C dR dC hC hdR hdC
    obtain ⟨⟨R2, dR2, hR2, hdR2, hz1, -⟩, ⟨C2, dC2, hC2, hdC2, hz3, -⟩⟩ :=
      handle_zero R addToIgnore ids m x hx R C dR dC hR hC hdR hdC
    rw [hR'] at hR2
    cases hR2
    exact ⟨dR2, C2, dC2, hdR2, hz1, hC2, hdC2, hz3⟩

/-- Witness of C15: node 1 asks to ignore node 2; afterwards 2 is in its ignored set and both
have a zero last-broadcast time for each other. -/
theorem ignore_request_updates_ignored_set_witness :
    ∃ R' : Node,
      nodeWithUUID (handleNodeIgnoreRequestPacket
          { shouldReplicateTo := fun _ _ => false,
            nodes := [{ uuid := 1, localID := 11,
                        linkedData := some { nodeID := 1, lastBroadcastTimes := [(12, 9)] } },
                      { uuid := 2, localID := 12, linkedData := some { nodeID := 2 } }] }
          { uuid := 1, localID := 11,
            linkedData := some { nodeID := 1, lastBroadcastTimes := [(12, 9)] } } true [2]).nodes 1
        = some R'
        ∧ 2 ∈ R'.ignoredNodeIDs := by
  obtain ⟨R', h1, h2, -, -⟩ := ignore_request_updates_ignored_set
    { shouldReplicateTo := fun _ _ => false,
      nodes := [{ uuid := 1, localID := 11,
                  linkedData := some { nodeID := 1, lastBroadcastTimes := [(12, 9)] } },
                { uuid := 2, localID := 12, linkedData := some { nodeID := 2 } }] }
    { uuid := 1, localID := 11,
      linkedData := some { nodeID := 1, lastBroadcastTimes := [(12, 9)] } } true [2] (by decide)
  exact ⟨R', h1, (h2 2 (by simp)).1 rfl⟩

/-- C16, as stated, fails: node `1` asks to ignore the id `2`, which belongs to an entity script
server of the registry (with an active socket).  The handler tests only that the id is in the
registry, and a kill packet carrying the id `1` is sent to node `2`, which is not an agent. -/
theorem ignore_request_kill_to_non_agent_counterexample :
    (handleNodeIgnoreRequestPacket
        { shouldReplicateTo := fun _ _ => false,
          nodes := [{ uuid := 1, localID := 11, linkedData := some { nodeID := 1 } },
                    { uuid := 2, localID := 12, type := NodeType.EntityScriptServer,
                      hasActiveSocket := true }] }
        { uuid := 1, localID := 11, linkedData := some { nodeID := 1 } } true [2]).sent
      = [Packet.killAvatar 2 1 KillAvatarReason.AvatarDisconnected] := by
  decide

/-- C16 (amended): while processing a request from `R`, the handler sends, in the order of the
message, one reliable `KillAvatar` packet for every listed id that is the id of a node of the
registry when the flag is add, and nothing when the flag is remove; each packet is addressed to
that node and carries the id of `R` followed by the reason `AvatarDisconnected`. -/
theorem ignore_request_kill_packets (m : Mixer) (R : Node) (addToIgnore : Bool) (ids : List Nat) :
    (handleNodeIgnoreRequestPacket m R addToIgnore ids).sent
        = m.sent ++ (if addToIgnore = true then
            (ids.filter (fun x => (nodeWithUUID m.nodes x).isSome)).map
              (fun x => Packet.killAvatar x R.uuid KillAvatarReason.AvatarDisconnected)
          else [])
      ∧ ∀ x, (Packet.killAvatar x R.uuid KillAvatarReason.AvatarDisconnected).isReliable = true
          ∧ (Packet.killAvatar x R.uuid KillAvatarReason.AvatarDisconnected).destination = x :=
  ⟨handle_sent R addToIgnore ids m, fun _ => ⟨rfl, rfl⟩⟩

/-- C17, as stated, fails: when agent 1 adds agent 2 to its ignored set, the only packet sent
is a `KillAvatar` addressed to node 2 and carrying the id 1; nothing is addressed to node 1 and
no packet carries the id 2. -/
theorem ignore_request_kill_direction_counterexample :
    (handleNodeIgnoreRequestPacket
        { shouldReplicateTo := fun _ _ => false,
          nodes := [{ uuid := 1, localID := 11, linkedData := some { nodeID := 1 } },
                    { uuid := 2, localID := 12, linkedData := some { nodeID := 2 } }] }
        { uuid := 1, localID := 11, linkedData := some { nodeID := 1 } } true [2]).sent
      = [Packet.killAvatar 2 1 KillAvatarReason.AvatarDisconnected]
      ∧ ((handleNodeIgnoreRequestPacket
        { shouldReplicateTo := fun _ _ => false,
          nodes := [{ uuid := 1, localID := 11, linkedData := some { nodeID := 1 } },
                    { uuid := 2, localID := 12, linkedData := some { nodeID := 2 } }] }
        { uuid := 1, localID := 11, linkedData := some { nodeID := 1 } } true [2]).sent.filter
          (fun q => q.destination == 1)) = [] := by
  decide

/-- C17 (amended): when `R` adds a node `C` of the registry to its ignored set, exactly one
packet is sent: a reliable `KillAvatar` packet for `R` (carrying the id of `R` and the reason
`AvatarDisconnected`) addressed to `C`.  When `C` is another node than `R`, none of the packets
sent is addressed to `R`; the handler has no test for `C = R`, and a sender that names itself
is the addressee of the one packet. -/
theorem ignore_request_kill_goes_to_ignored (m : Mixer) (R C : Node)
    (hC : nodeWithUUID m.nodes C.uuid = some C) :
    (handleNodeIgnoreRequestPacket m R true [C.uuid]).sent
        = m.sent ++ [Packet.killAvatar C.uuid R.uuid KillAvatarReason.AvatarDisconnected]
      ∧ (Packet.killAvatar C.uuid R.uuid KillAvatarReason.AvatarDisconnected).isReliable = true
      ∧ (Packet.killAvatar C.uuid R.uuid KillAvatarReason.AvatarDisconnected).destination = C.uuid
      ∧ (C.uuid ≠ R.uuid →
          [Packet.killAvatar C.uuid R.uuid KillAvatarReason.AvatarDisconnected].filter
            (fun q => q.destination == R.uuid) = [])
      ∧ (C.uuid = R.uuid →
          [Packet.killAvatar C.uuid R.uuid KillAvatarReason.AvatarDisconnected].filter
            (fun q => q.destination == R.uuid)
            = [Packet.killAvatar R.uuid R.uuid KillAvatarReason.AvatarDisconnected]) := by
  refine ⟨?_, rfl, rfl, ?_, ?_⟩
  · rw [handle_sent]
    simp [hC]
  · intro hne
    simp [Packet.destination, hne]
  · intro he
    simp [Packet.destination, he]

/-- Witness of the amended C17 with agents 1 and 2: the one packet goes to node 2 and nothing
is addressed to node 1. -/
theorem ignore_request_kill_goes_to_ignored_witness :
    (handleNodeIgnoreRequestPacket
        { shouldReplicateTo := fun _ _ => false,
          nodes := [{ uuid := 1, localID := 11, linkedData := some { nodeID := 1 } },
                    { uuid := 2, localID := 12, linkedData := some { nodeID := 2 } }] }
        { uuid := 1, localID := 11, linkedData := some { nodeID := 1 } } true
        [({ uuid := 2, localID := 12, linkedData := some { nodeID := 2 } } : Node).uuid]).sent
      = [] ++ [Packet.killAvatar 2 1 KillAvatarReason.AvatarDisconnected]
      ∧ [Packet.killAvatar 2 1 KillAvatarReason.AvatarDisconnected].filter
          (fun q => q.destination == 1) = [] :=
  ⟨(ignore_request_kill_goes_to_ignored
    { shouldReplicateTo := fun _ _ => false,
      nodes := [{ uuid := 1, localID := 11, linkedData := some { nodeID := 1 } },
                { uuid := 2, localID := 12, linkedData := some { nodeID := 2 } }] }
    { uuid := 1, localID := 11, linkedData := some { nodeID := 1 } }
    { uuid := 2, localID := 12, linkedData := some { nodeID := 2 } } (by decide)).1,
   (ignore_request_kill_goes_to_ignored
    { shouldReplicateTo := fun _ _ => false,
      nodes := [{ uuid := 1, localID := 11, linkedData := some { nodeID := 1 } },
                { uuid := 2, localID := 12, linkedData := some { nodeID := 2 } }] }
    { uuid := 1, localID := 11, linkedData := some { nodeID := 1 } }
    { uuid := 2, localID := 12, linkedData := some { nodeID := 2 } } (by decide)).2.2.2.1
      (by decide)⟩

theorem assign_idem {α : Type} (t : PeerMap α) (k : Nat) (v : α) :
    (t.assign k v).assign k v = t.assign k v := by
  unfold PeerMap.assign
  rw [List.filter_cons]
  simp [List.filter_filter]

theorem resetPeer_idem (k : Nat) (n : Node) : resetPeer k (resetPeer k n) = resetPeer k n := by
  unfold resetPeer
  cases hd : n.linkedData with
  | none => simp
  | some d =>
    simp only [Option.map_some']
    congr 2
    unfold AvatarMixerClientData.resetSentTraitData AvatarMixerClientData.setLastBroadcastTime
    simp only [assign_idem]

theorem removeIgnoredNode_addIgnoredNode (x : Nat) (n : Node) :
    Node.removeIgnoredNode x (Node.addIgnoredNode x n) = Node.removeIgnoredNode x n := by
  unfold Node.removeIgnoredNode Node.addIgnoredNode
  simp [List.filter_cons, List.filter_filter]

theorem resetPeer_addIgnoredNode (k x : Nat) (n : Node) :
    resetPeer k (Node.addIgnoredNode x n) = Node.addIgnoredNode x (resetPeer k n) := rfl

theorem single_request (m : Mixer) (S : Node) (add : Bool) (x : Nat) :
    handleNodeIgnoreRequestPacket m S add [x] = ignoreRequestStep S add m x := rfl

theorem modify_chain_long (r c : Nat) (hrc : r ≠ c) (A B P Q : Node → Node)
    (hA : ∀ n, (A n).uuid = n.uuid) (hB : ∀ n, (B n).uuid = n.uuid)
    (hP : ∀ n, (P n).uuid = n.uuid) (hQ : ∀ n, (Q n).uuid = n.uuid) (l : List Node) :
    modifyNode r Q (modifyNode c B (modifyNode r A (modifyNode r P (modifyNode c B (modifyNode r A l)))))
      = modifyNode c (fun n => B (B n)) (modifyNode r (fun n => Q (A (P (A n)))) l) := by
  have hPA : ∀ n, (P (A n)).uuid = n.uuid := fun n => (hP _).trans (hA n)
  have hAPA : ∀ n, (A (P (A n))).uuid = n.uuid := fun n => (hA _).trans (hPA n)
  have hBB : ∀ n, (B (B n)).uuid = n.uuid := fun n => (hB _).trans (hB n)
  rw [modifyNode_comm r c hrc P B hP hB (modifyNode r A l),
    modifyNode_modifyNode_same r P A hA l,
    modifyNode_comm r c hrc A B hA hB,
    modifyNode_modifyNode_same r A (fun n => P (A n)) hPA,
    modifyNode_modifyNode_same c B B hB,
    modifyNode_comm r c hrc Q (fun n => B (B n)) hQ hBB,
    modifyNode_modifyNode_same r Q (fun n => A (P (A n))) hAPA]

theorem modify_chain_short (r c : Nat) (hrc : r ≠ c) (A B Q : Node → Node)
    (hA : ∀ n, (A n).uuid = n.uuid) (hB : ∀ n, (B n).uuid = n.uuid)
    (hQ : ∀ n, (Q n).uuid = n.uuid) (l : List Node) :
    modifyNode r Q (modifyNode c B (modifyNode r A l))
      = modifyNode c B (modifyNode r (fun n => Q (A n)) l) := by
  rw [modifyNode_comm r c hrc Q B hQ hB, modifyNode_modifyNode_same r Q A hA]

theorem modify_chain_same_long (r : Nat) (A B P Q : Node → Node)
    (hA : ∀ n, (A n).uuid = n.uuid) (hB : ∀ n, (B n).uuid = n.uuid)
    (hP : ∀ n, (P n).uuid = n.uuid) (l : List Node) :
    modifyNode r Q (modifyNode r B (modifyNode r A (modifyNode r P (modifyNode r B (modifyNode r A l)))))
      = modifyNode r (fun n => Q (B (A (P (B (A n)))))) l := by
  have hBA : ∀ n, (B (A n)).uuid = n.uuid := fun n => (hB _).trans (hA n)
  have hPBA : ∀ n, (P (B (A n))).uuid = n.uuid := fun n => (hP _).trans (hBA n)
  have hAPBA : ∀ n, (A (P (B (A n)))).uuid = n.uuid := fun n => (hA _).trans (hPBA n)
  have hBAPBA : ∀ n, (B (A (P (B (A n))))).uuid = n.uuid := fun n => (hB _).trans (hAPBA n)
  rw [modifyNode_modifyNode_same r B A hA l,
    modifyNode_modifyNode_same r P (fun n => B (A n)) hBA,
    modifyNode_modifyNode_same r A (fun n => P (B (A n))) hPBA,
    modifyNode_modifyNode_same r B (fun n => A (P (B (A n)))) hAPBA,
    modifyNode_modifyNode_same r Q (fun n => B (A (P (B (A n))))) hBAPBA]

theorem modify_chain_same_short (r : Nat) (A B Q : Node → Node)
    (hA : ∀ n, (A n).uuid = n.uuid) (hB : ∀ n, (B n).uuid = n.uuid) (l : List Node) :
    modifyNode r Q (modifyNode r B (modifyNode r A l)) = modifyNode r (fun n => Q (B (A n))) l := by
  have hBA : ∀ n, (B (A n)).uuid = n.uuid := fun n => (hB _).trans (hA n)
  rw [modifyNode_modifyNode_same r B A hA l, modifyNode_modifyNode_same r Q (fun n => B (A n)) hBA]

/-- The node records after add-then-remove are those after a single remove. -/
theorem ignore_add_remove_nodes (m : Mixer) (R C : Node) (c : Nat)
    (hR : nodeWithUUID m.nodes R.uuid = some R) (hC : nodeWithUUID m.nodes c = some C) :
    (handleNodeIgnoreRequestPacket (handleNodeIgnoreRequestPacket m R true [c]) R false [c]).nodes
      = (handleNodeIgnoreRequestPacket m R false [c]).nodes := by
  have hcu : C.uuid = c := (nodeWithUUID_some _ _ _ hC).1
  obtain ⟨C1, hC1, tC⟩ := ignoreRequestStep_touched R true m c c C hC
  rw [single_request, single_request, single_request, ignoreRequestStep_nodes R false,
    ignoreRequestStep_nodes R false, hC1, hC]
  dsimp only
  rw [ignoreRequestStep_nodes R true, hC, tC.uuid, tC.localID]
  dsimp only
  simp only [Bool.false_eq_true, if_false, if_true]
  by_cases hrc : R.uuid = C.uuid
  · have hRC : R = C := by
      rw [hrc, hcu, hC] at hR
      exact (Option.some.inj hR).symm
    subst hRC
    rw [modify_chain_same_long R.uuid (resetPeer R.localID) (resetPeer R.localID)
        (Node.addIgnoredNode c) (Node.removeIgnoredNode c) (resetPeer_uuid _) (resetPeer_uuid _)
        (addIgnoredNode_uuid c),
      modify_chain_same_short R.uuid (resetPeer R.localID) (resetPeer R.localID)
        (Node.removeIgnoredNode c) (resetPeer_uuid _) (resetPeer_uuid _)]
    congr 1
    funext n
    simp only [resetPeer_idem, resetPeer_addIgnoredNode, removeIgnoredNode_addIgnoredNode]
  · rw [modify_chain_long R.uuid C.uuid hrc (resetPeer C.localID) (resetPeer R.localID)
        (Node.addIgnoredNode c) (Node.removeIgnoredNode c) (resetPeer_uuid _) (resetPeer_uuid _)
        (addIgnoredNode_uuid c) (removeIgnoredNode_uuid c),
      modify_chain_short R.uuid C.uuid hrc (resetPeer C.localID) (resetPeer R.localID)
        (Node.removeIgnoredNode c) (resetPeer_uuid _) (resetPeer_uuid _) (removeIgnoredNode_uuid c)]
    have h1 : (fun n => resetPeer R.localID (resetPeer R.localID n)) = resetPeer R.localID := by
      funext n
      exact resetPeer_idem _ n
    have h2 : (fun n => Node.removeIgnoredNode c
          (resetPeer C.localID (Node.addIgnoredNode c (resetPeer C.localID n))))
        = fun n => Node.removeIgnoredNode c (resetPeer C.localID n) := by
      funext n
      rw [resetPeer_addIgnoredNode, removeIgnoredNode_addIgnoredNode, resetPeer_idem]
    rw [h1, h2]

/-- C18: for a sender `R` and a node `C` of the registry, both with client data, processing
the request add `[C]` and then the request remove `[C]` from `R` leaves `C` out of the ignored
set of `R`, with a zero last-broadcast time and a reset sent-trait record of `C` at `R` and of `R`
at `C`; and the node records (ignored sets and client data) are equal to those produced by the
single request remove `[C]` from the same starting state. -/
theorem ignore_add_then_remove (m : Mixer) (R C : Node) (c : Nat)
    (dR dC : AvatarMixerClientData)
    (hR : nodeWithUUID m.nodes R.uuid = some R) (hC : nodeWithUUID m.nodes c = some C)
    (hdR : R.linkedData = some dR) (hdC : C.linkedData = some dC) :
    (handleNodeIgnoreRequestPacket (handleNodeIgnoreRequestPacket m R true [c]) R false [c]).nodes
        = (handleNodeIgnoreRequestPacket m R false [c]).nodes
      ∧ ∃ (R' C' : Node) (dR' dC' : AvatarMixerClientData),
          nodeWithUUID
              (handleNodeIgnoreRequestPacket (handleNodeIgnoreRequestPacket m R true [c]) R false [c]).nodes
              R.uuid = some R'
            ∧ c ∉ R'.ignoredNodeIDs
            ∧ R'.linkedData = some dR'
            ∧ dR'.lastBroadcastTimes.valueAt C.localID = some 0
            ∧ dR'.sentTraitVersions.valueAt C.localID = some []
            ∧ nodeWithUUID
                (handleNodeIgnoreRequestPacket (handleNodeIgnoreRequestPacket m R true [c]) R false [c]).nodes
                c = some C'
            ∧ C'.linkedData = some dC'
            ∧ dC'.lastBroadcastTimes.valueAt R.localID = some 0
            ∧ dC'.sentTraitVersions.valueAt R.localID = some [] := by
  refine ⟨ignore_add_remove_nodes m R C c hR hC, ?_⟩
  obtain ⟨R1, hR1, tR⟩ := handle_touched R true [c] m R.uuid R hR
  obtain ⟨C1, hC1, tC⟩ := handle_touched R true [c] m c C hC
  obtain ⟨dR1, hdR1, -, -⟩ := tR.data dR hdR
  obtain ⟨dC1, hdC1, -, -⟩ := tC.data dC hdC
  obtain ⟨⟨R2, dR2, hR2, hdR2, hz1, hz2⟩, ⟨C2, dC2, hC2, hdC2, hz3, hz4⟩⟩ :=
    handle_zero R false [c] _ c (by simp) R1 C1 dR1 dC1 hR1 hC1 hdR1 hdC1
  obtain ⟨R3, hR3, hmem⟩ := handle_ignored R false [c] _ R1 hR1
  rw [hR2] at hR3
  cases hR3
  rw [tC.localID] at hz1 hz2
  refine ⟨R2, C2, dR2, dC2, hR2, ?_, hdR2, hz1, hz2, hC2, hdC2, hz3, hz4⟩
  intro habs
  rw [hmem c] at habs
  simp at habs

/-- Witness of C18 with agents 1 and 2: ignoring and un-ignoring 2 gives the same node records
as un-ignoring it at once. -/
theorem ignore_add_then_remove_witness :
    (handleNodeIgnoreRequestPacket (handleNodeIgnoreRequestPacket
        { shouldReplicateTo := fun _ _ => false,
          nodes := [{ uuid := 1, localID := 11, ignoredNodeIDs := [3],
                      linkedData := some { nodeID := 1, lastBroadcastTimes := [(12, 9)] } },
                    { uuid := 2, localID := 12, linkedData := some { nodeID := 2 } }] }
        { uuid := 1, localID := 11, ignoredNodeIDs := [3],
          linkedData := some { nodeID := 1, lastBroadcastTimes := [(12, 9)] } } true [2])
        { uuid := 1, localID := 11, ignoredNodeIDs := [3],
          linkedData := some { nodeID := 1, lastBroadcastTimes := [(12, 9)] } } false [2]).nodes
      = (handleNodeIgnoreRequestPacket
        { shouldReplicateTo := fun _ _ => false,
          nodes := [{ uuid := 1, localID := 11, ignoredNodeIDs := [3],
                      linkedData := some { nodeID := 1, lastBroadcastTimes := [(12, 9)] } },
                    { uuid := 2, localID := 12, linkedData := some { nodeID := 2 } }] }
        { uuid := 1, localID := 11, ignoredNodeIDs := [3],
          linkedData := some { nodeID := 1, lastBroadcastTimes := [(12, 9)] } } false [2]).nodes :=
  (ignore_add_then_remove
    { shouldReplicateTo := fun _ _ => false,
      nodes := [{ uuid := 1, localID := 11, ignoredNodeIDs := [3],
                  linkedData := some { nodeID := 1, lastBroadcastTimes := [(12, 9)] } },
                { uuid := 2, localID := 12, linkedData := some { nodeID := 2 } }] }
    { uuid := 1, localID := 11, ignoredNodeIDs := [3],
      linkedData := some { nodeID := 1, lastBroadcastTimes := [(12, 9)] } }
    { uuid := 2, localID := 12, linkedData := some { nodeID := 2 } } 2
    { nodeID := 1, lastBroadcastTimes := [(12, 9)] } { nodeID := 2 }
    (by decide) (by decide) rfl rfl).1

/-! ## PAL request (`handleRequestsDomainListDataPacket`) and sort weights -/

theorem storeNode_cons (node a : Node) (nodes : List Node) :
    storeNode node (a :: nodes)
      = if a.uuid = node.uuid then node :: nodes else a :: storeNode node nodes := by
  show (if (a.uuid == node.uuid) = true then node :: nodes else a :: storeNode node nodes) = _
  by_cases h : a.uuid = node.uuid
  · simp [h]
  · simp [h]

theorem nodeWithUUID_storeNode (node : Node) (nodes : List Node) (v : Nat) :
    nodeWithUUID (storeNode node nodes) v
      = if v = node.uuid then (nodeWithUUID nodes v).map (fun _ => node)
        else nodeWithUUID nodes v := by
  induction nodes with
  | nil =>
    show nodeWithUUID [] v = _
    rw [nodeWithUUID_nil]
    split_ifs <;> rfl
  | cons a nodes ih =>
    rw [storeNode_cons]
    by_cases h : a.uuid = node.uuid
    · rw [if_pos h, nodeWithUUID_cons, nodeWithUUID_cons]
      by_cases hv : v = node.uuid
      · rw [if_pos hv, if_pos hv.symm, if_pos (h.trans hv.symm)]
        rfl
      · rw [if_neg hv, if_neg (fun e => hv e.symm), if_neg (fun e => hv (e.symm.trans h))]
    · rw [if_neg h, nodeWithUUID_cons, nodeWithUUID_cons, ih]
      by_cases hav : a.uuid = v
      · rw [if_pos hav, if_pos hav, if_neg (fun e => h (hav.trans e))]
      · rw [if_neg hav, if_neg hav]

/-- The loop of `handleRequestsDomainListDataPacket` over the matching nodes: the entry of a
local id is zero if one of the nodes has it, and is otherwise as before. -/
theorem palFold_lastBroadcastTimes (L : List Node) (d : AvatarMixerClientData) (k : Nat) :
    (L.foldl (fun d node => (d.setLastBroadcastTime node.localID 0).resetSentTraitData node.localID)
        d).lastBroadcastTimes.valueAt k
      = if ∃ C ∈ L, C.localID = k then some 0 else d.lastBroadcastTimes.valueAt k := by
  induction L generalizing d with
  | nil => simp
  | cons a L ih =>
    rw [List.foldl_cons, ih]
    have hstep : ((d.setLastBroadcastTime a.localID 0).resetSentTraitData a.localID).lastBroadcastTimes
        = d.lastBroadcastTimes.assign a.localID 0 := rfl
    rw [hstep, valueAt_assign]
    by_cases hL : ∃ C ∈ L, C.localID = k
    · obtain ⟨C, hC, hk⟩ := hL
      rw [if_pos ⟨C, hC, hk⟩, if_pos ⟨C, List.mem_cons_of_mem _ hC, hk⟩]
    · rw [if_neg hL]
      by_cases hak : k = a.localID
      · rw [if_pos hak, if_pos ⟨a, List.mem_cons_self _ _, hak.symm⟩]
      · rw [if_neg hak, if_neg]
        rintro ⟨C, hC, hk⟩
        rcases List.mem_cons.mp hC with rfl | hC
        · exact hak hk.symm
        · exact hL ⟨C, hC, hk⟩

/-- The loop of `handleRequestsDomainListDataPacket` resets the sent trait record of the same
local ids. -/
theorem palFold_sentTraitVersions (L : List Node) (d : AvatarMixerClientData) (k : Nat) :
    (L.foldl (fun d node => (d.setLastBroadcastTime node.localID 0).resetSentTraitData node.localID)
        d).sentTraitVersions.valueAt k
      = if ∃ C ∈ L, C.localID = k then some [] else d.sentTraitVersions.valueAt k := by
  induction L generalizing d with
  | nil => simp
  | cons a L ih =>
    rw [List.foldl_cons, ih]
    have hstep : ((d.setLastBroadcastTime a.localID 0).resetSentTraitData a.localID).sentTraitVersions
        = d.sentTraitVersions.assign a.localID [] := rfl
    rw [hstep, valueAt_assign]
    by_cases hL : ∃ C ∈ L, C.localID = k
    · obtain ⟨C, hC, hk⟩ := hL
      rw [if_pos ⟨C, hC, hk⟩, if_pos ⟨C, List.mem_cons_of_mem _ hC, hk⟩]
    · rw [if_neg hL]
      by_cases hak : k = a.localID
      · rw [if_pos hak, if_pos ⟨a, List.mem_cons_self _ _, hak.symm⟩]
      · rw [if_neg hak, if_neg]
        rintro ⟨C, hC, hk⟩
        rcases List.mem_cons.mp hC with rfl | hC
        · exact hak hk.symm
        · exact hL ⟨C, hC, hk⟩

/-- The loop of `handleRequestsDomainListDataPacket` leaves the PAL flag alone. -/
theorem palFold_requestsDomainListData (L : List Node) (d : AvatarMixerClientData) :
    (L.foldl (fun d node => (d.setLastBroadcastTime node.localID 0).resetSentTraitData node.localID)
        d).requestsDomainListData = d.requestsDomainListData := by
  induction L generalizing d with
  | nil => rfl
  | cons a L ih =>
    rw [List.foldl_cons, ih]
    rfl

theorem getOrCreateClientData_uuid (n : Node) : (getOrCreateClientData n).uuid = n.uuid := by
  unfold getOrCreateClientData
  cases n.linkedData <;> rfl

theorem getOrCreateClientData_ignoredNodeIDs (n : Node) :
    (getOrCreateClientData n).ignoredNodeIDs = n.ignoredNodeIDs := by
  unfold getOrCreateClientData
  cases n.linkedData <;> rfl

theorem palResetApplies_iff (R : Node) (d : AvatarMixerClientData) (flag : Bool) (C : Node) :
    palResetApplies (getOrCreateClientData R) { d with requestsDomainListData := flag } C = true
      ↔ C.uuid ≠ R.uuid
          ∧ (d.isRadiusIgnoring C.uuid = true ∨ R.isIgnoringNodeWithID C.uuid = true) := by
  unfold palResetApplies Node.isIgnoringNodeWithID AvatarMixerClientData.isRadiusIgnoring
  rw [getOrCreateClientData_uuid, getOrCreateClientData_ignoredNodeIDs]
  simp

/-- What `handleRequestsDomainListDataPacket` returns for a sender whose client data (after
`getOrCreateClientData`) is `d`. -/
theorem handleRequestsDomainListDataPacket_eq (m : Mixer) (R : Node) (flag : Bool)
    (d : AvatarMixerClientData) (hd : (getOrCreateClientData R).linkedData = some d) :
    handleRequestsDomainListDataPacket m R flag
      = { m with
          nodes := storeNode
            { getOrCreateClientData R with
              linkedData := some
                (if flag = true then
                  (m.nodes.filter
                      (palResetApplies (getOrCreateClientData R)
                        { d with requestsDomainListData := flag })).foldl
                    (fun d node =>
                      (d.setLastBroadcastTime node.localID 0).resetSentTraitData node.localID)
                    { d with requestsDomainListData := flag }
                else { d with requestsDomainListData := flag }) }
            m.nodes } := by
  unfold handleRequestsDomainListDataPacket
  simp only [hd]

/-- C19, as stated, fails: the flag is not compared with its previous value.  The sender `1`
already has the PAL flag set, ignores node `2` (local id `12`) and has the last broadcast time
`5` recorded for it; a further packet with the flag `true` zeroes the entry. -/
theorem requestsDomainListData_repeated_true_counterexample :
    ((nodeWithUUID
          ({ shouldReplicateTo := fun _ _ => false,
             nodes := [{ uuid := 1, localID := 11, ignoredNodeIDs := [2],
                         linkedData := some { nodeID := 1, requestsDomainListData := true,
                                              lastBroadcastTimes := [(12, 5)] } },
                       { uuid := 2, localID := 12, linkedData := some { nodeID := 2 } }] } : Mixer).nodes
          1).bind Node.linkedData).map
        (fun d => (d.requestsDomainListData, d.lastBroadcastTimes.valueAt 12))
        = some (true, some 5)
      ∧ ((nodeWithUUID
          (handleRequestsDomainListDataPacket
            { shouldReplicateTo := fun _ _ => false,
              nodes := [{ uuid := 1, localID := 11, ignoredNodeIDs := [2],
                          linkedData := some { nodeID := 1, requestsDomainListData := true,
                                               lastBroadcastTimes := [(12, 5)] } },
                        { uuid := 2, localID := 12, linkedData := some { nodeID := 2 } }] }
            { uuid := 1, localID := 11, ignoredNodeIDs := [2],
              linkedData := some { nodeID := 1, requestsDomainListData := true,
                                   lastBroadcastTimes := [(12, 5)] } } true).nodes
          1).bind Node.linkedData).map
        (fun d => (d.requestsDomainListData, d.lastBroadcastTimes.valueAt 12))
        = some (true, some 0) := by
  decide

/-- C19 (amended): for a registered sender `R` whose client data is `d`,
`handleRequestsDomainListDataPacket` sets the PAL flag of `R` to the received flag.  When the
received flag is true, whatever the flag was before, the last broadcast time of `R` is zeroed
and the sent trait record of `R` is reset for the local id of each registered node `C` other
than `R` that `R` ignores or radius-ignores, and every other entry is as before; when the
received flag is false every entry is as before.  The records of the other nodes do not change
and nothing is sent. -/
theorem requestsDomainListData_zeroes_on_true (m : Mixer) (R : Node) (flag : Bool)
    (d : AvatarMixerClientData) (hR : nodeWithUUID m.nodes R.uuid = some R)
    (hd : (getOrCreateClientData R).linkedData = some d) :
    (handleRequestsDomainListDataPacket m R flag).sent = m.sent
      ∧ (∀ v, v ≠ R.uuid →
          nodeWithUUID (handleRequestsDomainListDataPacket m R flag).nodes v = nodeWithUUID m.nodes v)
      ∧ ∃ (R' : Node) (d' : AvatarMixerClientData),
          nodeWithUUID (handleRequestsDomainListDataPacket m R flag).nodes R.uuid = some R'
            ∧ R'.linkedData = some d'
            ∧ R'.ignoredNodeIDs = R.ignoredNodeIDs
            ∧ d'.requestsDomainListData = flag
            ∧ (∀ k, d'.lastBroadcastTimes.valueAt k
                = if flag = true ∧ ∃ C ∈ m.nodes, (C.uuid ≠ R.uuid
                      ∧ (d.isRadiusIgnoring C.uuid = true ∨ R.isIgnoringNodeWithID C.uuid = true))
                      ∧ C.localID = k
                  then some 0 else d.lastBroadcastTimes.valueAt k)
            ∧ (∀ k, d'.sentTraitVersions.valueAt k
                = if flag = true ∧ ∃ C ∈ m.nodes, (C.uuid ≠ R.uuid
                      ∧ (d.isRadiusIgnoring C.uuid = true ∨ R.isIgnoringNodeWithID C.uuid = true))
                      ∧ C.localID = k
                  then some [] else d.sentTraitVersions.valueAt k) := by
  have hex : ∀ k, (∃ C ∈ m.nodes.filter
          (palResetApplies (getOrCreateClientData R) { d with requestsDomainListData := flag }),
          C.localID = k)
        ↔ ∃ C ∈ m.nodes, (C.uuid ≠ R.uuid
            ∧ (d.isRadiusIgnoring C.uuid = true ∨ R.isIgnoringNodeWithID C.uuid = true))
            ∧ C.localID = k := by
    intro k
    constructor
    · rintro ⟨C, hC, hk⟩
      rw [List.mem_filter, palResetApplies_iff] at hC
      exact ⟨C, hC.1, hC.2, hk⟩
    · rintro ⟨C, hC, hp, hk⟩
      exact ⟨C, List.mem_filter.mpr ⟨hC, (palResetApplies_iff R d flag C).mpr hp⟩, hk⟩
  obtain ⟨dn, hdn, hm⟩ : ∃ dn : AvatarMixerClientData,
      dn = (if flag = true then
              (m.nodes.filter
                  (palResetApplies (getOrCreateClientData R)
                    { d with requestsDomainListData := flag })).foldl
                (fun d node =>
                  (d.setLastBroadcastTime node.localID 0).resetSentTraitData node.localID)
                { d with requestsDomainListData := flag }
            else { d with requestsDomainListData := flag })
        ∧ handleRequestsDomainListDataPacket m R flag
          = { m with
              nodes := storeNode { getOrCreateClientData R with linkedData := some dn } m.nodes } :=
    ⟨_, rfl, handleRequestsDomainListDataPacket_eq m R flag d hd⟩
  rw [hm]
  refine ⟨rfl, ?_, ?_⟩
  · intro v hv
    show nodeWithUUID (storeNode _ m.nodes) v = _
    rw [nodeWithUUID_storeNode]
    have hu : v ≠ (getOrCreateClientData R).uuid := by
      rw [getOrCreateClientData_uuid]
      exact hv
    exact if_neg hu
  · refine ⟨{ getOrCreateClientData R with linkedData := some dn }, dn, ?_, rfl,
      getOrCreateClientData_ignoredNodeIDs R, ?_, ?_, ?_⟩
    · show nodeWithUUID (storeNode _ m.nodes) R.uuid = _
      rw [nodeWithUUID_storeNode]
      have hu : R.uuid = (getOrCreateClientData R).uuid := (getOrCreateClientData_uuid R).symm
      rw [if_pos hu, hR, Option.map_some']
    · rw [hdn]
      cases flag with
      | true =>
        rw [if_pos rfl, palFold_requestsDomainListData]
      | false => rfl
    · intro k
      rw [hdn]
      cases flag with
      | true =>
        rw [if_pos rfl, palFold_lastBroadcastTimes]
        by_cases h : ∃ C ∈ m.nodes, (C.uuid ≠ R.uuid
            ∧ (d.isRadiusIgnoring C.uuid = true ∨ R.isIgnoringNodeWithID C.uuid = true))
            ∧ C.localID = k
        · rw [if_pos ((hex k).mpr h), if_pos ⟨rfl, h⟩]
        · rw [if_neg (fun e => h ((hex k).mp e)), if_neg (fun e => h e.2)]
      | false =>
        rw [if_neg (by simp), if_neg (by simp)]
    · intro k
      rw [hdn]
      cases flag with
      | true =>
        rw [if_pos rfl, palFold_sentTraitVersions]
        by_cases h : ∃ C ∈ m.nodes, (C.uuid ≠ R.uuid
            ∧ (d.isRadiusIgnoring C.uuid = true ∨ R.isIgnoringNodeWithID C.uuid = true))
            ∧ C.localID = k
        · rw [if_pos ((hex k).mpr h), if_pos ⟨rfl, h⟩]
        · rw [if_neg (fun e => h ((hex k).mp e)), if_neg (fun e => h e.2)]
      | false =>
        rw [if_neg (by simp), if_neg (by simp)]

/-- Witness of the amended C19, the PAL scenario of the specification: `R` ignores the nodes
`2` and `3` (local ids `12` and `13`) and not node `4` (local id `14`); after the packet with
the flag `true` the flag is set, the entries `12` and `13` are zero and the entry `14` is as it
was. -/
theorem requestsDomainListData_zeroes_on_true_witness :
    ∃ (R' : Node) (d' : AvatarMixerClientData),
      nodeWithUUID (handleRequestsDomainListDataPacket
          { shouldReplicateTo := fun _ _ => false,
            nodes := [{ uuid := 1, localID := 11, ignoredNodeIDs := [2, 3],
                        linkedData := some { nodeID := 1, lastBroadcastTimes := [(12, 5), (14, 7)] } },
                      { uuid := 2, localID := 12, linkedData := some { nodeID := 2 } },
                      { uuid := 3, localID := 13, linkedData := some { nodeID := 3 } },
                      { uuid := 4, localID := 14, linkedData := some { nodeID := 4 } }] }
          { uuid := 1, localID := 11, ignoredNodeIDs := [2, 3],
            linkedData := some { nodeID := 1, lastBroadcastTimes := [(12, 5), (14, 7)] } } true).nodes 1 = some R'
        ∧ R'.linkedData = some d'
        ∧ d'.requestsDomainListData = true
        ∧ d'.lastBroadcastTimes.valueAt 12 = some 0
        ∧ d'.lastBroadcastTimes.valueAt 13 = some 0
        ∧ d'.lastBroadcastTimes.valueAt 14 = some 7 := by
  obtain ⟨-, -, R', d', h1, h2, -, h4, h5, -⟩ :=
    requestsDomainListData_zeroes_on_true
      { shouldReplicateTo := fun _ _ => false,
        nodes := [{ uuid := 1, localID := 11, ignoredNodeIDs := [2, 3],
                    linkedData := some { nodeID := 1, lastBroadcastTimes := [(12, 5), (14, 7)] } },
                  { uuid := 2, localID := 12, linkedData := some { nodeID := 2 } },
                  { uuid := 3, localID := 13, linkedData := some { nodeID := 3 } },
                  { uuid := 4, localID := 14, linkedData := some { nodeID := 4 } }] }
      { uuid := 1, localID := 11, ignoredNodeIDs := [2, 3],
        linkedData := some { nodeID := 1, lastBroadcastTimes := [(12, 5), (14, 7)] } } true
      { nodeID := 1, lastBroadcastTimes := [(12, 5), (14, 7)] } (by decide) rfl
  refine ⟨R', d', h1, h2, h4, ?_, ?_, ?_⟩
  · rw [h5 12]
    decide
  · rw [h5 13]
    decide
  · rw [h5 14]
    decide

/-- C20: `handleAdjustAvatarSorting` sends nothing and leaves the mixer state as it was; if the
sender has kick permission the three sort weights size, center and age become the first, second
and third value of the message; if the sender lacks kick permission the three weights are
unchanged, whatever the message holds. -/
theorem handleAdjustAvatarSorting_admin_gated (m : Mixer) (w : SortCoefficients) (S : Node) :
    (∀ message : List ℚ, (handleAdjustAvatarSorting m w S message).1 = m)
      ∧ (S.canKick = true → ∀ (a b c : ℚ) (rest : List ℚ),
          (handleAdjustAvatarSorting m w S (a :: b :: c :: rest)).2
            = { size := a, center := b, age := c })
      ∧ (S.canKick = false → ∀ message : List ℚ,
          (handleAdjustAvatarSorting m w S message).2 = w) := by
  refine ⟨?_, ?_, ?_⟩
  · intro message
    unfold handleAdjustAvatarSorting
    split_ifs <;> rfl
  · intro h a b c rest
    unfold handleAdjustAvatarSorting
    rw [if_pos h]
    rfl
  · intro h message
    unfold handleAdjustAvatarSorting
    rw [if_neg (by simp [h])]

/-- Witness of C20: an administrator replaces the weights `(1, 2, 3)` by `(4, 5, 6)`; the same
packet from a sender without kick permission leaves `(1, 2, 3)`. -/
theorem handleAdjustAvatarSorting_admin_gated_witness :
    (handleAdjustAvatarSorting { shouldReplicateTo := fun _ _ => false }
        { size := 1, center := 2, age := 3 } { uuid := 1, canKick := true } [4, 5, 6]).2
        = { size := 4, center := 5, age := 6 }
      ∧ (handleAdjustAvatarSorting { shouldReplicateTo := fun _ _ => false }
        { size := 1, center := 2, age := 3 } { uuid := 2, canKick := false } [4, 5, 6]).2
        = { size := 1, center := 2, age := 3 } :=
  ⟨(handleAdjustAvatarSorting_admin_gated { shouldReplicateTo := fun _ _ => false }
      { size := 1, center := 2, age := 3 } { uuid := 1, canKick := true }).2.1 rfl 4 5 6 [],
   (handleAdjustAvatarSorting_admin_gated { shouldReplicateTo := fun _ _ => false }
      { size := 1, center := 2, age := 3 } { uuid := 2, canKick := false }).2.2 rfl [4, 5, 6]⟩

/-! ## Identity requests -/

theorem resetSentTraits_uuid (k : Nat) (n : Node) : (resetSentTraits k n).uuid = n.uuid := rfl

/-- What `handleAvatarIdentityRequestPacket` does with a request that names a node of the
registry. -/
theorem handleAvatarIdentityRequestPacket_found (m : Mixer) (message : QByteArray) (R C : Node)
    (hsize : NUM_BYTES_RFC4122_UUID ≤ message.length)
    (hnull : QUuid.isNull (QUuid.fromRfc4122 message) = false)
    (hC : nodeWithUUID m.nodes (QUuid.fromRfc4122 message) = some C) :
    handleAvatarIdentityRequestPacket m message R
      = { (match C.linkedData with
            | some avatarClientData =>
              { m with
                sent := m.sent ++ [Packet.avatarIdentity R.uuid
                  avatarClientData.avatar.sessionUUID avatarClientData.avatar]
                sumIdentityPackets := m.sumIdentityPackets + 1 }
            | none => m : Mixer) with
          nodes := modifyNode R.uuid (resetSentTraits C.localID) m.nodes } := by
  unfold handleAvatarIdentityRequestPacket
  rw [if_neg (by omega)]
  simp only [hnull, hC]
  cases C.linkedData <;> rfl

/-- C21, as stated, fails: the request is decoded as a whole (`QUuid::fromRfc4122` of the
entire payload), and a payload that is not exactly 16 bytes long decodes to the null id.  A
request of 17 bytes whose first 16 bytes are the id of node `2`, a node of the registry with
client data, passes the size test and is dropped: nothing is sent and no record changes. -/
theorem identity_request_longer_counterexample :
    ([0, 0, 0, 0, 0, 0, 0, 0, 0, 0, 0, 0, 0, 0, 0, 2, 0] : QByteArray).length = 17
      ∧ QUuid.fromRfc4122
          (([0, 0, 0, 0, 0, 0, 0, 0, 0, 0, 0, 0, 0, 0, 0, 2, 0] : QByteArray).take 16) = 2
      ∧ ((nodeWithUUID
            [{ uuid := 1, localID := 11,
               linkedData := some { nodeID := 1, sentTraitVersions := [(12, [3, 4])] } },
             { uuid := 2, localID := 12,
               linkedData := some { nodeID := 2, avatar := { displayName := ['b'] } } }] 2).bind
          (fun C => C.linkedData)).isSome = true
      ∧ QUuid.fromRfc4122 ([0, 0, 0, 0, 0, 0, 0, 0, 0, 0, 0, 0, 0, 0, 0, 2, 0] : QByteArray) = 0
      ∧ (handleAvatarIdentityRequestPacket
          { shouldReplicateTo := fun _ _ => false,
            nodes := [{ uuid := 1, localID := 11,
                        linkedData := some { nodeID := 1, sentTraitVersions := [(12, [3, 4])] } },
                      { uuid := 2, localID := 12,
                        linkedData := some { nodeID := 2, avatar := { displayName := ['b'] } } }] }
          [0, 0, 0, 0, 0, 0, 0, 0, 0, 0, 0, 0, 0, 0, 0, 2, 0]
          { uuid := 1, localID := 11,
            linkedData := some { nodeID := 1, sentTraitVersions := [(12, [3, 4])] } }).sent = []
      ∧ (handleAvatarIdentityRequestPacket
          { shouldReplicateTo := fun _ _ => false,
            nodes := [{ uuid := 1, localID := 11,
                        linkedData := some { nodeID := 1, sentTraitVersions := [(12, [3, 4])] } },
                      { uuid := 2, localID := 12,
                        linkedData := some { nodeID := 2, avatar := { displayName := ['b'] } } }] }
          [0, 0, 0, 0, 0, 0, 0, 0, 0, 0, 0, 0, 0, 0, 0, 2, 0]
          { uuid := 1, localID := 11,
            linkedData := some { nodeID := 1, sentTraitVersions := [(12, [3, 4])] } }).nodes
          = [{ uuid := 1, localID := 11,
               linkedData := some { nodeID := 1, sentTraitVersions := [(12, [3, 4])] } },
             { uuid := 2, localID := 12,
               linkedData := some { nodeID := 2, avatar := { displayName := ['b'] } } }] := by
  refine ⟨by decide, by decide, by decide, by decide, by decide, by decide⟩

/-- C21 (amended): for a request of exactly 16 bytes that names a non-null id of a node `C` of
the registry which has client data, `handleAvatarIdentityRequestPacket` sends exactly one
packet: a reliable `AvatarIdentity` packet list with the identity bytes of the avatar of `C`,
addressed to the sender `R`.  In the node list only the record of `R` changes, and of its client
data only the sent-trait record for the local id of `C`, which is reset; the display-name
registry does not change. -/
theorem identity_request_sends_identity_and_resets_traits (m : Mixer) (message : QByteArray)
    (R C : Node) (dC : AvatarMixerClientData)
    (hlength : message.length = 16)
    (hnull : QUuid.fromRfc4122 message ≠ 0)
    (hC : nodeWithUUID m.nodes (QUuid.fromRfc4122 message) = some C)
    (hdC : C.linkedData = some dC) :
    (handleAvatarIdentityRequestPacket m message R).sent
        = m.sent ++ [Packet.avatarIdentity R.uuid dC.avatar.sessionUUID dC.avatar]
      ∧ (Packet.avatarIdentity R.uuid dC.avatar.sessionUUID dC.avatar).isReliable = true
      ∧ (Packet.avatarIdentity R.uuid dC.avatar.sessionUUID dC.avatar).destination = R.uuid
      ∧ (handleAvatarIdentityRequestPacket m message R).sessionDisplayNames = m.sessionDisplayNames
      ∧ (∀ v, v ≠ R.uuid →
          nodeWithUUID (handleAvatarIdentityRequestPacket m message R).nodes v
            = nodeWithUUID m.nodes v)
      ∧ (∀ R₀ : Node, nodeWithUUID m.nodes R.uuid = some R₀ →
          nodeWithUUID (handleAvatarIdentityRequestPacket m message R).nodes R.uuid
            = some { R₀ with
                linkedData := R₀.linkedData.map
                  (fun d => { d with sentTraitVersions := d.sentTraitVersions.assign C.localID [] }) })
      ∧ (∀ (R₀ : Node) (dR : AvatarMixerClientData),
          nodeWithUUID m.nodes R.uuid = some R₀ → R₀.linkedData = some dR →
          ∃ (R' : Node) (dR' : AvatarMixerClientData),
            nodeWithUUID (handleAvatarIdentityRequestPacket m message R).nodes R.uuid = some R'
              ∧ R'.linkedData = some dR'
              ∧ dR'.sentTraitVersions.valueAt C.localID = some []
              ∧ ∀ k, k ≠ C.localID →
                  dR'.sentTraitVersions.valueAt k = dR.sentTraitVersions.valueAt k) := by
  have hsize : NUM_BYTES_RFC4122_UUID ≤ message.length := by
    rw [hlength]
    decide
  have hn : QUuid.isNull (QUuid.fromRfc4122 message) = false := by
    simpa [QUuid.isNull] using hnull
  have hnodes : (handleAvatarIdentityRequestPacket m message R).nodes
      = modifyNode R.uuid (resetSentTraits C.localID) m.nodes := by
    rw [handleAvatarIdentityRequestPacket_found m message R C hsize hn hC]
  have hlook : ∀ R₀ : Node, nodeWithUUID m.nodes R.uuid = some R₀ →
      nodeWithUUID (handleAvatarIdentityRequestPacket m message R).nodes R.uuid
        = some (resetSentTraits C.localID R₀) := by
    intro R₀ hR
    rw [hnodes, nodeWithUUID_modifyNode _ _ _ (resetSentTraits_uuid _), if_pos rfl, hR]
    rfl
  refine ⟨?_, rfl, rfl, ?_, ?_, ?_, ?_⟩
  · rw [handleAvatarIdentityRequestPacket_found m message R C hsize hn hC, hdC]
  · rw [handleAvatarIdentityRequestPacket_found m message R C hsize hn hC, hdC]
  · intro v hv
    rw [hnodes, nodeWithUUID_modifyNode _ _ _ (resetSentTraits_uuid _), if_neg hv]
  · intro R₀ hR
    rw [hlook R₀ hR]
    rfl
  · intro R₀ dR hR hdR
    refine ⟨_, dR.resetSentTraitData C.localID, hlook R₀ hR, ?_, ?_, ?_⟩
    · show Option.map _ R₀.linkedData = _
      rw [hdR]
      rfl
    · show (dR.sentTraitVersions.assign C.localID []).valueAt C.localID = some []
      rw [valueAt_assign, if_pos rfl]
    · intro k hk
      show (dR.sentTraitVersions.assign C.localID []).valueAt k = _
      rw [valueAt_assign, if_neg hk]

/-- Witness of the amended C21: node `1` asks for the identity of node `2`, whose id is the last
byte of the 16-byte request. -/
theorem identity_request_sends_identity_and_resets_traits_witness :
    (handleAvatarIdentityRequestPacket
        { shouldReplicateTo := fun _ _ => false,
          nodes := [{ uuid := 1, localID := 11,
                      linkedData := some { nodeID := 1, sentTraitVersions := [(12, [3, 4])] } },
                    { uuid := 2, localID := 12,
                      linkedData := some { nodeID := 2, avatar := { displayName := ['b'] } } }] }
        [0, 0, 0, 0, 0, 0, 0, 0, 0, 0, 0, 0, 0, 0, 0, 2]
        { uuid := 1, localID := 11,
          linkedData := some { nodeID := 1, sentTraitVersions := [(12, [3, 4])] } }).sent
      = [] ++ [Packet.avatarIdentity 1 0 { displayName := ['b'] }] :=
  (identity_request_sends_identity_and_resets_traits
    { shouldReplicateTo := fun _ _ => false,
      nodes := [{ uuid := 1, localID := 11,
                  linkedData := some { nodeID := 1, sentTraitVersions := [(12, [3, 4])] } },
                { uuid := 2, localID := 12,
                  linkedData := some { nodeID := 2, avatar := { displayName := ['b'] } } }] }
    [0, 0, 0, 0, 0, 0, 0, 0, 0, 0, 0, 0, 0, 0, 0, 2]
    { uuid := 1, localID := 11,
      linkedData := some { nodeID := 1, sentTraitVersions := [(12, [3, 4])] } }
    { uuid := 2, localID := 12,
      linkedData := some { nodeID := 2, avatar := { displayName := ['b'] } } }
    { nodeID := 2, avatar := { displayName := ['b'] } }
    (by decide) (by decide) (by decide) rfl).1

/-- C22: `handleAvatarIdentityRequestPacket` returns the mixer as it was, with nothing sent and no
state changed, for a request of fewer than 16 bytes, for a request that decodes to the null id,
and for a request whose id is not the id of a node of the registry. -/
theorem identity_request_dropped (m : Mixer) (message : QByteArray) (R : Node) :
    (message.length < 16 → handleAvatarIdentityRequestPacket m message R = m)
      ∧ (QUuid.fromRfc4122 message = 0 → handleAvatarIdentityRequestPacket m message R = m)
      ∧ (nodeWithUUID m.nodes (QUuid.fromRfc4122 message) = none →
          handleAvatarIdentityRequestPacket m message R = m) := by
  refine ⟨?_, ?_, ?_⟩
  · intro h
    exact if_pos (show message.length < NUM_BYTES_RFC4122_UUID from h)
  · intro h
    unfold handleAvatarIdentityRequestPacket
    simp [h, QUuid.isNull]
  · intro h
    unfold handleAvatarIdentityRequestPacket
    simp only [h]
    split_ifs <;> rfl

/-- Witness of C22: a request of three bytes, a request of sixteen zero bytes and a request for
the unknown id `9` leave nothing sent. -/
theorem identity_request_dropped_witness :
    (handleAvatarIdentityRequestPacket
        { shouldReplicateTo := fun _ _ => false,
          nodes := [{ uuid := 1, linkedData := some { nodeID := 1 } }] }
        [0, 0, 1] { uuid := 1, linkedData := some { nodeID := 1 } }).sent = []
      ∧ (handleAvatarIdentityRequestPacket
        { shouldReplicateTo := fun _ _ => false,
          nodes := [{ uuid := 1, linkedData := some { nodeID := 1 } }] }
        [0, 0, 0, 0, 0, 0, 0, 0, 0, 0, 0, 0, 0, 0, 0, 0]
        { uuid := 1, linkedData := some { nodeID := 1 } }).sent = []
      ∧ (handleAvatarIdentityRequestPacket
        { shouldReplicateTo := fun _ _ => false,
          nodes := [{ uuid := 1, linkedData := some { nodeID := 1 } }] }
        [0, 0, 0, 0, 0, 0, 0, 0, 0, 0, 0, 0, 0, 0, 0, 9]
        { uuid := 1, linkedData := some { nodeID := 1 } }).sent = [] :=
  ⟨congrArg Mixer.sent ((identity_request_dropped
      { shouldReplicateTo := fun _ _ => false,
        nodes := [{ uuid := 1, linkedData := some { nodeID := 1 } }] }
      [0, 0, 1] { uuid := 1, linkedData := some { nodeID := 1 } }).1 (by decide)),
   congrArg Mixer.sent ((identity_request_dropped
      { shouldReplicateTo := fun _ _ => false,
        nodes := [{ uuid := 1, linkedData := some { nodeID := 1 } }] }
      [0, 0, 0, 0, 0, 0, 0, 0, 0, 0, 0, 0, 0, 0, 0, 0]
      { uuid := 1, linkedData := some { nodeID := 1 } }).2.1 (by decide)),
   congrArg Mixer.sent ((identity_request_dropped
      { shouldReplicateTo := fun _ _ => false,
        nodes := [{ uuid := 1, linkedData := some { nodeID := 1 } }] }
      [0, 0, 0, 0, 0, 0, 0, 0, 0, 0, 0, 0, 0, 0, 0, 9]
      { uuid := 1, linkedData := some { nodeID := 1 } }).2.2 (by decide))⟩

/-! ## Packet version mismatch -/

/-- C23: on a version mismatch for the type `AvatarIdentity` or `AvatarData` from a sender whose
id is not null and is the id of a node of the registry, `handlePacketVersionMismatch` sends
exactly one packet, an `AvatarData` packet with an empty payload addressed to that node, and
changes neither the node list nor the display-name registry; for any other packet type, for the
null id and for an id that is not in the registry it returns the mixer as it was. -/
theorem version_mismatch_echoes_empty_avatar_data (m : Mixer) (type : PacketType)
    (senderUUID : Nat) :
    (∀ node : Node, (type = PacketType.AvatarIdentity ∨ type = PacketType.AvatarData) →
        senderUUID ≠ 0 → nodeWithUUID m.nodes senderUUID = some node →
        (handlePacketVersionMismatch m type senderUUID).sent
            = m.sent ++ [Packet.avatarData senderUUID []]
          ∧ (Packet.avatarData senderUUID []).destination = senderUUID
          ∧ (handlePacketVersionMismatch m type senderUUID).nodes = m.nodes
          ∧ (handlePacketVersionMismatch m type senderUUID).sessionDisplayNames
              = m.sessionDisplayNames
          ∧ (handlePacketVersionMismatch m type senderUUID).sumIdentityPackets
              = m.sumIdentityPackets)
      ∧ ((type ≠ PacketType.AvatarIdentity ∧ type ≠ PacketType.AvatarData) →
          handlePacketVersionMismatch m type senderUUID = m)
      ∧ (senderUUID = 0 → handlePacketVersionMismatch m type senderUUID = m)
      ∧ (nodeWithUUID m.nodes senderUUID = none →
          handlePacketVersionMismatch m type senderUUID = m) := by
  refine ⟨?_, ?_, ?_, ?_⟩
  · intro node hty hnull hnode
    have hu : node.uuid = senderUUID := (nodeWithUUID_some _ _ _ hnode).1
    have hn : QUuid.isNull senderUUID = false := by simpa [QUuid.isNull] using hnull
    unfold handlePacketVersionMismatch
    rw [if_pos ⟨hty, hn⟩, hnode]
    dsimp only
    rw [hu]
    exact ⟨rfl, rfl, rfl, rfl, rfl⟩
  · intro hty
    unfold handlePacketVersionMismatch
    rw [if_neg]
    rintro ⟨h | h, -⟩
    · exact hty.1 h
    · exact hty.2 h
  · intro h
    unfold handlePacketVersionMismatch
    rw [if_neg]
    rintro ⟨-, hn⟩
    simp [QUuid.isNull, h] at hn
  · intro h
    unfold handlePacketVersionMismatch
    rw [h]
    split_ifs <;> rfl

/-- Witness of C23: a mismatch on `AvatarIdentity` from node `5` is answered by one empty
`AvatarData` packet to node `5`; a mismatch on `KillAvatar` is not answered. -/
theorem version_mismatch_echoes_empty_avatar_data_witness :
    (handlePacketVersionMismatch
        { shouldReplicateTo := fun _ _ => false, nodes := [{ uuid := 5 }] }
        PacketType.AvatarIdentity 5).sent = [] ++ [Packet.avatarData 5 []]
      ∧ (handlePacketVersionMismatch
        { shouldReplicateTo := fun _ _ => false, nodes := [{ uuid := 5 }] }
        PacketType.KillAvatar 5).sent = [] :=
  ⟨((version_mismatch_echoes_empty_avatar_data
      { shouldReplicateTo := fun _ _ => false, nodes := [{ uuid := 5 }] }
      PacketType.AvatarIdentity 5).1 { uuid := 5 } (Or.inl rfl) (by decide) (by decide)).1,
   congrArg Mixer.sent ((version_mismatch_echoes_empty_avatar_data
      { shouldReplicateTo := fun _ _ => false, nodes := [{ uuid := 5 }] }
      PacketType.KillAvatar 5).2.1 ⟨by decide, by decide⟩)⟩

/-! ## Domain height limits -/

theorem clamp_bounds (x lo hi : ℚ) (h : lo ≤ hi) :
    lo ≤ glm.clamp x lo hi ∧ glm.clamp x lo hi ≤ hi := by
  unfold glm.clamp
  exact ⟨le_min (le_max_right _ _) h, min_le_right _ _⟩

/-- C24: for every pair of settings, present or absent, and constants with
`MIN_AVATAR_HEIGHT ≤ MAX_AVATAR_HEIGHT`, after `parseDomainServerSettings` the two limits satisfy
`MIN_AVATAR_HEIGHT ≤ domainMinimumHeight ≤ domainMaximumHeight ≤ MAX_AVATAR_HEIGHT`; they are the
smaller and the larger of the two clamped settings; and absent settings give the limits
`MIN_AVATAR_HEIGHT` and `MAX_AVATAR_HEIGHT`. -/
theorem domain_heights_clamped_and_ordered (lo hi : ℚ) (settingMin settingMax : Option ℚ)
    (h : lo ≤ hi) :
    lo ≤ (parseDomainServerSettings lo hi settingMin settingMax).domainMinimumHeight
      ∧ (parseDomainServerSettings lo hi settingMin settingMax).domainMinimumHeight
          ≤ (parseDomainServerSettings lo hi settingMin settingMax).domainMaximumHeight
      ∧ (parseDomainServerSettings lo hi settingMin settingMax).domainMaximumHeight ≤ hi
      ∧ (parseDomainServerSettings lo hi settingMin settingMax).domainMinimumHeight
          = min (glm.clamp (settingMin.getD lo) lo hi) (glm.clamp (settingMax.getD hi) lo hi)
      ∧ (parseDomainServerSettings lo hi settingMin settingMax).domainMaximumHeight
          = max (glm.clamp (settingMin.getD lo) lo hi) (glm.clamp (settingMax.getD hi) lo hi)
      ∧ parseDomainServerSettings lo hi none none
          = { domainMinimumHeight := lo, domainMaximumHeight := hi } := by
  have ha := clamp_bounds (settingMin.getD lo) lo hi h
  have hb := clamp_bounds (settingMax.getD hi) lo hi h
  have hnone : parseDomainServerSettings lo hi none none
      = { domainMinimumHeight := lo, domainMaximumHeight := hi } := by
    unfold parseDomainServerSettings QJsonValue.toDouble glm.clamp
    simp only [Option.getD_none, max_self, min_eq_left h, max_eq_left h, min_self]
    rw [if_neg (not_lt.mpr h)]
  unfold parseDomainServerSettings QJsonValue.toDouble at *
  dsimp only at *
  by_cases hc : glm.clamp (settingMin.getD lo) lo hi > glm.clamp (settingMax.getD hi) lo hi
  · rw [if_pos hc]
    dsimp only
    refine ⟨hb.1, le_of_lt hc, ha.2, ?_, ?_, hnone⟩
    · rw [min_eq_right (le_of_lt hc)]
    · rw [max_eq_left (le_of_lt hc)]
  · rw [if_neg hc]
    dsimp only
    have hle := not_lt.mp hc
    refine ⟨ha.1, hle, hb.2, ?_, ?_, hnone⟩
    · rw [min_eq_left hle]
    · rw [max_eq_right hle]

/-- Witness of C24 with the limits `1/10` and `100`: the inverted settings `200` and `2` give
the ordered pair `2` and `100`. -/
theorem domain_heights_clamped_and_ordered_witness :
    (1 / 10 : ℚ) ≤ 100
      ∧ (parseDomainServerSettings (1 / 10) 100 (some 200) (some 2)).domainMinimumHeight
          = min (glm.clamp ((some 200 : Option ℚ).getD (1 / 10)) (1 / 10) 100)
              (glm.clamp ((some 2 : Option ℚ).getD 100) (1 / 10) 100)
      ∧ parseDomainServerSettings (1 / 10) 100 none none
          = { domainMinimumHeight := 1 / 10, domainMaximumHeight := 100 } :=
  have h : (1 / 10 : ℚ) ≤ 100 := by norm_num
  ⟨h, (domain_heights_clamped_and_ordered (1 / 10) 100 (some 200) (some 2) h).2.2.2.1,
    (domain_heights_clamped_and_ordered (1 / 10) 100 (some 200) (some 2) h).2.2.2.2.2⟩

/-! ## Trailing mix ratio -/

/-- C26, as stated, fails: for an upstream agent with the must-change flag set (a replicated
avatar that has sent the display name `a`) `manageIdentityData` sends no identity packet and
leaves the sequence number alone, but it does change the registry, which gets the entry of the
base name `a`. -/
theorem manageIdentityData_upstream_counterexample :
    (manageIdentityData []
        { uuid := 7, isUpstream := true, isReplicated := true,
          linkedData := some { nodeID := 7,
                               avatar := { displayName := ['a'],
                                           hasProcessedFirstIdentity := true } } }).packets = []
      ∧ (manageIdentityData []
        { uuid := 7, isUpstream := true, isReplicated := true,
          linkedData := some { nodeID := 7,
                               avatar := { displayName := ['a'],
                                           hasProcessedFirstIdentity := true } } }).names
          = [(['a'], (1, 1))]
      ∧ ((manageIdentityData []
        { uuid := 7, isUpstream := true, isReplicated := true,
          linkedData := some { nodeID := 7,
                               avatar := { displayName := ['a'],
                                           hasProcessedFirstIdentity := true } } }).node.linkedData.map
          (fun d => (d.avatar.sessionDisplayName, d.avatar.identitySequenceNumber)))
          = some (['a'], 0) := by
  decide

/-- C26 (amended): in the rename path of `manageIdentityData` (client data present, a first
identity processed, the must-change flag set) the registry is updated by the release of the old
base name and the acquisition of the new one, whether or not the node is upstream.  For a node
that is not upstream `sendIdentityPacket` is invoked twice, with the client data before and
after the one push of the identity sequence number; for an agent these are two identity
packets, the first with the old and the second with the new sequence number.  For an upstream
node no packet is sent and the sequence number is unchanged.  When the flag is not set, or no
first identity has been processed, nothing is sent and node and registry are unchanged. -/
theorem manageIdentityData_identity_packets (names : DisplayNameRegistry) (node : Node)
    (nodeData : AvatarMixerClientData) (h : node.linkedData = some nodeData) :
    (nodeData.avatar.hasProcessedFirstIdentity = true →
      nodeData.avatarSessionDisplayNameMustChange = true →
        (manageIdentityData names node).names
            = (names.release nodeData.baseDisplayName).set (baseNameOf nodeData.avatar.displayName)
                (wrapInt (((names.release nodeData.baseDisplayName).value
                    (baseNameOf nodeData.avatar.displayName)).1 + 1),
                 ((names.release nodeData.baseDisplayName).value
                    (baseNameOf nodeData.avatar.displayName)).2 + 1)
          ∧ ∃ renamed pushed : AvatarMixerClientData,
              renamed.avatar.identitySequenceNumber = nodeData.avatar.identitySequenceNumber
                ∧ pushed
                    = { renamed with
                        avatar := { renamed.avatar with
                          identitySequenceNumber := nodeData.avatar.identitySequenceNumber + 1 } }
                ∧ (node.isUpstream = false →
                    (manageIdentityData names node).packets
                        = sendIdentityPacket renamed node ++ sendIdentityPacket pushed node
                      ∧ (manageIdentityData names node).node.linkedData = some pushed
                      ∧ (node.type = NodeType.Agent →
                          (manageIdentityData names node).packets
                            = [Packet.avatarIdentity node.uuid renamed.nodeID renamed.avatar,
                               Packet.avatarIdentity node.uuid pushed.nodeID pushed.avatar]))
                ∧ (node.isUpstream = true →
                    (manageIdentityData names node).packets = []
                      ∧ (manageIdentityData names node).node.linkedData = some renamed))
      ∧ ((nodeData.avatar.hasProcessedFirstIdentity = false
            ∨ nodeData.avatarSessionDisplayNameMustChange = false) →
          manageIdentityData names node = ⟨names, node, []⟩) := by
  constructor
  · intro hfirst hmust
    have hf : ¬ nodeData.avatar.hasProcessedFirstIdentity = false := by simp [hfirst]
    refine ⟨(manageIdentityData_rename names node nodeData h hfirst hmust).1, ?_⟩
    unfold manageIdentityData
    rw [h]
    dsimp only
    rw [if_neg hf, if_pos hmust]
    refine ⟨{ nodeData with
        baseDisplayName := baseNameOf nodeData.avatar.displayName
        avatar := { nodeData.avatar with
          sessionDisplayName :=
            if ((names.release nodeData.baseDisplayName).value
                (baseNameOf nodeData.avatar.displayName)).1 > 0 then
              baseNameOf nodeData.avatar.displayName ++ ['_']
                ++ QString.number ((names.release nodeData.baseDisplayName).value
                    (baseNameOf nodeData.avatar.displayName)).1
            else baseNameOf nodeData.avatar.displayName }
        identityChangeFlags := nodeData.identityChangeFlags + 1
        avatarSessionDisplayNameMustChange := false }, _, rfl, rfl, ?_, ?_⟩
    · intro hup
      rw [if_pos hup]
      refine ⟨rfl, rfl, ?_⟩
      intro hty
      simp [sendIdentityPacket, hty, hup]
    · intro hup
      have hn : ¬ node.isUpstream = false := by simp [hup]
      rw [if_neg hn]
      exact ⟨rfl, rfl⟩
  · rintro (hfirst | hmust)
    · exact manageIdentityData_no_identity names node nodeData h hfirst
    · exact manageIdentityData_no_change names node nodeData h hmust

/-- Witness of the amended C26, the rename collision scenario of the specification: the agent
`7` is sent two identity packets, the second with the sequence number `1`. -/
theorem manageIdentityData_identity_packets_witness :
    ∃ renamed pushed : AvatarMixerClientData,
      (manageIdentityData [(['a', 'l', 'i', 'c', 'e'], (1, 1))]
          { uuid := 7,
            linkedData := some { nodeID := 7,
                                 avatar := { displayName := ['a', 'l', 'i', 'c', 'e'],
                                             hasProcessedFirstIdentity := true } } }).packets
        = [Packet.avatarIdentity 7 renamed.nodeID renamed.avatar,
           Packet.avatarIdentity 7 pushed.nodeID pushed.avatar]
        ∧ renamed.avatar.identitySequenceNumber = 0
        ∧ pushed.avatar.identitySequenceNumber = 1 := by
  obtain ⟨-, renamed, pushed, hseq, hpushed, hdown, -⟩ :=
    (manageIdentityData_identity_packets [(['a', 'l', 'i', 'c', 'e'], (1, 1))]
      { uuid := 7,
        linkedData := some { nodeID := 7,
                             avatar := { displayName := ['a', 'l', 'i', 'c', 'e'],
                                         hasProcessedFirstIdentity := true } } }
      { nodeID := 7,
        avatar := { displayName := ['a', 'l', 'i', 'c', 'e'], hasProcessedFirstIdentity := true } }
      rfl).1 rfl rfl
  refine ⟨renamed, pushed, (hdown rfl).2.2 rfl, hseq, ?_⟩
  rw [hpushed]

/-! ## Replicated identity and kill packets -/

theorem replicateTo_nodes (m : Mixer) (t : PacketType) (message : ReceivedMessage) (node : Node) :
    (replicateTo m t message node).nodes = m.nodes
      ∧ (replicateTo m t message node).sessionDisplayNames = m.sessionDisplayNames :=
  ⟨rfl, rfl⟩

theorem optionallyReplicatePacket_state (mapping : ReplicatedPacketMapping) (m : Mixer)
    (message : ReceivedMessage) (node : Node) :
    (optionallyReplicatePacket mapping m message node).nodes = m.nodes
      ∧ (optionallyReplicatePacket mapping m message node).sessionDisplayNames
          = m.sessionDisplayNames := by
  unfold optionallyReplicatePacket
  dsimp only
  split_ifs <;> exact ⟨rfl, rfl⟩

theorem handleAvatarKilled_lookup_isSome (m : Mixer) (K : Node) (v : Nat)
    (h : (nodeWithUUID m.nodes v).isSome = true) :
    (nodeWithUUID (handleAvatarKilled m K).nodes v).isSome = true := by
  unfold handleAvatarKilled
  cases K.linkedData with
  | none => exact h
  | some d =>
    dsimp only
    split_ifs
    · show (nodeWithUUID (m.nodes.map (queueCleanup K)) v).isSome = true
      rw [nodeWithUUID_map_queueCleanup]
      cases hv : nodeWithUUID m.nodes v with
      | none => rw [hv] at h; cases h
      | some n => rfl
    · exact h

/-- C29: let `K` be a node of the registry.  After `handleKillAvatarPacket` for `K` the registry
has released the base name of `K` once (if `K` is an agent with client data) and the record of
`K` has no client data; a later `handleAvatarKilled` for `K` returns the mixer as it is: the
display-name registry, the client data of every node and the sent packets are unchanged.
Likewise `handleAvatarKilled` changes nothing for a node that is not an agent or has no client
data. -/
theorem departure_releases_base_name_once (mapping : ReplicatedPacketMapping) (m : Mixer)
    (message : ReceivedMessage) (K : Node) (hK : nodeWithUUID m.nodes K.uuid = some K) :
    nodeWithUUID (handleKillAvatarPacket mapping m message K).nodes K.uuid
        = some { K with linkedData := none }
      ∧ handleAvatarKilled (handleKillAvatarPacket mapping m message K) { K with linkedData := none }
          = handleKillAvatarPacket mapping m message K
      ∧ (∀ d : AvatarMixerClientData, K.linkedData = some d → K.type = NodeType.Agent →
          (handleKillAvatarPacket mapping m message K).sessionDisplayNames
            = m.sessionDisplayNames.release d.baseDisplayName)
      ∧ ∀ (m' : Mixer) (n : Node), (n.type ≠ NodeType.Agent ∨ n.linkedData = none) →
          handleAvatarKilled m' n = m' := by
  refine ⟨?_, ?_, ?_, ?_⟩
  · unfold handleKillAvatarPacket
    dsimp only
    rw [(optionallyReplicatePacket_state _ _ _ _).1]
    show nodeWithUUID (storeNode _ _) K.uuid = _
    rw [nodeWithUUID_storeNode, if_pos rfl]
    have hs := handleAvatarKilled_lookup_isSome m K K.uuid (by rw [hK]; rfl)
    cases hv : nodeWithUUID (handleAvatarKilled m K).nodes K.uuid with
    | none => rw [hv] at hs; cases hs
    | some n => rfl
  · exact handleAvatarKilled_noop _ _ (Or.inl rfl)
  · intro d hd hty
    unfold handleKillAvatarPacket
    dsimp only
    rw [(optionallyReplicatePacket_state _ _ _ _).2]
    show (handleAvatarKilled m K).sessionDisplayNames = _
    rw [handleAvatarKilled_agent m K d hd hty]
  · intro m' n h
    exact handleAvatarKilled_noop m' n (Or.symm h)

/-- Witness of C29: the agent `1`, the only holder of the base name `a`, sends a kill packet;
the entry of `a` is removed, and the kill event that follows leaves the registry empty. -/
theorem departure_releases_base_name_once_witness :
    (handleKillAvatarPacket []
        { shouldReplicateTo := fun _ _ => false,
          sessionDisplayNames := [(['a'], (1, 1))],
          nodes := [{ uuid := 1, linkedData := some { nodeID := 1, baseDisplayName := ['a'] } }] }
        { type := PacketType.KillAvatar, message := [] }
        { uuid := 1, linkedData := some { nodeID := 1, baseDisplayName := ['a'] } }).sessionDisplayNames
        = DisplayNameRegistry.release [(['a'], (1, 1))] ['a']
      ∧ (handleAvatarKilled
          (handleKillAvatarPacket []
            { shouldReplicateTo := fun _ _ => false,
              sessionDisplayNames := [(['a'], (1, 1))],
              nodes := [{ uuid := 1, linkedData := some { nodeID := 1, baseDisplayName := ['a'] } }] }
            { type := PacketType.KillAvatar, message := [] }
            { uuid := 1, linkedData := some { nodeID := 1, baseDisplayName := ['a'] } })
          { uuid := 1, linkedData := none }).sessionDisplayNames
        = (handleKillAvatarPacket []
            { shouldReplicateTo := fun _ _ => false,
              sessionDisplayNames := [(['a'], (1, 1))],
              nodes := [{ uuid := 1, linkedData := some { nodeID := 1, baseDisplayName := ['a'] } }] }
            { type := PacketType.KillAvatar, message := [] }
            { uuid := 1, linkedData := some { nodeID := 1, baseDisplayName := ['a'] } }).sessionDisplayNames :=
  have h := departure_releases_base_name_once []
    { shouldReplicateTo := fun _ _ => false,
      sessionDisplayNames := [(['a'], (1, 1))],
      nodes := [{ uuid := 1, linkedData := some { nodeID := 1, baseDisplayName := ['a'] } }] }
    { type := PacketType.KillAvatar, message := [] }
    { uuid := 1, linkedData := some { nodeID := 1, baseDisplayName := ['a'] } } (by decide)
  ⟨h.2.2.1 { nodeID := 1, baseDisplayName := ['a'] } rfl rfl,
   congrArg Mixer.sessionDisplayNames h.2.1⟩

/-! ## Replicated bulk avatar data -/

theorem readPrimitiveQuint16_rest_length (message : QByteArray) :
    (readPrimitiveQuint16 message).2.length ≤ message.length := by
  unfold readPrimitiveQuint16
  split
  · simp only [List.length_cons]
    omega
  · simp
  · simp

/-- The loop reads every payload to its end, well-formed or not, when the fuel is the length of
the payload: each iteration on a non-empty payload reads at least one byte. -/
theorem replicatedBulkAvatarLoop_reads_all (fuel : Nat) (message : QByteArray) (m : Mixer)
    (hfuel : message.length ≤ fuel) :
    (replicatedBulkAvatarLoop fuel message m).bytesLeftToRead = 0 := by
  induction fuel generalizing message m with
  | zero =>
    show message.length = 0
    omega
  | succ fuel ih =>
    show (if message.length = 0 then _ else _ : BulkAvatarResult).bytesLeftToRead = 0
    by_cases h0 : message.length = 0
    · rw [if_pos h0]
    · rw [if_neg h0]
      dsimp only
      apply ih
      have h1 := readPrimitiveQuint16_rest_length (message.drop NUM_BYTES_RFC4122_UUID)
      rw [List.length_drop] at h1 ⊢
      have h2 : NUM_BYTES_RFC4122_UUID = 16 := rfl
      omega

/-! ### What one record does to the node list -/

theorem digitValue_digitChar (k : Nat) (h : k < 10) : digitValue (Nat.digitChar k) = k := by
  interval_cases k <;> rfl

theorem decimalValue_append_singleton (s : QString) (c : Char) :
    decimalValue (s ++ [c]) = decimalValue s * 10 + digitValue c := by
  unfold decimalValue
  rw [List.foldl_append]
  rfl

theorem toDigitsCore_append (fuel n : Nat) (ds : List Char) :
    Nat.toDigitsCore 10 fuel n ds = Nat.toDigitsCore 10 fuel n [] ++ ds := by
  induction fuel generalizing n ds with
  | zero => rfl
  | succ fuel ih =>
    unfold Nat.toDigitsCore
    dsimp only
    by_cases h : n / 10 = 0
    · rw [if_pos h, if_pos h]
      rfl
    · rw [if_neg h, if_neg h, ih (n / 10) (Nat.digitChar (n % 10) :: ds),
        ih (n / 10) [Nat.digitChar (n % 10)], List.append_assoc]
      rfl

theorem decimalValue_toDigitsCore (fuel n : Nat) (h : n < fuel) :
    decimalValue (Nat.toDigitsCore 10 fuel n []) = n := by
  induction fuel generalizing n with
  | zero => omega
  | succ fuel ih =>
    unfold Nat.toDigitsCore
    dsimp only
    by_cases h0 : n / 10 = 0
    · rw [if_pos h0]
      show 0 * 10 + digitValue (Nat.digitChar (n % 10)) = n
      rw [digitValue_digitChar _ (Nat.mod_lt _ (by decide))]
      omega
    · rw [if_neg h0, toDigitsCore_append, decimalValue_append_singleton,
        ih (n / 10) (by omega), digitValue_digitChar _ (Nat.mod_lt _ (by decide))]
      omega

theorem decimalValue_toDigits (n : Nat) : decimalValue (Nat.toDigits 10 n) = n :=
  decimalValue_toDigitsCore (n + 1) n (Nat.lt_succ_self n)

theorem number_injective (a b : Int) (ha : 0 ≤ a) (hb : 0 ≤ b)
    (h : QString.number a = QString.number b) : a = b := by
  unfold QString.number at h
  rw [if_neg (not_lt.mpr ha), if_neg (not_lt.mpr hb)] at h
  have h2 := congrArg decimalValue h
  rw [decimalValue_toDigits, decimalValue_toDigits] at h2
  omega

/-- The session display names built from one base name and two different numbers differ. -/
theorem sessionNameOf_injective (b : QString) (k₁ k₂ : Int) (h₁ : 0 ≤ k₁) (h₂ : 0 ≤ k₂)
    (h : sessionNameOf b k₁ = sessionNameOf b k₂) : k₁ = k₂ := by
  unfold sessionNameOf at h
  by_cases p₁ : k₁ > 0
  · by_cases p₂ : k₂ > 0
    · rw [if_pos p₁, if_pos p₂, List.append_assoc, List.append_assoc] at h
      have h3 := List.append_cancel_left h
      have h4 : QString.number k₁ = QString.number k₂ := by
        simpa using h3
      exact number_injective k₁ k₂ h₁ h₂ h4
    · rw [if_pos p₁, if_neg p₂] at h
      have hl := congrArg List.length h
      simp at hl
  · by_cases p₂ : k₂ > 0
    · rw [if_neg p₁, if_pos p₂] at h
      have hl := congrArg List.length h
      simp at hl
    · omega

/-! ## Values of the registry -/

theorem value_set (names : DisplayNameRegistry) (k : QString) (v : Int × Int) (b : QString) :
    (names.set k v).value b = if b = k then v else names.value b := by
  show ((names.set k v).entry b).getD (0, 0) = _
  rw [entry_set]
  by_cases h : b = k
  · rw [if_pos h, if_pos h]
    rfl
  · rw [if_neg h, if_neg h]
    rfl

theorem value_release (names : DisplayNameRegistry) (x b : QString) :
    (names.release x).value b
      = if b = x then
          (if (names.value x).2 - 1 ≤ 0 then (0, 0)
            else ((names.value x).1, (names.value x).2 - 1))
        else names.value b := by
  show ((names.release x).entry b).getD (0, 0) = _
  rw [entry_release]
  by_cases h : b = x
  · rw [if_pos h, if_pos h]
    by_cases hc : (names.value x).2 - 1 ≤ 0
    · rw [if_pos hc, if_pos hc]
      rfl
    · rw [if_neg hc, if_neg hc]
      rfl
  · rw [if_neg h, if_neg h]
    rfl

theorem value_release_nonneg (names : DisplayNameRegistry) (x : QString)
    (h : ∀ b, 0 ≤ (names.value b).1) (b : QString) : 0 ≤ ((names.release x).value b).1 := by
  rw [value_release]
  split_ifs
  · exact le_refl _
  · exact h x
  · exact h b

theorem value_release_le (names : DisplayNameRegistry) (x : QString) (B : Int) (h0 : 0 ≤ B)
    (h : ∀ b, (names.value b).1 ≤ B) (b : QString) : ((names.release x).value b).1 ≤ B := by
  rw [value_release]
  split_ifs
  · exact h0
  · exact h x
  · exact h b

/-! ## Node lists without repeated ids -/

theorem storeNode_uuids (n' : Node) (nodes : List Node) :
    (storeNode n' nodes).map Node.uuid = nodes.map Node.uuid := by
  induction nodes with
  | nil => rfl
  | cons a nodes ih =>
    rw [storeNode_cons]
    by_cases h : a.uuid = n'.uuid
    · rw [if_pos h, List.map_cons, List.map_cons, h]
    · rw [if_neg h, List.map_cons, List.map_cons, ih]

theorem storeNode_self (n : Node) (nodes : List Node) (h : nodeWithUUID nodes n.uuid = some n) :
    storeNode n nodes = nodes := by
  induction nodes with
  | nil => rfl
  | cons a nodes ih =>
    rw [storeNode_cons]
    rw [nodeWithUUID_cons] at h
    by_cases ha : a.uuid = n.uuid
    · rw [if_pos ha] at h ⊢
      rw [Option.some.inj h]
    · rw [if_neg ha] at h ⊢
      rw [ih h]

theorem mem_storeNode_of_nodup (nodes : List Node) (n' x : Node)
    (hnd : (nodes.map Node.uuid).Nodup) (hx : x ∈ storeNode n' nodes) :
    x = n' ∨ (x ∈ nodes ∧ x.uuid ≠ n'.uuid) := by
  induction nodes with
  | nil => simp [storeNode] at hx
  | cons a nodes ih =>
    rw [List.map_cons, List.nodup_cons] at hnd
    rw [storeNode_cons] at hx
    by_cases ha : a.uuid = n'.uuid
    · rw [if_pos ha] at hx
      rcases List.mem_cons.mp hx with h | h
      · exact Or.inl h
      · refine Or.inr ⟨List.mem_cons_of_mem _ h, ?_⟩
        intro hu
        apply hnd.1
        rw [ha, ← hu]
        exact List.mem_map_of_mem Node.uuid h
    · rw [if_neg ha] at hx
      rcases List.mem_cons.mp hx with h | h
      · exact Or.inr ⟨h ▸ List.mem_cons_self _ _, h ▸ ha⟩
      · rcases ih hnd.2 h with h' | h'
        · exact Or.inl h'
        · exact Or.inr ⟨List.mem_cons_of_mem _ h'.1, h'.2⟩

theorem not_mem_uuids_of_absent (nodes : List Node) (u : Nat) (h : nodeWithUUID nodes u = none) :
    u ∉ nodes.map Node.uuid := by
  induction nodes with
  | nil => simp
  | cons a nodes ih =>
    rw [nodeWithUUID_cons] at h
    by_cases ha : a.uuid = u
    · rw [if_pos ha] at h
      cases h
    · rw [if_neg ha] at h
      rw [List.map_cons, List.mem_cons]
      rintro (h1 | h1)
      · exact ha h1.symm
      · exact ih h h1

theorem two_holders (nodes : List Node) (X Y : Node) (hX : X ∈ nodes) (hY : Y ∈ nodes)
    (hne : X ≠ Y) (b : QString) : X.holds b + Y.holds b ≤ holdersIn nodes b := by
  induction nodes with
  | nil => cases hX
  | cons a nodes ih =>
    rw [holdersIn_cons]
    rcases List.mem_cons.mp hX with h1 | h1
    · rcases List.mem_cons.mp hY with h2 | h2
      · exact absurd (h1.trans h2.symm) hne
      · have := holds_le_holdersIn nodes Y h2 b
        rw [h1]
        omega
    · rcases List.mem_cons.mp hY with h2 | h2
      · have := holds_le_holdersIn nodes X h1 b
        rw [h2]
        omega
      · have := ih h1 h2
        omega

/-- The release of the base name of `X` keeps the high-water mark of every base name that
another node holds. -/
theorem release_keeps_highWater (m : Mixer) (hreg : RegistryInv m) (X y : Node)
    (dX dy : AvatarMixerClientData) (hX : X ∈ m.nodes) (hy : y ∈ m.nodes) (hne : y.uuid ≠ X.uuid)
    (hdX : X.linkedData = some dX) (hdy : y.linkedData = some dy)
    (hb : dy.baseDisplayName ≠ []) :
    ((m.sessionDisplayNames.release dX.baseDisplayName).value dy.baseDisplayName).1
      = (m.sessionDisplayNames.value dy.baseDisplayName).1 := by
  rw [value_release]
  by_cases hsame : dy.baseDisplayName = dX.baseDisplayName
  · rw [if_pos hsame]
    have hXy : X ≠ y := fun e => hne (by rw [e])
    have h2 := two_holders m.nodes X y hX hy hXy dy.baseDisplayName
    rw [holds_data X dX _ hdX, holds_data y dy _ hdy, if_pos hsame, if_pos rfl] at h2
    have hr := hreg.refs dy.baseDisplayName
    have hpos : dy.baseDisplayName ≠ [] ∧ 0 < m.holders dy.baseDisplayName :=
      ⟨hb, by show 0 < holdersIn m.nodes _; omega⟩
    rw [if_pos hpos] at hr
    obtain ⟨v, hv, hv2⟩ := Option.map_eq_some'.mp hr
    have hval := value_eq_of_entry _ _ _ hv
    rw [← hsame, hval]
    have hc : ¬ (v.2 - 1 ≤ 0) := by
      rw [hv2]
      show ¬ ((holdersIn m.nodes dy.baseDisplayName : Int) - 1 ≤ 0)
      omega
    rw [if_neg hc]
  · rw [if_neg hsame]

/-! ## The invariant on session display names is preserved by every event -/

theorem nameInv_initial (p : Node → Node → Bool) : NameInv (Mixer.initial p) := by
  refine ⟨?_, ?_, ?_, ?_⟩
  · simp [Mixer.initial]
  · intro b
    exact le_refl _
  · intro n hn
    simp [Mixer.initial] at hn
  · intro n hn
    simp [Mixer.initial] at hn

theorem nameInv_congr (m m' : Mixer) (hn : m'.sessionDisplayNames = m.sessionDisplayNames)
    (hl : m'.nodes = m.nodes) (h : NameInv m) : NameInv m' := by
  refine ⟨?_, ?_, ?_, ?_⟩
  · rw [hl]
    exact h.ids
  · rw [hn]
    exact h.highWater
  · rw [hl, hn]
    exact h.numbered
  · rw [hl]
    exact h.distinct

/-- The record `X'` replaces the record with its id; every other record of the new list stands
for a record of the old list with the same id, base name and session display name. -/
theorem nameInv_update (m m' : Mixer) (h : NameInv m) (X' : Node)
    (hids : (m'.nodes.map Node.uuid).Nodup)
    (hhw : ∀ b, 0 ≤ (m'.sessionDisplayNames.value b).1)
    (hmem : ∀ x ∈ m'.nodes, x = X' ∨ ∃ y ∈ m.nodes, y.uuid ≠ X'.uuid ∧ x.uuid = y.uuid
      ∧ ∀ d', x.linkedData = some d' → ∃ d, y.linkedData = some d
          ∧ d'.baseDisplayName = d.baseDisplayName
          ∧ d'.avatar.sessionDisplayName = d.avatar.sessionDisplayName)
    (hkeep : ∀ y ∈ m.nodes, y.uuid ≠ X'.uuid → ∀ d, y.linkedData = some d →
      d.baseDisplayName ≠ [] →
      (m.sessionDisplayNames.value d.baseDisplayName).1
        ≤ (m'.sessionDisplayNames.value d.baseDisplayName).1)
    (hX' : ∀ d', X'.linkedData = some d' → d'.baseDisplayName ≠ [] →
      (∃ k : Int, 0 ≤ k ∧ k < (m'.sessionDisplayNames.value d'.baseDisplayName).1
          ∧ d'.avatar.sessionDisplayName = sessionNameOf d'.baseDisplayName k)
        ∧ ∀ y ∈ m.nodes, y.uuid ≠ X'.uuid → ∀ d, y.linkedData = some d →
            d.baseDisplayName = d'.baseDisplayName →
            d.avatar.sessionDisplayName ≠ d'.avatar.sessionDisplayName) :
    NameInv m' := by
  refine ⟨hids, hhw, ?_, ?_⟩
  · intro x hx d' hd' hb
    rcases hmem x hx with rfl | ⟨y, hy, hyu, -, hdata⟩
    · exact (hX' d' hd' hb).1
    · obtain ⟨d, hd, hbase, hsess⟩ := hdata d' hd'
      rw [hbase] at hb ⊢
      obtain ⟨k, hk0, hk, hname⟩ := h.numbered y hy d hd hb
      exact ⟨k, hk0, lt_of_lt_of_le hk (hkeep y hy hyu d hd hb), by rw [hsess]; exact hname⟩
  · intro x₁ hx₁ x₂ hx₂ hne d₁ d₂ hd₁ hd₂ hb hsame
    rcases hmem x₁ hx₁ with rfl | ⟨y₁, hy₁, hyu₁, hu₁, hdata₁⟩
    · rcases hmem x₂ hx₂ with rfl | ⟨y₂, hy₂, hyu₂, hu₂, hdata₂⟩
      · exact absurd rfl hne
      · obtain ⟨e₂, he₂, hbase₂, hsess₂⟩ := hdata₂ d₂ hd₂
        rw [hsess₂]
        exact ((hX' d₁ hd₁ hb).2 y₂ hy₂ hyu₂ e₂ he₂ (by rw [← hbase₂, hsame])).symm
    · obtain ⟨e₁, he₁, hbase₁, hsess₁⟩ := hdata₁ d₁ hd₁
      rcases hmem x₂ hx₂ with rfl | ⟨y₂, hy₂, hyu₂, hu₂, hdata₂⟩
      · rw [hsess₁]
        have hb₂ : d₂.baseDisplayName ≠ [] := by rw [← hsame]; exact hb
        exact (hX' d₂ hd₂ hb₂).2 y₁ hy₁ hyu₁ e₁ he₁ (by rw [← hbase₁, hsame])
      · obtain ⟨e₂, he₂, hbase₂, hsess₂⟩ := hdata₂ d₂ hd₂
        rw [hsess₁, hsess₂]
        refine h.distinct y₁ hy₁ y₂ hy₂ ?_ e₁ e₂ he₁ he₂ (by rw [← hbase₁]; exact hb)
          (by rw [← hbase₁, ← hbase₂, hsame])
        rw [← hu₁, ← hu₂]
        exact hne

theorem nameInv_connect (m : Mixer) (node : Node) (h : NameInv m) :
    NameInv (m.step (.connect node)) := by
  rw [step_connect]
  cases hfind : nodeWithUUID m.nodes node.uuid with
  | some n => exact h
  | none =>
    dsimp only
    refine ⟨?_, h.highWater, ?_, ?_⟩
    · show ((m.nodes ++ [{ node with linkedData := none }]).map Node.uuid).Nodup
      rw [List.map_append, List.nodup_append]
      refine ⟨h.ids, by simp, ?_⟩
      intro u hu hu'
      simp only [List.map_cons, List.map_nil, List.mem_singleton] at hu'
      rw [hu'] at hu
      exact not_mem_uuids_of_absent m.nodes node.uuid hfind hu
    · intro n hn d hd hb
      rcases List.mem_append.mp hn with hmem | hmem
      · exact h.numbered n hmem d hd hb
      · rw [List.mem_singleton] at hmem
        subst hmem
        cases hd
    · intro n₁ hn₁ n₂ hn₂ hne d₁ d₂ hd₁ hd₂ hb hsame
      rcases List.mem_append.mp hn₁ with hmem₁ | hmem₁
      · rcases List.mem_append.mp hn₂ with hmem₂ | hmem₂
        · exact h.distinct n₁ hmem₁ n₂ hmem₂ hne d₁ d₂ hd₁ hd₂ hb hsame
        · rw [List.mem_singleton] at hmem₂
          subst hmem₂
          cases hd₂
      · rw [List.mem_singleton] at hmem₁
        subst hmem₁
        cases hd₁

theorem handleAvatarIdentityPacket_names (n : Node) (displayName : QString) (ic dc : Bool)
    (d' : AvatarMixerClientData)
    (hd' : (handleAvatarIdentityPacket n displayName ic dc).linkedData = some d')
    (hb : d'.baseDisplayName ≠ []) :
    ∃ d, n.linkedData = some d ∧ d'.baseDisplayName = d.baseDisplayName
      ∧ d'.avatar.sessionDisplayName = d.avatar.sessionDisplayName := by
  unfold handleAvatarIdentityPacket getOrCreateClientData at hd'
  cases hd : n.linkedData with
  | none =>
    rw [hd] at hd'
    dsimp only at hd'
    cases ic
    · have e := Option.some.inj hd'
      rw [← e] at hb
      exact absurd rfl hb
    · have e := Option.some.inj hd'
      rw [← e] at hb
      exact absurd rfl hb
  | some d =>
    rw [hd] at hd'
    dsimp only at hd'
    rw [hd] at hd'
    dsimp only at hd'
    cases ic
    · have e := Option.some.inj hd'
      rw [← e]
      exact ⟨d, rfl, rfl, rfl⟩
    · have e := Option.some.inj hd'
      rw [← e]
      exact ⟨d, rfl, rfl, rfl⟩

/-- The members of a node list after `storeNode`, when ids are not repeated. -/
theorem storeNode_members (m : Mixer) (h : NameInv m) (X' : Node) :
    ∀ x ∈ storeNode X' m.nodes, x = X' ∨ ∃ y ∈ m.nodes, y.uuid ≠ X'.uuid ∧ x.uuid = y.uuid
      ∧ ∀ d', x.linkedData = some d' → ∃ d, y.linkedData = some d
          ∧ d'.baseDisplayName = d.baseDisplayName
          ∧ d'.avatar.sessionDisplayName = d.avatar.sessionDisplayName := by
  intro x hx
  rcases mem_storeNode_of_nodup m.nodes X' x h.ids hx with h1 | ⟨h1, h2⟩
  · exact Or.inl h1
  · exact Or.inr ⟨x, h1, h2, rfl, fun d' hd' => ⟨d', hd', rfl, rfl⟩⟩

theorem nameInv_identity (m : Mixer) (uuid : Nat) (displayName : QString) (ic dc : Bool)
    (h : NameInv m) : NameInv (m.step (.identity uuid displayName ic dc)) := by
  rw [step_identity]
  cases hfind : nodeWithUUID m.nodes uuid with
  | none => exact h
  | some node =>
    dsimp only
    obtain ⟨hnu, hmem⟩ := nodeWithUUID_some _ _ _ hfind
    have hu : (handleAvatarIdentityPacket node displayName ic dc).uuid = node.uuid :=
      (handleAvatarIdentityPacket_spec node displayName ic dc).1
    refine nameInv_update m _ h (handleAvatarIdentityPacket node displayName ic dc) ?_
      h.highWater (storeNode_members m h _) (fun _ _ _ _ _ _ => le_refl _) ?_
    · show ((storeNode _ m.nodes).map Node.uuid).Nodup
      rw [storeNode_uuids]
      exact h.ids
    · intro d' hd' hb
      obtain ⟨d, hd, hbase, hsess⟩ :=
        handleAvatarIdentityPacket_names node displayName ic dc d' hd' hb
      rw [hbase] at hb ⊢
      rw [hsess]
      refine ⟨h.numbered node hmem d hd hb, ?_⟩
      intro y hy hyu e he hsame
      rw [hu] at hyu
      exact h.distinct y hy node hmem hyu e d he hd (by rw [hsame]; exact hb) hsame

theorem nameInv_manage (m : Mixer) (uuid : Nat) (hreg : RegistryInv m) (h : NameInv m)
    (hmax : ∀ b, (m.sessionDisplayNames.value b).1 < INT_MAX) :
    NameInv (m.step (.manage uuid)) := by
  rw [step_manage]
  cases hfind : nodeWithUUID m.nodes uuid with
  | none => exact h
  | some node =>
    dsimp only
    obtain ⟨hnu, hmem⟩ := nodeWithUUID_some _ _ _ hfind
    have hfind' : nodeWithUUID m.nodes node.uuid = some node := by rw [hnu]; exact hfind
    by_cases hty : node.type = NodeType.Agent
    swap
    · rw [if_neg hty]; exact h
    rw [if_pos hty]
    have hsame : ∀ (k : Nat) (sent : List Packet),
        manageIdentityData m.sessionDisplayNames node = ⟨m.sessionDisplayNames, node, []⟩ →
        NameInv { m with
          sessionDisplayNames := (manageIdentityData m.sessionDisplayNames node).names
          nodes := storeNode (manageIdentityData m.sessionDisplayNames node).node m.nodes
          sent := m.sent ++ (manageIdentityData m.sessionDisplayNames node).packets
          sumIdentityPackets :=
            m.sumIdentityPackets + (manageIdentityData m.sessionDisplayNames node).packets.length } := by
      intro _ _ he
      refine nameInv_congr m _ ?_ ?_ h
      · show (manageIdentityData m.sessionDisplayNames node).names = _
        rw [he]
      · show storeNode (manageIdentityData m.sessionDisplayNames node).node m.nodes = _
        rw [he]
        exact storeNode_self node m.nodes hfind'
    cases hd : node.linkedData with
    | none => exact hsame 0 [] (manageIdentityData_no_data _ _ hd)
    | some nodeData =>
      by_cases hfirst : nodeData.avatar.hasProcessedFirstIdentity = false
      · exact hsame 0 [] (manageIdentityData_no_identity _ _ _ hd hfirst)
      by_cases hmust : nodeData.avatarSessionDisplayNameMustChange = false
      · exact hsame 0 [] (manageIdentityData_no_change _ _ _ hd hmust)
      have hfirst' : nodeData.avatar.hasProcessedFirstIdentity = true := by simpa using hfirst
      have hmust' : nodeData.avatarSessionDisplayNameMustChange = true := by simpa using hmust
      obtain ⟨hnames, hu, -, d', hd', hbase, hsess, -⟩ :=
        manageIdentityData_rename m.sessionDisplayNames node nodeData hd hfirst' hmust'
      have hnew := baseNameOf_ne_nil nodeData.avatar.displayName
      have hv0 : 0 ≤ ((m.sessionDisplayNames.release nodeData.baseDisplayName).value
          (baseNameOf nodeData.avatar.displayName)).1 :=
        value_release_nonneg _ _ h.highWater _
      have hv1 : ((m.sessionDisplayNames.release nodeData.baseDisplayName).value
          (baseNameOf nodeData.avatar.displayName)).1 ≤ INT_MAX - 1 :=
        value_release_le _ _ _ (by decide) (fun b => Int.le_sub_one_of_lt (hmax b)) _
      have hmin : INT_MIN ≤ 0 := by decide
      rw [wrapInt_eq _ (by omega) (by omega)] at hnames
      have hval : ∀ b, ((manageIdentityData m.sessionDisplayNames node).names.value b)
          = if b = baseNameOf nodeData.avatar.displayName then
              (((m.sessionDisplayNames.release nodeData.baseDisplayName).value
                  (baseNameOf nodeData.avatar.displayName)).1 + 1,
               ((m.sessionDisplayNames.release nodeData.baseDisplayName).value
                  (baseNameOf nodeData.avatar.displayName)).2 + 1)
            else (m.sessionDisplayNames.release nodeData.baseDisplayName).value b := by
        intro b
        rw [hnames, value_set]
      have hkeep : ∀ y ∈ m.nodes, y.uuid ≠ node.uuid → ∀ d, y.linkedData = some d →
          d.baseDisplayName ≠ [] →
          ((m.sessionDisplayNames.release nodeData.baseDisplayName).value d.baseDisplayName).1
            = (m.sessionDisplayNames.value d.baseDisplayName).1 :=
        fun y hy hyu d hdy hb => release_keeps_highWater m hreg node y nodeData d hmem hy hyu hd hdy hb
      refine nameInv_update m _ h (manageIdentityData m.sessionDisplayNames node).node ?_ ?_
        (storeNode_members m h _) ?_ ?_
      · show ((storeNode _ m.nodes).map Node.uuid).Nodup
        rw [storeNode_uuids]
        exact h.ids
      · intro b
        show 0 ≤ ((manageIdentityData m.sessionDisplayNames node).names.value b).1
        rw [hval]
        split_ifs
        · show 0 ≤ _ + 1
          omega
        · exact value_release_nonneg _ _ h.highWater _
      · intro y hy hyu d hdy hb
        rw [hu] at hyu
        show _ ≤ ((manageIdentityData m.sessionDisplayNames node).names.value d.baseDisplayName).1
        rw [hval]
        have hk := hkeep y hy hyu d hdy hb
        split_ifs with hc
        · show _ ≤ _ + 1
          rw [← hc, hk]
          omega
        · rw [hk]
      · intro e he hb
        rw [hd'] at he
        have hee : d' = e := Option.some.inj he
        subst hee
        rw [hbase, hsess]
        refine ⟨⟨_, hv0, ?_, rfl⟩, ?_⟩
        · show _ < ((manageIdentityData m.sessionDisplayNames node).names.value _).1
          rw [hval, if_pos rfl]
          show _ < _ + 1
          omega
        · intro y hy hyu d hdy hsame
          rw [hu] at hyu
          have hby : d.baseDisplayName ≠ [] := by rw [hsame]; exact hnew
          obtain ⟨k, hk0, hk, hname⟩ := h.numbered y hy d hdy hby
          have hk2 := hkeep y hy hyu d hdy hby
          rw [hsame] at hk hk2 hname
          rw [hname]
          intro hcontra
          have := sessionNameOf_injective _ _ _ hk0 hv0 hcontra
          omega

theorem queueCleanup_names (avatarNode n : Node) (d' : AvatarMixerClientData)
    (h : (queueCleanup avatarNode n).linkedData = some d') :
    ∃ d, n.linkedData = some d ∧ d'.baseDisplayName = d.baseDisplayName
      ∧ d'.avatar.sessionDisplayName = d.avatar.sessionDisplayName := by
  cases hd : n.linkedData with
  | none =>
    rw [queueCleanup_no_data _ _ hd, hd] at h
    cases h
  | some d =>
    by_cases hu : n.uuid = avatarNode.uuid
    · rw [queueCleanup_same _ _ hu, hd] at h
      have h2 := Option.some.inj h
      rw [← h2]
      exact ⟨_, rfl, rfl, rfl⟩
    · rw [queueCleanup_other _ _ d hd hu] at h
      have h2 := Option.some.inj h
      rw [← h2]
      exact ⟨_, rfl, rfl, rfl⟩

theorem nameInv_kill (m : Mixer) (uuid : Nat) (hreg : RegistryInv m) (h : NameInv m) :
    NameInv (m.step (.kill uuid)) := by
  rw [step_kill]
  cases hfind : nodeWithUUID m.nodes uuid with
  | none => exact h
  | some node =>
    dsimp only
    obtain ⟨hnu, hmem⟩ := nodeWithUUID_some _ _ _ hfind
    by_cases hag : node.linkedData = none ∨ node.type ≠ NodeType.Agent
    · rw [handleAvatarKilled_noop m node hag]
      refine nameInv_update m _ h { node with linkedData := none } ?_ h.highWater
        (storeNode_members m h _) (fun _ _ _ _ _ _ => le_refl _) ?_
      · show ((storeNode _ m.nodes).map Node.uuid).Nodup
        rw [storeNode_uuids]
        exact h.ids
      · intro d' hd'
        cases hd'
    · have hty : node.type = NodeType.Agent := by
        by_contra hne
        exact hag (Or.inr hne)
      cases hd : node.linkedData with
      | none => exact absurd (Or.inl hd) hag
      | some d =>
        rw [handleAvatarKilled_agent m node d hd hty]
        have hmapids : ((m.nodes.map (queueCleanup node)).map Node.uuid).Nodup := by
          rw [List.map_map]
          have : (Node.uuid ∘ queueCleanup node) = Node.uuid := by
            funext n
            exact queueCleanup_uuid node n
          rw [this]
          exact h.ids
        refine nameInv_update m _ h { node with linkedData := none } ?_ ?_ ?_ ?_ ?_
        · show ((storeNode _ (m.nodes.map (queueCleanup node))).map Node.uuid).Nodup
          rw [storeNode_uuids]
          exact hmapids
        · intro b
          exact value_release_nonneg _ _ h.highWater _
        · intro x hx
          rcases mem_storeNode_of_nodup _ _ x hmapids hx with h1 | ⟨h1, h2⟩
          · exact Or.inl h1
          · obtain ⟨y, hy, rfl⟩ := List.mem_map.mp h1
            rw [queueCleanup_uuid] at h2
            exact Or.inr ⟨y, hy, h2, queueCleanup_uuid node y,
              fun d' hd' => queueCleanup_names node y d' hd'⟩
        · intro y hy hyu e he hb
          have hk := release_keeps_highWater m hreg node y d e hmem hy hyu hd he hb
          show _ ≤ ((m.sessionDisplayNames.release d.baseDisplayName).value e.baseDisplayName).1
          rw [hk]
        · intro d' hd'
          cases hd'

theorem nameInv_step (m : Mixer) (a : Action) (hreg : RegistryInv m) (h : NameInv m)
    (hmax : ∀ b, (m.sessionDisplayNames.value b).1 < INT_MAX) :
    NameInv (m.step a) := by
  cases a with
  | connect node => exact nameInv_connect m node h
  | identity uuid displayName ic dc => exact nameInv_identity m uuid displayName ic dc h
  | manage uuid => exact nameInv_manage m uuid hreg h hmax
  | kill uuid => exact nameInv_kill m uuid hreg h

/-- One event raises no high-water mark by more than one, as long as the marks are below
`INT_MAX`. -/
theorem highWater_le_step (m : Mixer) (a : Action) (B : Int) (h0 : 0 ≤ B) (hB : B < INT_MAX)
    (hlow : ∀ b, 0 ≤ (m.sessionDisplayNames.value b).1)
    (h : ∀ b, (m.sessionDisplayNames.value b).1 ≤ B) (b : QString) :
    ((m.step a).sessionDisplayNames.value b).1 ≤ B + 1 := by
  have hsame : ∀ names : DisplayNameRegistry, names = m.sessionDisplayNames →
      (names.value b).1 ≤ B + 1 := by
    intro names hn
    rw [hn]
    have := h b
    omega
  have hrel : ∀ x : QString, ((m.sessionDisplayNames.release x).value b).1 ≤ B + 1 := by
    intro x
    have := value_release_le m.sessionDisplayNames x B h0 h b
    omega
  cases a with
  | connect node =>
    rw [step_connect]
    cases hfind : nodeWithUUID m.nodes node.uuid with
    | some n => exact hsame _ rfl
    | none => exact hsame _ rfl
  | identity uuid displayName ic dc =>
    rw [step_identity]
    cases hfind : nodeWithUUID m.nodes uuid with
    | none => exact hsame _ rfl
    | some n => exact hsame _ rfl
  | kill uuid =>
    rw [step_kill]
    cases hfind : nodeWithUUID m.nodes uuid with
    | none => exact hsame _ rfl
    | some node =>
      dsimp only
      by_cases hag : node.linkedData = none ∨ node.type ≠ NodeType.Agent
      · rw [handleAvatarKilled_noop m node hag]
        exact hsame _ rfl
      · have hty : node.type = NodeType.Agent := by
          by_contra hne
          exact hag (Or.inr hne)
        cases hd : node.linkedData with
        | none => exact absurd (Or.inl hd) hag
        | some d =>
          rw [handleAvatarKilled_agent m node d hd hty]
          exact hrel _
  | manage uuid =>
    rw [step_manage]
    cases hfind : nodeWithUUID m.nodes uuid with
    | none => exact hsame _ rfl
    | some node =>
      dsimp only
      by_cases hty : node.type = NodeType.Agent
      swap
      · rw [if_neg hty]
        exact hsame _ rfl
      rw [if_pos hty]
      show ((manageIdentityData m.sessionDisplayNames node).names.value b).1 ≤ B + 1
      cases hd : node.linkedData with
      | none =>
        rw [manageIdentityData_no_data _ _ hd]
        exact hsame _ rfl
      | some nodeData =>
        by_cases hfirst : nodeData.avatar.hasProcessedFirstIdentity = false
        · rw [manageIdentityData_no_identity _ _ _ hd hfirst]
          exact hsame _ rfl
        by_cases hmust : nodeData.avatarSessionDisplayNameMustChange = false
        · rw [manageIdentityData_no_change _ _ _ hd hmust]
          exact hsame _ rfl
        have hfirst' : nodeData.avatar.hasProcessedFirstIdentity = true := by simpa using hfirst
        have hmust' : nodeData.avatarSessionDisplayNameMustChange = true := by simpa using hmust
        rw [(manageIdentityData_rename m.sessionDisplayNames node nodeData hd hfirst' hmust').1,
          value_set]
        have hv0 := value_release_nonneg m.sessionDisplayNames nodeData.baseDisplayName hlow
          (baseNameOf nodeData.avatar.displayName)
        have hv1 := value_release_le m.sessionDisplayNames nodeData.baseDisplayName B h0 h
          (baseNameOf nodeData.avatar.displayName)
        have hmin : INT_MIN ≤ 0 := by decide
        split_ifs
        · show wrapInt _ ≤ B + 1
          rw [wrapInt_eq _ (by omega) (by omega)]
          omega
        · exact hrel _

/-- The invariant holds along every run that is short enough for no high-water mark to reach
`INT_MAX`: a mark is raised by at most one per event. -/
theorem nameInv_run (as : List Action) (m : Mixer) (B : Int) (hreg : RegistryInv m)
    (h : NameInv m) (h0 : 0 ≤ B) (hB : ∀ b, (m.sessionDisplayNames.value b).1 ≤ B)
    (hlen : B + as.length ≤ INT_MAX) :
    NameInv (m.run as) ∧ ∀ b, ((m.run as).sessionDisplayNames.value b).1 ≤ B + as.length := by
  induction as generalizing m B with
  | nil =>
    refine ⟨h, fun b => ?_⟩
    have := hB b
    simp only [List.length_nil, Nat.cast_zero, add_zero]
    exact this
  | cons a as ih =>
    have hl : ((a :: as).length : Int) = (as.length : Int) + 1 := by
      simp only [List.length_cons, Nat.cast_add, Nat.cast_one]
    rw [hl] at hlen ⊢
    have hlt : B < INT_MAX := by omega
    have hstep := nameInv_step m a hreg h (fun b => lt_of_le_of_lt (hB b) hlt)
    have hbound := highWater_le_step m a B h0 hlt h.highWater hB
    have hrec := ih (m.step a) (B + 1) (registryInv_step m a hreg) hstep (by omega) hbound
      (by omega)
    refine ⟨hrec.1, fun b => ?_⟩
    have := hrec.2 b
    show (((m.step a).run as).sessionDisplayNames.value b).1 ≤ B + ((as.length : Int) + 1)
    omega

/-! ## High-water marks -/

theorem release_entry_highWater (names : DisplayNameRegistry) (x b : QString) (h c h' c' : Int)
    (he : names.entry b = some (h, c)) (he' : (names.release x).entry b = some (h', c')) :
    h' = h := by
  rw [entry_release] at he'
  by_cases hb : b = x
  · rw [if_pos hb] at he'
    rw [hb] at he
    rw [value_eq_of_entry _ _ _ he] at he'
    by_cases hc : c - 1 ≤ 0
    · rw [if_pos hc] at he'
      cases he'
    · rw [if_neg hc] at he'
      have e := Option.some.inj he'
      exact (congrArg Prod.fst e).symm
  · rw [if_neg hb, he] at he'
    have e := Option.some.inj he'
    exact (congrArg Prod.fst e).symm

/-- Across one event the high-water mark of an entry that is there before and after does not
decrease, unless the event is the rename of the only holder of the base name to the same base
name: the entry is then removed and made anew, with the values `(1, 1)`. -/
theorem step_entry_highWater (m : Mixer) (a : Action) (b : QString) (h c h' c' : Int)
    (hlow : ∀ b, 0 ≤ (m.sessionDisplayNames.value b).1)
    (hmax : ∀ b, (m.sessionDisplayNames.value b).1 < INT_MAX)
    (he : m.sessionDisplayNames.entry b = some (h, c))
    (he' : (m.step a).sessionDisplayNames.entry b = some (h', c')) :
    h ≤ h' ∨ (h' = 1 ∧ c' = 1) := by
  have hsame : ∀ names : DisplayNameRegistry, names = m.sessionDisplayNames →
      names.entry b = some (h', c') → h ≤ h' ∨ (h' = 1 ∧ c' = 1) := by
    intro names hn hen
    rw [hn, he] at hen
    have e := congrArg Prod.fst (Option.some.inj hen)
    simp only at e
    exact Or.inl (by omega)
  cases a with
  | connect node =>
    rw [step_connect] at he'
    cases hfind : nodeWithUUID m.nodes node.uuid with
    | some n =>
      rw [hfind] at he'
      exact hsame _ rfl he'
    | none =>
      rw [hfind] at he'
      exact hsame _ rfl he'
  | identity uuid displayName ic dc =>
    rw [step_identity] at he'
    cases hfind : nodeWithUUID m.nodes uuid with
    | none =>
      rw [hfind] at he'
      exact hsame _ rfl he'
    | some n =>
      rw [hfind] at he'
      exact hsame _ rfl he'
  | kill uuid =>
    rw [step_kill] at he'
    cases hfind : nodeWithUUID m.nodes uuid with
    | none =>
      rw [hfind] at he'
      exact hsame _ rfl he'
    | some node =>
      rw [hfind] at he'
      dsimp only at he'
      by_cases hag : node.linkedData = none ∨ node.type ≠ NodeType.Agent
      · rw [handleAvatarKilled_noop m node hag] at he'
        exact hsame _ rfl he'
      · have hty : node.type = NodeType.Agent := by
          by_contra hne
          exact hag (Or.inr hne)
        cases hd : node.linkedData with
        | none => exact absurd (Or.inl hd) hag
        | some d =>
          rw [handleAvatarKilled_agent m node d hd hty] at he'
          have := release_entry_highWater _ _ _ _ _ _ _ he he'
          exact Or.inl (by omega)
  | manage uuid =>
    rw [step_manage] at he'
    cases hfind : nodeWithUUID m.nodes uuid with
    | none =>
      rw [hfind] at he'
      exact hsame _ rfl he'
    | some node =>
      rw [hfind] at he'
      dsimp only at he'
      by_cases hty : node.type = NodeType.Agent
      swap
      · rw [if_neg hty] at he'
        exact hsame _ rfl he'
      rw [if_pos hty] at he'
      have he2 : (manageIdentityData m.sessionDisplayNames node).names.entry b = some (h', c') := he'
      cases hd : node.linkedData with
      | none =>
        rw [manageIdentityData_no_data _ _ hd] at he2
        exact hsame _ rfl he2
      | some nodeData =>
        by_cases hfirst : nodeData.avatar.hasProcessedFirstIdentity = false
        · rw [manageIdentityData_no_identity _ _ _ hd hfirst] at he2
          exact hsame _ rfl he2
        by_cases hmust : nodeData.avatarSessionDisplayNameMustChange = false
        · rw [manageIdentityData_no_change _ _ _ hd hmust] at he2
          exact hsame _ rfl he2
        have hfirst' : nodeData.avatar.hasProcessedFirstIdentity = true := by simpa using hfirst
        have hmust' : nodeData.avatarSessionDisplayNameMustChange = true := by simpa using hmust
        rw [(manageIdentityData_rename m.sessionDisplayNames node nodeData hd hfirst' hmust').1,
          entry_set] at he2
        have hh0 : 0 ≤ h := by
          have := hlow b
          rw [value_eq_of_entry _ _ _ he] at this
          exact this
        have hh1 : h < INT_MAX := by
          have := hmax b
          rw [value_eq_of_entry _ _ _ he] at this
          exact this
        have hw1 : wrapInt (0 + 1) = 1 := by decide
        have hw2 : wrapInt (h + 1) = h + 1 :=
          wrapInt_eq _ (by have : INT_MIN ≤ 0 := by decide
                           omega) (by omega)
        by_cases hb : b = baseNameOf nodeData.avatar.displayName
        · rw [if_pos hb] at he2
          have e1 := congrArg Prod.fst (Option.some.inj he2)
          have e2 := congrArg Prod.snd (Option.some.inj he2)
          simp only at e1 e2
          rw [value_release, ← hb] at e1 e2
          by_cases hbo : b = nodeData.baseDisplayName
          · rw [if_pos hbo, ← hbo, value_eq_of_entry _ _ _ he] at e1 e2
            by_cases hc : c - 1 ≤ 0
            · rw [if_pos hc] at e1 e2
              simp only at e1 e2
              rw [hw1] at e1
              exact Or.inr ⟨by omega, by omega⟩
            · rw [if_neg hc] at e1
              simp only at e1
              rw [hw2] at e1
              exact Or.inl (by omega)
          · rw [if_neg hbo, value_eq_of_entry _ _ _ he] at e1
            simp only at e1
            rw [hw2] at e1
            exact Or.inl (by omega)
        · rw [if_neg hb] at he2
          have := release_entry_highWater _ _ _ _ _ _ _ he he2
          exact Or.inl (by omega)

/-- C30, as stated, fails: the high-water mark of an entry that exists can decrease.  Agents 1
and 2 both take the base name `a` (the entry becomes `(2, 2)`, agent 2 is named `a_1`), agent 1
leaves (the entry becomes `(2, 1)`), and agent 2, now the only holder, sends the display name
`a` again: the rename releases the entry, which is removed, and makes it anew.  Before and after
this one rename the base name `a` has an entry and the live holder 2, and the high-water mark
goes from `2` down to `1`; agent 2 is handed the bare name `a`. -/
theorem highWater_decreases_counterexample :
    ((Mixer.initial (fun _ _ => false)).run
        [.connect { uuid := 1 }, .connect { uuid := 2 },
         .identity 1 ['a'] true true, .manage 1,
         .identity 2 ['a'] true true, .manage 2, .kill 1,
         .identity 2 ['a'] true true]).sessionDisplayNames.entry ['a'] = some (2, 1)
      ∧ ((Mixer.initial (fun _ _ => false)).run
        [.connect { uuid := 1 }, .connect { uuid := 2 },
         .identity 1 ['a'] true true, .manage 1,
         .identity 2 ['a'] true true, .manage 2, .kill 1,
         .identity 2 ['a'] true true]).holders ['a'] = 1
      ∧ ((Mixer.initial (fun _ _ => false)).run
        [.connect { uuid := 1 }, .connect { uuid := 2 },
         .identity 1 ['a'] true true, .manage 1,
         .identity 2 ['a'] true true, .manage 2, .kill 1,
         .identity 2 ['a'] true true]).sessionNames = [(2, ['a', '_', '1'])]
      ∧ (((Mixer.initial (fun _ _ => false)).run
        [.connect { uuid := 1 }, .connect { uuid := 2 },
         .identity 1 ['a'] true true, .manage 1,
         .identity 2 ['a'] true true, .manage 2, .kill 1,
         .identity 2 ['a'] true true]).step (.manage 2)).sessionDisplayNames.entry ['a']
          = some (1, 1)
      ∧ (((Mixer.initial (fun _ _ => false)).run
        [.connect { uuid := 1 }, .connect { uuid := 2 },
         .identity 1 ['a'] true true, .manage 1,
         .identity 2 ['a'] true true, .manage 2, .kill 1,
         .identity 2 ['a'] true true]).step (.manage 2)).holders ['a'] = 1
      ∧ (((Mixer.initial (fun _ _ => false)).run
        [.connect { uuid := 1 }, .connect { uuid := 2 },
         .identity 1 ['a'] true true, .manage 1,
         .identity 2 ['a'] true true, .manage 2, .kill 1,
         .identity 2 ['a'] true true]).step (.manage 2)).sessionNames = [(2, ['a'])] := by
  refine ⟨by decide, by decide, by decide, by decide, by decide, by decide⟩

/-- C30 (amended): in every state reached from the empty registry by fewer than `INT_MAX`
connect, identity, manage (rename) and kill events (so that no high-water mark has been
incremented past the range of `int`): while `b` has an entry, every live holder of `b` has the
session display name built from `b` and a number `k` with `0 ≤ k`, below the high-water mark of
the entry (`k = 0` is the bare name `b`, `k > 0` the name `b_k`); two distinct live nodes with
the same assigned base name have different session display names, built from different numbers;
and across one further event the high-water mark of an entry that is there before and after
does not decrease, unless the entry was removed by the release of its only holder and made anew
by the same rename (it is then `(1, 1)`). -/
theorem session_names_distinct_per_base_name (policy : Node → Node → Bool)
    (events : List Action) (hlen : (events.length : Int) < INT_MAX) :
    (∀ (b : QString) (h c : Int),
        ((Mixer.initial policy).run events).sessionDisplayNames.entry b = some (h, c) →
        ∀ n ∈ ((Mixer.initial policy).run events).nodes, ∀ d, n.linkedData = some d →
          d.baseDisplayName = b →
          ∃ k : Int, 0 ≤ k ∧ k < h ∧ d.avatar.sessionDisplayName = sessionNameOf b k)
      ∧ (∀ n₁ ∈ ((Mixer.initial policy).run events).nodes,
          ∀ n₂ ∈ ((Mixer.initial policy).run events).nodes, n₁.uuid ≠ n₂.uuid →
          ∀ d₁ d₂, n₁.linkedData = some d₁ → n₂.linkedData = some d₂ →
            d₁.baseDisplayName ≠ [] → d₁.baseDisplayName = d₂.baseDisplayName →
            d₁.avatar.sessionDisplayName ≠ d₂.avatar.sessionDisplayName
              ∧ ∃ k₁ k₂ : Int, 0 ≤ k₁ ∧ 0 ≤ k₂ ∧ k₁ ≠ k₂
                  ∧ d₁.avatar.sessionDisplayName = sessionNameOf d₁.baseDisplayName k₁
                  ∧ d₂.avatar.sessionDisplayName = sessionNameOf d₁.baseDisplayName k₂)
      ∧ (∀ (a : Action) (b : QString) (h c h' c' : Int),
          ((Mixer.initial policy).run events).sessionDisplayNames.entry b = some (h, c) →
          (((Mixer.initial policy).run events).step a).sessionDisplayNames.entry b
              = some (h', c') →
            h ≤ h' ∨ (h' = 1 ∧ c' = 1)) := by
  have hreg := registryInv_run events _ (registryInv_initial policy)
  have hrun := nameInv_run events (Mixer.initial policy) 0 (registryInv_initial policy)
    (nameInv_initial policy) (le_refl _) (fun _ => le_refl _) (by omega)
  have hinv := hrun.1
  have hbound : ∀ b, (((Mixer.initial policy).run events).sessionDisplayNames.value b).1
      < INT_MAX := by
    intro b
    have := hrun.2 b
    omega
  refine ⟨?_, ?_, ?_⟩
  · intro b h c he n hn d hd hbase
    have hb : b ≠ [] := by
      intro hnil
      have hr := hreg.refs b
      rw [he, if_neg (fun hc => hc.1 hnil)] at hr
      cases hr
    rw [← hbase] at hb he
    obtain ⟨k, hk0, hk, hname⟩ := hinv.numbered n hn d hd hb
    rw [value_eq_of_entry _ _ _ he] at hk
    rw [← hbase]
    exact ⟨k, hk0, hk, hname⟩
  · intro n₁ hn₁ n₂ hn₂ hne d₁ d₂ hd₁ hd₂ hb hsame
    have hdiff := hinv.distinct n₁ hn₁ n₂ hn₂ hne d₁ d₂ hd₁ hd₂ hb hsame
    obtain ⟨k₁, hk₁, -, hname₁⟩ := hinv.numbered n₁ hn₁ d₁ hd₁ hb
    obtain ⟨k₂, hk₂, -, hname₂⟩ := hinv.numbered n₂ hn₂ d₂ hd₂ (by rw [← hsame]; exact hb)
    rw [← hsame] at hname₂
    refine ⟨hdiff, k₁, k₂, hk₁, hk₂, ?_, hname₁, hname₂⟩
    intro hk
    apply hdiff
    rw [hname₁, hname₂, hk]
  · intro a b h c h' c' he he'
    exact step_entry_highWater _ a b h c h' c' hinv.highWater hbound he he'

/-- Witness of the amended C30: two agents send the display name `a` one after the other; the
entry of `a` gets the high-water mark `2`, the first agent holds the bare name `a` and the second
`a_1`. -/
theorem session_names_distinct_per_base_name_witness :
    (([.connect { uuid := 1 }, .connect { uuid := 2 },
         .identity 1 ['a'] true true, .manage 1,
         .identity 2 ['a'] true true, .manage 2] : List Action).length : Int) < INT_MAX
      ∧ ((Mixer.initial (fun _ _ => false)).run
        [.connect { uuid := 1 }, .connect { uuid := 2 },
         .identity 1 ['a'] true true, .manage 1,
         .identity 2 ['a'] true true, .manage 2]).sessionDisplayNames.entry ['a'] = some (2, 2)
      ∧ ((Mixer.initial (fun _ _ => false)).run
        [.connect { uuid := 1 }, .connect { uuid := 2 },
         .identity 1 ['a'] true true, .manage 1,
         .identity 2 ['a'] true true, .manage 2]).nodes
          = [{ uuid := 1,
               linkedData := some
                 { nodeID := 1, baseDisplayName := ['a'], avatarSessionDisplayNameMustChange := false,
                   identityChangeFlags := 2,
                   avatar := { displayName := ['a'], sessionDisplayName := ['a'],
                               hasProcessedFirstIdentity := true, identitySequenceNumber := 1 } } },
             { uuid := 2,
               linkedData := some
                 { nodeID := 2, baseDisplayName := ['a'], avatarSessionDisplayNameMustChange := false,
                   identityChangeFlags := 2,
                   avatar := { displayName := ['a'], sessionDisplayName := ['a', '_', '1'],
                               hasProcessedFirstIdentity := true, identitySequenceNumber := 1 } } }]
      ∧ (['a'] : QString) ≠ ['a', '_', '1'] := by
  have hlen : (([.connect { uuid := 1 }, .connect { uuid := 2 },
         .identity 1 ['a'] true true, .manage 1,
         .identity 2 ['a'] true true, .manage 2] : List Action).length : Int) < INT_MAX := by
    decide
  have hnodes : ((Mixer.initial (fun _ _ => false)).run
        [.connect { uuid := 1 }, .connect { uuid := 2 },
         .identity 1 ['a'] true true, .manage 1,
         .identity 2 ['a'] true true, .manage 2]).nodes
          = [{ uuid := 1,
               linkedData := some
                 { nodeID := 1, baseDisplayName := ['a'], avatarSessionDisplayNameMustChange := false,
                   identityChangeFlags := 2,
                   avatar := { displayName := ['a'], sessionDisplayName := ['a'],
                               hasProcessedFirstIdentity := true, identitySequenceNumber := 1 } } },
             { uuid := 2,
               linkedData := some
                 { nodeID := 2, baseDisplayName := ['a'], avatarSessionDisplayNameMustChange := false,
                   identityChangeFlags := 2,
                   avatar := { displayName := ['a'], sessionDisplayName := ['a', '_', '1'],
                               hasProcessedFirstIdentity := true, identitySequenceNumber := 1 } } }] := by
    decide
  refine ⟨hlen, by decide, hnodes, ?_⟩
  exact ((session_names_distinct_per_base_name (fun _ _ => false)
    [.connect { uuid := 1 }, .connect { uuid := 2 },
     .identity 1 ['a'] true true, .manage 1,
     .identity 2 ['a'] true true, .manage 2] hlen).2.1
    { uuid := 1,
      linkedData := some
        { nodeID := 1, baseDisplayName := ['a'], avatarSessionDisplayNameMustChange := false,
          identityChangeFlags := 2,
          avatar := { displayName := ['a'], sessionDisplayName := ['a'],
                      hasProcessedFirstIdentity := true, identitySequenceNumber := 1 } } }
    (by rw [hnodes]; exact List.mem_cons_self _ _)
    { uuid := 2,
      linkedData := some
        { nodeID := 2, baseDisplayName := ['a'], avatarSessionDisplayNameMustChange := false,
          identityChangeFlags := 2,
          avatar := { displayName := ['a'], sessionDisplayName := ['a', '_', '1'],
                      hasProcessedFirstIdentity := true, identitySequenceNumber := 1 } } }
    (by rw [hnodes]; exact List.mem_cons_of_mem _ (List.mem_cons_self _ _))
    (by decide) _ _ rfl rfl (by decide) rfl).1

end AvatarMixer
